import Mathlib

/-! Lithosphere: event processor cursors, bridge correlation and the withdrawal state machine.

A shallow embedding of

* `event/processors/event.go` (the seven cursored sub-procedures of `EventProcessor`),
* `event/processors/bridge/l1_bridge_processor.go` (`L1ProcessInitiatedBridgeEvents`),
* `event/processors/contracts/standard_bridge.go` (`StandardBridgeInitiatedEvents`),
* `database/business/l1_to_l2.go` and `database/business/l2_to_l1.go` (the row updates),

followed by the properties proved about them.

Conventions of the embedding.

* A `*big.Int` is an `Int`; a nil-able `*big.Int` is an `Option Int`. `uint64` reads of a
  `*big.Int` (`x.Uint64()`) keep the low 64 bits of the magnitude.
* `common.Hash` and `common.Address` are natural numbers; the zero value is `0`.
* A table is the list of its rows. A row is identified by its position, which stands for the
  primary key (`GUID`, drawn by `uuid.New()`); `Save` writes a row back to the position `Take`
  read it from.
* The store is an in-memory value: reads and writes of a table always complete. The branches of
  the source that only forward a driver failure have no counterpart. Errors raised by the code
  itself (correlation errors) and by the processors handed in as parameters are modelled.
* A Go function returning `error` and mutating its receiver returns the new state together with
  `Option Err`.
-/

namespace Lithosphere

/-- `common.Hash`. -/
abbrev Hash32 := Nat
/-- `common.Address`. -/
abbrev Addr := Nat
abbrev Err := String

/-! ## Block headers and the look-ahead query -/

/-- `common2.L1BlockHeader` / `common2.L2BlockHeader`. -/
structure BlockHeader where
  Hash : Hash32
  ParentHash : Hash32
  Number : Int
  Timestamp : Nat
deriving DecidableEq, Repr

/-- `var blocksLimit = 10_000`. -/
def blocksLimit : Nat := 10000

/-- SQL `MAX(number)` over a list of rows: `none` (NULL) on no rows. -/
def maxNumber : List Int → Option Int
  | [] => none
  | x :: xs => some (xs.foldl max x)

/-- The sub-query of the header scopes:
`SELECT number FROM headers WHERE <cond> ORDER BY number ASC LIMIT blocksLimit`. -/
def scopeWindow (headers : List BlockHeader) (cond : Int → Bool) : List Int :=
  (((headers.map (fun h => h.Number)).filter cond).insertionSort (fun a b => a ≤ b)).take blocksLimit

/-- Modelled from the spec: `BlocksDB.L1BlockHeaderWithScope` / `L2BlockHeaderWithScope`
(`database/common/blocks.go` is not among the sources) applied to the scope built in
`event.go`: `WHERE number = (SELECT MAX(number) FROM (<window>))`, `Take`, and `nil` when no
row is found. -/
def BlockHeaderWithScope (headers : List BlockHeader) (cond : Int → Bool) : Option BlockHeader :=
  match maxNumber (scopeWindow headers cond) with
  | none => none
  | some m => headers.find? (fun h => h.Number = m)

/-- `Table("l2_block_headers").Order("number desc").Limit(1).Take(&l2Header)`:
the header with the greatest number, `none` on an empty table. -/
def latestBlockHeader : List BlockHeader → Option BlockHeader
  | [] => none
  | h :: hs => some (hs.foldl (fun best x => if best.Number < x.Number then x else best) h)

/-! ## Configuration -/

/-- `int64(x)` of a `uint`: two's complement reinterpretation of the low 64 bits. -/
def int64OfUint (n : Nat) : Int :=
  if n % 2 ^ 64 < 2 ^ 63 then ((n % 2 ^ 64 : Nat) : Int) else ((n % 2 ^ 64 : Nat) : Int) - 2 ^ 64

/-- The four heights of `config.ChainConfig` (all `uint`). -/
structure ChainConfig where
  L1StartingHeight : Nat
  L2StartingHeight : Nat
  L1BedrockStartingHeight : Nat
  L2BedrockStartingHeight : Nat
deriving DecidableEq, Repr

/-! ## Rows and the store -/

/-- `business.L1ToL2` (a deposit row); the defaults are Go's zero values. -/
structure L1ToL2 where
  L1BlockNumber : Option Int := none
  L2BlockNumber : Option Int := none
  QueueIndex : Option Int := none
  L1TransactionHash : Hash32 := 0
  L2TransactionHash : Hash32 := 0
  TransactionSourceHash : Hash32 := 0
  MessageHash : Hash32 := 0
  L1TxOrigin : Addr := 0
  Status : Int := 0
  FromAddress : Addr := 0
  ToAddress : Addr := 0
  L1TokenAddress : Addr := 0
  L2TokenAddress : Addr := 0
  ETHAmount : Option Int := none
  ERC20Amount : Option Int := none
  GasLimit : Option Int := none
  Version : Int := 0
  Timestamp : Int := 0
deriving DecidableEq, Repr

/-- `business.L2ToL1` (a withdrawal row, and the type of the list entries handed to the
functions of `L2ToL1DB`). `L1BlockNumber` is nil in the entries that
`LegacyL1ProcessFinalizedBridgeEvents` and `L2ProcessInitiatedBridgeEvents` build, so it is an
`Option`. `TimeLeft` is set by every writer of a row (`SetUint64(0)` in both callers of
`StoreL2ToL1Transactions`, the window in `UpdateReadyForProvedStatus`, `GREATEST` in
`UpdateTimeLeft`), so it is a plain integer. -/
structure L2ToL1 where
  L1BlockNumber : Option Int := none
  L2BlockNumber : Option Int := none
  MsgNonce : Option Int := none
  L2TransactionHash : Hash32 := 0
  WithdrawTransactionHash : Hash32 := 0
  L1ProveTxHash : Hash32 := 0
  L1FinalizeTxHash : Hash32 := 0
  MessageHash : Hash32 := 0
  Status : Int := 0
  FromAddress : Addr := 0
  ETHAmount : Option Int := none
  ERC20Amount : Option Int := none
  GasLimit : Option Int := none
  TimeLeft : Int := 0
  ToAddress : Addr := 0
  L1TokenAddress : Addr := 0
  L2TokenAddress : Addr := 0
  Version : Int := 0
  Timestamp : Int := 0
deriving DecidableEq, Repr

/-- The fields of `event.ContractEvent` the bridge processors use. Its declaration and that
of `logKey` are not among the sources; a log index is a natural number. -/
structure ContractEvent where
  BlockHash : Hash32
  LogIndex : Nat
  TransactionHash : Hash32
  EventSignature : Hash32
  Timestamp : Nat
deriving DecidableEq, Repr

/-- `business.StateRoot` (a row of `state_root`); `OutputRoot` stands for its hex string. -/
structure StateRoot where
  BlockHash : Hash32 := 0
  TransactionHash : Hash32 := 0
  L1BlockNumber : Option Int := none
  L2BlockNumber : Option Int := none
  OutputIndex : Option Int := none
  PrevTotalElements : Option Int := none
  Status : Int := 0
  OutputRoot : Hash32 := 0
  Canonical : Bool := false
  BatchSize : Option Int := none
  Timestamp : Nat := 0
  BlockSize : Nat := 0
deriving DecidableEq, Repr

/-- `event.RelayMessage` (a row of `relay_message`). -/
structure RelayMessage where
  BlockNumber : Option Int := none
  DepositHash : Hash32 := 0
  RelayTransactionHash : Hash32 := 0
  MessageHash : Hash32 := 0
  L1TokenAddress : Addr := 0
  L2TokenAddress : Addr := 0
  ETHAmount : Option Int := none
  ERC20Amount : Option Int := none
  Related : Bool := false
  Timestamp : Nat := 0
deriving DecidableEq, Repr

/-- `common.Transactions` (a row of `transactions`), with the fields that identify it. -/
structure Transactions where
  BlockHash : Hash32 := 0
  BlockNumber : Option Int := none
  TransactionHash : Hash32 := 0
  Timestamp : Nat := 0
deriving DecidableEq, Repr

/-- `event.WithdrawFinalized` (a row of `withdraw_finalized`). -/
structure WithdrawFinalized where
  BlockNumber : Option Int := none
  WithdrawHash : Hash32 := 0
  MessageHash : Hash32 := 0
  FinalizedTransactionHash : Hash32 := 0
  L1TokenAddress : Addr := 0
  L2TokenAddress : Addr := 0
  ETHAmount : Option Int := none
  ERC20Amount : Option Int := none
  Related : Bool := false
  Timestamp : Nat := 0
deriving DecidableEq, Repr

/-- `mantle_da.DataStoreEvent` (a row of `data_store_event`). -/
structure DataStoreEvent where
  DataStoreId : Nat := 0
  BlockHash : Hash32 := 0
  Timestamp : Nat := 0
deriving DecidableEq, Repr

/-- The tables of `database.DB` that the modelled code reads or writes. -/
structure DB where
  l1BlockHeaders : List BlockHeader := []
  l2BlockHeaders : List BlockHeader := []
  l1ToL2 : List L1ToL2 := []
  l2ToL1 : List L2ToL1 := []
  stateRoot : List StateRoot := []
  relayMessage : List RelayMessage := []
  l1ContractEvents : List ContractEvent := []
  l2ContractEvents : List ContractEvent := []
  transactions : List Transactions := []
  withdrawFinalized : List WithdrawFinalized := []
  dataStoreEvent : List DataStoreEvent := []
deriving DecidableEq, Repr

/-! ## The event processor -/

/-- The range processors of the processor packages: those `event.go` calls inside its
transactions, and `stateroot.LegacyL1ProcessSCCEvent`, which has no caller. -/
inductive ProcessorName where
  | LegacyL1ProcessInitiatedBridgeEvents
  | L1ProcessInitiatedBridgeEvents
  | LegacyL2ProcessInitiatedBridgeEvents
  | L2ProcessInitiatedBridgeEvents
  | L1ProcessProvenBridgeEvents
  | LegacyL1ProcessFinalizedBridgeEvents
  | L1ProcessFinalizedBridgeEvents
  | LegacyL2ProcessFinalizedBridgeEvents
  | L2ProcessFinalizedBridgeEvents
  | L2OutputEvent
  | L1ProcessMantleDAEvents
  | LegacyL1ProcessSCCEvent
deriving DecidableEq, Repr

/-- Whether a processor applies the legacy-era correlation rules. -/
def ProcessorName.isLegacy : ProcessorName → Bool
  | .LegacyL1ProcessInitiatedBridgeEvents => true
  | .LegacyL2ProcessInitiatedBridgeEvents => true
  | .LegacyL1ProcessFinalizedBridgeEvents => true
  | .LegacyL2ProcessFinalizedBridgeEvents => true
  | .LegacyL1ProcessSCCEvent => true
  | _ => false

/-- One invocation of a range processor: which one, and the `fromHeight`, `toHeight` it got. -/
structure ProcessorCall where
  name : ProcessorName
  fromHeight : Int
  toHeight : Int
deriving DecidableEq, Repr

/-- A range processor: it works on the transaction's store and either returns the store it
wrote to or an error. -/
abbrev RangeProcessor := DB → Int → Int → Except Err DB

/-- The processors called by `event.go`, as a collaborator table indexed by name. -/
abbrev Processors := ProcessorName → RangeProcessor

/-- Modelled from the spec: `bridge.Metricer` is not among the sources; each height recorder
keeps the last height handed to it (the externally observable cursor). -/
structure Metrics where
  L1LatestHeight : Option Int := none
  L2LatestHeight : Option Int := none
  L1LatestProvenHeight : Option Int := none
  L1LatestFinalizedHeight : Option Int := none
  L2LatestFinalizedHeight : Option Int := none
  L1LatestRollupSateRootHeight : Option Int := none
  L1LatestRollupMantleDaHeight : Option Int := none
deriving DecidableEq, Repr

/-- `EventProcessor`: the chain configuration, the eight cached headers and the metrics. -/
structure EventProcessor where
  chainConfig : ChainConfig
  metrics : Metrics := {}
  LatestL1L2InitL1Header : Option BlockHeader := none
  LatestL1L2L2Header : Option BlockHeader := none
  LatestL1L2FinalizedL2Header : Option BlockHeader := none
  LatestStateRootL1Header : Option BlockHeader := none
  LatestMantleDAL1Header : Option BlockHeader := none
  LatestL2L1InitL2Header : Option BlockHeader := none
  LatestProvenL1Header : Option BlockHeader := none
  LatestFinalizedL1Header : Option BlockHeader := none
deriving DecidableEq, Repr

/-- What the function handed to `db.Transaction` did: the processor calls it made, in order,
and its result (the store written so far, or the error). -/
structure TxResult where
  calls : List ProcessorCall
  result : Except Err DB

/-- What one call of a sub-procedure leaves behind: the processor, the store, the returned
error and the processor calls that were made. -/
structure Tick where
  ep : EventProcessor
  db : DB
  err : Option Err
  calls : List ProcessorCall

/-- One processor call inside a transaction body. -/
def callProcessor (P : Processors) (name : ProcessorName) (tx : DB) (fromHeight toHeight : Int) :
    TxResult :=
  ⟨[⟨name, fromHeight, toHeight⟩], P name tx fromHeight toHeight⟩

/-- The transaction body shared by the four sub-procedures that know two eras
(`event.go` 198-219, 246-266, 336-356, 396-417). -/
def legacyThenBedrock (P : Processors) (legacy bedrock : ProcessorName)
    (bedrockStartingHeight fromHeight toHeight : Int) (tx : DB) : TxResult :=
  if bedrockStartingHeight > fromHeight then
    let legacyFromHeight := fromHeight
    let legacyToHeight := if bedrockStartingHeight ≤ toHeight then bedrockStartingHeight - 1 else toHeight
    match P legacy tx legacyFromHeight legacyToHeight with
    | .error e => ⟨[⟨legacy, legacyFromHeight, legacyToHeight⟩], .error e⟩
    | .ok tx1 =>
      if legacyToHeight = toHeight then
        ⟨[⟨legacy, legacyFromHeight, legacyToHeight⟩], .ok tx1⟩
      else
        ⟨[⟨legacy, legacyFromHeight, legacyToHeight⟩, ⟨bedrock, bedrockStartingHeight, toHeight⟩],
          P bedrock tx1 bedrockStartingHeight toHeight⟩
  else
    ⟨[⟨bedrock, fromHeight, toHeight⟩], P bedrock tx fromHeight toHeight⟩

/-- The value of a cursor: the cached header's number, or the configured starting height. -/
def lastBlockNumber (cursor : Option BlockHeader) (startingHeight : Nat) : Int :=
  match cursor with
  | some h => h.Number
  | none => int64OfUint startingHeight

/-- `processInitiatedL1Events`. -/
def processInitiatedL1Events (P : Processors) (ep : EventProcessor) (db : DB) : Tick :=
  let lastL1BlockNumber := lastBlockNumber ep.LatestL1L2InitL1Header ep.chainConfig.L1StartingHeight
  match BlockHeaderWithScope db.l1BlockHeaders (fun number => decide (number > lastL1BlockNumber)) with
  | none => ⟨ep, db, none, []⟩
  | some latestL1Header =>
    let fromL1Height := lastL1BlockNumber + 1
    let toL1Height := latestL1Header.Number
    let tx := legacyThenBedrock P .LegacyL1ProcessInitiatedBridgeEvents .L1ProcessInitiatedBridgeEvents
      (int64OfUint ep.chainConfig.L1BedrockStartingHeight) fromL1Height toL1Height db
    match tx.result with
    | .error e => ⟨ep, db, some e, tx.calls⟩
    | .ok db1 =>
      ⟨{ ep with LatestL1L2InitL1Header := some latestL1Header
                 metrics := { ep.metrics with L1LatestHeight := some latestL1Header.Number } },
        db1, none, tx.calls⟩

/-- `processInitiatedL2Events`. -/
def processInitiatedL2Events (P : Processors) (ep : EventProcessor) (db : DB) : Tick :=
  let lastL2BlockNumber := lastBlockNumber ep.LatestL2L1InitL2Header ep.chainConfig.L2StartingHeight
  match BlockHeaderWithScope db.l2BlockHeaders (fun number => decide (number > lastL2BlockNumber)) with
  | none => ⟨ep, db, none, []⟩
  | some latestL2Header =>
    let fromL2Height := lastL2BlockNumber + 1
    let toL2Height := latestL2Header.Number
    let tx := legacyThenBedrock P .LegacyL2ProcessInitiatedBridgeEvents .L2ProcessInitiatedBridgeEvents
      (int64OfUint ep.chainConfig.L2BedrockStartingHeight) fromL2Height toL2Height db
    match tx.result with
    | .error e => ⟨ep, db, some e, tx.calls⟩
    | .ok db1 =>
      ⟨{ ep with LatestL2L1InitL2Header := some latestL2Header
                 metrics := { ep.metrics with L2LatestHeight := some latestL2Header.Number } },
        db1, none, tx.calls⟩

/-- `processProvenL1Events`. -/
def processProvenL1Events (P : Processors) (ep : EventProcessor) (db : DB) : Tick :=
  let lastProvenL1BlockNumber := lastBlockNumber ep.LatestProvenL1Header ep.chainConfig.L1StartingHeight
  match BlockHeaderWithScope db.l1BlockHeaders (fun number => decide (number > lastProvenL1BlockNumber)) with
  | none => ⟨ep, db, none, []⟩
  | some latestL1Header =>
    let fromL1Height := lastProvenL1BlockNumber + 1
    let toL1Height := latestL1Header.Number
    let tx := callProcessor P .L1ProcessProvenBridgeEvents db fromL1Height toL1Height
    match tx.result with
    | .error e => ⟨ep, db, some e, tx.calls⟩
    | .ok db1 =>
      ⟨{ ep with LatestProvenL1Header := some latestL1Header
                 metrics := { ep.metrics with L1LatestProvenHeight := some lastProvenL1BlockNumber } },
        db1, none, tx.calls⟩

/-- `processFinalizedL1Events`. -/
def processFinalizedL1Events (P : Processors) (ep : EventProcessor) (db : DB) : Tick :=
  let lastFinalizedL1BlockNumber := lastBlockNumber ep.LatestFinalizedL1Header ep.chainConfig.L1StartingHeight
  match BlockHeaderWithScope db.l1BlockHeaders (fun number => decide (number > lastFinalizedL1BlockNumber)) with
  | none => ⟨ep, db, none, []⟩
  | some latestL1Header =>
    let fromL1Height := lastFinalizedL1BlockNumber + 1
    let toL1Height := latestL1Header.Number
    let tx := legacyThenBedrock P .LegacyL1ProcessFinalizedBridgeEvents .L1ProcessFinalizedBridgeEvents
      (int64OfUint ep.chainConfig.L1BedrockStartingHeight) fromL1Height toL1Height db
    match tx.result with
    | .error e => ⟨ep, db, some e, tx.calls⟩
    | .ok db1 =>
      ⟨{ ep with LatestFinalizedL1Header := some latestL1Header
                 metrics := { ep.metrics with L1LatestFinalizedHeight := some lastFinalizedL1BlockNumber } },
        db1, none, tx.calls⟩

/-- `processFinalizedL2Events`. -/
def processFinalizedL2Events (P : Processors) (ep0 : EventProcessor) (db : DB) : Tick :=
  let lastFinalizedL2BlockNumber := lastBlockNumber ep0.LatestL1L2FinalizedL2Header ep0.chainConfig.L2StartingHeight
  let l2BlockHeader := latestBlockHeader db.l2BlockHeaders
  let ep := match l2BlockHeader with
    | some h => { ep0 with LatestL1L2L2Header := some h }
    | none => ep0
  let latestL1L2BlockNumber := match l2BlockHeader with
    | some h => h.Number
    | none => int64OfUint ep0.chainConfig.L2StartingHeight
  match BlockHeaderWithScope db.l2BlockHeaders
      (fun number => decide (number > lastFinalizedL2BlockNumber) && decide (number ≤ latestL1L2BlockNumber)) with
  | none => ⟨{ ep with LatestL1L2FinalizedL2Header := none }, db, none, []⟩
  | some latestL2Header =>
    let fromL2Height := lastFinalizedL2BlockNumber + 1
    let toL2Height := latestL2Header.Number
    let tx := legacyThenBedrock P .LegacyL2ProcessFinalizedBridgeEvents .L2ProcessFinalizedBridgeEvents
      (int64OfUint ep.chainConfig.L2BedrockStartingHeight) fromL2Height toL2Height db
    match tx.result with
    | .error e => ⟨ep, db, some e, tx.calls⟩
    | .ok db1 =>
      ⟨{ ep with LatestL1L2FinalizedL2Header := some latestL2Header
                 metrics := { ep.metrics with L2LatestFinalizedHeight := some lastFinalizedL2BlockNumber } },
        db1, none, tx.calls⟩

/-- `processRollupStateRoot`. -/
def processRollupStateRoot (P : Processors) (ep : EventProcessor) (db : DB) : Tick :=
  let lastStateRootL1BlockNumber := lastBlockNumber ep.LatestStateRootL1Header ep.chainConfig.L1StartingHeight
  match BlockHeaderWithScope db.l1BlockHeaders (fun number => decide (number > lastStateRootL1BlockNumber)) with
  | none => ⟨ep, db, none, []⟩
  | some latestL1StateRootHeader =>
    let fromL1Height := lastStateRootL1BlockNumber + 1
    let toL1Height := latestL1StateRootHeader.Number
    let tx := callProcessor P .L2OutputEvent db fromL1Height toL1Height
    match tx.result with
    | .error e => ⟨ep, db, some e, tx.calls⟩
    | .ok db1 =>
      ⟨{ ep with LatestStateRootL1Header := some latestL1StateRootHeader
                 metrics := { ep.metrics with
                   L1LatestRollupSateRootHeight := some lastStateRootL1BlockNumber } },
        db1, none, tx.calls⟩

/-- `processRollupMantleDA`. -/
def processRollupMantleDA (P : Processors) (ep : EventProcessor) (db : DB) : Tick :=
  let lastRollupMantleDaL1BlockNumber := lastBlockNumber ep.LatestMantleDAL1Header ep.chainConfig.L1StartingHeight
  match BlockHeaderWithScope db.l1BlockHeaders (fun number => decide (number > lastRollupMantleDaL1BlockNumber)) with
  | none => ⟨ep, db, none, []⟩
  | some latestL1RollupMantleDaHeader =>
    let fromL1Height := lastRollupMantleDaL1BlockNumber + 1
    let toL1Height := latestL1RollupMantleDaHeader.Number
    let tx := callProcessor P .L1ProcessMantleDAEvents db fromL1Height toL1Height
    match tx.result with
    | .error e => ⟨ep, db, some e, tx.calls⟩
    | .ok db1 =>
      ⟨{ ep with LatestMantleDAL1Header := some latestL1RollupMantleDaHeader
                 metrics := { ep.metrics with
                   L1LatestRollupMantleDaHeight := some lastRollupMantleDaL1BlockNumber } },
        db1, none, tx.calls⟩

/-! ## Row updates of `l1_to_l2` -/

/-- The condition built by `gorm.Where(&Row{Field: h})`: gorm leaves zero-valued fields of a
struct condition out, so a zero `h` puts no condition on the row. -/
def structWhere {ρ : Type} (field : ρ → Hash32) (h : Hash32) (row : ρ) : Bool :=
  h == 0 || field row == h

/-- `Take(&row)` under a condition, an assignment to `row`, and `Save(&row)`: the first row
satisfying the condition is replaced by its update; `none` is `gorm.ErrRecordNotFound`. -/
def updateFirst {ρ : Type} (cond : ρ → Bool) (f : ρ → ρ) : List ρ → Option (List ρ)
  | [] => none
  | r :: rs => if cond r then some (f r :: rs) else (updateFirst cond f rs).map (fun t => r :: t)

/-- `l1ToL2DB.StoreL1ToL2Transactions`: `CreateInBatches` appends the rows. -/
def StoreL1ToL2Transactions (l1L2List : List L1ToL2) (table : List L1ToL2) : List L1ToL2 :=
  table ++ l1L2List

/-- `l1ToL2DB.UpdateL1ToL2InfoByTxHash`: the returned error is always nil in this model; a
record that is not found ends the loop (`return nil`). -/
def UpdateL1ToL2InfoByTxHash : List L1ToL2 → List L1ToL2 → List L1ToL2
  | [], table => table
  | u :: us, table =>
    match updateFirst (structWhere (fun r : L1ToL2 => r.L1TransactionHash) u.L1TransactionHash)
        (fun l1ToL2 => { l1ToL2 with
          L1TokenAddress := u.L1TokenAddress
          L2TokenAddress := u.L2TokenAddress
          FromAddress := u.FromAddress
          ToAddress := u.ToAddress
          ERC20Amount := u.ERC20Amount }) table with
    | none => table
    | some table1 => UpdateL1ToL2InfoByTxHash us table1

/-- `l1ToL2DB.UpdateMessageHashByTxHash`. -/
def UpdateMessageHashByTxHash : List L1ToL2 → List L1ToL2 → List L1ToL2
  | [], table => table
  | u :: us, table =>
    match updateFirst (structWhere (fun r : L1ToL2 => r.L1TransactionHash) u.L1TransactionHash)
        (fun l1ToL2 => { l1ToL2 with MessageHash := u.MessageHash }) table with
    | none => table
    | some table1 => UpdateMessageHashByTxHash us table1

/-- `l1ToL2DB.GetBlockNumberFromHash`: the number of the L1 header with this hash, nil when
there is none. -/
def GetBlockNumberFromHash (headers : List BlockHeader) (blockHash : Hash32) : Option Int :=
  (headers.find? (fun h => h.Hash = blockHash)).map (fun h => h.Number)

/-! ## `L1ProcessInitiatedBridgeEvents` -/

/-- `logKey{BlockHash, LogIndex}`. -/
abbrev logKey := Hash32 × Nat

/-- A Go `map[logKey]*T`, as the list of its insertions, newest first. -/
abbrev LogMap (α : Type) := List (logKey × α)

/-- `m[k] = v`. -/
def LogMap.insert {α : Type} (m : LogMap α) (k : logKey) (v : α) : LogMap α := (k, v) :: m

/-- `v, ok := m[k]`. -/
def LogMap.lookup {α : Type} (m : LogMap α) (k : logKey) : Option α :=
  (m.find? (fun kv => kv.1 = k)).map (fun kv => kv.2)

/-- `contracts.OptimismPortalTransactionDepositEvent` with the fields read here. -/
structure OptimismPortalTransactionDepositEvent where
  Event : ContractEvent
  SourceHash : Hash32 := 0
  From : Addr := 0
  EthValue : Option Int := none
  Value : Option Int := none
  GasLimit : Option Int := none
deriving DecidableEq, Repr

/-- `contracts.CrossDomainMessengerSentMessageEvent` with the fields read here. -/
structure CrossDomainMessengerSentMessageEvent where
  Event : ContractEvent
  MessageHash : Hash32 := 0
  Version : Int := 0
  FromAddress : Addr := 0
  ToAddress : Addr := 0
  ETHAmount : Option Int := none
  ERC20Amount : Option Int := none
  GasLimit : Option Int := none
deriving DecidableEq, Repr

/-- `contracts.StandardBridgeInitiatedEvent` (without `Data`). -/
structure StandardBridgeInitiatedEvent where
  Event : ContractEvent
  CrossDomainMessageHash : Option Hash32 := none
  FromAddress : Addr := 0
  ToAddress : Addr := 0
  ETHAmount : Option Int := none
  ERC20Amount : Option Int := none
  LocalTokenAddress : Addr := 0
  RemoteTokenAddress : Addr := 0
  Timestamp : Nat := 0
deriving DecidableEq, Repr

/-- The three kinds of `BridgeEventType` of `_standardBridgeInitiatedEvents`. -/
inductive BridgeEventType where
  | ETHBridgeInitiated
  | ERC20BridgeInitiated
  | MNTBridgeInitiated
deriving DecidableEq, Repr

/-- What `UnpackLog` fills into a `bindings.StandardBridge*BridgeInitiated`. -/
structure UnpackedBridgeInitiated where
  From : Addr
  To : Addr
  Amount : Option Int
  LocalToken : Addr
  RemoteToken : Addr
deriving DecidableEq, Repr

/-- What `L1ProcessInitiatedBridgeEvents` takes from code that is not among the sources: the
event ids of the StandardBridge ABI, two predeploy addresses, the readers of the persisted
contract events over a height range, and the log decoder. -/
structure L1Contracts where
  ETHBridgeInitiatedID : Hash32
  MNTBridgeInitiatedID : Hash32
  ERC20BridgeInitiatedID : Hash32
  BVM_ETHAddr : Addr
  LegacyERC20MNTAddr : Addr
  OptimismPortalTransactionDepositEvents : Int → Int → Except Err (List OptimismPortalTransactionDepositEvent)
  CrossDomainMessengerSentMessageEvents : Int → Int → Except Err (List CrossDomainMessengerSentMessageEvent)
  ContractEventsWithFilter : Hash32 → Int → Int → Except Err (List ContractEvent)
  UnpackLog : BridgeEventType → ContractEvent → Except Err UnpackedBridgeInitiated

/-- `standardBridgeAbi.Events[eventName].ID`. -/
def L1Contracts.eventID (c : L1Contracts) : BridgeEventType → Hash32
  | .ETHBridgeInitiated => c.ETHBridgeInitiatedID
  | .ERC20BridgeInitiated => c.ERC20BridgeInitiatedID
  | .MNTBridgeInitiated => c.MNTBridgeInitiatedID

/-- The decoding loop of `_standardBridgeInitiatedEvents`; the first decoding error is
returned. -/
def unpackBridgeInitiated (c : L1Contracts) (eventType : BridgeEventType) :
    List ContractEvent → Except Err (List StandardBridgeInitiatedEvent)
  | [] => .ok []
  | ev :: evs =>
    match c.UnpackLog eventType ev with
    | .error e => .error e
    | .ok u =>
      let bridge : StandardBridgeInitiatedEvent :=
        match eventType with
        | .ETHBridgeInitiated =>
          { Event := ev, LocalTokenAddress := c.BVM_ETHAddr, RemoteTokenAddress := c.BVM_ETHAddr
            FromAddress := u.From, ToAddress := u.To, ETHAmount := u.Amount, ERC20Amount := some 0
            Timestamp := ev.Timestamp }
        | .MNTBridgeInitiated =>
          { Event := ev, LocalTokenAddress := c.LegacyERC20MNTAddr
            RemoteTokenAddress := c.LegacyERC20MNTAddr
            FromAddress := u.From, ToAddress := u.To, ETHAmount := some 0, ERC20Amount := u.Amount
            Timestamp := ev.Timestamp }
        | .ERC20BridgeInitiated =>
          { Event := ev, LocalTokenAddress := u.LocalToken, RemoteTokenAddress := u.RemoteToken
            FromAddress := u.From, ToAddress := u.To, ETHAmount := some 0, ERC20Amount := u.Amount
            Timestamp := ev.Timestamp }
      match unpackBridgeInitiated c eventType evs with
      | .error e => .error e
      | .ok rest => .ok (bridge :: rest)

/-- `_standardBridgeInitiatedEvents[BridgeEventType]`. -/
def _standardBridgeInitiatedEvents (c : L1Contracts) (eventType : BridgeEventType)
    (fromHeight toHeight : Int) : Except Err (List StandardBridgeInitiatedEvent) :=
  match c.ContractEventsWithFilter (c.eventID eventType) fromHeight toHeight with
  | .error e => .error e
  | .ok initiatedBridgeEvents => unpackBridgeInitiated c eventType initiatedBridgeEvents

/-- `contracts.StandardBridgeInitiatedEvents`: the ETH events, then the ERC-20 ones, then the
MNT ones. -/
def StandardBridgeInitiatedEvents (c : L1Contracts) (fromHeight toHeight : Int) :
    Except Err (List StandardBridgeInitiatedEvent) :=
  match _standardBridgeInitiatedEvents c .ETHBridgeInitiated fromHeight toHeight with
  | .error e => .error e
  | .ok ethBridgeInitiatedEvents =>
    match _standardBridgeInitiatedEvents c .ERC20BridgeInitiated fromHeight toHeight with
    | .error e => .error e
    | .ok erc20BridgeInitiatedEvents =>
      match _standardBridgeInitiatedEvents c .MNTBridgeInitiated fromHeight toHeight with
      | .error e => .error e
      | .ok mntBridgeInitiatedEvents =>
        .ok (ethBridgeInitiatedEvents ++ erc20BridgeInitiatedEvents ++ mntBridgeInitiatedEvents)

/-- Modelled from the spec: the deposit status constant `common.L1ToL2Pending` (package
`common` is not among the sources); the spec lists the states as Pending, Claimed. -/
def L1ToL2Pending : Int := 0

/-- Modelled from the spec: the deposit status constant `common.L1ToL2Claimed`. -/
def L1ToL2Claimed : Int := 1

/-- The map `portalDeposits` after the first loop of `L1ProcessInitiatedBridgeEvents`. -/
def portalDepositsOf (optimismPortalTxDeposits : List OptimismPortalTransactionDepositEvent) :
    LogMap OptimismPortalTransactionDepositEvent :=
  optimismPortalTxDeposits.foldl
    (fun m depositTx => m.insert (depositTx.Event.BlockHash, depositTx.Event.LogIndex) depositTx) []

/-- The row `l1ToL2s[i]` built from a deposit in the first loop. -/
def depositRow (headers : List BlockHeader) (depositTx : OptimismPortalTransactionDepositEvent) :
    L1ToL2 :=
  { L1BlockNumber := GetBlockNumberFromHash headers depositTx.Event.BlockHash
    L2BlockNumber := some 0
    QueueIndex := none
    L1TransactionHash := depositTx.Event.TransactionHash
    L2TransactionHash := 0
    TransactionSourceHash := depositTx.SourceHash
    MessageHash := 0
    L1TxOrigin := depositTx.From
    Status := L1ToL2Pending
    L1TokenAddress := 0
    L2TokenAddress := 0
    ETHAmount := depositTx.EthValue
    ERC20Amount := depositTx.Value
    GasLimit := depositTx.GasLimit
    Version := 1
    Timestamp := depositTx.Event.Timestamp }

/-- The map `sentMessages` after the second loop. -/
def sentMessagesOf (crossDomainSentMessages : List CrossDomainMessengerSentMessageEvent) :
    LogMap CrossDomainMessengerSentMessageEvent :=
  crossDomainSentMessages.foldl
    (fun m sentMessage => m.insert (sentMessage.Event.BlockHash, sentMessage.Event.LogIndex) sentMessage) []

/-- The entry `l1ToL2c2[i]` built from a sent message in the second loop. -/
def sentMessageUpdate (sentMessage : CrossDomainMessengerSentMessageEvent) : L1ToL2 :=
  { L1TransactionHash := sentMessage.Event.TransactionHash
    MessageHash := sentMessage.MessageHash
    Version := sentMessage.Version }

/-- The two lookups and the assignments shared by the three branches of the third loop, for
the offsets of one branch. The result is the entry `l1ToL2s2[i]` and the loop's local
`initiatedBridge` after `CrossDomainMessageHash` was set. -/
def correlateAt (portalDeposits : LogMap OptimismPortalTransactionDepositEvent)
    (sentMessages : LogMap CrossDomainMessengerSentMessageEvent)
    (depositOffset sentOffset : Nat) (initiatedBridge : StandardBridgeInitiatedEvent) :
    Except Err (L1ToL2 × StandardBridgeInitiatedEvent) :=
  match portalDeposits.lookup (initiatedBridge.Event.BlockHash, initiatedBridge.Event.LogIndex + depositOffset) with
  | none =>
    .error ("expected TransactionDeposit following BridgeInitiated event. tx_hash = "
      ++ toString initiatedBridge.Event.TransactionHash)
  | some portalDeposit =>
    match sentMessages.lookup (initiatedBridge.Event.BlockHash, initiatedBridge.Event.LogIndex + sentOffset) with
    | none =>
      .error ("expected SentMessage following TransactionDeposit event. tx_hash = "
        ++ toString initiatedBridge.Event.TransactionHash)
    | some sentMessage =>
      .ok ({ L1TransactionHash := portalDeposit.Event.TransactionHash
             FromAddress := initiatedBridge.FromAddress
             ToAddress := initiatedBridge.ToAddress
             L1TokenAddress := initiatedBridge.LocalTokenAddress
             L2TokenAddress := initiatedBridge.RemoteTokenAddress
             ERC20Amount := initiatedBridge.ERC20Amount },
           { initiatedBridge with CrossDomainMessageHash := some sentMessage.MessageHash })

/-- One iteration of the third loop of `L1ProcessInitiatedBridgeEvents` (lines 110-170). -/
def correlateInitiatedBridge (c : L1Contracts)
    (portalDeposits : LogMap OptimismPortalTransactionDepositEvent)
    (sentMessages : LogMap CrossDomainMessengerSentMessageEvent)
    (initiatedBridge : StandardBridgeInitiatedEvent) :
    Except Err (L1ToL2 × StandardBridgeInitiatedEvent) :=
  if initiatedBridge.Event.EventSignature = c.ETHBridgeInitiatedID then
    correlateAt portalDeposits sentMessages 1 2 initiatedBridge
  else if initiatedBridge.Event.EventSignature = c.MNTBridgeInitiatedID then
    correlateAt portalDeposits sentMessages 6 7 initiatedBridge
  else if initiatedBridge.Event.EventSignature = c.ERC20BridgeInitiatedID then
    correlateAt portalDeposits sentMessages 1 2 initiatedBridge
  else
    .ok ({}, initiatedBridge)

/-- The third loop: it stops at the first correlation error. -/
def correlateInitiatedBridges (c : L1Contracts)
    (portalDeposits : LogMap OptimismPortalTransactionDepositEvent)
    (sentMessages : LogMap CrossDomainMessengerSentMessageEvent) :
    List StandardBridgeInitiatedEvent → Except Err (List (L1ToL2 × StandardBridgeInitiatedEvent))
  | [] => .ok []
  | initiatedBridge :: rest =>
    match correlateInitiatedBridge c portalDeposits sentMessages initiatedBridge with
    | .error e => .error e
    | .ok r =>
      match correlateInitiatedBridges c portalDeposits sentMessages rest with
      | .error e => .error e
      | .ok rs => .ok (r :: rs)

/-- What a run of `L1ProcessInitiatedBridgeEvents` that returns nil leaves behind: the store,
the list `l1ToL2s2` handed to `UpdateL1ToL2InfoByTxHash`, and the values of the loop's local
`initiatedBridge`, in the order of `initiatedBridges`. -/
structure InitiatedRun where
  db : DB
  l1ToL2s2 : List L1ToL2
  initiatedBridges : List StandardBridgeInitiatedEvent

/-- The body of `L1ProcessInitiatedBridgeEvents` (the metrics calls are left out). -/
def L1ProcessInitiatedBridgeEventsRun (c : L1Contracts) (db : DB) (fromHeight toHeight : Int) :
    Except Err InitiatedRun :=
  -- (1) OptimismPortal
  match c.OptimismPortalTransactionDepositEvents fromHeight toHeight with
  | .error e => .error e
  | .ok optimismPortalTxDeposits =>
    let portalDeposits := portalDepositsOf optimismPortalTxDeposits
    let l1ToL2s := optimismPortalTxDeposits.map (depositRow db.l1BlockHeaders)
    let table1 := if l1ToL2s.length > 0 then StoreL1ToL2Transactions l1ToL2s db.l1ToL2 else db.l1ToL2
    -- (2) L1CrossDomainMessenger
    match c.CrossDomainMessengerSentMessageEvents fromHeight toHeight with
    | .error e => .error e
    | .ok crossDomainSentMessages =>
      let sentMessages := sentMessagesOf crossDomainSentMessages
      let l1ToL2c2 := crossDomainSentMessages.map sentMessageUpdate
      let table2 := if l1ToL2c2.length > 0 then UpdateMessageHashByTxHash l1ToL2c2 table1 else table1
      -- (3) L1StandardBridge
      match StandardBridgeInitiatedEvents c fromHeight toHeight with
      | .error e => .error e
      | .ok initiatedBridges =>
        match correlateInitiatedBridges c portalDeposits sentMessages initiatedBridges with
        | .error e => .error e
        | .ok correlated =>
          let l1ToL2s2 := correlated.map (fun r => r.1)
          let table3 := if l1ToL2s2.length > 0 then UpdateL1ToL2InfoByTxHash l1ToL2s2 table2 else table2
          .ok ⟨{ db with l1ToL2 := table3 }, l1ToL2s2, correlated.map (fun r => r.2)⟩

/-- `bridge.L1ProcessInitiatedBridgeEvents` as a range processor. -/
def L1ProcessInitiatedBridgeEvents (c : L1Contracts) : RangeProcessor :=
  fun db fromHeight toHeight =>
    match L1ProcessInitiatedBridgeEventsRun c db fromHeight toHeight with
    | .error e => .error e
    | .ok run => .ok run.db

/-! ## Row updates of `l2_to_l1` (the withdrawal state machine) -/

/-- Modelled from the spec: the withdrawal status constants of package `common` (not among
the sources), in the order the spec lists the states. `UpdateReadyForProvedStatus` selects
Pending rows with the literal `status = 0`. -/
def L2ToL1Pending : Int := 0

/-- Modelled from the spec: `common.L2ToL1ReadyForProved`. -/
def L2ToL1ReadyForProved : Int := 1

/-- Modelled from the spec: `common.L2ToL1InChallengePeriod`. -/
def L2ToL1InChallengePeriod : Int := 2

/-- Modelled from the spec: `common.L2ToL1ReadyForClaim`. -/
def L2ToL1ReadyForClaim : Int := 3

/-- Modelled from the spec: `common.L2ToL1Claimed`. -/
def L2ToL1Claimed : Int := 4

/-- `(*big.Int).Uint64()`: the low 64 bits of the magnitude. -/
def Uint64 (x : Int) : Nat := x.natAbs % 2 ^ 64

/-- The assignments of `MarkL2ToL1TransactionWithdrawalProven` (and `...ProvenV0`) to the row
that `Take` returned, for the list entry `entry`. -/
def markProvenRow (entry l2ToL1 : L2ToL1) : L2ToL1 :=
  { l2ToL1 with
    L1BlockNumber := entry.L1BlockNumber
    L1ProveTxHash := entry.L1ProveTxHash
    Status := if Uint64 l2ToL1.TimeLeft > 0 then L2ToL1InChallengePeriod else L2ToL1ReadyForClaim }

/-- The assignments of `MarkL2ToL1TransactionWithdrawalFinalized` (and `...FinalizedV0`). -/
def markFinalizedRow (entry l2ToL1 : L2ToL1) : L2ToL1 :=
  { l2ToL1 with
    L1BlockNumber := entry.L1BlockNumber
    L1FinalizeTxHash := entry.L1FinalizeTxHash
    Status := L2ToL1Claimed }

/-- The loop shared by the four `Mark...` functions. The result `none` stands for the panic of
`l2L1List[i].L1BlockNumber.Uint64()` on an entry whose `L1BlockNumber` is nil; entries whose
`L1BlockNumber.Uint64()` is zero are skipped (`continue`); a record that is not found ends the
loop (`return nil`). Otherwise the returned error is nil in this model. -/
def markLoop (key : L2ToL1 → Hash32) (assign : L2ToL1 → L2ToL1 → L2ToL1) :
    List L2ToL1 → List L2ToL1 → Option (List L2ToL1)
  | [], table => some table
  | entry :: rest, table =>
    match entry.L1BlockNumber with
    | none => none
    | some l1BlockNumber =>
      if Uint64 l1BlockNumber ≤ 0 then
        markLoop key assign rest table
      else
        match updateFirst (structWhere key (key entry)) (assign entry) table with
        | none => some table
        | some table1 => markLoop key assign rest table1

/-- `l2ToL1DB.MarkL2ToL1TransactionWithdrawalProven`; `none` stands for a panic. -/
def MarkL2ToL1TransactionWithdrawalProven (l2L1List table : List L2ToL1) :
    Option (List L2ToL1) :=
  markLoop (fun r => r.WithdrawTransactionHash) markProvenRow l2L1List table

/-- `l2ToL1DB.MarkL2ToL1TransactionWithdrawalProvenV0`; `none` stands for a panic. -/
def MarkL2ToL1TransactionWithdrawalProvenV0 (l2L1List table : List L2ToL1) :
    Option (List L2ToL1) :=
  markLoop (fun r => r.MessageHash) markProvenRow l2L1List table

/-- `l2ToL1DB.MarkL2ToL1TransactionWithdrawalFinalized`; `none` stands for a panic. -/
def MarkL2ToL1TransactionWithdrawalFinalized (l2L1List table : List L2ToL1) :
    Option (List L2ToL1) :=
  markLoop (fun r => r.WithdrawTransactionHash) markFinalizedRow l2L1List table

/-- `l2ToL1DB.MarkL2ToL1TransactionWithdrawalFinalizedV0`; `none` stands for a panic. -/
def MarkL2ToL1TransactionWithdrawalFinalizedV0 (l2L1List table : List L2ToL1) :
    Option (List L2ToL1) :=
  markLoop (fun r => r.MessageHash) markFinalizedRow l2L1List table

/-- SQL `l2_block_number <= n`: false on NULL. -/
def l2BlockNumberLe (r : L2ToL1) (n : Nat) : Bool :=
  match r.L2BlockNumber with
  | some b => decide (b ≤ (n : Int))
  | none => false

/-- `l2ToL1DB.UpdateReadyForProvedStatus(l2BlockNumber, fraudProofWindows uint64)`:
`UPDATE ... SET status = ReadyForProved, time_left = w WHERE l2_block_number <= n AND status = 0`. -/
def UpdateReadyForProvedStatus (l2BlockNumber fraudProofWindows : Nat) (table : List L2ToL1) :
    List L2ToL1 :=
  table.map (fun r =>
    if l2BlockNumberLe r l2BlockNumber && decide (r.Status = 0) then
      { r with Status := L2ToL1ReadyForProved, TimeLeft := (fraudProofWindows : Int) }
    else r)

/-- The first statement of `UpdateTimeLeft`:
`SET time_left = GREATEST(time_left - 1, 0) WHERE time_left > 0 AND status = InChallengePeriod`. -/
def decrementTimeLeft (table : List L2ToL1) : List L2ToL1 :=
  table.map (fun r =>
    if decide (r.TimeLeft > 0) && decide (r.Status = L2ToL1InChallengePeriod) then
      { r with TimeLeft := max (r.TimeLeft - 1) 0 }
    else r)

/-- The second statement of `UpdateTimeLeft`:
`SET status = ReadyForClaim WHERE time_left = 0 AND status = InChallengePeriod`. -/
def flipExpired (table : List L2ToL1) : List L2ToL1 :=
  table.map (fun r =>
    if decide (r.TimeLeft = 0) && decide (r.Status = L2ToL1InChallengePeriod) then
      { r with Status := L2ToL1ReadyForClaim }
    else r)

/-- `l2ToL1DB.UpdateTimeLeft`: the two statements in sequence. -/
def UpdateTimeLeft (table : List L2ToL1) : List L2ToL1 :=
  flipExpired (decrementTimeLeft table)

/-- The operations of `L2ToL1DB` that move a withdrawal through its state machine. -/
inductive WithdrawalOp where
  | UpdateReadyForProvedStatus (l2BlockNumber fraudProofWindows : Nat)
  | MarkL2ToL1TransactionWithdrawalProven (l2L1List : List L2ToL1)
  | MarkL2ToL1TransactionWithdrawalProvenV0 (l2L1List : List L2ToL1)
  | UpdateTimeLeft
  | MarkL2ToL1TransactionWithdrawalFinalized (l2L1List : List L2ToL1)
  | MarkL2ToL1TransactionWithdrawalFinalizedV0 (l2L1List : List L2ToL1)

/-- The list argument of a `Mark...` operation; the two update operations take none. -/
def WithdrawalOp.l2L1List : WithdrawalOp → List L2ToL1
  | .UpdateReadyForProvedStatus _ _ => []
  | .MarkL2ToL1TransactionWithdrawalProven l => l
  | .MarkL2ToL1TransactionWithdrawalProvenV0 l => l
  | .UpdateTimeLeft => []
  | .MarkL2ToL1TransactionWithdrawalFinalized l => l
  | .MarkL2ToL1TransactionWithdrawalFinalizedV0 l => l

/-- One step of the table under an operation; `none` stands for a panic. -/
def WithdrawalOp.apply : WithdrawalOp → List L2ToL1 → Option (List L2ToL1)
  | .UpdateReadyForProvedStatus n w, t => some (Lithosphere.UpdateReadyForProvedStatus n w t)
  | .MarkL2ToL1TransactionWithdrawalProven l, t => Lithosphere.MarkL2ToL1TransactionWithdrawalProven l t
  | .MarkL2ToL1TransactionWithdrawalProvenV0 l, t => Lithosphere.MarkL2ToL1TransactionWithdrawalProvenV0 l t
  | .UpdateTimeLeft, t => some (Lithosphere.UpdateTimeLeft t)
  | .MarkL2ToL1TransactionWithdrawalFinalized l, t => Lithosphere.MarkL2ToL1TransactionWithdrawalFinalized l t
  | .MarkL2ToL1TransactionWithdrawalFinalizedV0 l, t => Lithosphere.MarkL2ToL1TransactionWithdrawalFinalizedV0 l t

/-! ## Concrete stores used in the evaluations below -/

/-- A processor table in which every processor succeeds and writes nothing. -/
def idleProcessors : Processors := fun _ db _ _ => .ok db

/-- A header with the given number (hash and parent hash are derived from it). -/
def headerAt (n : Nat) : BlockHeader := ⟨1000 + n, 999 + n, (n : Int), 0⟩

/-- A configuration starting at height 0 whose chains are bedrock from genesis. -/
def genesisConfig : ChainConfig := ⟨0, 0, 0, 0⟩

/-- The headers numbered `a`, `a + 1`, ..., `a + n - 1`. -/
def headerRange (a n : Nat) : List BlockHeader := (List.range n).map (fun i => headerAt (a + i))

/-- A configuration starting at height 0 whose bedrock starting height is 100 on both chains. -/
def forkConfig : ChainConfig := ⟨0, 0, 100, 100⟩

/-- The TransactionDeposit log at `(7, 11)` of transaction `500`. -/
def exampleDeposit : OptimismPortalTransactionDepositEvent :=
  { Event := ⟨7, 11, 500, 9, 0⟩, SourceHash := 600, From := 20, EthValue := some 5 }

/-- A range whose persisted events are: one ETHBridgeInitiated log at `(7, 10)`, one
TransactionDeposit log at `(7, 11)` of transaction `500`, and the given SentMessage logs.
The event ids are 1 (ETH), 2 (MNT) and 3 (ERC-20). -/
def exampleContracts (sent : List CrossDomainMessengerSentMessageEvent) : L1Contracts :=
  { ETHBridgeInitiatedID := 1
    MNTBridgeInitiatedID := 2
    ERC20BridgeInitiatedID := 3
    BVM_ETHAddr := 40
    LegacyERC20MNTAddr := 41
    OptimismPortalTransactionDepositEvents := fun _ _ => .ok [exampleDeposit]
    CrossDomainMessengerSentMessageEvents := fun _ _ => .ok sent
    ContractEventsWithFilter := fun sig _ _ =>
      if sig = 1 then .ok [⟨7, 10, 500, 1, 0⟩] else .ok []
    UnpackLog := fun _ _ => .ok ⟨20, 21, some 5, 0, 0⟩ }

/-- The ETHBridgeInitiated event of `exampleContracts`, as `StandardBridgeInitiatedEvents`
decodes it. -/
def exampleBridge : StandardBridgeInitiatedEvent :=
  { Event := ⟨7, 10, 500, 1, 0⟩, LocalTokenAddress := 40, RemoteTokenAddress := 40
    FromAddress := 20, ToAddress := 21, ETHAmount := some 5, ERC20Amount := some 0, Timestamp := 0 }

/-- The SentMessage log at `(7, 12)` with message hash `77`. -/
def exampleSentMessage : CrossDomainMessengerSentMessageEvent :=
  { Event := ⟨7, 12, 500, 8, 0⟩, MessageHash := 77, Version := 1 }

/-- All processors idle except `L1ProcessInitiatedBridgeEvents`, which is the modelled one. -/
def bridgeProcessors (c : L1Contracts) : Processors := fun name =>
  if name = .L1ProcessInitiatedBridgeEvents then L1ProcessInitiatedBridgeEvents c
  else idleProcessors name

/-- The run of `L1ProcessInitiatedBridgeEvents` on the example range with the SentMessage log
present, on an empty store. -/
def exampleRun : InitiatedRun :=
  match L1ProcessInitiatedBridgeEventsRun (exampleContracts [exampleSentMessage]) {} 1 3 with
  | .ok run => run
  | .error _ => ⟨{}, [], []⟩

/-! ## Statement helpers -/

/-- Whether a processor call's range `[fromHeight, toHeight]` contains the height `h`. -/
def ProcessorCall.covers (c : ProcessorCall) (h : Int) : Bool :=
  decide (c.fromHeight ≤ h) && decide (h ≤ c.toHeight)

/-- The height `h` is handed to the processor `name` by one of the calls. -/
def HandedTo (name : ProcessorName) (calls : List ProcessorCall) (h : Int) : Prop :=
  ∃ c ∈ calls, c.name = name ∧ c.covers h = true

/-- The processor calls of the era split on `[fromHeight, toHeight]` in a run in which no
processor returns an error. -/
def eraCalls (legacy bedrock : ProcessorName) (fork fromHeight toHeight : Int) : List ProcessorCall :=
  (legacyThenBedrock idleProcessors legacy bedrock fork fromHeight toHeight {}).calls


/-- What a sub-procedure with two eras has to leave behind when the fork height lies inside
`(fromHeight, toHeight]`: the legacy call on `[fromHeight, fork - 1]` comes first; the bedrock
call on `[fork, toHeight]` follows on the store the legacy call wrote, in the same
transaction; the cursor is `latest` when both return no error, and otherwise the error is
returned and cursor and store are as before. -/
def SplitTick (P : Processors) (legacy bedrock : ProcessorName) (fork fromHeight toHeight : Int)
    (latest : BlockHeader) (cursorBefore : Option BlockHeader) (db : DB)
    (cursorAfter : Option BlockHeader) (t : Tick) : Prop :=
  match P legacy db fromHeight (fork - 1) with
  | .error e =>
    t.calls = [⟨legacy, fromHeight, fork - 1⟩] ∧ t.err = some e ∧
      cursorAfter = cursorBefore ∧ t.db = db
  | .ok db1 =>
    t.calls = [⟨legacy, fromHeight, fork - 1⟩, ⟨bedrock, fork, toHeight⟩] ∧
    match P bedrock db1 fork toHeight with
    | .error e => t.err = some e ∧ cursorAfter = cursorBefore ∧ t.db = db
    | .ok db2 => t.err = none ∧ cursorAfter = some latest ∧ latest.Number = toHeight ∧ t.db = db2

/-- The position of the row `Take` returns under a condition: the first row satisfying it. -/
def takeIndex {ρ : Type} (cond : ρ → Bool) : List ρ → Option Nat
  | [] => none
  | r :: rs => if cond r then some 0 else (takeIndex cond rs).map (fun i => i + 1)

/-- The list entry is not skipped by a `Mark...` loop (its `L1BlockNumber` is not nil and not
zero as a uint64) and the row `Take` returns for it is the one at position `i`. -/
def marksRow (key : L2ToL1 → Hash32) (table : List L2ToL1) (i : Nat) (entry : L2ToL1) : Bool :=
  match entry.L1BlockNumber with
  | none => false
  | some l1BlockNumber =>
    decide (Uint64 l1BlockNumber ≠ 0) &&
      decide (takeIndex (structWhere key (key entry)) table = some i)

/-- The last entry of the list that marks the row at position `i`, if any. -/
def lastMarking (key : L2ToL1 → Hash32) (table : List L2ToL1) (i : Nat) :
    List L2ToL1 → Option L2ToL1
  | [] => none
  | entry :: rest =>
    match lastMarking key table i rest with
    | some e => some e
    | none => if marksRow key table i entry then some entry else none

/-- The proven transition as the specification words it: every list entry with a non-zero L1 block
number whose withdrawal hash is that of a stored withdrawal leaves that record with the status
chosen by its stored `TimeLeft` and with the entry's own prove transaction hash and block
number. -/
def ProvenTransitionAsStated (l2L1List table : List L2ToL1) : Prop :=
  ∀ entry ∈ l2L1List, (∃ b : Int, entry.L1BlockNumber = some b ∧ b ≠ 0) →
    ∀ (i : Nat) (r : L2ToL1), table[i]? = some r →
      r.WithdrawTransactionHash = entry.WithdrawTransactionHash →
      ∃ table1 r1, MarkL2ToL1TransactionWithdrawalProven l2L1List table = some table1 ∧
        table1[i]? = some r1 ∧
        r1.Status = (if r.TimeLeft > 0 then L2ToL1InChallengePeriod else L2ToL1ReadyForClaim) ∧
        r1.L1ProveTxHash = entry.L1ProveTxHash ∧
        r1.L1BlockNumber = entry.L1BlockNumber

/-- A stored withdrawal with withdrawal hash 9 that is ReadyForProved with 10 units left. -/
def exampleWithdrawal : L2ToL1 :=
  { WithdrawTransactionHash := 9, L2BlockNumber := some 4, TimeLeft := 10
    Status := L2ToL1ReadyForProved }

/-- A proven entry for withdrawal hash 9: prove transaction 101 in L1 block 5. -/
def exampleProven1 : L2ToL1 :=
  { WithdrawTransactionHash := 9, L1ProveTxHash := 101, L1BlockNumber := some 5 }

/-- A second proven entry for withdrawal hash 9: prove transaction 102 in L1 block 6. -/
def exampleProven2 : L2ToL1 :=
  { WithdrawTransactionHash := 9, L1ProveTxHash := 102, L1BlockNumber := some 6 }

/-- A proven entry for withdrawal hash 8, which no stored withdrawal has. -/
def exampleProvenUnknown : L2ToL1 :=
  { WithdrawTransactionHash := 8, L1ProveTxHash := 100, L1BlockNumber := some 5 }

/-- `FraudProofWindowsFlags`: the default fraud proof window (`Value: 1800`). -/
def FraudProofWindowsDefault : Nat := 1800

/-- A withdrawal in its challenge period with the whole default window left. -/
def exampleChallenged : L2ToL1 :=
  { WithdrawTransactionHash := 9, L2BlockNumber := some 4, L1ProveTxHash := 101
    L1BlockNumber := some 5
    TimeLeft := (FraudProofWindowsDefault : Int), Status := L2ToL1InChallengePeriod }

/-- The transitions the spec's withdrawal state machine allows. -/
def AllowedTransition (s s1 : Int) : Prop :=
  (s = L2ToL1Pending ∧ s1 = L2ToL1ReadyForProved) ∨
  (s = L2ToL1ReadyForProved ∧ s1 = L2ToL1InChallengePeriod) ∨
  (s = L2ToL1ReadyForProved ∧ s1 = L2ToL1ReadyForClaim) ∨
  (s = L2ToL1InChallengePeriod ∧ s1 = L2ToL1ReadyForClaim) ∨
  (s = L2ToL1InChallengePeriod ∧ s1 = L2ToL1Claimed) ∨
  (s = L2ToL1ReadyForClaim ∧ s1 = L2ToL1Claimed)

/-- "No transition skips a predecessor" as the specification words it, for one step: every
status change of a record is an allowed transition. -/
def NoSkipAsStated (op : WithdrawalOp) (table : List L2ToL1) : Prop :=
  ∀ (table1 : List L2ToL1) (i : Nat) (r r1 : L2ToL1), op.apply table = some table1 →
    table[i]? = some r → table1[i]? = some r1 →
    r1.Status ≠ r.Status → AllowedTransition r.Status r1.Status

/-- A stored withdrawal with withdrawal hash 9 that is still Pending. -/
def examplePending : L2ToL1 :=
  { WithdrawTransactionHash := 9, L2BlockNumber := some 4, TimeLeft := 0, Status := L2ToL1Pending }

/-- The statuses a `Mark...` operation is meant to find its record in: proven marks reach
ReadyForProved or InChallengePeriod records, finalized marks InChallengePeriod or
ReadyForClaim records. The two update operations select by status themselves. -/
def MarkedFrom (op : WithdrawalOp) (s : Int) : Prop :=
  match op with
  | .MarkL2ToL1TransactionWithdrawalProven _ => s = L2ToL1ReadyForProved ∨ s = L2ToL1InChallengePeriod
  | .MarkL2ToL1TransactionWithdrawalProvenV0 _ => s = L2ToL1ReadyForProved ∨ s = L2ToL1InChallengePeriod
  | .MarkL2ToL1TransactionWithdrawalFinalized _ => s = L2ToL1InChallengePeriod ∨ s = L2ToL1ReadyForClaim
  | .MarkL2ToL1TransactionWithdrawalFinalizedV0 _ => s = L2ToL1InChallengePeriod ∨ s = L2ToL1ReadyForClaim
  | .UpdateReadyForProvedStatus _ _ => True
  | .UpdateTimeLeft => True

/-- "Claimed is terminal" as the specification words it, for one step: a record that is
Claimed is Claimed afterwards. -/
def ClaimedTerminalAsStated (op : WithdrawalOp) (table : List L2ToL1) : Prop :=
  ∀ (table1 : List L2ToL1) (i : Nat) (r r1 : L2ToL1), op.apply table = some table1 →
    table[i]? = some r → r.Status = L2ToL1Claimed →
    table1[i]? = some r1 → r1.Status = L2ToL1Claimed

/-- A stored withdrawal with withdrawal hash 9 that has been claimed. -/
def exampleClaimed : L2ToL1 :=
  { WithdrawTransactionHash := 9, L2BlockNumber := some 4, L1ProveTxHash := 101
    L1FinalizeTxHash := 201, L1BlockNumber := some 8, TimeLeft := 0, Status := L2ToL1Claimed }

/-- The finalized transition and its frame as the specification words them: every list entry
with a non-zero L1 block number whose withdrawal hash is that of a stored withdrawal leaves that
record Claimed with the entry's own finalize transaction hash and block number and nothing
else changed. -/
def FinalizedTransitionAsStated (l2L1List table : List L2ToL1) : Prop :=
  ∀ entry ∈ l2L1List, (∃ b : Int, entry.L1BlockNumber = some b ∧ b ≠ 0) →
    ∀ (i : Nat) (r : L2ToL1), table[i]? = some r →
      r.WithdrawTransactionHash = entry.WithdrawTransactionHash →
      ∃ table1, MarkL2ToL1TransactionWithdrawalFinalized l2L1List table = some table1 ∧
        table1[i]? =
          some { r with
            L1BlockNumber := entry.L1BlockNumber
            L1FinalizeTxHash := entry.L1FinalizeTxHash
            Status := L2ToL1Claimed }

/-- A finalized entry for withdrawal hash 9: finalize transaction 201 in L1 block 8. -/
def exampleFinalized1 : L2ToL1 :=
  { WithdrawTransactionHash := 9, L1FinalizeTxHash := 201, L1BlockNumber := some 8 }

/-- A second finalized entry for withdrawal hash 9: finalize transaction 202 in L1 block 9. -/
def exampleFinalized2 : L2ToL1 :=
  { WithdrawTransactionHash := 9, L1FinalizeTxHash := 202, L1BlockNumber := some 9 }

/-- A stored withdrawal with withdrawal hash 7, ready for claim. -/
def exampleOtherWithdrawal : L2ToL1 :=
  { WithdrawTransactionHash := 7, L2BlockNumber := some 3, L1ProveTxHash := 99
    L1BlockNumber := some 2
    TimeLeft := 0, Status := L2ToL1ReadyForClaim }

/-! ## The business processor (`business/run.go`) -/

/-- `ORDER BY timestamp DESC LIMIT 1` on `state_root`: the row with the greatest timestamp. -/
def latestStateRoot : List StateRoot → Option StateRoot
  | [] => none
  | s :: ss => some (ss.foldl (fun best x => if best.Timestamp < x.Timestamp then x else best) s)

/-- `stateRootDB.GetLatestStateRootL2BlockNumber`: `Find` into a `uint64` leaves 0 when the
table is empty; a NULL or out-of-range `l2_block_number` is a scan error. -/
def GetLatestStateRootL2BlockNumber (table : List StateRoot) : Except Err Nat :=
  match latestStateRoot table with
  | none => .ok 0
  | some s =>
    match s.L2BlockNumber with
    | none => .error "sql: Scan error on column l2_block_number: converting NULL to uint64"
    | some b =>
      if 0 ≤ b ∧ b < 2 ^ 64 then .ok b.toNat
      else .error "sql: Scan error on column l2_block_number: value out of range"

/-- The fields of `BusinessProcessor` read by the modelled methods. -/
structure BusinessProcessor where
  fraudProofWindows : Nat
deriving DecidableEq, Repr

/-- `BusinessProcessor.syncL2ToL1StateRoot`. -/
def BusinessProcessor.syncL2ToL1StateRoot (bp : BusinessProcessor) (db : DB) : DB × Option Err :=
  match GetLatestStateRootL2BlockNumber db.stateRoot with
  | .error err => (db, some err)
  | .ok blockNumber =>
    if blockNumber = 0 then (db, none)
    else
      ({ db with l2ToL1 := UpdateReadyForProvedStatus blockNumber bp.fraudProofWindows db.l2ToL1 },
        none)

/-- "`syncL2ToL1StateRoot` calls `UpdateReadyForProvedStatus` with the L2 block number of the
latest state root and the configured fraud proof window" as the specification words it: on a
store whose latest state root has an L2 block number that fits a uint64, the result is the
store that call gives, and no error. -/
def SyncL2ToL1StateRootAsStated (bp : BusinessProcessor) (db : DB) : Prop :=
  ∀ (s : StateRoot) (b : Int), latestStateRoot db.stateRoot = some s →
    s.L2BlockNumber = some b → 0 ≤ b → b < 2 ^ 64 →
    bp.syncL2ToL1StateRoot db =
      ({ db with l2ToL1 := UpdateReadyForProvedStatus b.toNat bp.fraudProofWindows db.l2ToL1 },
        none)

/-- A Pending withdrawal stored with the L2 block number `b`. -/
def examplePendingAt (b : Int) : L2ToL1 :=
  { WithdrawTransactionHash := 9, L2BlockNumber := some b, TimeLeft := 0, Status := L2ToL1Pending }

/-- A store with two state roots, the later one for L2 block 60, Pending withdrawals in the L2
blocks 4, 60 and 61, and a withdrawal that is already ReadyForProved. -/
def exampleStateRootStore : DB :=
  { stateRoot := [{ L2BlockNumber := some 40, Timestamp := 5 },
                  { L2BlockNumber := some 60, Timestamp := 9 }]
    l2ToL1 := [examplePending, examplePendingAt 60, examplePendingAt 61, exampleWithdrawal] }

/-- A store whose only state root is for L2 block 0, with a Pending withdrawal stored with the
L2 block number 0. -/
def exampleGenesisStateRootStore : DB :=
  { stateRoot := [{ L2BlockNumber := some 0, Timestamp := 5 }]
    l2ToL1 := [examplePendingAt 0] }

/-- `l1ToL2DB.L1ToL2TransactionDeposit`: `Where(&L2ToL1{MessageHash: h}).Take`, nil when no
record is found. -/
def L1ToL2TransactionDeposit (messageHash : Hash32) (table : List L1ToL2) : Option L1ToL2 :=
  table.find? (structWhere (fun r : L1ToL2 => r.MessageHash) messageHash)

/-- `l1ToL2DB.MarkL1ToL2TransactionDepositFinalized`. The result `none` stands for the panic of
`L1BlockNumber.Uint64()` on a nil `L1BlockNumber`; otherwise the returned error is nil. -/
def MarkL1ToL2TransactionDepositFinalized : List L1ToL2 → List L1ToL2 → Option (List L1ToL2)
  | [], table => some table
  | entry :: rest, table =>
    match entry.L1BlockNumber with
    | none => none
    | some l1BlockNumber =>
      if Uint64 l1BlockNumber ≤ 0 then
        MarkL1ToL2TransactionDepositFinalized rest table
      else
        match updateFirst (structWhere (fun r : L1ToL2 => r.MessageHash) entry.MessageHash)
            (fun l1ToL2 => { l1ToL2 with
              L2BlockNumber := entry.L2BlockNumber
              L2TransactionHash := entry.L2TransactionHash
              Status := L1ToL2Claimed }) table with
        | none => some table
        | some table1 => MarkL1ToL2TransactionDepositFinalized rest table1

/-- `relayMessageDB.MarkedRelayMessageRelated`. -/
def MarkedRelayMessageRelated : List RelayMessage → List RelayMessage → List RelayMessage
  | [], table => table
  | m :: rest, table =>
    match updateFirst (structWhere (fun r : RelayMessage => r.MessageHash) m.MessageHash)
        (fun relayMessages => { relayMessages with Related := true }) table with
    | none => table
    | some table1 => MarkedRelayMessageRelated rest table1

/-- `relayMessageDB.RelayMessageUnRelatedList`: the rows with `related = false`. -/
def RelayMessageUnRelatedList (table : List RelayMessage) : List RelayMessage :=
  table.filter (fun m => !m.Related)

/-- The first loop of `markedL1ToL2Finalized`: the entries `depositL2ToL1List` and the relay
messages `needMarkDepositList`, for the relay messages whose deposit is found. -/
def buildDepositFinalizedLists (deposits : List L1ToL2) :
    List RelayMessage → List L1ToL2 × List RelayMessage
  | [] => ([], [])
  | finalized :: rest =>
    let l1l2Tx : L1ToL2 :=
      { L2TransactionHash := finalized.RelayTransactionHash
        L1BlockNumber := finalized.BlockNumber }
    let tail := buildDepositFinalizedLists deposits rest
    match L1ToL2TransactionDeposit finalized.MessageHash deposits with
    | some _ => (l1l2Tx :: tail.1, finalized :: tail.2)
    | none => tail

/-- `BusinessProcessor.markedL1ToL2Finalized`; `none` stands for a panic. -/
def BusinessProcessor.markedL1ToL2Finalized (_bp : BusinessProcessor) (db : DB) :
    Option (DB × Option Err) :=
  let finalizedList := RelayMessageUnRelatedList db.relayMessage
  let lists := buildDepositFinalizedLists db.l1ToL2 finalizedList
  let depositL2ToL1List := lists.1
  let needMarkDepositList := lists.2
  if depositL2ToL1List.length > 0 then
    match MarkL1ToL2TransactionDepositFinalized depositL2ToL1List db.l1ToL2 with
    | none => none
    | some deposits =>
      some ({ db with
        l1ToL2 := deposits
        relayMessage := MarkedRelayMessageRelated needMarkDepositList db.relayMessage }, none)
  else some (db, none)

/-- A pending deposit of L1 transaction 1 with message hash 11. -/
def exampleDepositA : L1ToL2 :=
  { L1BlockNumber := some 3, L2BlockNumber := some 0, L1TransactionHash := 1, MessageHash := 11
    Status := L1ToL2Pending }

/-- A pending deposit of L1 transaction 2 with message hash 22. -/
def exampleDepositB : L1ToL2 :=
  { L1BlockNumber := some 4, L2BlockNumber := some 0, L1TransactionHash := 2, MessageHash := 22
    Status := L1ToL2Pending }

/-- The relay message of deposit B: message hash 22, relayed by L2 transaction 900. -/
def exampleRelayB : RelayMessage :=
  { BlockNumber := some 7, RelayTransactionHash := 900, MessageHash := 22, Related := false }

/-! ## The header synchronizers (`synchronizer/l1_sync.go`, `synchronizer/l2_sync.go`) -/

/-- `types.Header` with the fields the synchronizers read; `Hash` is the value of `Hash()`. -/
structure Header where
  Hash : Hash32
  ParentHash : Hash32
  Number : Int
  Time : Nat
deriving DecidableEq, Repr

/-- `types.Log` with the fields a contract event keeps; `Topic0` is the event signature. -/
structure Log where
  BlockHash : Hash32
  Index : Nat
  TxHash : Hash32
  Address : Addr := 0
  Topic0 : Hash32 := 0
deriving DecidableEq, Repr

/-- Modelled from the spec: `SynchronizerBatch` (`synchronizer/synchronizer.go` is not among
the sources): the ordered headers of one chain, the ordered logs, the header-by-hash map, and
the key set of `HeadersWithLog`, the hashes of the headers that had at least one log. -/
structure SynchronizerBatch where
  Headers : List Header := []
  HeaderMap : List (Hash32 × Header) := []
  HeadersWithLog : List Hash32 := []
  Logs : List Log := []
deriving DecidableEq, Repr

/-- `batch.HeaderMap[hash]`: nil when the hash is not a key. -/
def SynchronizerBatch.header (batch : SynchronizerBatch) (hash : Hash32) : Option Header :=
  (batch.HeaderMap.find? (fun kv => kv.1 = hash)).map (fun kv => kv.2)

/-- Modelled from the spec: `common.BlockHeaderFromHeader` (not among the sources); the spec's
`ChainHeader` keeps number, hash, parent hash and timestamp. -/
def BlockHeaderFromHeader (h : Header) : BlockHeader :=
  { Hash := h.Hash, ParentHash := h.ParentHash, Number := h.Number, Timestamp := h.Time }

/-- Modelled from the spec: `event.ContractEventFromLog` (not among the sources); the spec's
`ContractLogEvent` keeps the log's block hash, log index, transaction hash and event signature
and the timestamp it is given. -/
def ContractEventFromLog (log : Log) (timestamp : Nat) : ContractEvent :=
  { BlockHash := log.BlockHash, LogIndex := log.Index, TransactionHash := log.TxHash
    EventSignature := log.Topic0, Timestamp := timestamp }

/-- The loop building the contract events of a batch (`l1_sync.go` 139-144, `l2_sync.go`
154-159). `none` stands for the panic of `batch.HeaderMap[hash].Time` on a hash that is not a
key of the map. -/
def contractEventsOfBatch (batch : SynchronizerBatch) : List Log → Option (List ContractEvent)
  | [] => some []
  | log :: rest =>
    match batch.header log.BlockHash with
    | none => none
    | some header =>
      match contractEventsOfBatch batch rest with
      | none => none
      | some events => some (ContractEventFromLog log header.Time :: events)

/-- The three store calls inside a synchronizer's transaction. -/
inductive StoreStep where
  | headers
  | contractEvents
  | transactions
deriving DecidableEq, Repr

/-- Which store call fails in which attempt (attempts are counted from 0), and with what
error; the in-memory tables themselves never fail. -/
abbrev StoreFaults := Nat → StoreStep → Option Err

/-- No store call ever fails. -/
def noFaults : StoreFaults := fun _ _ => none

/-- `DB.Transaction`: the writes of `fn` are kept when it returns nil and rolled back when it
returns an error. `fn` returns the store as it has written it so far. -/
def DB.Transaction (db : DB) (fn : DB → DB × Option Err) : DB × Option Err :=
  match fn db with
  | (tx, none) => (tx, none)
  | (_, some err) => (db, some err)

/-- The attempts of `retryDo`: `remaining` more attempts, the next one numbered `attempt`. -/
def retryAttempts (op : Nat → DB → DB × Option Err) :
    Nat → Nat → Err → DB → DB × Option Err
  | 0, _, lastErr, db => (db, some lastErr)
  | remaining + 1, attempt, _, db =>
    match op attempt db with
    | (db1, none) => (db1, none)
    | (db1, some err) => retryAttempts op remaining (attempt + 1) err db1

/-- Modelled from the spec: `retry.Do` (package `synchronizer/retry` is not among the sources):
the operation is executed up to `maxAttempts` times and the first success or the last error is
returned. The sleeps between attempts have no counterpart. -/
def retryDo (maxAttempts : Nat) (op : Nat → DB → DB × Option Err) (db : DB) : DB × Option Err :=
  retryAttempts op maxAttempts 0 "need at least 1 attempt to run op" db

/-- Modelled from the spec: `BlocksDB.StoreL1BlockHeaders` / `StoreL2BlockHeaders` (not among
the sources): the header rows are added to the table. -/
def StoreBlockHeaders (headers table : List BlockHeader) : List BlockHeader := table ++ headers

/-- Modelled from the spec: `ContractEventsDB.StoreL1ContractEvents` / `StoreL2ContractEvents`
(not among the sources): the event rows are added to the table. -/
def StoreContractEvents (events table : List ContractEvent) : List ContractEvent := table ++ events

/-- `transactionsDB.StoreTransactions`: `CreateInBatches` adds the rows. -/
def StoreTransactions (txList table : List Transactions) : List Transactions := table ++ txList

/-- The function handed to `db.Transaction` by `L1Sync.handleBatch` (lines 148-156). -/
def l1StoreBatch (fault : StoreStep → Option Err) (l1BlockHeaders : List BlockHeader)
    (l1ContractEvents : List ContractEvent) (tx : DB) : DB × Option Err :=
  match fault .headers with
  | some err => (tx, some err)
  | none =>
    let tx1 := { tx with l1BlockHeaders := StoreBlockHeaders l1BlockHeaders tx.l1BlockHeaders }
    match fault .contractEvents with
    | some err => (tx1, some err)
    | none =>
      ({ tx1 with l1ContractEvents := StoreContractEvents l1ContractEvents tx1.l1ContractEvents },
        none)

/-- The headers `L1Sync.handleBatch` builds: those of the batch whose hash is a key of
`HeadersWithLog`, in batch order. -/
def l1HeadersOfBatch (batch : SynchronizerBatch) : List BlockHeader :=
  (batch.Headers.filter (fun h => decide (h.Hash ∈ batch.HeadersWithLog))).map BlockHeaderFromHeader

/-- `L1Sync.handleBatch`; `none` stands for a panic. -/
def L1Sync.handleBatch (faults : StoreFaults) (db : DB) (batch : SynchronizerBatch) :
    Option (DB × Option Err) :=
  let l1BlockHeaders := l1HeadersOfBatch batch
  if l1BlockHeaders.length = 0 then some (db, none)
  else
    match contractEventsOfBatch batch batch.Logs with
    | none => none
    | some l1ContractEvents =>
      some (retryDo 10 (fun attempt db1 =>
        db1.Transaction (l1StoreBatch (faults attempt) l1BlockHeaders l1ContractEvents)) db)

/-- The function handed to `db.Transaction` by `L2Sync.handleBatch` (lines 162-177). -/
def l2StoreBatch (fault : StoreStep → Option Err) (l2BlockHeaders : List BlockHeader)
    (l2ContractEvents : List ContractEvent) (txList : List Transactions) (tx : DB) :
    DB × Option Err :=
  match fault .headers with
  | some err => (tx, some err)
  | none =>
    let tx1 := { tx with l2BlockHeaders := StoreBlockHeaders l2BlockHeaders tx.l2BlockHeaders }
    match (if l2ContractEvents.length > 0 then fault .contractEvents else none) with
    | some err => (tx1, some err)
    | none =>
      let tx2 :=
        if l2ContractEvents.length > 0 then
          { tx1 with l2ContractEvents := StoreContractEvents l2ContractEvents tx1.l2ContractEvents }
        else tx1
      match (if txList.length > 0 then fault .transactions else none) with
      | some err => (tx2, some err)
      | none =>
        (if txList.length > 0 then
          { tx2 with transactions := StoreTransactions txList tx2.transactions }
        else tx2, none)

/-- The first loop of `L2Sync.handleBatch` (lines 131-153): the transaction rows of every
header, in order; the first failing client call ends it. `transactionsOf` stands for
`TxsByHash`, `TxDetailByHash`, `TxReceiptDetailByHash` and `BuildTransactions` on one block. -/
def l2TransactionsOfBatch (transactionsOf : Hash32 → Except Err (List Transactions)) :
    List Header → Except Err (List Transactions)
  | [] => .ok []
  | h :: rest =>
    match transactionsOf h.Hash with
    | .error err => .error err
    | .ok txs =>
      match l2TransactionsOfBatch transactionsOf rest with
      | .error err => .error err
      | .ok more => .ok (txs ++ more)

/-- `L2Sync.handleBatch`; `none` stands for a panic (a log whose block is not in `HeaderMap`,
or `l2BlockHeaders[len(l2BlockHeaders)-1]` on a batch without headers). -/
def L2Sync.handleBatch (transactionsOf : Hash32 → Except Err (List Transactions))
    (faults : StoreFaults) (db : DB) (batch : SynchronizerBatch) : Option (DB × Option Err) :=
  let l2BlockHeaders := batch.Headers.map BlockHeaderFromHeader
  match l2TransactionsOfBatch transactionsOf batch.Headers with
  | .error err => some (db, some err)
  | .ok txList =>
    match contractEventsOfBatch batch batch.Logs with
    | none => none
    | some l2ContractEvents =>
      match retryDo 10 (fun attempt db1 =>
          db1.Transaction (l2StoreBatch (faults attempt) l2BlockHeaders l2ContractEvents txList))
          db with
      | (db1, some err) => some (db1, some err)
      | (db1, none) => if l2BlockHeaders.length = 0 then none else some (db1, none)

/-- Whether each element after the first has the hash of the element before it as its parent
hash. -/
def parentLinked {α : Type} (hash parentHash : α → Hash32) : List α → Bool
  | [] => true
  | [_] => true
  | a :: b :: rest => decide (parentHash b = hash a) && parentLinked hash parentHash (b :: rest)

/-- Each header row after the first has the hash of the row before it as its parent hash. -/
def ParentLinked (headers : List BlockHeader) : Prop :=
  parentLinked (fun h : BlockHeader => h.Hash) (fun h => h.ParentHash) headers = true

/-- The headers of a traversal batch are parent-linked. -/
def ParentLinkedBatch (batch : SynchronizerBatch) : Prop :=
  parentLinked (fun h : Header => h.Hash) (fun h => h.ParentHash) batch.Headers = true

/-- Three parent-linked headers of one traversal batch. -/
def exampleHeader1 : Header := { Hash := 1001, ParentHash := 1000, Number := 1, Time := 11 }

/-- The child of `exampleHeader1`; it has no log in `exampleBatch`. -/
def exampleHeader2 : Header := { Hash := 1002, ParentHash := 1001, Number := 2, Time := 12 }

/-- The child of `exampleHeader2`. -/
def exampleHeader3 : Header := { Hash := 1003, ParentHash := 1002, Number := 3, Time := 13 }

/-- A log of `exampleHeader1`. -/
def exampleLog1 : Log := { BlockHash := 1001, Index := 0, TxHash := 71, Topic0 := 5 }

/-- A log of `exampleHeader3`. -/
def exampleLog3 : Log := { BlockHash := 1003, Index := 4, TxHash := 73, Topic0 := 6 }

/-- A batch of three headers of which the first and the third have a log. -/
def exampleBatch : SynchronizerBatch :=
  { Headers := [exampleHeader1, exampleHeader2, exampleHeader3]
    HeaderMap := [(1001, exampleHeader1), (1002, exampleHeader2), (1003, exampleHeader3)]
    HeadersWithLog := [1001, 1003]
    Logs := [exampleLog1, exampleLog3] }

/-- A client under which every block has one transaction. -/
def exampleTransactionsOf : Hash32 → Except Err (List Transactions) :=
  fun hash => .ok [{ BlockHash := hash, TransactionHash := hash + 5000 }]

/-- Storing the contract events fails in the first attempt only. -/
def eventsFailOnce : StoreFaults :=
  fun attempt step =>
    if attempt = 0 ∧ step = StoreStep.contractEvents then some "store contract events" else none

/-- Storing the contract events fails in every attempt. -/
def eventsFailAlways : StoreFaults :=
  fun _ step => if step = StoreStep.contractEvents then some "store contract events" else none

/-- The store after `exampleBatch` was persisted on L1 into an empty store. -/
def exampleL1Stored : DB :=
  { l1BlockHeaders := [BlockHeaderFromHeader exampleHeader1, BlockHeaderFromHeader exampleHeader3]
    l1ContractEvents := [ContractEventFromLog exampleLog1 11, ContractEventFromLog exampleLog3 13] }

instance (headers : List BlockHeader) : Decidable (ParentLinked headers) :=
  inferInstanceAs (Decidable (parentLinked _ _ headers = true))

instance (batch : SynchronizerBatch) : Decidable (ParentLinkedBatch batch) :=
  inferInstanceAs (Decidable (parentLinked _ _ batch.Headers = true))

/-- Continuity of the headers `L1Sync.handleBatch` persists, as the specification words it:
the header rows added from a parent-linked batch are parent-linked. -/
def L1ContinuityAsStated (faults : StoreFaults) (db : DB) (batch : SynchronizerBatch) : Prop :=
  ParentLinkedBatch batch →
    ∀ db1 stored, L1Sync.handleBatch faults db batch = some (db1, none) →
      db1.l1BlockHeaders = db.l1BlockHeaders ++ stored → ParentLinked stored

/-- The state root of an OutputProposed event at L1 height 105. -/
def exampleOutputRoot : StateRoot :=
  { TransactionHash := 81, L1BlockNumber := some 105, L2BlockNumber := some 60
    OutputIndex := some 3, OutputRoot := 7, Timestamp := 9 }

/-- The state root of a legacy StateBatchAppended event at L1 height 96. -/
def exampleLegacyRoot : StateRoot :=
  { TransactionHash := 82, OutputIndex := some 2, PrevTotalElements := some 40
    BatchSize := some 1, OutputRoot := 8, Timestamp := 5 }

/-- A processor table for an L1 chain with one StateBatchAppended event at height 96 and one
OutputProposed event at height 105: each of the two state-root processors stores the root of
its event when that height lies in the range it is given; the other processors do nothing. -/
def stateRootProcessors : Processors := fun name db fromHeight toHeight =>
  match name with
  | .L2OutputEvent =>
    if fromHeight ≤ 105 ∧ 105 ≤ toHeight then
      .ok { db with stateRoot := db.stateRoot ++ [exampleOutputRoot] }
    else .ok db
  | .LegacyL1ProcessSCCEvent =>
    if fromHeight ≤ 96 ∧ 96 ≤ toHeight then
      .ok { db with stateRoot := db.stateRoot ++ [exampleLegacyRoot] }
    else .ok db
  | _ => .ok db

/-! ## Construction of the synchronizers (`NewL1Sync`, `NewL2Sync`) -/

/-- `config.L1Contracts`: the addresses in declaration order. -/
structure config.L1Contracts where
  AddressManager : Addr := 0
  SystemConfigProxy : Addr := 0
  OptimismPortalProxy : Addr := 0
  L2OutputOracleProxy : Addr := 0
  L1CrossDomainMessengerProxy : Addr := 0
  L1StandardBridgeProxy : Addr := 0
  L1ERC721BridgeProxy : Addr := 0
  DataLayrServiceManagerAddr : Addr := 0
  LegacyCanonicalTransactionChain : Addr := 0
  LegacyStateCommitmentChain : Addr := 0
deriving DecidableEq, Repr

/-- `config.L2Contracts`: the addresses in declaration order. -/
structure config.L2Contracts where
  L2ToL1MessagePasser : Addr := 0
  L2CrossDomainMessenger : Addr := 0
  L2StandardBridge : Addr := 0
  L2ERC721Bridge : Addr := 0
deriving DecidableEq, Repr

/-- `reflect.VisibleFields` of a `config.L1Contracts` value with the value of each field. -/
def config.L1Contracts.fields (c : config.L1Contracts) : List (String × Addr) :=
  [("AddressManager", c.AddressManager),
   ("SystemConfigProxy", c.SystemConfigProxy),
   ("OptimismPortalProxy", c.OptimismPortalProxy),
   ("L2OutputOracleProxy", c.L2OutputOracleProxy),
   ("L1CrossDomainMessengerProxy", c.L1CrossDomainMessengerProxy),
   ("L1StandardBridgeProxy", c.L1StandardBridgeProxy),
   ("L1ERC721BridgeProxy", c.L1ERC721BridgeProxy),
   ("DataLayrServiceManagerAddr", c.DataLayrServiceManagerAddr),
   ("LegacyCanonicalTransactionChain", c.LegacyCanonicalTransactionChain),
   ("LegacyStateCommitmentChain", c.LegacyStateCommitmentChain)]

/-- `reflect.VisibleFields` of a `config.L2Contracts` value with the value of each field. -/
def config.L2Contracts.fields (c : config.L2Contracts) : List (String × Addr) :=
  [("L2ToL1MessagePasser", c.L2ToL1MessagePasser),
   ("L2CrossDomainMessenger", c.L2CrossDomainMessenger),
   ("L2StandardBridge", c.L2StandardBridge),
   ("L2ERC721Bridge", c.L2ERC721Bridge)]

/-- The loop of `ForEach`: the callback is run on each field in order and the first error ends
the loop. `σ` is the state the callback closes over (the slice it appends to). -/
def forEachField {σ : Type} (cb : σ → String → Addr → Except Err σ) :
    List (String × Addr) → σ → Except Err σ
  | [], s => .ok s
  | (name, addr) :: rest, s =>
    match cb s name addr with
    | .error err => .error err
    | .ok s1 => forEachField cb rest s1

/-- `L1Contracts.ForEach`. -/
def config.L1Contracts.ForEach {σ : Type} (c : config.L1Contracts)
    (cb : σ → String → Addr → Except Err σ) (s : σ) : Except Err σ :=
  forEachField cb c.fields s

/-- `L2Contracts.ForEach`. -/
def config.L2Contracts.ForEach {σ : Type} (c : config.L2Contracts)
    (cb : σ → String → Addr → Except Err σ) (s : σ) : Except Err σ :=
  forEachField cb c.fields s

/-- `strings.HasPrefix(s, pre)`. -/
def strings.HasPrefix (s pre : String) : Bool := pre.data.isPrefixOf s.data

/-- `common.Address{}`. -/
def zeroAddr : Addr := 0

/-- The calls a constructor makes to its database and its client, in order. -/
inductive StartupCall where
  | LatestBlockHeader
  | BlockHeaderByNumber (height : Int)
deriving DecidableEq, Repr

/-- `synchronizer.Config`, with the field the constructors branch on; `StartHeight` is a
non-nil `*big.Int`. -/
structure Config where
  StartHeight : Int := 0
deriving DecidableEq, Repr

/-- Modelled from the spec: `Synchronizer` (`synchronizer/synchronizer.go` is not among the
sources), with the contract addresses it filters logs by and the header its traversal starts
after. -/
structure Synchronizer where
  contracts : List Addr
  fromHeader : Option Header
deriving DecidableEq, Repr

/-- `L1Sync` / `L2Sync`: the embedded synchronizer and `LatestHeader`. -/
structure Sync where
  Synchronizer : Synchronizer
  LatestHeader : Option Header
deriving DecidableEq, Repr

/-- What a constructor leaves behind: the calls it made and its two results, `(*L1Sync, error)`. -/
structure Startup where
  calls : List StartupCall
  sync : Option Sync
  err : Option Err
deriving DecidableEq, Repr

/-- The part of `NewL1Sync` and `NewL2Sync` after the contract check (lines 46-89 of both).
`LatestBlockHeader` is the result of `db.Blocks.L1LatestBlockHeader()` (resp. L2) with
`RLPHeader.Header()` applied, `BlockHeaderByNumber` is the client call, and
`transferBigValueAddresses` are the addresses parsed from the space-separated string. -/
def newSyncFrom (cfg : Config) (LatestBlockHeader : Except Err (Option Header))
    (BlockHeaderByNumber : Int → Except Err Header) (contracts transferBigValueAddresses : List Addr) :
    Startup :=
  let contracts := contracts ++ transferBigValueAddresses
  match LatestBlockHeader with
  | .error err => ⟨[.LatestBlockHeader], none, some err⟩
  | .ok (some latestHeader) =>
    ⟨[.LatestBlockHeader], some ⟨⟨contracts, some latestHeader⟩, some latestHeader⟩, none⟩
  | .ok none =>
    if cfg.StartHeight ≠ 0 then
      match BlockHeaderByNumber cfg.StartHeight with
      | .error err =>
        ⟨[.LatestBlockHeader, .BlockHeaderByNumber cfg.StartHeight], none,
          some ("could not fetch starting block header: " ++ err)⟩
      | .ok header =>
        ⟨[.LatestBlockHeader, .BlockHeaderByNumber cfg.StartHeight],
          some ⟨⟨contracts, some header⟩, some header⟩, none⟩
    else ⟨[.LatestBlockHeader], some ⟨⟨contracts, none⟩, none⟩, none⟩

/-- `NewL1Sync`. -/
def NewL1Sync (cfg : Config) (LatestBlockHeader : Except Err (Option Header))
    (BlockHeaderByNumber : Int → Except Err Header) (contracts : config.L1Contracts)
    (transferBigValueAddresses : List Addr) : Startup :=
  match contracts.ForEach (fun (l1Contracts : List Addr) name addr =>
      if addr = zeroAddr ∧ ¬ strings.HasPrefix name "Legacy" = true then
        .error "all L1Contracts must be configured"
      else .ok (l1Contracts ++ [addr])) [] with
  | .error err => ⟨[], none, some err⟩
  | .ok l1Contracts =>
    newSyncFrom cfg LatestBlockHeader BlockHeaderByNumber l1Contracts transferBigValueAddresses

/-- `NewL2Sync`. -/
def NewL2Sync (cfg : Config) (LatestBlockHeader : Except Err (Option Header))
    (BlockHeaderByNumber : Int → Except Err Header) (contracts : config.L2Contracts)
    (transferBigValueAddresses : List Addr) : Startup :=
  match contracts.ForEach (fun (l2Contracts : List Addr) _ addr =>
      if addr = zeroAddr then .error "all L2Contracts must be configured"
      else .ok (l2Contracts ++ [addr])) [] with
  | .error err => ⟨[], none, some err⟩
  | .ok l2Contracts =>
    newSyncFrom cfg LatestBlockHeader BlockHeaderByNumber l2Contracts transferBigValueAddresses

/-- An L1 configuration in which every contract but the two legacy ones has an address. -/
def exampleL1Contracts : config.L1Contracts :=
  { AddressManager := 1, SystemConfigProxy := 2, OptimismPortalProxy := 3
    L2OutputOracleProxy := 4, L1CrossDomainMessengerProxy := 5, L1StandardBridgeProxy := 6
    L1ERC721BridgeProxy := 7, DataLayrServiceManagerAddr := 8 }

/-- An L2 configuration in which every contract has an address. -/
def exampleL2Contracts : config.L2Contracts :=
  { L2ToL1MessagePasser := 1, L2CrossDomainMessenger := 2, L2StandardBridge := 3
    L2ERC721Bridge := 4 }

/-! ## The node client (`synchronizer/node/client.go`) -/

/-- An `rpc.BatchElem` after `BatchCallContext`: the element's `Error`, and the header its
`Result` pointer (`&headers[i]`) designates; `Result = none` stands for a nil `Result`. -/
structure BatchElem where
  Error : Option Err := none
  Result : Option Header := none
deriving DecidableEq, Repr

/-- The client `clnt`, given by what its `rpc` field answers to `eth_getBlockByNumber`:
`CallContext` gives the header of a height (nil when the node knows none) or an error,
`BatchCallContext` gives for the heights asked an error or the batch elements by index. -/
structure clnt where
  CallContext : Int → Except Err (Option Header)
  BatchCallContext : List Int → Except Err (Nat → BatchElem)

/-- `ethereum.NotFound`. -/
def NotFound : Err := "not found"

/-- The zero value `types.Header{}` of a slot of `headers` that was not written. -/
def zeroHeader : Header := { Hash := 0, ParentHash := 0, Number := 0, Time := 0 }

/-- `clnt.BlockHeaderByNumber`. -/
def clnt.BlockHeaderByNumber (c : clnt) (number : Int) : Except Err Header :=
  match c.CallContext number with
  | .error err => .error err
  | .ok none => .error NotFound
  | .ok (some header) => .ok header

/-- The loop of `BlockHeadersByRange` over `batchElems` (lines 201-216), from index `i` with
`remaining` elements left: the value of `size` at the `break` or at the end, or the error
returned from inside the loop. -/
def rangeLoop (batchElems : Nat → BatchElem) (headers : Nat → Header) :
    Nat → Nat → Nat → Except Err Nat
  | 0, _, size => .ok size
  | remaining + 1, i, size =>
    match (batchElems i).Error with
    | some err => if size = 0 then .error err else .ok size
    | none =>
      if (batchElems i).Result = none then .ok size
      else if i > 0 ∧ (headers i).ParentHash ≠ (headers (i - 1)).Hash then
        .error ("queried header " ++ toString (headers i).Hash ++ " does not follow parent "
          ++ toString (headers (i - 1)).Hash)
      else rangeLoop batchElems headers remaining (i + 1) (size + 1)

/-- The heights asked for by the batch: `startHeight + i` for `i < count`. -/
def rangeHeights (startHeight : Int) (count : Nat) : List Int :=
  (List.range count).map (fun i => startHeight + (i : Int))

/-- `clnt.BlockHeadersByRange`; `count` is a `uint64`. -/
def clnt.BlockHeadersByRange (c : clnt) (startHeight endHeight : Int) :
    Except Err (List Header) :=
  if startHeight = endHeight then
    match c.BlockHeaderByNumber startHeight with
    | .error err => .error err
    | .ok header => .ok [header]
  else
    let count := (Uint64 (endHeight - startHeight) + 1) % 2 ^ 64
    match c.BatchCallContext (rangeHeights startHeight count) with
    | .error err => .error err
    | .ok batchElems =>
      let headers := fun i => ((batchElems i).Result).getD zeroHeader
      match rangeLoop batchElems headers count 0 0 with
      | .error err => .error err
      | .ok size => .ok ((List.range size).map headers)

/-- A node that knows the parent-linked headers 1, 2, 3 and answers with an error for any
other height. -/
def exampleNode : clnt :=
  { CallContext := fun _ => .ok none
    BatchCallContext := fun _ => .ok (fun i =>
      if i = 0 then { Result := some exampleHeader1 }
      else if i = 1 then { Result := some exampleHeader2 }
      else if i = 2 then { Result := some exampleHeader3 }
      else { Error := some "header not found" }) }

/-- A node whose third answer is a header that does not follow the second. -/
def exampleForkedNode : clnt :=
  { CallContext := fun _ => .ok none
    BatchCallContext := fun _ => .ok (fun i =>
      if i = 0 then { Result := some exampleHeader1 }
      else if i = 1 then { Result := some exampleHeader2 }
      else { Result := some { exampleHeader3 with ParentHash := 4242 } }) }

/-- The TransactionDeposit log at `(7, 16)` of transaction `501`. -/
def exampleMNTDeposit : OptimismPortalTransactionDepositEvent :=
  { Event := ⟨7, 16, 501, 9, 0⟩, SourceHash := 601, From := 20, Value := some 5 }

/-- The SentMessage log at `(7, 17)` with message hash `78`. -/
def exampleMNTSentMessage : CrossDomainMessengerSentMessageEvent :=
  { Event := ⟨7, 17, 501, 8, 0⟩, MessageHash := 78, Version := 1 }

/-- A range whose persisted events are: one MNTBridgeInitiated log at `(7, 10)`, the
TransactionDeposit log at `(7, 16)` and the SentMessage log at `(7, 17)`. The event ids are 1
(ETH), 2 (MNT) and 3 (ERC-20). -/
def exampleMNTContracts : L1Contracts :=
  { ETHBridgeInitiatedID := 1
    MNTBridgeInitiatedID := 2
    ERC20BridgeInitiatedID := 3
    BVM_ETHAddr := 40
    LegacyERC20MNTAddr := 41
    OptimismPortalTransactionDepositEvents := fun _ _ => .ok [exampleMNTDeposit]
    CrossDomainMessengerSentMessageEvents := fun _ _ => .ok [exampleMNTSentMessage]
    ContractEventsWithFilter := fun sig _ _ =>
      if sig = 2 then .ok [⟨7, 10, 501, 2, 0⟩] else .ok []
    UnpackLog := fun _ _ => .ok ⟨20, 21, some 5, 0, 0⟩ }

/-- The MNTBridgeInitiated event of `exampleMNTContracts`, as `StandardBridgeInitiatedEvents`
decodes it. -/
def exampleMNTBridge : StandardBridgeInitiatedEvent :=
  { Event := ⟨7, 10, 501, 2, 0⟩, LocalTokenAddress := 41, RemoteTokenAddress := 41
    FromAddress := 20, ToAddress := 21, ETHAmount := some 0, ERC20Amount := some 5, Timestamp := 0 }

/-! ## `L2ProcessInitiatedBridgeEvents` -/

/-- `contracts.L2ToL1MessagePasserMessagePassed` with the fields read here. -/
structure L2ToL1MessagePasserMessagePassed where
  Event : ContractEvent
  WithdrawalHash : Hash32 := 0
  GasLimit : Option Int := none
  Nonce : Option Int := none
  ETHAmount : Option Int := none
  ERC20Amount : Option Int := none
deriving DecidableEq, Repr

/-- What `L2ProcessInitiatedBridgeEvents` takes from code outside the function: the three
withdraw event signatures of package `predeploys` (not among the sources) and the readers of
the persisted L2 contract events over a height range. -/
structure L2Contracts where
  ETHWithdrawEventSignature : Hash32
  MNTWithdrawEventSignature : Hash32
  ERC20WithdrawEventSignature : Hash32
  L2ToL1MessagePasserMessagePassedEvents :
    Int → Int → Except Err (List L2ToL1MessagePasserMessagePassed)
  CrossDomainMessengerSentMessageEvents :
    Int → Int → Except Err (List CrossDomainMessengerSentMessageEvent)
  StandardBridgeInitiatedEvents : Int → Int → Except Err (List StandardBridgeInitiatedEvent)

/-- The withdraw event signature of an asset kind. -/
def L2Contracts.eventSignature (c : L2Contracts) : BridgeEventType → Hash32
  | .ETHBridgeInitiated => c.ETHWithdrawEventSignature
  | .ERC20BridgeInitiated => c.ERC20WithdrawEventSignature
  | .MNTBridgeInitiated => c.MNTWithdrawEventSignature

/-- `l2ToL1DB.StoreL2ToL1Transactions`: `CreateInBatches` appends the rows. -/
def StoreL2ToL1Transactions (l1L2List : List L2ToL1) (table : List L2ToL1) : List L2ToL1 :=
  table ++ l1L2List

/-- `l2ToL1DB.UpdateL2ToL1InfoByTxHash`; a record that is not found ends the loop
(`return nil`). The entry's `L1BlockNumber` is assigned as it is, nil included. -/
def UpdateL2ToL1InfoByTxHash : List L2ToL1 → List L2ToL1 → List L2ToL1
  | [], table => table
  | u :: us, table =>
    match updateFirst (structWhere (fun r : L2ToL1 => r.L2TransactionHash) u.L2TransactionHash)
        (fun l2ToL1 => { l2ToL1 with
          L1BlockNumber := u.L1BlockNumber
          FromAddress := u.FromAddress
          ToAddress := u.ToAddress
          ETHAmount := u.ETHAmount
          ERC20Amount := u.ERC20Amount
          L1TokenAddress := u.L1TokenAddress
          L2TokenAddress := u.L2TokenAddress }) table with
    | none => table
    | some table1 => UpdateL2ToL1InfoByTxHash us table1

/-- The map `messagesPassed` after the first loop of `L2ProcessInitiatedBridgeEvents`. -/
def messagesPassedOf (l2ToL1MPMessagesPassed : List L2ToL1MessagePasserMessagePassed) :
    LogMap L2ToL1MessagePasserMessagePassed :=
  l2ToL1MPMessagesPassed.foldl
    (fun m messagePassed =>
      m.insert (messagePassed.Event.BlockHash, messagePassed.Event.LogIndex) messagePassed) []

/-- The row `l2ToL1s[i]` built from a MessagePassed event in the first loop. -/
def withdrawalRow (headers : List BlockHeader) (messagePassed : L2ToL1MessagePasserMessagePassed) :
    L2ToL1 :=
  { L1BlockNumber := some 0
    L2BlockNumber := GetBlockNumberFromHash headers messagePassed.Event.BlockHash
    MsgNonce := messagePassed.Nonce
    L2TransactionHash := messagePassed.Event.TransactionHash
    WithdrawTransactionHash := messagePassed.WithdrawalHash
    L1ProveTxHash := 0
    L1FinalizeTxHash := 0
    Status := L2ToL1Pending
    ETHAmount := messagePassed.ETHAmount
    ERC20Amount := messagePassed.ERC20Amount
    GasLimit := messagePassed.GasLimit
    TimeLeft := 0
    L1TokenAddress := 0
    L2TokenAddress := 0
    Version := 1
    Timestamp := messagePassed.Event.Timestamp }

/-- The entry `l2ToL1Cds[i]` built from a sent message in the second loop. -/
def sentMessageWithdrawalUpdate (sentMessage : CrossDomainMessengerSentMessageEvent) : L2ToL1 :=
  { L2TransactionHash := sentMessage.Event.TransactionHash
    FromAddress := sentMessage.FromAddress
    ToAddress := sentMessage.ToAddress
    ERC20Amount := sentMessage.ERC20Amount
    ETHAmount := sentMessage.ETHAmount
    MessageHash := sentMessage.MessageHash
    GasLimit := sentMessage.GasLimit
    Version := sentMessage.Version }

/-- The two lookups and the assignments shared by the three branches of the third loop of
`L2ProcessInitiatedBridgeEvents`, for the offsets of one branch. The result is the entry
`l2ToL1s2[i]` and the loop's local `initiatedBridge` after `CrossDomainMessageHash` was set. -/
def correlateWithdrawalAt (messagesPassed : LogMap L2ToL1MessagePasserMessagePassed)
    (sentMessages : LogMap CrossDomainMessengerSentMessageEvent)
    (passedOffset sentOffset : Nat) (initiatedBridge : StandardBridgeInitiatedEvent) :
    Except Err (L2ToL1 × StandardBridgeInitiatedEvent) :=
  match messagesPassed.lookup
      (initiatedBridge.Event.BlockHash, initiatedBridge.Event.LogIndex + passedOffset) with
  | none =>
    .error ("expected MessagePassed following BridgeInitiated event. tx_hash = "
      ++ toString initiatedBridge.Event.TransactionHash)
  | some messagePassed =>
    match sentMessages.lookup
        (initiatedBridge.Event.BlockHash, initiatedBridge.Event.LogIndex + sentOffset) with
    | none =>
      .error ("expected SentMessage following MessagePassed event. tx_hash = "
        ++ toString initiatedBridge.Event.TransactionHash)
    | some sentMessage =>
      .ok ({ WithdrawTransactionHash := messagePassed.WithdrawalHash
             L2TransactionHash := initiatedBridge.Event.TransactionHash
             FromAddress := initiatedBridge.FromAddress
             ToAddress := initiatedBridge.ToAddress
             ETHAmount := initiatedBridge.ETHAmount
             ERC20Amount := initiatedBridge.ERC20Amount
             L1TokenAddress := initiatedBridge.LocalTokenAddress
             L2TokenAddress := initiatedBridge.RemoteTokenAddress },
           { initiatedBridge with CrossDomainMessageHash := some sentMessage.MessageHash })

/-- One iteration of the third loop of `L2ProcessInitiatedBridgeEvents` (lines 113-182). -/
def correlateInitiatedWithdrawal (c : L2Contracts)
    (messagesPassed : LogMap L2ToL1MessagePasserMessagePassed)
    (sentMessages : LogMap CrossDomainMessengerSentMessageEvent)
    (initiatedBridge : StandardBridgeInitiatedEvent) :
    Except Err (L2ToL1 × StandardBridgeInitiatedEvent) :=
  if initiatedBridge.Event.EventSignature = c.ETHWithdrawEventSignature then
    correlateWithdrawalAt messagesPassed sentMessages 5 6 initiatedBridge
  else if initiatedBridge.Event.EventSignature = c.MNTWithdrawEventSignature then
    correlateWithdrawalAt messagesPassed sentMessages 1 2 initiatedBridge
  else if initiatedBridge.Event.EventSignature = c.ERC20WithdrawEventSignature then
    correlateWithdrawalAt messagesPassed sentMessages 1 2 initiatedBridge
  else
    .ok ({}, initiatedBridge)

/-- The third loop: it stops at the first correlation error. -/
def correlateInitiatedWithdrawals (c : L2Contracts)
    (messagesPassed : LogMap L2ToL1MessagePasserMessagePassed)
    (sentMessages : LogMap CrossDomainMessengerSentMessageEvent) :
    List StandardBridgeInitiatedEvent → Except Err (List (L2ToL1 × StandardBridgeInitiatedEvent))
  | [] => .ok []
  | initiatedBridge :: rest =>
    match correlateInitiatedWithdrawal c messagesPassed sentMessages initiatedBridge with
    | .error e => .error e
    | .ok r =>
      match correlateInitiatedWithdrawals c messagesPassed sentMessages rest with
      | .error e => .error e
      | .ok rs => .ok (r :: rs)

/-- What a run of `L2ProcessInitiatedBridgeEvents` that returns nil leaves behind: the store
and the list `l2ToL1s2` handed to `UpdateL2ToL1InfoByTxHash`. -/
structure InitiatedWithdrawalRun where
  db : DB
  l2ToL1s2 : List L2ToL1

/-- The body of `L2ProcessInitiatedBridgeEvents` (the metrics calls are left out). -/
def L2ProcessInitiatedBridgeEventsRun (c : L2Contracts) (db : DB) (fromHeight toHeight : Int) :
    Except Err InitiatedWithdrawalRun :=
  -- (1) L2ToL1MessagePasser
  match c.L2ToL1MessagePasserMessagePassedEvents fromHeight toHeight with
  | .error e => .error e
  | .ok l2ToL1MPMessagesPassed =>
    let messagesPassed := messagesPassedOf l2ToL1MPMessagesPassed
    let l2ToL1s := l2ToL1MPMessagesPassed.map (withdrawalRow db.l2BlockHeaders)
    let table1 :=
      if messagesPassed.length > 0 then StoreL2ToL1Transactions l2ToL1s db.l2ToL1 else db.l2ToL1
    -- (2) L2CrossDomainMessenger
    match c.CrossDomainMessengerSentMessageEvents fromHeight toHeight with
    | .error e => .error e
    | .ok crossDomainSentMessages =>
      let sentMessages := sentMessagesOf crossDomainSentMessages
      let l2ToL1Cds := crossDomainSentMessages.map sentMessageWithdrawalUpdate
      let table2 :=
        if crossDomainSentMessages.length > 0 then UpdateL2ToL1InfoByTxHash l2ToL1Cds table1
        else table1
      -- (3) L2StandardBridge
      match c.StandardBridgeInitiatedEvents fromHeight toHeight with
      | .error e => .error e
      | .ok initiatedBridges =>
        match correlateInitiatedWithdrawals c messagesPassed sentMessages initiatedBridges with
        | .error e => .error e
        | .ok correlated =>
          let l2ToL1s2 := correlated.map (fun r => r.1)
          let table3 :=
            if l2ToL1s2.length > 0 then UpdateL2ToL1InfoByTxHash l2ToL1s2 table2 else table2
          .ok ⟨{ db with l2ToL1 := table3 }, l2ToL1s2⟩

/-- `bridge.L2ProcessInitiatedBridgeEvents` as a range processor. -/
def L2ProcessInitiatedBridgeEvents (c : L2Contracts) : RangeProcessor :=
  fun db fromHeight toHeight =>
    match L2ProcessInitiatedBridgeEventsRun c db fromHeight toHeight with
    | .error e => .error e
    | .ok run => .ok run.db

/-- The MessagePassed log at `(9, 25)` with withdrawal hash `880`. -/
def exampleMessagePassed : L2ToL1MessagePasserMessagePassed :=
  { Event := ⟨9, 25, 700, 12, 0⟩, WithdrawalHash := 880, ETHAmount := some 4 }

/-- The SentMessage log at `(9, 26)` with message hash `79`. -/
def exampleL2SentMessage : CrossDomainMessengerSentMessageEvent :=
  { Event := ⟨9, 26, 700, 8, 0⟩, MessageHash := 79, Version := 1 }

/-- The bridge-initiated log of an ETH withdrawal at `(9, 20)` of transaction `700`. -/
def exampleETHWithdrawal : StandardBridgeInitiatedEvent :=
  { Event := ⟨9, 20, 700, 1, 0⟩, LocalTokenAddress := 40, RemoteTokenAddress := 40
    FromAddress := 30, ToAddress := 31, ETHAmount := some 4, ERC20Amount := some 0 }

/-- An L2 range whose persisted events are: the ETH withdrawal at `(9, 20)`, the MessagePassed
log at `(9, 25)` and the given SentMessage logs. The withdraw event signatures are 1 (ETH),
2 (MNT) and 3 (ERC-20). -/
def exampleL2Range (sent : List CrossDomainMessengerSentMessageEvent) : L2Contracts :=
  { ETHWithdrawEventSignature := 1
    MNTWithdrawEventSignature := 2
    ERC20WithdrawEventSignature := 3
    L2ToL1MessagePasserMessagePassedEvents := fun _ _ => .ok [exampleMessagePassed]
    CrossDomainMessengerSentMessageEvents := fun _ _ => .ok sent
    StandardBridgeInitiatedEvents := fun _ _ => .ok [exampleETHWithdrawal] }

/-! ## The legacy L1 bridge processor (`legacy_standard_bridge.go`, `legacy_bridge_processor.go`) -/

instance {ε α : Type} [DecidableEq ε] [DecidableEq α] : DecidableEq (Except ε α)
  | .ok a, .ok b => if h : a = b then isTrue (congrArg Except.ok h)
    else isFalse (fun e => h (Except.ok.inj e))
  | .error a, .error b => if h : a = b then isTrue (congrArg Except.error h)
    else isFalse (fun e => h (Except.error.inj e))
  | .ok _, .error _ => isFalse (fun e => Except.noConfusion e)
  | .error _, .ok _ => isFalse (fun e => Except.noConfusion e)

/-- The assignment `s[i] = v` to a slice element; `none` is the panic "index out of range". -/
def setIndex {α : Type} : List α → Nat → α → Option (List α)
  | [], _, _ => none
  | _ :: xs, 0, v => some (v :: xs)
  | x :: xs, i + 1, v => (setIndex xs i v).map (fun t => x :: t)

/-- `a - b` on `uint64` (the type of a log index). -/
def uint64Sub (a b : Nat) : Nat := (a % 2 ^ 64 + 2 ^ 64 - b % 2 ^ 64) % 2 ^ 64

/-- `contracts.LegacyCTCDepositEvent` with the fields read here; `LegacyCTCDepositEvents` sets
both amounts to `bigint.Zero` and `Event` to a non-nil pointer. -/
structure LegacyCTCDepositEvent where
  Event : ContractEvent
  FromAddress : Addr := 0
  ETHAmount : Option Int := some 0
  ERC20Amount : Option Int := some 0
  GasLimit : Option Int := none
deriving DecidableEq, Repr

/-- The three legacy deposit events of the L1StandardBridge ABI. -/
inductive LegacyDepositKind where
  | ETHDepositInitiated
  | ERC20DepositInitiated
  | MNTDepositInitiated
deriving DecidableEq, Repr

/-- What `UnpackLog` fills into a `bindings2.L1StandardBridge*DepositInitiated`. -/
structure UnpackedLegacyDeposit where
  From : Addr
  To : Addr
  Amount : Option Int
  L1Token : Addr := 0
  L2Token : Addr := 0
deriving DecidableEq, Repr

/-- `contracts.LegacyBridgeEvent` (without `Data`); `Event` is a pointer, nil in the zero
value of a slice element that was never assigned. -/
structure LegacyBridgeEvent where
  Event : Option ContractEvent := none
  CrossDomainMessageHash : Option Hash32 := none
  FromAddress : Addr := 0
  ToAddress : Addr := 0
  ETHAmount : Option Int := none
  ERC20Amount : Option Int := none
  LocalTokenAddress : Addr := 0
  RemoteTokenAddress : Addr := 0
  Timestamp : Nat := 0
deriving DecidableEq, Repr

/-- What the legacy L1 functions take from code outside them: the ids of the three legacy
deposit events, the predeploy address `LegacyERC20ETHAddr`, the readers of the persisted
contract events over a height range, and the log decoder (called with the type it decodes into
and the event name it is given). -/
structure LegacyL1Contracts where
  ETHDepositInitiatedID : Hash32
  ERC20DepositInitiatedID : Hash32
  MNTDepositInitiatedID : Hash32
  LegacyERC20ETHAddr : Addr
  LegacyCTCDepositEvents : Int → Int → Except Err (List LegacyCTCDepositEvent)
  CrossDomainMessengerSentMessageEvents :
    Int → Int → Except Err (List CrossDomainMessengerSentMessageEvent)
  L1ContractEventsWithFilter : Hash32 → Int → Int → Except Err (List ContractEvent)
  UnpackLog : LegacyDepositKind → LegacyDepositKind → ContractEvent →
    Except Err UnpackedLegacyDeposit

/-- One of the three loops of `L1StandardBridgeLegacyDepositInitiatedEvents` from its index
`i` on: each event is decoded (an error is returned), the entry is built (`build` gives `none`
when building it panics) and assigned to `deposits[index i]`. `none` is a panic. -/
def legacyDepositLoop (unpack : ContractEvent → Except Err UnpackedLegacyDeposit)
    (build : Nat → ContractEvent → UnpackedLegacyDeposit → Option LegacyBridgeEvent)
    (index : Nat → Nat) :
    List ContractEvent → Nat → List LegacyBridgeEvent →
      Option (Except Err (List LegacyBridgeEvent))
  | [], _, deposits => some (.ok deposits)
  | ev :: rest, i, deposits =>
    match unpack ev with
    | .error err => some (.error err)
    | .ok bridgeEvent =>
      match build i ev bridgeEvent with
      | none => none
      | some entry =>
        match setIndex deposits (index i) entry with
        | none => none
        | some deposits1 => legacyDepositLoop unpack build index rest (i + 1) deposits1

/-- `contracts.L1StandardBridgeLegacyDepositInitiatedEvents`; `none` is a panic. The third
loop decodes with the ERC-20 event name, assigns to `deposits[len(mntDepositEvents)+i]` and
reads the timestamp of `erc20DepositEvents[i]`, as the source does. -/
def L1StandardBridgeLegacyDepositInitiatedEvents (c : LegacyL1Contracts)
    (fromHeight toHeight : Int) : Option (Except Err (List LegacyBridgeEvent)) :=
  match c.L1ContractEventsWithFilter c.ETHDepositInitiatedID fromHeight toHeight with
  | .error err => some (.error err)
  | .ok ethDepositEvents =>
    match c.L1ContractEventsWithFilter c.ERC20DepositInitiatedID fromHeight toHeight with
    | .error err => some (.error err)
    | .ok erc20DepositEvents =>
      match c.L1ContractEventsWithFilter c.MNTDepositInitiatedID fromHeight toHeight with
      | .error err => some (.error err)
      | .ok mntDepositEvents =>
        let deposits : List LegacyBridgeEvent :=
          List.replicate
            (ethDepositEvents.length + erc20DepositEvents.length + mntDepositEvents.length) {}
        match legacyDepositLoop (c.UnpackLog .ETHDepositInitiated .ETHDepositInitiated)
            (fun _ ev bridgeEvent => some
              { Event := some ev
                LocalTokenAddress := c.LegacyERC20ETHAddr
                RemoteTokenAddress := c.LegacyERC20ETHAddr
                FromAddress := bridgeEvent.From
                ToAddress := bridgeEvent.To
                ETHAmount := bridgeEvent.Amount
                Timestamp := ev.Timestamp })
            (fun i => i) ethDepositEvents 0 deposits with
        | none => none
        | some (.error err) => some (.error err)
        | some (.ok deposits1) =>
          match legacyDepositLoop (c.UnpackLog .ERC20DepositInitiated .ERC20DepositInitiated)
              (fun _ ev bridgeEvent => some
                { Event := some ev
                  LocalTokenAddress := bridgeEvent.L1Token
                  RemoteTokenAddress := bridgeEvent.L2Token
                  FromAddress := bridgeEvent.From
                  ToAddress := bridgeEvent.To
                  ETHAmount := bridgeEvent.Amount
                  Timestamp := ev.Timestamp })
              (fun i => ethDepositEvents.length + i) erc20DepositEvents 0 deposits1 with
          | none => none
          | some (.error err) => some (.error err)
          | some (.ok deposits2) =>
            legacyDepositLoop (c.UnpackLog .MNTDepositInitiated .ERC20DepositInitiated)
              (fun i ev bridgeEvent =>
                match erc20DepositEvents[i]? with
                | none => none
                | some erc20DepositEvent => some
                  { Event := some ev
                    LocalTokenAddress := c.LegacyERC20ETHAddr
                    RemoteTokenAddress := c.LegacyERC20ETHAddr
                    FromAddress := bridgeEvent.From
                    ToAddress := bridgeEvent.To
                    ETHAmount := bridgeEvent.Amount
                    Timestamp := erc20DepositEvent.Timestamp })
              (fun i => mntDepositEvents.length + i) mntDepositEvents 0 deposits2

/-- The row `l1ToL2s[i]` built from a TransactionEnqueued event in the first loop of
`LegacyL1ProcessInitiatedBridgeEvents`. -/
def legacyDepositRow (headers : List BlockHeader) (depositTx : LegacyCTCDepositEvent) : L1ToL2 :=
  { L1BlockNumber := GetBlockNumberFromHash headers depositTx.Event.BlockHash
    QueueIndex := none
    L1TransactionHash := depositTx.Event.TransactionHash
    L2TransactionHash := 0
    MessageHash := 0
    L1TxOrigin := depositTx.FromAddress
    Status := 0
    L1TokenAddress := 0
    L2TokenAddress := 0
    ETHAmount := depositTx.ETHAmount
    ERC20Amount := depositTx.ERC20Amount
    GasLimit := depositTx.GasLimit
    Timestamp := depositTx.Event.Timestamp }

/-- The first loop of `LegacyL1ProcessInitiatedBridgeEvents` from its index `i` on: the
addition to `mintedWEI` (a panic on a nil amount) and the assignment `l1ToL2s[i] = ...`.
`none` is a panic. -/
def legacyDepositRows (headers : List BlockHeader) :
    List LegacyCTCDepositEvent → Nat → List L1ToL2 → Option (List L1ToL2)
  | [], _, l1ToL2s => some l1ToL2s
  | depositTx :: rest, i, l1ToL2s =>
    match depositTx.ETHAmount with
    | none => none
    | some _ =>
      match setIndex l1ToL2s i (legacyDepositRow headers depositTx) with
      | none => none
      | some l1ToL2s1 => legacyDepositRows headers rest (i + 1) l1ToL2s1

/-- The entry `l1ToL2c2[i]` built from a sent message in the second loop of
`LegacyL1ProcessInitiatedBridgeEvents`. -/
def legacySentMessageUpdate (sentMessage : CrossDomainMessengerSentMessageEvent) : L1ToL2 :=
  { L1TransactionHash := sentMessage.Event.TransactionHash
    MessageHash := sentMessage.MessageHash }

/-- One iteration of the third loop of `LegacyL1ProcessInitiatedBridgeEvents` (lines
100-122): the entry `l1ToL2s2[i]`, a correlation error, or a panic (`none`) on an entry whose
`Event` is nil. -/
def correlateLegacyDeposit (ctcTxDeposits : LogMap LegacyCTCDepositEvent)
    (sentMessages : LogMap CrossDomainMessengerSentMessageEvent)
    (initiatedBridge : LegacyBridgeEvent) : Option (Except Err L1ToL2) :=
  match initiatedBridge.Event with
  | none => none
  | some event =>
    match sentMessages.lookup (event.BlockHash, uint64Sub event.LogIndex 1) with
    | none =>
      some (.error ("expected SentMessage preceding DepositInitiated event. tx_hash = "
        ++ toString event.TransactionHash))
    | some _ =>
      match ctcTxDeposits.lookup (event.BlockHash, uint64Sub event.LogIndex 2) with
      | none =>
        some (.error ("expected TransactionEnqueued preceding DepostInitiated event. tx_hash = "
          ++ toString event.TransactionHash))
      | some ctcTxDeposit =>
        some (.ok { L1TransactionHash := ctcTxDeposit.Event.TransactionHash
                    FromAddress := initiatedBridge.FromAddress
                    ToAddress := initiatedBridge.ToAddress
                    L1TokenAddress := initiatedBridge.LocalTokenAddress
                    L2TokenAddress := initiatedBridge.RemoteTokenAddress
                    ERC20Amount := initiatedBridge.ERC20Amount })

/-- The third loop: it stops at the first panic or correlation error. -/
def correlateLegacyDeposits (ctcTxDeposits : LogMap LegacyCTCDepositEvent)
    (sentMessages : LogMap CrossDomainMessengerSentMessageEvent) :
    List LegacyBridgeEvent → Option (Except Err (List L1ToL2))
  | [] => some (.ok [])
  | initiatedBridge :: rest =>
    match correlateLegacyDeposit ctcTxDeposits sentMessages initiatedBridge with
    | none => none
    | some (.error err) => some (.error err)
    | some (.ok entry) =>
      match correlateLegacyDeposits ctcTxDeposits sentMessages rest with
      | none => none
      | some (.error err) => some (.error err)
      | some (.ok entries) => some (.ok (entry :: entries))

/-- What a run of `LegacyL1ProcessInitiatedBridgeEvents` that returns nil leaves behind: the
store, the slice `l1ToL2s` of deposit records, and the list `l1ToL2s2` of updates. -/
structure LegacyInitiatedRun where
  db : DB
  l1ToL2s : List L1ToL2
  l1ToL2s2 : List L1ToL2
deriving DecidableEq, Repr

/-- The body of `LegacyL1ProcessInitiatedBridgeEvents` (the metrics calls are left out);
`none` is a panic. As in the source, the map `ctcTxDeposits` is made and never written to, and
the slice `l1ToL2s` is made with the length of that map. -/
def LegacyL1ProcessInitiatedBridgeEventsRun (c : LegacyL1Contracts) (db : DB)
    (fromHeight toHeight : Int) : Option (Except Err LegacyInitiatedRun) :=
  -- (1) CanonicalTransactionChain
  match c.LegacyCTCDepositEvents fromHeight toHeight with
  | .error err => some (.error err)
  | .ok ctcTxDepositEvents =>
    let ctcTxDeposits : LogMap LegacyCTCDepositEvent := []
    match legacyDepositRows db.l1BlockHeaders ctcTxDepositEvents 0
        (List.replicate ctcTxDeposits.length {}) with
    | none => none
    | some l1ToL2s =>
      let table1 :=
        if ctcTxDepositEvents.length > 0 then StoreL1ToL2Transactions l1ToL2s db.l1ToL2
        else db.l1ToL2
      -- (2) L1CrossDomainMessenger
      match c.CrossDomainMessengerSentMessageEvents fromHeight toHeight with
      | .error err => some (.error err)
      | .ok crossDomainSentMessages =>
        let sentMessages := sentMessagesOf crossDomainSentMessages
        let l1ToL2c2 := crossDomainSentMessages.map legacySentMessageUpdate
        let table2 :=
          if crossDomainSentMessages.length > 0 then UpdateMessageHashByTxHash l1ToL2c2 table1
          else table1
        -- (3) L1StandardBridge
        match L1StandardBridgeLegacyDepositInitiatedEvents c fromHeight toHeight with
        | none => none
        | some (.error err) => some (.error err)
        | some (.ok initiatedBridges) =>
          match correlateLegacyDeposits ctcTxDeposits sentMessages initiatedBridges with
          | none => none
          | some (.error err) => some (.error err)
          | some (.ok l1ToL2s2) =>
            let table3 :=
              if initiatedBridges.length > 0 then UpdateL1ToL2InfoByTxHash l1ToL2s2 table2
              else table2
            some (.ok ⟨{ db with l1ToL2 := table3 }, l1ToL2s, l1ToL2s2⟩)

/-- `bridge.LegacyL1ProcessInitiatedBridgeEvents`: the returned error (`.ok` for nil) and the
store; `none` is a panic. -/
def LegacyL1ProcessInitiatedBridgeEvents (c : LegacyL1Contracts) (db : DB)
    (fromHeight toHeight : Int) : Option (Except Err DB) :=
  match LegacyL1ProcessInitiatedBridgeEventsRun c db fromHeight toHeight with
  | none => none
  | some (.error err) => some (.error err)
  | some (.ok run) => some (.ok run.db)

/-- The legacy logs of one deposit of transaction `900` in block 7: TransactionEnqueued at
index 8, SentMessage at index 9, ETHDepositInitiated at index 10. -/
def exampleEnqueued : LegacyCTCDepositEvent :=
  { Event := ⟨7, 8, 900, 15, 0⟩, FromAddress := 20 }

/-- The SentMessage log at `(7, 9)` of the legacy deposit. -/
def exampleLegacySentMessage : CrossDomainMessengerSentMessageEvent :=
  { Event := ⟨7, 9, 900, 8, 0⟩, MessageHash := 80 }

/-- A legacy range with the given TransactionEnqueued and SentMessage events and the given
ETH, ERC-20 and MNT deposit-initiated logs; the event ids are 11 (ETH), 12 (ERC-20) and 13
(MNT), and every log decodes to a deposit from 20 to 21 of amount 5. -/
def exampleLegacyRange (enqueued : List LegacyCTCDepositEvent)
    (sent : List CrossDomainMessengerSentMessageEvent)
    (eth erc20 mnt : List ContractEvent) : LegacyL1Contracts :=
  { ETHDepositInitiatedID := 11
    ERC20DepositInitiatedID := 12
    MNTDepositInitiatedID := 13
    LegacyERC20ETHAddr := 42
    LegacyCTCDepositEvents := fun _ _ => .ok enqueued
    CrossDomainMessengerSentMessageEvents := fun _ _ => .ok sent
    L1ContractEventsWithFilter := fun sig _ _ =>
      if sig = 11 then .ok eth else if sig = 12 then .ok erc20
      else if sig = 13 then .ok mnt else .ok []
    UnpackLog := fun _ _ _ => .ok { From := 20, To := 21, Amount := some 5, L1Token := 50, L2Token := 51 } }

/-- The ETHDepositInitiated log at `(7, 10)` of the legacy deposit. -/
def exampleLegacyDepositLog : ContractEvent := ⟨7, 10, 900, 11, 3⟩

/-- The legacy range holding the three logs of one ETH deposit. -/
def exampleLegacyDepositRange : LegacyL1Contracts :=
  exampleLegacyRange [exampleEnqueued] [exampleLegacySentMessage] [exampleLegacyDepositLog] [] []

/-- The bridge event `L1StandardBridgeLegacyDepositInitiatedEvents` builds from
`exampleLegacyDepositLog`. -/
def exampleLegacyDeposit : LegacyBridgeEvent :=
  { Event := some exampleLegacyDepositLog, LocalTokenAddress := 42, RemoteTokenAddress := 42
    FromAddress := 20, ToAddress := 21, ETHAmount := some 5, Timestamp := 3 }

/-- An ERC20DepositInitiated log at `(7, 20)` with timestamp 4. -/
def exampleLegacyERC20Log : ContractEvent := ⟨7, 20, 901, 12, 4⟩

/-- An MNTDepositInitiated log at `(7, 30)` with timestamp 5. -/
def exampleLegacyMNTLog : ContractEvent := ⟨7, 30, 902, 13, 5⟩

/-! ## The status of state roots (`stateroot.go`, `run.go`) -/

/-- SQL `l1_block_number < n`: false on NULL. -/
def l1BlockNumberLt (r : StateRoot) (n : Nat) : Bool :=
  match r.L1BlockNumber with
  | some b => decide (b < (n : Int))
  | none => false

/-- `stateRootDB.UpdateSafeStatus`:
`UPDATE state_root SET status = 1 WHERE l1_block_number < safeBlockNumber.Uint64() AND status = 0`. -/
def UpdateSafeStatus (safeBlockNumber : Int) (table : List StateRoot) : List StateRoot :=
  table.map (fun r =>
    if l1BlockNumberLt r (Uint64 safeBlockNumber) && decide (r.Status = 0) then
      { r with Status := 1 }
    else r)

/-- `stateRootDB.UpdateFinalizedStatus`:
`UPDATE state_root SET status = 2 WHERE l1_block_number < finalizedBlockNumber.Uint64()`. -/
def UpdateFinalizedStatus (finalizedBlockNumber : Int) (table : List StateRoot) :
    List StateRoot :=
  table.map (fun r =>
    if l1BlockNumberLt r (Uint64 finalizedBlockNumber) then { r with Status := 2 } else r)

/-- `BusinessProcessor.syncStateRootStatus`; the two arguments are the answers of
`l1Client.LatestSafeBlockHeader()` and `l1Client.LatestFinalizedBlockHeader()`. -/
def BusinessProcessor.syncStateRootStatus (_bp : BusinessProcessor)
    (LatestSafeBlockHeader LatestFinalizedBlockHeader : Except Err Header) (db : DB) :
    DB × Option Err :=
  match LatestSafeBlockHeader with
  | .error err => (db, some err)
  | .ok latestSafeBlockHeader =>
    match LatestFinalizedBlockHeader with
    | .error err => (db, some err)
    | .ok latestFinalizedBlockHeader =>
      let table1 := UpdateSafeStatus latestSafeBlockHeader.Number db.stateRoot
      let table2 := UpdateFinalizedStatus latestFinalizedBlockHeader.Number table1
      ({ db with stateRoot := table2 }, none)

/-- The two operations that write the status of a state root. -/
inductive StateRootOp where
  | UpdateSafeStatus (safeBlockNumber : Int)
  | UpdateFinalizedStatus (finalizedBlockNumber : Int)
deriving DecidableEq, Repr

/-- One step of the table under an operation. -/
def StateRootOp.apply : StateRootOp → List StateRoot → List StateRoot
  | .UpdateSafeStatus s, t => Lithosphere.UpdateSafeStatus s t
  | .UpdateFinalizedStatus f, t => Lithosphere.UpdateFinalizedStatus f t

/-- The table after a sequence of operations, applied in order. -/
def StateRootOp.applyAll (ops : List StateRootOp) (table : List StateRoot) : List StateRoot :=
  ops.foldl (fun t op => op.apply t) table

/-- Three state roots at L1 blocks 10, 20 and 30 with status Unconfirmed, Safe and
Unconfirmed. -/
def exampleStateRoots : List StateRoot :=
  [{ L1BlockNumber := some 10, OutputIndex := some 1 },
   { L1BlockNumber := some 20, OutputIndex := some 2, Status := 1 },
   { L1BlockNumber := some 30, OutputIndex := some 3 }]

/-! ## `L1ProcessFinalizedBridgeEvents` -/

/-- `contracts.OptimismPortalWithdrawalFinalizedEvent` with the fields read here. -/
structure OptimismPortalWithdrawalFinalizedEvent where
  Event : ContractEvent
  WithdrawalHash : Hash32 := 0
deriving DecidableEq, Repr

/-- `contracts.CrossDomainMessengerRelayedMessageEvent` with the fields read here. -/
structure CrossDomainMessengerRelayedMessageEvent where
  Event : ContractEvent
  MessageHash : Hash32 := 0
deriving DecidableEq, Repr

/-- `contracts.StandardBridgeFinalizedEvent` (without `Data`). -/
structure StandardBridgeFinalizedEvent where
  Event : ContractEvent
  FromAddress : Addr := 0
  ToAddress : Addr := 0
  ETHAmount : Option Int := none
  ERC20Amount : Option Int := none
  LocalTokenAddress : Addr := 0
  RemoteTokenAddress : Addr := 0
deriving DecidableEq, Repr

/-- The readers of the persisted contract events that `L1ProcessFinalizedBridgeEvents` calls,
over a height range. -/
structure L1FinalizedContracts where
  OptimismPortalWithdrawalFinalizedEvents :
    Int → Int → Except Err (List OptimismPortalWithdrawalFinalizedEvent)
  CrossDomainMessengerRelayedMessageEvents :
    Int → Int → Except Err (List CrossDomainMessengerRelayedMessageEvent)
  StandardBridgeFinalizedEvents : Int → Int → Except Err (List StandardBridgeFinalizedEvent)

/-- `withdrawFinalizedDB.StoreWithdrawFinalized`: `CreateInBatches` appends the rows. -/
def StoreWithdrawFinalized (withdrawFinalizedList table : List WithdrawFinalized) :
    List WithdrawFinalized :=
  table ++ withdrawFinalizedList

/-- `withdrawFinalizedDB.UpdateWithdrawFinalizedInfo`; a record that is not found ends the
loop (`return nil`). -/
def UpdateWithdrawFinalizedInfo :
    List WithdrawFinalized → List WithdrawFinalized → List WithdrawFinalized
  | [], table => table
  | u :: us, table =>
    match updateFirst (structWhere (fun r : WithdrawFinalized => r.WithdrawHash) u.WithdrawHash)
        (fun withdrawFinalizeds => { withdrawFinalizeds with
          L1TokenAddress := u.L1TokenAddress
          L2TokenAddress := u.L2TokenAddress
          ETHAmount := u.ETHAmount
          ERC20Amount := u.ERC20Amount
          MessageHash := u.MessageHash }) table with
    | none => table
    | some table1 => UpdateWithdrawFinalizedInfo us table1

/-- The row `withdrawFinalizedList[i]` built from a WithdrawalFinalized event. -/
def withdrawFinalizedRow (headers : List BlockHeader)
    (finalized : OptimismPortalWithdrawalFinalizedEvent) : WithdrawFinalized :=
  { WithdrawHash := finalized.WithdrawalHash
    FinalizedTransactionHash := finalized.Event.TransactionHash
    Related := false
    BlockNumber :=
      match GetBlockNumberFromHash headers finalized.Event.BlockHash with
      | some finalizedBlockNumber => some finalizedBlockNumber
      | none => some 1
    MessageHash := 0
    L1TokenAddress := 0
    L2TokenAddress := 0
    ETHAmount := some 0
    ERC20Amount := some 0
    Timestamp := finalized.Event.Timestamp }

/-- The map `relayedMessages`. -/
def relayedMessagesOf (crossDomainRelayedMessages : List CrossDomainMessengerRelayedMessageEvent) :
    LogMap CrossDomainMessengerRelayedMessageEvent :=
  crossDomainRelayedMessages.foldl
    (fun m relayed => m.insert (relayed.Event.BlockHash, relayed.Event.LogIndex) relayed) []

/-- The loop over `finalizedBridges` (lines 283-296) from its index `i` on, with the slice
`withdrawFinalizedBridgeList` as it is then: the slice after the loop, the correlation error,
or a panic (`none`) when `withdrawFinalizedBridgeList[i]` is out of range. -/
def finalizedBridgeLoop (relayedMessages : LogMap CrossDomainMessengerRelayedMessageEvent) :
    List StandardBridgeFinalizedEvent → Nat → List WithdrawFinalized →
      Option (Except Err (List WithdrawFinalized))
  | [], _, withdrawFinalizedBridgeList => some (.ok withdrawFinalizedBridgeList)
  | finalizedBridge :: rest, i, withdrawFinalizedBridgeList =>
    match relayedMessages.lookup
        (finalizedBridge.Event.BlockHash, finalizedBridge.Event.LogIndex + 1) with
    | none =>
      some (.error ("expected RelayedMessage following BridgeFinalized event. tx_hash = "
        ++ toString finalizedBridge.Event.TransactionHash))
    | some relayedMessage =>
      match withdrawFinalizedBridgeList[i]? with
      | none => none
      | some slot =>
        match setIndex withdrawFinalizedBridgeList i
            { slot with
              L1TokenAddress := finalizedBridge.LocalTokenAddress
              L2TokenAddress := finalizedBridge.RemoteTokenAddress
              ETHAmount := finalizedBridge.ETHAmount
              ERC20Amount := finalizedBridge.ERC20Amount
              MessageHash := relayedMessage.MessageHash } with
        | none => none
        | some list1 => finalizedBridgeLoop relayedMessages rest (i + 1) list1

/-- `f` applied `n` times. -/
def iterate {α : Type} (f : α → α) : Nat → α → α
  | 0, a => a
  | n + 1, a => iterate f n (f a)

/-- `bridge.L1ProcessFinalizedBridgeEvents` (the metrics calls are left out); `none` is a
panic. The last loop calls `UpdateWithdrawFinalizedInfo` with the whole list once per key of
`finalizedTokens`, that is once per distinct local token address. -/
def L1ProcessFinalizedBridgeEvents (c : L1FinalizedContracts) (db : DB)
    (fromHeight toHeight : Int) : Option (Except Err DB) :=
  match c.OptimismPortalWithdrawalFinalizedEvents fromHeight toHeight with
  | .error err => some (.error err)
  | .ok finalizedWithdrawals =>
    let withdrawFinalizedList := finalizedWithdrawals.map (withdrawFinalizedRow db.l1BlockHeaders)
    let table1 :=
      if withdrawFinalizedList.length > 0 then
        StoreWithdrawFinalized withdrawFinalizedList db.withdrawFinalized
      else db.withdrawFinalized
    match c.CrossDomainMessengerRelayedMessageEvents fromHeight toHeight with
    | .error err => some (.error err)
    | .ok crossDomainRelayedMessages =>
      let relayedMessages := relayedMessagesOf crossDomainRelayedMessages
      match c.StandardBridgeFinalizedEvents fromHeight toHeight with
      | .error err => some (.error err)
      | .ok finalizedBridges =>
        match finalizedBridgeLoop relayedMessages finalizedBridges 0
            (List.replicate crossDomainRelayedMessages.length {}) with
        | none => none
        | some (.error err) => some (.error err)
        | some (.ok withdrawFinalizedBridgeList) =>
          let finalizedTokens := (finalizedBridges.map (fun e => e.LocalTokenAddress)).dedup
          let table2 :=
            if finalizedBridges.length > 0 then
              iterate (UpdateWithdrawFinalizedInfo withdrawFinalizedBridgeList)
                finalizedTokens.length table1
            else table1
          some (.ok { db with withdrawFinalized := table2 })

/-- A BridgeFinalized log at `(7, 40)` and one at `(7, 50)`. -/
def exampleFinalizedBridges : List StandardBridgeFinalizedEvent :=
  [{ Event := ⟨7, 40, 910, 21, 0⟩, LocalTokenAddress := 40, RemoteTokenAddress := 40
     ETHAmount := some 5 },
   { Event := ⟨7, 50, 911, 21, 0⟩, LocalTokenAddress := 41, RemoteTokenAddress := 41
     ERC20Amount := some 6 }]

/-- The RelayedMessage logs at `(7, 41)` and `(7, 51)`. -/
def exampleRelayedMessages : List CrossDomainMessengerRelayedMessageEvent :=
  [{ Event := ⟨7, 41, 910, 22, 0⟩, MessageHash := 81 },
   { Event := ⟨7, 51, 911, 22, 0⟩, MessageHash := 82 }]

/-- An L1 range with the two BridgeFinalized logs and the two RelayedMessage logs. -/
def exampleFinalizedRange : L1FinalizedContracts :=
  { OptimismPortalWithdrawalFinalizedEvents := fun _ _ => .ok []
    CrossDomainMessengerRelayedMessageEvents := fun _ _ => .ok exampleRelayedMessages
    StandardBridgeFinalizedEvents := fun _ _ => .ok exampleFinalizedBridges }

/-! ## `L1ProcessMantleDAEvents` -/

/-- What `L1ProcessMantleDAEvents` takes from code outside it: the reader of the persisted
contract events of the data-availability contract over a height range (the `RLPLog` of each)
and `mantle_da.ParseMantleDaEvent`. -/
structure MantleDAContracts where
  L1ContractEventsWithFilter : Int → Int → Except Err (List Log)
  ParseMantleDaEvent : List Log → Except Err (List DataStoreEvent)

/-- The zero value `types.Log{}`. -/
def zeroLog : Log := { BlockHash := 0, Index := 0, TxHash := 0 }

/-- `dataStoreEventDB.StoreBatchDataStoreEvent`: `CreateInBatches` appends the rows, or fails
with the error `fault`. -/
def StoreBatchDataStoreEvent (fault : Option Err) (events table : List DataStoreEvent) :
    Except Err (List DataStoreEvent) :=
  match fault with
  | some err => .error err
  | none => .ok (table ++ events)

/-- `mantle_da.L1ProcessMantleDAEvents` as a range processor; `storeFault` is the error of
`StoreBatchDataStoreEvent`, if it fails. `logs` is made with `len(mantleDAEvents)` zero logs
and the events' logs are appended to it. -/
def L1ProcessMantleDAEvents (c : MantleDAContracts) (storeFault : Option Err) : RangeProcessor :=
  fun db fromHeight toHeight =>
    match c.L1ContractEventsWithFilter fromHeight toHeight with
    | .error err => .error err
    | .ok mantleDAEvents =>
      let logs := List.replicate mantleDAEvents.length zeroLog ++ mantleDAEvents
      if logs.length ≠ 0 then
        match c.ParseMantleDaEvent logs with
        | .error err => .error err
        | .ok dataStoreEvents =>
          if dataStoreEvents.length ≠ 0 then
            match StoreBatchDataStoreEvent storeFault dataStoreEvents db.dataStoreEvent with
            | .error _ => .ok db
            | .ok table => .ok { db with dataStoreEvent := table }
          else .ok db
      else .ok db

/-- A range with one log of the data-availability contract, which parses to the data store
event 7. -/
def exampleDAContracts : MantleDAContracts :=
  { L1ContractEventsWithFilter := fun _ _ => .ok [{ BlockHash := 1002, Index := 0, TxHash := 95 }]
    ParseMantleDaEvent := fun _ => .ok [{ DataStoreId := 7, BlockHash := 1002 }] }

/-- All processors idle except `L1ProcessMantleDAEvents`, which is the modelled one with the
given store failure. -/
def mantleDAProcessors (storeFault : Option Err) : Processors := fun name =>
  if name = .L1ProcessMantleDAEvents then L1ProcessMantleDAEvents exampleDAContracts storeFault
  else idleProcessors name

/-! ## The response cache (`cache/cache.go`) -/

/-- `models.DataStoreList`. -/
structure DataStoreList where
  ID : Nat := 0
  DataSize : Nat := 0
  Status : Bool := false
  Timestamp : Nat := 0
  DaHash : String := ""
deriving DecidableEq, Repr

/-- The shape shared by `models.DataStoresResponse`, `models.DepositsResponse`,
`models.WithdrawsResponse`, `models.StateRootListResponse` and `gplus.Page[T]`: a page of
records. -/
structure Page (ρ : Type) where
  Current : Int := 0
  Size : Int := 0
  Total : Int := 0
  Records : List ρ := []
deriving DecidableEq, Repr

/-- A value of type `any` kept in a cache: its dynamic type and the pointer of that type
(`none` is a nil pointer). -/
inductive CacheValue where
  | DataStoresResponse (data : Option (Page DataStoreList))
  | DepositsResponse (data : Option (Page L1ToL2))
  | WithdrawsResponse (data : Option (Page L2ToL1))
  | StateRootListResponse (data : Option (Page StateRoot))
  | gplusPageStateRoot (data : Option (Page StateRoot))
deriving DecidableEq, Repr

/-- Modelled from the library: `lru.LRU[string, any]` of `hashicorp/golang-lru/v2/expirable`,
before any entry expires: the entries from the most to the least recently used, at most `size`
of them (no limit when `size` is 0). -/
structure LRU where
  size : Nat := 0
  entries : List (String × CacheValue) := []
deriving DecidableEq, Repr

/-- Modelled from the library: `LRU.Add` puts the entry in front, replacing an entry of the
same key, and drops the least recently used entries beyond `size`. -/
def LRU.Add (c : LRU) (key : String) (value : CacheValue) : LRU :=
  let entries := (key, value) :: c.entries.filter (fun e => e.1 ≠ key)
  { c with entries := if c.size > 0 then entries.take c.size else entries }

/-- Modelled from the library: `LRU.Get` gives the value of the key, if present, and moves the
entry to the front. -/
def LRU.Get (c : LRU) (key : String) : Option CacheValue × LRU :=
  match c.entries.find? (fun e => e.1 = key) with
  | none => (none, c)
  | some e => (some e.2, { c with entries := e :: c.entries.filter (fun x => x.1 ≠ key) })

/-- `cache.LruCache`, with the caches of the four list endpoints. -/
structure LruCache where
  lruDataStoreList : LRU := {}
  lruL1ToL2List : LRU := {}
  lruL2ToL1List : LRU := {}
  lruStateRootList : LRU := {}
deriving DecidableEq, Repr

/-- `cache.NewLruCache` for the list caches of size `cfg.ListSize`. -/
def NewLruCache (ListSize : Nat) : LruCache :=
  { lruDataStoreList := { size := ListSize }
    lruL1ToL2List := { size := ListSize }
    lruL2ToL1List := { size := ListSize }
    lruStateRootList := { size := ListSize } }

/-- `LruCache.AddDataStoreList`. -/
def LruCache.AddDataStoreList (lc : LruCache) (key : String)
    (data : Option (Page DataStoreList)) : LruCache :=
  { lc with lruDataStoreList := lc.lruDataStoreList.Add key (.DataStoresResponse data) }

/-- `LruCache.GetDataStoreList`: the two results and the cache; `none` is the panic of the
type assertion. -/
def LruCache.GetDataStoreList (lc : LruCache) (key : String) :
    Option ((Option (Page DataStoreList) × Option Err) × LruCache) :=
  match lc.lruDataStoreList.Get key with
  | (none, lru) => some ((none, some "lru get store list fail"), { lc with lruDataStoreList := lru })
  | (some (.DataStoresResponse data), lru) => some ((data, none), { lc with lruDataStoreList := lru })
  | (some _, _) => none

/-- `LruCache.AddL1ToL2List`. -/
def LruCache.AddL1ToL2List (lc : LruCache) (key : String) (data : Option (Page L1ToL2)) :
    LruCache :=
  { lc with lruL1ToL2List := lc.lruL1ToL2List.Add key (.DepositsResponse data) }

/-- `LruCache.GetL1ToL2List`; `none` is the panic of the type assertion. -/
def LruCache.GetL1ToL2List (lc : LruCache) (key : String) :
    Option ((Option (Page L1ToL2) × Option Err) × LruCache) :=
  match lc.lruL1ToL2List.Get key with
  | (none, lru) => some ((none, some "lru get L1ToL2 list fail"), { lc with lruL1ToL2List := lru })
  | (some (.DepositsResponse data), lru) => some ((data, none), { lc with lruL1ToL2List := lru })
  | (some _, _) => none

/-- `LruCache.AddL2ToL1List`. -/
def LruCache.AddL2ToL1List (lc : LruCache) (key : String) (data : Option (Page L2ToL1)) :
    LruCache :=
  { lc with lruL2ToL1List := lc.lruL2ToL1List.Add key (.WithdrawsResponse data) }

/-- `LruCache.GetL2ToL1List`; `none` is the panic of the type assertion. -/
def LruCache.GetL2ToL1List (lc : LruCache) (key : String) :
    Option ((Option (Page L2ToL1) × Option Err) × LruCache) :=
  match lc.lruL2ToL1List.Get key with
  | (none, lru) => some ((none, some "lru get L2ToL1 list fail"), { lc with lruL2ToL1List := lru })
  | (some (.WithdrawsResponse data), lru) => some ((data, none), { lc with lruL2ToL1List := lru })
  | (some _, _) => none

/-- `LruCache.AddStateRootList`: the value stored is a `*models.StateRootListResponse`. -/
def LruCache.AddStateRootList (lc : LruCache) (key : String) (data : Option (Page StateRoot)) :
    LruCache :=
  { lc with lruStateRootList := lc.lruStateRootList.Add key (.StateRootListResponse data) }

/-- `LruCache.GetStateRootList`: the value found is asserted to be a
`*gplus.Page[business.StateRoot]`; `none` is the panic of the type assertion. -/
def LruCache.GetStateRootList (lc : LruCache) (key : String) :
    Option ((Option (Page StateRoot) × Option Err) × LruCache) :=
  match lc.lruStateRootList.Get key with
  | (none, lru) =>
    some ((none, some "lru get state root list fail"), { lc with lruStateRootList := lru })
  | (some (.gplusPageStateRoot data), lru) => some ((data, none), { lc with lruStateRootList := lru })
  | (some _, _) => none

/-- A page with one state root. -/
def exampleStateRootPage : Page StateRoot :=
  { Current := 1, Size := 10, Total := 1, Records := [exampleOutputRoot] }

/-- A page with one deposit. -/
def exampleDepositPage : Page L1ToL2 :=
  { Current := 1, Size := 10, Total := 1, Records := [exampleDepositA] }

/-- "The update written for the event carries the MessagePassed log's withdrawal hash and the
bridge event's transaction hash", read of the stored write: in a run of
`L2ProcessInitiatedBridgeEvents` that returns no error, for a bridge-initiated log of the range
and the MessagePassed log at its offset, the record that `UpdateL2ToL1InfoByTxHash` selects for
the event (the row `Take` returns for the event's transaction hash) has the withdrawal hash of
that MessagePassed log and the transaction hash of the bridge event. -/
def WithdrawalUpdateAsStated (c : L2Contracts) (db : DB) (fromHeight toHeight : Int) : Prop :=
  ∀ (run : InitiatedWithdrawalRun) (passed : List L2ToL1MessagePasserMessagePassed)
    (bridges : List StandardBridgeInitiatedEvent) (k : Nat) (e : StandardBridgeInitiatedEvent)
    (kind : BridgeEventType) (m : L2ToL1MessagePasserMessagePassed),
    L2ProcessInitiatedBridgeEventsRun c db fromHeight toHeight = .ok run →
    c.L2ToL1MessagePasserMessagePassedEvents fromHeight toHeight = .ok passed →
    c.StandardBridgeInitiatedEvents fromHeight toHeight = .ok bridges →
    bridges[k]? = some e → e.Event.EventSignature = c.eventSignature kind →
    m ∈ passed → m.Event.BlockHash = e.Event.BlockHash →
    m.Event.LogIndex = e.Event.LogIndex + (if kind = .ETHBridgeInitiated then 5 else 1) →
    ∃ i row,
      takeIndex (structWhere (fun r : L2ToL1 => r.L2TransactionHash) e.Event.TransactionHash)
        run.db.l2ToL1 = some i ∧
      run.db.l2ToL1[i]? = some row ∧
      row.WithdrawTransactionHash = m.WithdrawalHash ∧
      row.L2TransactionHash = e.Event.TransactionHash

/-- A second MessagePassed log of transaction `700`, at `(9, 35)`, with withdrawal hash `881`. -/
def exampleMessagePassed2 : L2ToL1MessagePasserMessagePassed :=
  { Event := ⟨9, 35, 700, 12, 0⟩, WithdrawalHash := 881, ETHAmount := some 6 }

/-- The SentMessage log at `(9, 36)` with message hash `80`. -/
def exampleL2SentMessage2 : CrossDomainMessengerSentMessageEvent :=
  { Event := ⟨9, 36, 700, 8, 0⟩, MessageHash := 80, Version := 1 }

/-- A second ETH withdrawal of transaction `700`: its bridge-initiated log is at `(9, 30)`. -/
def exampleETHWithdrawal2 : StandardBridgeInitiatedEvent :=
  { Event := ⟨9, 30, 700, 1, 0⟩, LocalTokenAddress := 40, RemoteTokenAddress := 40
    FromAddress := 32, ToAddress := 33, ETHAmount := some 6, ERC20Amount := some 0 }

/-- An L2 range in which one transaction (`700`) holds two ETH withdrawals: bridge-initiated
logs at `(9, 20)` and `(9, 30)`, MessagePassed logs at `(9, 25)` and `(9, 35)`, SentMessage
logs at `(9, 26)` and `(9, 36)`. -/
def exampleTwoWithdrawals : L2Contracts :=
  { ETHWithdrawEventSignature := 1
    MNTWithdrawEventSignature := 2
    ERC20WithdrawEventSignature := 3
    L2ToL1MessagePasserMessagePassedEvents := fun _ _ =>
      .ok [exampleMessagePassed, exampleMessagePassed2]
    CrossDomainMessengerSentMessageEvents := fun _ _ =>
      .ok [exampleL2SentMessage, exampleL2SentMessage2]
    StandardBridgeInitiatedEvents := fun _ _ =>
      .ok [exampleETHWithdrawal, exampleETHWithdrawal2] }

/-- The run of `L2ProcessInitiatedBridgeEvents` on `exampleTwoWithdrawals`, on an empty
store. -/
def exampleTwoWithdrawalsRun : InitiatedWithdrawalRun :=
  match L2ProcessInitiatedBridgeEventsRun exampleTwoWithdrawals {} 1 3 with
  | .ok run => run
  | .error _ => ⟨{}, []⟩

/-- The run of `L2ProcessInitiatedBridgeEvents` on the range with one ETH withdrawal and its
SentMessage log, on an empty store. -/
def exampleL2Run : InitiatedWithdrawalRun :=
  match L2ProcessInitiatedBridgeEventsRun (exampleL2Range [exampleL2SentMessage]) {} 1 3 with
  | .ok run => run
  | .error _ => ⟨{}, []⟩

/-! # Properties -/

/-! ## Cursor monotonicity (C1) -/

/-- C1, evaluated where the code departs from it: the L2 finalization cursor is set to the
header numbered 50, which is also the newest persisted L2 header. `processFinalizedL2Events`
finds no new header, returns no error, and leaves the cursor unset, so that its value falls
back from 50 to the configured starting height 0. -/
theorem processFinalizedL2Events_resets_cursor :
    let ep : EventProcessor :=
      { chainConfig := genesisConfig, LatestL1L2FinalizedL2Header := some (headerAt 50) }
    let db : DB := { l2BlockHeaders := [headerAt 49, headerAt 50] }
    let t := processFinalizedL2Events idleProcessors ep db
    t.err = none ∧
    lastBlockNumber ep.LatestL1L2FinalizedL2Header ep.chainConfig.L2StartingHeight = 50 ∧
    t.ep.LatestL1L2FinalizedL2Header = none ∧
    lastBlockNumber t.ep.LatestL1L2FinalizedL2Header t.ep.chainConfig.L2StartingHeight = 0 := by
  decide

theorem foldl_max_mem (xs : List Int) : ∀ x : Int, xs.foldl max x ∈ x :: xs := by
  induction xs with
  | nil => intro x; simp
  | cons y ys ih =>
    intro x
    simp only [List.foldl_cons]
    rcases List.mem_cons.mp (ih (max x y)) with h | h
    · rcases max_choice x y with hm | hm
      · rw [h, hm]
        exact List.mem_cons_self _ _
      · rw [h, hm]
        exact List.mem_cons_of_mem _ (List.mem_cons_self _ _)
    · exact List.mem_cons_of_mem _ (List.mem_cons_of_mem _ h)

theorem BlockHeaderWithScope_some (headers : List BlockHeader) (cond : Int → Bool)
    (latest : BlockHeader) (h : BlockHeaderWithScope headers cond = some latest) :
    latest ∈ headers ∧ cond latest.Number = true := by
  unfold BlockHeaderWithScope at h
  cases hm : maxNumber (scopeWindow headers cond) with
  | none => simp [hm] at h
  | some m =>
    simp only [hm] at h
    have hfind := List.find?_some h
    simp only [decide_eq_true_eq] at hfind
    refine ⟨List.mem_of_find?_eq_some h, ?_⟩
    rw [hfind]
    have hmem : m ∈ scopeWindow headers cond := by
      cases hw : scopeWindow headers cond with
      | nil => simp [hw, maxNumber] at hm
      | cons x xs =>
        simp only [hw, maxNumber, Option.some.injEq] at hm
        rw [← hm]
        exact foldl_max_mem xs x
    unfold scopeWindow at hmem
    have h1 := List.mem_of_mem_take hmem
    have h2 := (List.perm_insertionSort (fun a b : Int => a ≤ b) _).mem_iff.mp h1
    exact (List.mem_filter.mp h2).2

/-- The six sub-procedures other than `processFinalizedL2Events` never lower their cursor and
never unset it, whether or not they return an error. -/
theorem other_cursors_never_decrease (P : Processors) (ep : EventProcessor) (db : DB) :
    (lastBlockNumber ep.LatestL1L2InitL1Header ep.chainConfig.L1StartingHeight ≤
        lastBlockNumber (processInitiatedL1Events P ep db).ep.LatestL1L2InitL1Header
          ep.chainConfig.L1StartingHeight ∧
      (ep.LatestL1L2InitL1Header ≠ none →
        (processInitiatedL1Events P ep db).ep.LatestL1L2InitL1Header ≠ none)) ∧
    (lastBlockNumber ep.LatestL2L1InitL2Header ep.chainConfig.L2StartingHeight ≤
        lastBlockNumber (processInitiatedL2Events P ep db).ep.LatestL2L1InitL2Header
          ep.chainConfig.L2StartingHeight ∧
      (ep.LatestL2L1InitL2Header ≠ none →
        (processInitiatedL2Events P ep db).ep.LatestL2L1InitL2Header ≠ none)) ∧
    (lastBlockNumber ep.LatestProvenL1Header ep.chainConfig.L1StartingHeight ≤
        lastBlockNumber (processProvenL1Events P ep db).ep.LatestProvenL1Header
          ep.chainConfig.L1StartingHeight ∧
      (ep.LatestProvenL1Header ≠ none →
        (processProvenL1Events P ep db).ep.LatestProvenL1Header ≠ none)) ∧
    (lastBlockNumber ep.LatestFinalizedL1Header ep.chainConfig.L1StartingHeight ≤
        lastBlockNumber (processFinalizedL1Events P ep db).ep.LatestFinalizedL1Header
          ep.chainConfig.L1StartingHeight ∧
      (ep.LatestFinalizedL1Header ≠ none →
        (processFinalizedL1Events P ep db).ep.LatestFinalizedL1Header ≠ none)) ∧
    (lastBlockNumber ep.LatestStateRootL1Header ep.chainConfig.L1StartingHeight ≤
        lastBlockNumber (processRollupStateRoot P ep db).ep.LatestStateRootL1Header
          ep.chainConfig.L1StartingHeight ∧
      (ep.LatestStateRootL1Header ≠ none →
        (processRollupStateRoot P ep db).ep.LatestStateRootL1Header ≠ none)) ∧
    (lastBlockNumber ep.LatestMantleDAL1Header ep.chainConfig.L1StartingHeight ≤
        lastBlockNumber (processRollupMantleDA P ep db).ep.LatestMantleDAL1Header
          ep.chainConfig.L1StartingHeight ∧
      (ep.LatestMantleDAL1Header ≠ none →
        (processRollupMantleDA P ep db).ep.LatestMantleDAL1Header ≠ none)) := by
  refine ⟨?_, ?_, ?_, ?_, ?_, ?_⟩
  · cases hq : BlockHeaderWithScope db.l1BlockHeaders (fun number => decide (number >
        lastBlockNumber ep.LatestL1L2InitL1Header ep.chainConfig.L1StartingHeight)) with
    | none =>
      simp only [processInitiatedL1Events, hq]
      exact ⟨le_refl _, fun h => h⟩
    | some latest =>
      have hc := (BlockHeaderWithScope_some _ _ _ hq).2
      simp only [decide_eq_true_eq] at hc
      simp only [processInitiatedL1Events, hq]
      split
      · exact ⟨le_refl _, fun h => h⟩
      · exact ⟨by simp only [lastBlockNumber] at hc ⊢; omega, fun _ => by simp⟩
  · cases hq : BlockHeaderWithScope db.l2BlockHeaders (fun number => decide (number >
        lastBlockNumber ep.LatestL2L1InitL2Header ep.chainConfig.L2StartingHeight)) with
    | none =>
      simp only [processInitiatedL2Events, hq]
      exact ⟨le_refl _, fun h => h⟩
    | some latest =>
      have hc := (BlockHeaderWithScope_some _ _ _ hq).2
      simp only [decide_eq_true_eq] at hc
      simp only [processInitiatedL2Events, hq]
      split
      · exact ⟨le_refl _, fun h => h⟩
      · exact ⟨by simp only [lastBlockNumber] at hc ⊢; omega, fun _ => by simp⟩
  · cases hq : BlockHeaderWithScope db.l1BlockHeaders (fun number => decide (number >
        lastBlockNumber ep.LatestProvenL1Header ep.chainConfig.L1StartingHeight)) with
    | none =>
      simp only [processProvenL1Events, hq]
      exact ⟨le_refl _, fun h => h⟩
    | some latest =>
      have hc := (BlockHeaderWithScope_some _ _ _ hq).2
      simp only [decide_eq_true_eq] at hc
      simp only [processProvenL1Events, hq]
      split
      · exact ⟨le_refl _, fun h => h⟩
      · exact ⟨by simp only [lastBlockNumber] at hc ⊢; omega, fun _ => by simp⟩
  · cases hq : BlockHeaderWithScope db.l1BlockHeaders (fun number => decide (number >
        lastBlockNumber ep.LatestFinalizedL1Header ep.chainConfig.L1StartingHeight)) with
    | none =>
      simp only [processFinalizedL1Events, hq]
      exact ⟨le_refl _, fun h => h⟩
    | some latest =>
      have hc := (BlockHeaderWithScope_some _ _ _ hq).2
      simp only [decide_eq_true_eq] at hc
      simp only [processFinalizedL1Events, hq]
      split
      · exact ⟨le_refl _, fun h => h⟩
      · exact ⟨by simp only [lastBlockNumber] at hc ⊢; omega, fun _ => by simp⟩
  · cases hq : BlockHeaderWithScope db.l1BlockHeaders (fun number => decide (number >
        lastBlockNumber ep.LatestStateRootL1Header ep.chainConfig.L1StartingHeight)) with
    | none =>
      simp only [processRollupStateRoot, hq]
      exact ⟨le_refl _, fun h => h⟩
    | some latest =>
      have hc := (BlockHeaderWithScope_some _ _ _ hq).2
      simp only [decide_eq_true_eq] at hc
      simp only [processRollupStateRoot, hq]
      split
      · exact ⟨le_refl _, fun h => h⟩
      · exact ⟨by simp only [lastBlockNumber] at hc ⊢; omega, fun _ => by simp⟩
  · cases hq : BlockHeaderWithScope db.l1BlockHeaders (fun number => decide (number >
        lastBlockNumber ep.LatestMantleDAL1Header ep.chainConfig.L1StartingHeight)) with
    | none =>
      simp only [processRollupMantleDA, hq]
      exact ⟨le_refl _, fun h => h⟩
    | some latest =>
      have hc := (BlockHeaderWithScope_some _ _ _ hq).2
      simp only [decide_eq_true_eq] at hc
      simp only [processRollupMantleDA, hq]
      split
      · exact ⟨le_refl _, fun h => h⟩
      · exact ⟨by simp only [lastBlockNumber] at hc ⊢; omega, fun _ => by simp⟩

/-! ## The legacy/bedrock split (C4, C5) -/

theorem legacyThenBedrock_inside (P : Processors) (legacy bedrock : ProcessorName)
    (fork fromHeight toHeight : Int) (tx : DB) (h1 : fromHeight < fork) (h2 : fork ≤ toHeight) :
    legacyThenBedrock P legacy bedrock fork fromHeight toHeight tx =
      match P legacy tx fromHeight (fork - 1) with
      | .error e => ⟨[⟨legacy, fromHeight, fork - 1⟩], .error e⟩
      | .ok tx1 =>
        ⟨[⟨legacy, fromHeight, fork - 1⟩, ⟨bedrock, fork, toHeight⟩], P bedrock tx1 fork toHeight⟩ := by
  have h3 : fork - 1 ≠ toHeight := by omega
  simp only [legacyThenBedrock, gt_iff_lt, h1, h2, if_true, h3, if_false]

/-- C4. In each of the four sub-procedures with two eras, when the fork height lies in
`(from, to]` the legacy processor is called on `[from, fork - 1]` first and the bedrock
processor then on `[fork, to]`, on the store the legacy call wrote; the category cursor
becomes the header at `to` exactly when both calls return no error, and when either fails the
error is returned, the cursor is unchanged and the store is rolled back. -/
theorem split_at_fork_height (P : Processors) (ep : EventProcessor) (db : DB) :
    (∀ latest : BlockHeader,
      BlockHeaderWithScope db.l1BlockHeaders (fun number => decide (number >
        lastBlockNumber ep.LatestL1L2InitL1Header ep.chainConfig.L1StartingHeight)) = some latest →
      lastBlockNumber ep.LatestL1L2InitL1Header ep.chainConfig.L1StartingHeight + 1
        < int64OfUint ep.chainConfig.L1BedrockStartingHeight →
      int64OfUint ep.chainConfig.L1BedrockStartingHeight ≤ latest.Number →
      SplitTick P .LegacyL1ProcessInitiatedBridgeEvents .L1ProcessInitiatedBridgeEvents
        (int64OfUint ep.chainConfig.L1BedrockStartingHeight)
        (lastBlockNumber ep.LatestL1L2InitL1Header ep.chainConfig.L1StartingHeight + 1)
        latest.Number latest ep.LatestL1L2InitL1Header db
        (processInitiatedL1Events P ep db).ep.LatestL1L2InitL1Header
        (processInitiatedL1Events P ep db)) ∧
    (∀ latest : BlockHeader,
      BlockHeaderWithScope db.l2BlockHeaders (fun number => decide (number >
        lastBlockNumber ep.LatestL2L1InitL2Header ep.chainConfig.L2StartingHeight)) = some latest →
      lastBlockNumber ep.LatestL2L1InitL2Header ep.chainConfig.L2StartingHeight + 1
        < int64OfUint ep.chainConfig.L2BedrockStartingHeight →
      int64OfUint ep.chainConfig.L2BedrockStartingHeight ≤ latest.Number →
      SplitTick P .LegacyL2ProcessInitiatedBridgeEvents .L2ProcessInitiatedBridgeEvents
        (int64OfUint ep.chainConfig.L2BedrockStartingHeight)
        (lastBlockNumber ep.LatestL2L1InitL2Header ep.chainConfig.L2StartingHeight + 1)
        latest.Number latest ep.LatestL2L1InitL2Header db
        (processInitiatedL2Events P ep db).ep.LatestL2L1InitL2Header
        (processInitiatedL2Events P ep db)) ∧
    (∀ latest : BlockHeader,
      BlockHeaderWithScope db.l1BlockHeaders (fun number => decide (number >
        lastBlockNumber ep.LatestFinalizedL1Header ep.chainConfig.L1StartingHeight)) = some latest →
      lastBlockNumber ep.LatestFinalizedL1Header ep.chainConfig.L1StartingHeight + 1
        < int64OfUint ep.chainConfig.L1BedrockStartingHeight →
      int64OfUint ep.chainConfig.L1BedrockStartingHeight ≤ latest.Number →
      SplitTick P .LegacyL1ProcessFinalizedBridgeEvents .L1ProcessFinalizedBridgeEvents
        (int64OfUint ep.chainConfig.L1BedrockStartingHeight)
        (lastBlockNumber ep.LatestFinalizedL1Header ep.chainConfig.L1StartingHeight + 1)
        latest.Number latest ep.LatestFinalizedL1Header db
        (processFinalizedL1Events P ep db).ep.LatestFinalizedL1Header
        (processFinalizedL1Events P ep db)) ∧
    (∀ latest : BlockHeader,
      BlockHeaderWithScope db.l2BlockHeaders (fun number =>
        decide (number > lastBlockNumber ep.LatestL1L2FinalizedL2Header ep.chainConfig.L2StartingHeight)
        && decide (number ≤ (match latestBlockHeader db.l2BlockHeaders with
            | some h => h.Number
            | none => int64OfUint ep.chainConfig.L2StartingHeight))) = some latest →
      lastBlockNumber ep.LatestL1L2FinalizedL2Header ep.chainConfig.L2StartingHeight + 1
        < int64OfUint ep.chainConfig.L2BedrockStartingHeight →
      int64OfUint ep.chainConfig.L2BedrockStartingHeight ≤ latest.Number →
      SplitTick P .LegacyL2ProcessFinalizedBridgeEvents .L2ProcessFinalizedBridgeEvents
        (int64OfUint ep.chainConfig.L2BedrockStartingHeight)
        (lastBlockNumber ep.LatestL1L2FinalizedL2Header ep.chainConfig.L2StartingHeight + 1)
        latest.Number latest ep.LatestL1L2FinalizedL2Header db
        (processFinalizedL2Events P ep db).ep.LatestL1L2FinalizedL2Header
        (processFinalizedL2Events P ep db)) := by
  refine ⟨?_, ?_, ?_, ?_⟩
  · intro latest hq h1 h2
    simp only [processInitiatedL1Events, hq, legacyThenBedrock_inside _ _ _ _ _ _ _ h1 h2, SplitTick]
    cases hL : P .LegacyL1ProcessInitiatedBridgeEvents db
        (lastBlockNumber ep.LatestL1L2InitL1Header ep.chainConfig.L1StartingHeight + 1)
        (int64OfUint ep.chainConfig.L1BedrockStartingHeight - 1) with
    | error e => simp
    | ok db1 =>
      cases hB : P .L1ProcessInitiatedBridgeEvents db1
          (int64OfUint ep.chainConfig.L1BedrockStartingHeight) latest.Number with
      | error e => simp [hB]
      | ok db2 => simp [hB]
  · intro latest hq h1 h2
    simp only [processInitiatedL2Events, hq, legacyThenBedrock_inside _ _ _ _ _ _ _ h1 h2, SplitTick]
    cases hL : P .LegacyL2ProcessInitiatedBridgeEvents db
        (lastBlockNumber ep.LatestL2L1InitL2Header ep.chainConfig.L2StartingHeight + 1)
        (int64OfUint ep.chainConfig.L2BedrockStartingHeight - 1) with
    | error e => simp
    | ok db1 =>
      cases hB : P .L2ProcessInitiatedBridgeEvents db1
          (int64OfUint ep.chainConfig.L2BedrockStartingHeight) latest.Number with
      | error e => simp [hB]
      | ok db2 => simp [hB]
  · intro latest hq h1 h2
    simp only [processFinalizedL1Events, hq, legacyThenBedrock_inside _ _ _ _ _ _ _ h1 h2, SplitTick]
    cases hL : P .LegacyL1ProcessFinalizedBridgeEvents db
        (lastBlockNumber ep.LatestFinalizedL1Header ep.chainConfig.L1StartingHeight + 1)
        (int64OfUint ep.chainConfig.L1BedrockStartingHeight - 1) with
    | error e => simp
    | ok db1 =>
      cases hB : P .L1ProcessFinalizedBridgeEvents db1
          (int64OfUint ep.chainConfig.L1BedrockStartingHeight) latest.Number with
      | error e => simp [hB]
      | ok db2 => simp [hB]
  · intro latest hq h1 h2
    have hcfg : ∀ h : BlockHeader, ({ ep with LatestL1L2L2Header := some h } : EventProcessor).chainConfig
        = ep.chainConfig := fun _ => rfl
    simp only [processFinalizedL2Events, SplitTick]
    cases hl : latestBlockHeader db.l2BlockHeaders with
    | none =>
      simp only [hl] at hq
      simp only [hq, legacyThenBedrock_inside _ _ _ _ _ _ _ h1 h2]
      cases hL : P .LegacyL2ProcessFinalizedBridgeEvents db
          (lastBlockNumber ep.LatestL1L2FinalizedL2Header ep.chainConfig.L2StartingHeight + 1)
          (int64OfUint ep.chainConfig.L2BedrockStartingHeight - 1) with
      | error e => simp
      | ok db1 =>
        cases hB : P .L2ProcessFinalizedBridgeEvents db1
            (int64OfUint ep.chainConfig.L2BedrockStartingHeight) latest.Number with
        | error e => simp [hB]
        | ok db2 => simp [hB]
    | some hd =>
      simp only [hl] at hq
      simp only [hq, hcfg, legacyThenBedrock_inside _ _ _ _ _ _ _ h1 h2]
      cases hL : P .LegacyL2ProcessFinalizedBridgeEvents db
          (lastBlockNumber ep.LatestL1L2FinalizedL2Header ep.chainConfig.L2StartingHeight + 1)
          (int64OfUint ep.chainConfig.L2BedrockStartingHeight - 1) with
      | error e => simp
      | ok db1 =>
        cases hB : P .L2ProcessFinalizedBridgeEvents db1
            (int64OfUint ep.chainConfig.L2BedrockStartingHeight) latest.Number with
        | error e => simp [hB]
        | ok db2 => simp [hB]

/-- The split of C4 at the spec's example: fork height 100, cursor at 94, persisted headers
95..110: legacy on `[95, 99]`, then bedrock on `[100, 110]`, cursor at header 110. -/
theorem split_at_fork_height_witness :
    SplitTick idleProcessors .LegacyL1ProcessInitiatedBridgeEvents .L1ProcessInitiatedBridgeEvents
      100 95 110 (headerAt 110) (some (headerAt 94)) { l1BlockHeaders := headerRange 95 16 }
      (processInitiatedL1Events idleProcessors
        { chainConfig := forkConfig, LatestL1L2InitL1Header := some (headerAt 94) }
        { l1BlockHeaders := headerRange 95 16 }).ep.LatestL1L2InitL1Header
      (processInitiatedL1Events idleProcessors
        { chainConfig := forkConfig, LatestL1L2InitL1Header := some (headerAt 94) }
        { l1BlockHeaders := headerRange 95 16 }) :=
  (split_at_fork_height idleProcessors
    { chainConfig := forkConfig, LatestL1L2InitL1Header := some (headerAt 94) }
    { l1BlockHeaders := headerRange 95 16 }).1 (headerAt 110) (by decide) (by decide) (by decide)

theorem eraCalls_eq (legacy bedrock : ProcessorName) (fork fromHeight toHeight : Int) :
    eraCalls legacy bedrock fork fromHeight toHeight =
      if fork ≤ fromHeight then [⟨bedrock, fromHeight, toHeight⟩]
      else if fork ≤ toHeight then [⟨legacy, fromHeight, fork - 1⟩, ⟨bedrock, fork, toHeight⟩]
      else [⟨legacy, fromHeight, toHeight⟩] := by
  unfold eraCalls legacyThenBedrock idleProcessors
  by_cases h1 : fork ≤ fromHeight
  · have : ¬ fork > fromHeight := by omega
    simp [h1, this]
  · have h1' : fork > fromHeight := by omega
    by_cases h2 : fork ≤ toHeight
    · have h3 : fork - 1 ≠ toHeight := by omega
      simp [h1, h1', h2, h3]
    · simp [h1, h1', h2]

/-- C5. For `from ≤ to` and any fork height, in a run of the era split in which no processor
returns an error the heights handed to the legacy processor are exactly the heights of
`[from, to]` below the fork height and those handed to the bedrock processor exactly the ones
at or above it; every height of `[from, to]` lies in the range of exactly one call; no call
has an empty range; with the fork height above `to` the legacy processor is called alone, on
`[from, to]`. For arbitrary processors the calls made are a prefix of these calls, and all of
them when the transaction body returns no error. -/
theorem era_subranges_partition (P : Processors) (legacy bedrock : ProcessorName)
    (fork fromHeight toHeight : Int) (tx : DB)
    (hne : legacy ≠ bedrock) (hft : fromHeight ≤ toHeight) :
    (∀ h, HandedTo legacy (eraCalls legacy bedrock fork fromHeight toHeight) h ↔
      (fromHeight ≤ h ∧ h ≤ toHeight ∧ h < fork)) ∧
    (∀ h, HandedTo bedrock (eraCalls legacy bedrock fork fromHeight toHeight) h ↔
      (fromHeight ≤ h ∧ h ≤ toHeight ∧ fork ≤ h)) ∧
    (∀ h, fromHeight ≤ h → h ≤ toHeight →
      ((eraCalls legacy bedrock fork fromHeight toHeight).filter (fun c => c.covers h)).length = 1) ∧
    (∀ c ∈ eraCalls legacy bedrock fork fromHeight toHeight, c.fromHeight ≤ c.toHeight) ∧
    (fork > toHeight →
      eraCalls legacy bedrock fork fromHeight toHeight = [⟨legacy, fromHeight, toHeight⟩]) ∧
    ((legacyThenBedrock P legacy bedrock fork fromHeight toHeight tx).calls <+:
      eraCalls legacy bedrock fork fromHeight toHeight) ∧
    (∀ db1, (legacyThenBedrock P legacy bedrock fork fromHeight toHeight tx).result = .ok db1 →
      (legacyThenBedrock P legacy bedrock fork fromHeight toHeight tx).calls =
        eraCalls legacy bedrock fork fromHeight toHeight) := by
  have hne' : bedrock ≠ legacy := fun h => hne h.symm
  rw [eraCalls_eq]
  by_cases h1 : fork ≤ fromHeight
  · have h1' : ¬ fork > fromHeight := by omega
    simp only [h1, if_true]
    refine ⟨?_, ?_, ?_, ?_, ?_, ?_, ?_⟩
    · intro h
      simp only [HandedTo, List.mem_singleton, ProcessorCall.covers]
      constructor
      · rintro ⟨c, rfl, hn, _⟩
        exact absurd hn hne'
      · intro ⟨_, _, _⟩
        omega
    · intro h
      simp only [HandedTo, List.mem_singleton, ProcessorCall.covers]
      constructor
      · rintro ⟨c, rfl, _, hc⟩
        simp only [Bool.and_eq_true, decide_eq_true_eq] at hc
        omega
      · intro ⟨_, _, _⟩
        exact ⟨_, rfl, rfl, by simp only [Bool.and_eq_true, decide_eq_true_eq]; omega⟩
    · intro h ha hb
      simp [ProcessorCall.covers, ha, hb]
    · intro c hc
      simp only [List.mem_singleton] at hc
      subst hc
      exact hft
    · intro h
      omega
    · simp [legacyThenBedrock, h1']
    · intro db1 _
      simp [legacyThenBedrock, h1']
  · have h1' : fork > fromHeight := by omega
    by_cases h2 : fork ≤ toHeight
    · have h3 : fork - 1 ≠ toHeight := by omega
      simp only [h1, h2, if_true, if_false]
      refine ⟨?_, ?_, ?_, ?_, ?_, ?_, ?_⟩
      · intro h
        simp only [HandedTo, List.mem_cons, List.mem_singleton, ProcessorCall.covers]
        constructor
        · rintro ⟨c, hc, hn, hcov⟩
          rcases hc with rfl | rfl | hc
          · simp only [Bool.and_eq_true, decide_eq_true_eq] at hcov
            omega
          · exact absurd hn hne'
          · exact absurd hc (List.not_mem_nil _)
        · intro ⟨_, _, _⟩
          exact ⟨_, Or.inl rfl, rfl, by simp only [Bool.and_eq_true, decide_eq_true_eq]; omega⟩
      · intro h
        simp only [HandedTo, List.mem_cons, List.mem_singleton, ProcessorCall.covers]
        constructor
        · rintro ⟨c, hc, hn, hcov⟩
          rcases hc with rfl | rfl | hc
          · exact absurd hn hne
          · simp only [Bool.and_eq_true, decide_eq_true_eq] at hcov
            omega
          · exact absurd hc (List.not_mem_nil _)
        · intro ⟨_, _, _⟩
          exact ⟨_, Or.inr (Or.inl rfl), rfl,
            by simp only [Bool.and_eq_true, decide_eq_true_eq]; omega⟩
      · intro h ha hb
        by_cases hf : h < fork
        · have e1 : h ≤ fork - 1 := by omega
          have e2 : ¬ fork ≤ h := by omega
          simp [ProcessorCall.covers, List.filter, ha, hb, e1, e2]
        · have e1 : ¬ h ≤ fork - 1 := by omega
          have e2 : fork ≤ h := by omega
          simp [ProcessorCall.covers, List.filter, ha, hb, e1, e2]
      · intro c hc
        simp only [List.mem_cons, List.mem_singleton] at hc
        rcases hc with rfl | rfl | hc
        · show fromHeight ≤ fork - 1
          omega
        · exact h2
        · exact absurd hc (List.not_mem_nil _)
      · intro h
        omega
      · simp only [legacyThenBedrock, h1', h2, if_true, h3, if_false]
        cases P legacy tx fromHeight (fork - 1) with
        | error e => exact ⟨[_], rfl⟩
        | ok tx1 => exact List.prefix_refl _
      · intro db1
        simp only [legacyThenBedrock, h1', h2, if_true, h3, if_false]
        cases P legacy tx fromHeight (fork - 1) with
        | error e => intro h; cases h
        | ok tx1 => intro _; rfl
    · simp only [h1, h2, if_false]
      refine ⟨?_, ?_, ?_, ?_, ?_, ?_, ?_⟩
      · intro h
        simp only [HandedTo, List.mem_singleton, ProcessorCall.covers]
        constructor
        · rintro ⟨c, rfl, _, hcov⟩
          simp only [Bool.and_eq_true, decide_eq_true_eq] at hcov
          omega
        · intro ⟨_, _, _⟩
          exact ⟨_, rfl, rfl, by simp only [Bool.and_eq_true, decide_eq_true_eq]; omega⟩
      · intro h
        simp only [HandedTo, List.mem_singleton, ProcessorCall.covers]
        constructor
        · rintro ⟨c, rfl, hn, _⟩
          exact absurd hn hne
        · intro ⟨_, _, _⟩
          omega
      · intro h ha hb
        simp [ProcessorCall.covers, ha, hb]
      · intro c hc
        simp only [List.mem_singleton] at hc
        subst hc
        exact hft
      · intro _
        trivial
      · simp only [legacyThenBedrock, h1', h2, if_true, if_false]
        cases P legacy tx fromHeight toHeight with
        | error e => exact List.prefix_refl _
        | ok tx1 => exact List.prefix_refl _
      · intro db1
        simp only [legacyThenBedrock, h1', h2, if_true, if_false]
        cases P legacy tx fromHeight toHeight with
        | error e => intro h; cases h
        | ok tx1 => intro _; rfl

/-- The partition of C5 at fork height 100 and range `[95, 110]`: the calls are legacy on
`[95, 99]` and bedrock on `[100, 110]`, and height 97 is handed to the legacy processor. -/
theorem era_subranges_partition_witness :
    eraCalls .LegacyL1ProcessInitiatedBridgeEvents .L1ProcessInitiatedBridgeEvents 100 95 110 =
      [⟨.LegacyL1ProcessInitiatedBridgeEvents, 95, 99⟩, ⟨.L1ProcessInitiatedBridgeEvents, 100, 110⟩] ∧
    (HandedTo .LegacyL1ProcessInitiatedBridgeEvents
      (eraCalls .LegacyL1ProcessInitiatedBridgeEvents .L1ProcessInitiatedBridgeEvents 100 95 110) 97 ↔
      ((95 : Int) ≤ 97 ∧ (97 : Int) ≤ 110 ∧ (97 : Int) < 100)) :=
  ⟨by decide,
   (era_subranges_partition idleProcessors .LegacyL1ProcessInitiatedBridgeEvents
      .L1ProcessInitiatedBridgeEvents 100 95 110 {} (by decide) (by decide)).1 97⟩

/-! ## Cursor advance on success (C6) -/

/-- C6, evaluated where the code departs from it: no cursor set, starting height 0, persisted
headers 1, 2, 3 on both chains, every processor succeeding. Each sub-procedure returns no
error and its in-memory cursor is the header numbered 3 = `to`. The two initiation
sub-procedures report 3 to the metrics recorder; the other five report 0, the cursor value
before the call. -/
theorem metrics_height_after_success :
    let ep : EventProcessor := { chainConfig := genesisConfig }
    let db : DB := { l1BlockHeaders := headerRange 1 3, l2BlockHeaders := headerRange 1 3 }
    let P := idleProcessors
    ((processInitiatedL1Events P ep db).err = none ∧
      (processInitiatedL1Events P ep db).ep.LatestL1L2InitL1Header = some (headerAt 3) ∧
      (processInitiatedL1Events P ep db).ep.metrics.L1LatestHeight = some 3) ∧
    ((processInitiatedL2Events P ep db).err = none ∧
      (processInitiatedL2Events P ep db).ep.LatestL2L1InitL2Header = some (headerAt 3) ∧
      (processInitiatedL2Events P ep db).ep.metrics.L2LatestHeight = some 3) ∧
    ((processProvenL1Events P ep db).err = none ∧
      (processProvenL1Events P ep db).ep.LatestProvenL1Header = some (headerAt 3) ∧
      (processProvenL1Events P ep db).ep.metrics.L1LatestProvenHeight = some 0) ∧
    ((processFinalizedL1Events P ep db).err = none ∧
      (processFinalizedL1Events P ep db).ep.LatestFinalizedL1Header = some (headerAt 3) ∧
      (processFinalizedL1Events P ep db).ep.metrics.L1LatestFinalizedHeight = some 0) ∧
    ((processFinalizedL2Events P ep db).err = none ∧
      (processFinalizedL2Events P ep db).ep.LatestL1L2FinalizedL2Header = some (headerAt 3) ∧
      (processFinalizedL2Events P ep db).ep.metrics.L2LatestFinalizedHeight = some 0) ∧
    ((processRollupStateRoot P ep db).err = none ∧
      (processRollupStateRoot P ep db).ep.LatestStateRootL1Header = some (headerAt 3) ∧
      (processRollupStateRoot P ep db).ep.metrics.L1LatestRollupSateRootHeight = some 0) ∧
    ((processRollupMantleDA P ep db).err = none ∧
      (processRollupMantleDA P ep db).ep.LatestMantleDAL1Header = some (headerAt 3) ∧
      (processRollupMantleDA P ep db).ep.metrics.L1LatestRollupMantleDaHeight = some 0) := by
  decide

/-! ## `Take` and `Save` on a table -/

theorem updateFirst_none {ρ : Type} (cond : ρ → Bool) (f : ρ → ρ) :
    ∀ t : List ρ, updateFirst cond f t = none ↔ takeIndex cond t = none := by
  intro t
  induction t with
  | nil => simp [updateFirst, takeIndex]
  | cons r rs ih =>
    unfold updateFirst takeIndex
    by_cases h : cond r = true
    · simp [h]
    · simp only [h, Bool.false_eq_true, if_false, Option.map_eq_none', ih]

theorem updateFirst_some {ρ : Type} (cond : ρ → Bool) (f : ρ → ρ) :
    ∀ (t t1 : List ρ), updateFirst cond f t = some t1 →
      ∃ i r, takeIndex cond t = some i ∧ t[i]? = some r ∧ t1[i]? = some (f r) ∧
        t1.length = t.length ∧ ∀ j, j ≠ i → t1[j]? = t[j]? := by
  intro t
  induction t with
  | nil => intro t1 h; simp [updateFirst] at h
  | cons r rs ih =>
    intro t1 h
    unfold updateFirst at h
    by_cases hc : cond r = true
    · simp only [hc, if_true, Option.some.injEq] at h
      subst h
      refine ⟨0, r, by simp [takeIndex, hc], by simp, by simp, by simp, ?_⟩
      intro j hj
      cases j with
      | zero => exact absurd rfl hj
      | succ j => simp
    · simp only [hc, Bool.false_eq_true, if_false, Option.map_eq_some'] at h
      obtain ⟨t2, h2, rfl⟩ := h
      obtain ⟨i, r0, h3, h4, h5, h6, h7⟩ := ih t2 h2
      refine ⟨i + 1, r0, by simp [takeIndex, hc, h3], by simpa using h4, by simpa using h5,
        by simp [h6], ?_⟩
      intro j hj
      cases j with
      | zero => simp
      | succ j =>
        simp only [List.getElem?_cons_succ]
        exact h7 j (fun hji => hj (by omega))

theorem takeIndex_congr {ρ : Type} (cond : ρ → Bool) :
    ∀ (t t1 : List ρ), t1.map cond = t.map cond → takeIndex cond t1 = takeIndex cond t := by
  intro t
  induction t with
  | nil =>
    intro t1 h
    cases t1 with
    | nil => rfl
    | cons a as => simp at h
  | cons r rs ih =>
    intro t1 h
    cases t1 with
    | nil => simp at h
    | cons a as =>
      simp only [List.map_cons, List.cons.injEq] at h
      unfold takeIndex
      rw [h.1, ih as h.2]

theorem updateFirst_map_key {ρ κ : Type} (cond : ρ → Bool) (f : ρ → ρ) (key : ρ → κ)
    (hkey : ∀ r, key (f r) = key r) :
    ∀ (t t1 : List ρ), updateFirst cond f t = some t1 → t1.map key = t.map key := by
  intro t
  induction t with
  | nil => intro t1 h; simp [updateFirst] at h
  | cons r rs ih =>
    intro t1 h
    unfold updateFirst at h
    by_cases hc : cond r = true
    · simp only [hc, if_true, Option.some.injEq] at h
      subst h
      simp [hkey]
    · simp only [hc, Bool.false_eq_true, if_false, Option.map_eq_some'] at h
      obtain ⟨t2, h2, rfl⟩ := h
      simp [ih t2 h2]

theorem takeIndex_structWhere_congr {ρ : Type} (key : ρ → Hash32) (h : Hash32)
    (t t1 : List ρ) (hmap : t1.map key = t.map key) :
    takeIndex (structWhere key h) t1 = takeIndex (structWhere key h) t := by
  apply takeIndex_congr
  have e : structWhere key h = (fun k => (h == 0 || k == h)) ∘ key := by
    funext r
    rfl
  rw [e, ← List.map_map, ← List.map_map, hmap]

theorem takeIndex_some {ρ : Type} (cond : ρ → Bool) :
    ∀ (t : List ρ) (i : Nat), takeIndex cond t = some i →
      ∃ r, t[i]? = some r ∧ cond r = true ∧
        ∀ (j : Nat) (r1 : ρ), j < i → t[j]? = some r1 → cond r1 = false := by
  intro t
  induction t with
  | nil => intro i h; simp [takeIndex] at h
  | cons x xs ih =>
    intro i h
    unfold takeIndex at h
    by_cases hc : cond x = true
    · simp only [hc, if_true, Option.some.injEq] at h
      subst h
      exact ⟨x, by simp, hc, fun j r1 hj _ => absurd hj (Nat.not_lt_zero _)⟩
    · simp only [hc, Bool.false_eq_true, if_false, Option.map_eq_some'] at h
      obtain ⟨i0, h0, rfl⟩ := h
      obtain ⟨r, h1, h2, h3⟩ := ih i0 h0
      refine ⟨r, by simpa using h1, h2, ?_⟩
      intro j r1 hj hr1
      cases j with
      | zero =>
        simp only [List.getElem?_cons_zero, Option.some.injEq] at hr1
        subst hr1
        simpa using hc
      | succ j =>
        simp only [List.getElem?_cons_succ] at hr1
        exact h3 j r1 (by omega) hr1

theorem takeIndex_ne_none {ρ : Type} (cond : ρ → Bool) :
    ∀ (t : List ρ) (r : ρ), r ∈ t → cond r = true → takeIndex cond t ≠ none := by
  intro t
  induction t with
  | nil => intro r hr; cases hr
  | cons x xs ih =>
    intro r hr hc
    unfold takeIndex
    by_cases hx : cond x = true
    · simp [hx]
    · simp only [hx, Bool.false_eq_true, if_false, ne_eq, Option.map_eq_none']
      rcases List.mem_cons.mp hr with h | h
      · subst h
        exact absurd hc hx
      · exact ih r h hc

/-- The loops `for i := range list { Take by key; assign; Save }` that end at the first record
that is not found (`UpdateL1ToL2InfoByTxHash`, `UpdateL2ToL1InfoByTxHash`): any function `F`
with their two equations keeps the keys of the table. -/
theorem saveLoop_keys {ρ : Type} (key : ρ → Hash32) (assign : ρ → ρ → ρ)
    (F : List ρ → List ρ → List ρ) (hF0 : ∀ t, F [] t = t)
    (hFnone : ∀ u us t, updateFirst (structWhere key (key u)) (assign u) t = none →
      F (u :: us) t = t)
    (hFsome : ∀ u us t t1, updateFirst (structWhere key (key u)) (assign u) t = some t1 →
      F (u :: us) t = F us t1)
    (hkey : ∀ u r, key (assign u r) = key r) :
    ∀ (us t : List ρ), (F us t).map key = t.map key := by
  intro us
  induction us with
  | nil => intro t; rw [hF0]
  | cons u us ih =>
    intro t
    cases hu : updateFirst (structWhere key (key u)) (assign u) t with
    | none => rw [hFnone u us t hu]
    | some t1 =>
      rw [hFsome u us t t1 hu, ih t1]
      exact updateFirst_map_key _ _ key (hkey u) _ _ hu

/-- Running the loop on `l1 ++ l2` is running it on `l1` and then on `l2`, when every entry of
`l1` finds its record. -/
theorem saveLoop_append {ρ : Type} (key : ρ → Hash32) (assign : ρ → ρ → ρ)
    (F : List ρ → List ρ → List ρ) (hF0 : ∀ t, F [] t = t)
    (_hFnone : ∀ u us t, updateFirst (structWhere key (key u)) (assign u) t = none →
      F (u :: us) t = t)
    (hFsome : ∀ u us t t1, updateFirst (structWhere key (key u)) (assign u) t = some t1 →
      F (u :: us) t = F us t1)
    (hkey : ∀ u r, key (assign u r) = key r) :
    ∀ (l1 l2 t : List ρ), (∀ u ∈ l1, takeIndex (structWhere key (key u)) t ≠ none) →
      F (l1 ++ l2) t = F l2 (F l1 t) := by
  intro l1
  induction l1 with
  | nil => intro l2 t _; rw [List.nil_append, hF0]
  | cons u us ih =>
    intro l2 t hall
    rw [List.cons_append]
    cases hu : updateFirst (structWhere key (key u)) (assign u) t with
    | none =>
      exact absurd ((updateFirst_none _ _ _).mp hu) (hall u (List.mem_cons_self _ _))
    | some t1 =>
      rw [hFsome u (us ++ l2) t t1 hu, hFsome u us t t1 hu]
      apply ih
      intro x hx
      rw [takeIndex_structWhere_congr key (key x) t t1
        (updateFirst_map_key _ _ key (hkey u) _ _ hu)]
      exact hall x (List.mem_cons_of_mem _ hx)

/-- A row that no entry of the list selects is left as it is. -/
theorem saveLoop_untouched {ρ : Type} (key : ρ → Hash32) (assign : ρ → ρ → ρ)
    (F : List ρ → List ρ → List ρ) (hF0 : ∀ t, F [] t = t)
    (hFnone : ∀ u us t, updateFirst (structWhere key (key u)) (assign u) t = none →
      F (u :: us) t = t)
    (hFsome : ∀ u us t t1, updateFirst (structWhere key (key u)) (assign u) t = some t1 →
      F (u :: us) t = F us t1)
    (hkey : ∀ u r, key (assign u r) = key r) (i : Nat) :
    ∀ (us t : List ρ), (∀ u ∈ us, takeIndex (structWhere key (key u)) t ≠ some i) →
      (F us t)[i]? = t[i]? := by
  intro us
  induction us with
  | nil => intro t _; rw [hF0]
  | cons u us ih =>
    intro t hall
    cases hu : updateFirst (structWhere key (key u)) (assign u) t with
    | none => rw [hFnone u us t hu]
    | some t1 =>
      rw [hFsome u us t t1 hu]
      obtain ⟨i0, r0, h1, _, _, _, h5⟩ := updateFirst_some _ _ _ _ hu
      have hne : i ≠ i0 := by
        intro h
        apply hall u (List.mem_cons_self _ _)
        rw [h1, h]
      rw [ih t1, h5 i hne]
      intro x hx
      rw [takeIndex_structWhere_congr key (key x) t t1
        (updateFirst_map_key _ _ key (hkey u) _ _ hu)]
      exact hall x (List.mem_cons_of_mem _ hx)

/-- The write of the `k`-th iteration of the loop, when the entries before it find their
records and the `k`-th entry selects the row at position `i`: the iteration replaces that row
by its update and leaves the other rows; the rest of the loop runs on the table so written;
and the row keeps this update to the end when no later entry selects it. -/
theorem saveLoop_write {ρ : Type} (key : ρ → Hash32) (assign : ρ → ρ → ρ)
    (F : List ρ → List ρ → List ρ) (hF0 : ∀ t, F [] t = t)
    (hFnone : ∀ u us t, updateFirst (structWhere key (key u)) (assign u) t = none →
      F (u :: us) t = t)
    (hFsome : ∀ u us t t1, updateFirst (structWhere key (key u)) (assign u) t = some t1 →
      F (u :: us) t = F us t1)
    (hkey : ∀ u r, key (assign u r) = key r)
    (us t : List ρ) (k i : Nat) (u : ρ) (hk : us[k]? = some u)
    (hpre : ∀ (j : Nat) (x : ρ), j < k → us[j]? = some x →
      takeIndex (structWhere key (key x)) t ≠ none)
    (hi : takeIndex (structWhere key (key u)) t = some i) :
    ∃ r, (F (us.take k) t)[i]? = some r ∧
      (F (us.take (k + 1)) t)[i]? = some (assign u r) ∧
      (∀ j, j ≠ i → (F (us.take (k + 1)) t)[j]? = (F (us.take k) t)[j]?) ∧
      F us t = F (us.drop (k + 1)) (F (us.take (k + 1)) t) ∧
      ((∀ (j : Nat) (x : ρ), k < j → us[j]? = some x →
          takeIndex (structWhere key (key x)) t ≠ some i) →
        (F us t)[i]? = some (assign u r)) := by
  have hklt : k < us.length := by
    rcases Nat.lt_or_ge k us.length with h | h
    · exact h
    · rw [List.getElem?_eq_none h] at hk
      cases hk
  have htake : us.take (k + 1) = us.take k ++ [u] := by
    rw [List.take_succ, hk]
    rfl
  have hprefound : ∀ x ∈ us.take k, takeIndex (structWhere key (key x)) t ≠ none := by
    intro x hx
    obtain ⟨j, hj⟩ := List.getElem?_of_mem hx
    have hjk : j < k := by
      by_contra hge
      rw [List.getElem?_take_eq_none (by omega)] at hj
      cases hj
    rw [List.getElem?_take_of_lt hjk] at hj
    exact hpre j x hjk hj
  have hmap0 : (F (us.take k) t).map key = t.map key :=
    saveLoop_keys key assign F hF0 hFnone hFsome hkey _ _
  have hi0 : takeIndex (structWhere key (key u)) (F (us.take k) t) = some i := by
    rw [takeIndex_structWhere_congr key (key u) t _ hmap0]
    exact hi
  cases hu : updateFirst (structWhere key (key u)) (assign u) (F (us.take k) t) with
  | none =>
    have := (updateFirst_none _ _ _).mp hu
    rw [hi0] at this
    cases this
  | some t1 =>
    have hstep : F (us.take (k + 1)) t = t1 := by
      rw [htake, saveLoop_append key assign F hF0 hFnone hFsome hkey _ _ _ hprefound,
        hFsome u [] _ t1 hu, hF0]
    obtain ⟨i0, r0, h1, h2, h3, _, h5⟩ := updateFirst_some _ _ _ _ hu
    rw [hi0] at h1
    cases h1
    have hfound1 : ∀ x ∈ us.take (k + 1), takeIndex (structWhere key (key x)) t ≠ none := by
      intro x hx
      rw [htake] at hx
      rcases List.mem_append.mp hx with h | h
      · exact hprefound x h
      · rw [List.mem_singleton] at h
        subst h
        rw [hi]
        exact fun h => Option.noConfusion h
    have hsplit : F us t = F (us.drop (k + 1)) (F (us.take (k + 1)) t) := by
      conv_lhs => rw [← List.take_append_drop (k + 1) us]
      exact saveLoop_append key assign F hF0 hFnone hFsome hkey _ _ _ hfound1
    refine ⟨r0, h2, by rw [hstep]; exact h3, ?_, hsplit, ?_⟩
    · intro j hj
      rw [hstep]
      exact h5 j hj
    · intro hlater
      rw [hsplit, saveLoop_untouched key assign F hF0 hFnone hFsome hkey i, hstep]
      · exact h3
      · intro x hx
        obtain ⟨j, hj⟩ := List.getElem?_of_mem hx
        rw [List.getElem?_drop] at hj
        rw [takeIndex_structWhere_congr key (key x) t _
          (saveLoop_keys key assign F hF0 hFnone hFsome hkey _ _)]
        exact hlater (k + 1 + j) x (by omega) hj

/-! ## Correlation of bridge-initiated logs on L1 (C2, C3) -/

theorem LogMap.lookup_foldl_insert {α : Type} (key : α → logKey) (k : logKey) (l : List α) :
    ∀ (m0 : LogMap α) (v : α),
      (l.foldl (fun m x => m.insert (key x) x) m0).lookup k = some v →
        (v ∈ l ∧ key v = k) ∨ m0.lookup k = some v := by
  induction l with
  | nil => intro m0 v h; exact Or.inr h
  | cons x xs ih =>
    intro m0 v h
    simp only [List.foldl_cons] at h
    rcases ih _ v h with ⟨hm, hk⟩ | h'
    · exact Or.inl ⟨List.mem_cons_of_mem _ hm, hk⟩
    · unfold LogMap.lookup LogMap.insert at h'
      by_cases hkx : key x = k
      · simp only [List.find?_cons, hkx, decide_True, Option.map_some', Option.some.injEq] at h'
        subst h'
        exact Or.inl ⟨List.mem_cons_self _ _, hkx⟩
      · simp only [List.find?_cons, hkx, decide_False] at h'
        exact Or.inr h'

theorem portalDepositsOf_lookup (l : List OptimismPortalTransactionDepositEvent) (k : logKey)
    (d : OptimismPortalTransactionDepositEvent) (h : (portalDepositsOf l).lookup k = some d) :
    d ∈ l ∧ (d.Event.BlockHash, d.Event.LogIndex) = k := by
  rcases LogMap.lookup_foldl_insert (fun x : OptimismPortalTransactionDepositEvent =>
    (x.Event.BlockHash, x.Event.LogIndex)) k l [] d h with h1 | h1
  · exact h1
  · simp [LogMap.lookup] at h1

theorem sentMessagesOf_lookup (l : List CrossDomainMessengerSentMessageEvent) (k : logKey)
    (s : CrossDomainMessengerSentMessageEvent) (h : (sentMessagesOf l).lookup k = some s) :
    s ∈ l ∧ (s.Event.BlockHash, s.Event.LogIndex) = k := by
  rcases LogMap.lookup_foldl_insert (fun x : CrossDomainMessengerSentMessageEvent =>
    (x.Event.BlockHash, x.Event.LogIndex)) k l [] s h with h1 | h1
  · exact h1
  · simp [LogMap.lookup] at h1

theorem correlateAt_ok (pd : LogMap OptimismPortalTransactionDepositEvent)
    (sm : LogMap CrossDomainMessengerSentMessageEvent) (i j : Nat)
    (e : StandardBridgeInitiatedEvent) (r : L1ToL2 × StandardBridgeInitiatedEvent)
    (h : correlateAt pd sm i j e = .ok r) :
    ∃ d s, pd.lookup (e.Event.BlockHash, e.Event.LogIndex + i) = some d ∧
      sm.lookup (e.Event.BlockHash, e.Event.LogIndex + j) = some s ∧
      r.1 = { L1TransactionHash := d.Event.TransactionHash
              FromAddress := e.FromAddress
              ToAddress := e.ToAddress
              L1TokenAddress := e.LocalTokenAddress
              L2TokenAddress := e.RemoteTokenAddress
              ERC20Amount := e.ERC20Amount } ∧
      r.2 = { e with CrossDomainMessageHash := some s.MessageHash } := by
  unfold correlateAt at h
  cases hd : pd.lookup (e.Event.BlockHash, e.Event.LogIndex + i) with
  | none => simp [hd] at h
  | some d =>
    cases hs : sm.lookup (e.Event.BlockHash, e.Event.LogIndex + j) with
    | none => simp [hd, hs] at h
    | some s =>
      simp only [hd, hs, Except.ok.injEq] at h
      exact ⟨d, s, rfl, rfl, by rw [← h], by rw [← h]⟩

theorem correlateInitiatedBridges_ok (c : L1Contracts)
    (pd : LogMap OptimismPortalTransactionDepositEvent)
    (sm : LogMap CrossDomainMessengerSentMessageEvent) :
    ∀ (l : List StandardBridgeInitiatedEvent) (rs : List (L1ToL2 × StandardBridgeInitiatedEvent)),
      correlateInitiatedBridges c pd sm l = .ok rs →
      ∀ (k : Nat) (e : StandardBridgeInitiatedEvent), l[k]? = some e →
        ∃ r, rs[k]? = some r ∧ correlateInitiatedBridge c pd sm e = .ok r := by
  intro l
  induction l with
  | nil => intro rs _ k e hk; simp at hk
  | cons x xs ih =>
    intro rs h k e hk
    unfold correlateInitiatedBridges at h
    cases hx : correlateInitiatedBridge c pd sm x with
    | error err => simp [hx] at h
    | ok r =>
      cases hxs : correlateInitiatedBridges c pd sm xs with
      | error err => simp [hx, hxs] at h
      | ok rs1 =>
        simp only [hx, hxs, Except.ok.injEq] at h
        subst h
        cases k with
        | zero =>
          simp only [List.getElem?_cons_zero, Option.some.injEq] at hk
          subst hk
          exact ⟨r, by simp, hx⟩
        | succ k =>
          simp only [List.getElem?_cons_succ] at hk
          obtain ⟨r1, h1, h2⟩ := ih rs1 hxs k e hk
          exact ⟨r1, by simpa using h1, h2⟩

theorem L1ProcessInitiatedBridgeEventsRun_ok (c : L1Contracts) (db : DB) (a b : Int)
    (run : InitiatedRun) (h : L1ProcessInitiatedBridgeEventsRun c db a b = .ok run) :
    ∃ deposits sent bridges correlated,
      c.OptimismPortalTransactionDepositEvents a b = .ok deposits ∧
      c.CrossDomainMessengerSentMessageEvents a b = .ok sent ∧
      StandardBridgeInitiatedEvents c a b = .ok bridges ∧
      correlateInitiatedBridges c (portalDepositsOf deposits) (sentMessagesOf sent) bridges
        = .ok correlated ∧
      run.l1ToL2s2 = correlated.map (fun r => r.1) ∧
      run.initiatedBridges = correlated.map (fun r => r.2) ∧
      run.db.l1ToL2 = UpdateL1ToL2InfoByTxHash run.l1ToL2s2
        (UpdateMessageHashByTxHash (sent.map sentMessageUpdate)
          (StoreL1ToL2Transactions (deposits.map (depositRow db.l1BlockHeaders)) db.l1ToL2)) := by
  unfold L1ProcessInitiatedBridgeEventsRun at h
  cases hd : c.OptimismPortalTransactionDepositEvents a b with
  | error e => simp [hd] at h
  | ok deposits =>
    cases hs : c.CrossDomainMessengerSentMessageEvents a b with
    | error e => simp [hd, hs] at h
    | ok sent =>
      cases hb : StandardBridgeInitiatedEvents c a b with
      | error e => simp [hd, hs, hb] at h
      | ok bridges =>
        cases hc : correlateInitiatedBridges c (portalDepositsOf deposits) (sentMessagesOf sent)
            bridges with
        | error e => simp [hd, hs, hb, hc] at h
        | ok correlated =>
          simp only [hd, hs, hb, hc, Except.ok.injEq] at h
          refine ⟨deposits, sent, bridges, correlated, rfl, rfl, rfl, hc, ?_, ?_, ?_⟩
          · rw [← h]
          · rw [← h]
          · rw [← h]
            have e1 : ∀ t : List L1ToL2,
                (if (List.map (depositRow db.l1BlockHeaders) deposits).length > 0 then
                  StoreL1ToL2Transactions (List.map (depositRow db.l1BlockHeaders) deposits) t
                else t) =
                StoreL1ToL2Transactions (List.map (depositRow db.l1BlockHeaders) deposits) t := by
              intro t
              cases deposits with
              | nil => simp [StoreL1ToL2Transactions]
              | cons x xs => simp
            have e2 : ∀ t : List L1ToL2,
                (if (List.map sentMessageUpdate sent).length > 0 then
                  UpdateMessageHashByTxHash (List.map sentMessageUpdate sent) t
                else t) = UpdateMessageHashByTxHash (List.map sentMessageUpdate sent) t := by
              intro t
              cases sent with
              | nil => simp [UpdateMessageHashByTxHash]
              | cons x xs => simp
            have e3 : ∀ t : List L1ToL2,
                (if (List.map (fun r => r.1) correlated).length > 0 then
                  UpdateL1ToL2InfoByTxHash (List.map (fun r => r.1) correlated) t
                else t) = UpdateL1ToL2InfoByTxHash (List.map (fun r => r.1) correlated) t := by
              intro t
              cases correlated with
              | nil => simp [UpdateL1ToL2InfoByTxHash]
              | cons x xs => simp
            simp only [e1, e2, e3]

theorem legacyThenBedrock_bedrock_call (P : Processors) (legacy bedrock : ProcessorName)
    (fork fromHeight toHeight : Int) (tx : DB) (a b : Int) (hne : legacy ≠ bedrock)
    (h : (⟨bedrock, a, b⟩ : ProcessorCall) ∈
      (legacyThenBedrock P legacy bedrock fork fromHeight toHeight tx).calls) :
    ∃ tx1, (legacyThenBedrock P legacy bedrock fork fromHeight toHeight tx).result
      = P bedrock tx1 a b := by
  have hne' : bedrock ≠ legacy := fun h => hne h.symm
  unfold legacyThenBedrock at h ⊢
  by_cases h1 : fork > fromHeight
  · simp only [h1, if_true] at h ⊢
    cases hL : P legacy tx fromHeight (if fork ≤ toHeight then fork - 1 else toHeight) with
    | error e =>
      simp only [hL, List.mem_singleton, ProcessorCall.mk.injEq] at h
      exact absurd h.1 hne'
    | ok tx1 =>
      simp only [hL] at h ⊢
      by_cases h3 : (if fork ≤ toHeight then fork - 1 else toHeight) = toHeight
      · simp only [h3, if_true, List.mem_singleton, ProcessorCall.mk.injEq] at h
        exact absurd h.1 hne'
      · simp only [h3, if_false, List.mem_cons, ProcessorCall.mk.injEq, List.mem_singleton,
          List.not_mem_nil, or_false] at h ⊢
        rcases h with h | h
        · exact absurd h.1 hne'
        · obtain ⟨_, rfl, rfl⟩ := h
          exact ⟨tx1, rfl⟩
  · simp only [h1, if_false, List.mem_singleton, ProcessorCall.mk.injEq] at h ⊢
    obtain ⟨_, rfl, rfl⟩ := h
    exact ⟨tx, rfl⟩

/-- C2. When the range `[a, b]` holds an ETHBridgeInitiated log at `(B, i)` and none of the
range's SentMessage logs is at `(B, i + 2)`, `L1ProcessInitiatedBridgeEvents` returns an error
on `[a, b]` whatever the store; and when `processInitiatedL1Events` hands `[a, b]` to it, the
sub-procedure returns that error and leaves `LatestL1L2InitL1Header` (and the store) as
before the call. -/
theorem missing_sent_message_aborts (c : L1Contracts) (P : Processors) (ep : EventProcessor)
    (db : DB) (a b : Int)
    (initiatedBridges : List StandardBridgeInitiatedEvent)
    (sent : List CrossDomainMessengerSentMessageEvent)
    (e : StandardBridgeInitiatedEvent)
    (hP : P .L1ProcessInitiatedBridgeEvents = L1ProcessInitiatedBridgeEvents c)
    (hb : StandardBridgeInitiatedEvents c a b = .ok initiatedBridges)
    (hs : c.CrossDomainMessengerSentMessageEvents a b = .ok sent)
    (he : e ∈ initiatedBridges)
    (hsig : e.Event.EventSignature = c.ETHBridgeInitiatedID)
    (hmiss : ∀ s ∈ sent, ¬ (s.Event.BlockHash = e.Event.BlockHash ∧
      s.Event.LogIndex = e.Event.LogIndex + 2)) :
    (∀ tx, ∃ err, L1ProcessInitiatedBridgeEvents c tx a b = .error err) ∧
    ((⟨.L1ProcessInitiatedBridgeEvents, a, b⟩ : ProcessorCall) ∈
        (processInitiatedL1Events P ep db).calls →
      ∃ tx err, L1ProcessInitiatedBridgeEvents c tx a b = .error err ∧
        (processInitiatedL1Events P ep db).err = some err ∧
        (processInitiatedL1Events P ep db).ep.LatestL1L2InitL1Header = ep.LatestL1L2InitL1Header ∧
        (processInitiatedL1Events P ep db).ep = ep ∧
        (processInitiatedL1Events P ep db).db = db) := by
  have hfail : ∀ tx, ∃ err, L1ProcessInitiatedBridgeEvents c tx a b = .error err := by
    intro tx
    unfold L1ProcessInitiatedBridgeEvents
    cases hr : L1ProcessInitiatedBridgeEventsRun c tx a b with
    | error err => exact ⟨err, rfl⟩
    | ok run =>
      exfalso
      obtain ⟨deposits, sent', bridges, correlated, _, hs', hb', hc, _, _, _⟩ :=
        L1ProcessInitiatedBridgeEventsRun_ok c tx a b run hr
      rw [hs] at hs'
      rw [hb] at hb'
      cases hs'
      cases hb'
      obtain ⟨k, hk⟩ := List.getElem?_of_mem he
      obtain ⟨r, _, hr1⟩ := correlateInitiatedBridges_ok c _ _ _ _ hc k e hk
      unfold correlateInitiatedBridge at hr1
      simp only [hsig, if_true] at hr1
      obtain ⟨d, s, _, hs2, _, _⟩ := correlateAt_ok _ _ _ _ _ _ hr1
      obtain ⟨hmem, hkey⟩ := sentMessagesOf_lookup _ _ _ hs2
      simp only [Prod.mk.injEq] at hkey
      exact hmiss s hmem hkey
  refine ⟨hfail, ?_⟩
  intro hcall
  unfold processInitiatedL1Events at hcall ⊢
  cases hq : BlockHeaderWithScope db.l1BlockHeaders (fun number => decide (number >
      lastBlockNumber ep.LatestL1L2InitL1Header ep.chainConfig.L1StartingHeight)) with
  | none => simp [hq] at hcall
  | some latest =>
    simp only [hq] at hcall ⊢
    have hcall' : (⟨.L1ProcessInitiatedBridgeEvents, a, b⟩ : ProcessorCall) ∈
        (legacyThenBedrock P .LegacyL1ProcessInitiatedBridgeEvents .L1ProcessInitiatedBridgeEvents
          (int64OfUint ep.chainConfig.L1BedrockStartingHeight)
          (lastBlockNumber ep.LatestL1L2InitL1Header ep.chainConfig.L1StartingHeight + 1)
          latest.Number db).calls := by
      cases hres : (legacyThenBedrock P .LegacyL1ProcessInitiatedBridgeEvents
          .L1ProcessInitiatedBridgeEvents
          (int64OfUint ep.chainConfig.L1BedrockStartingHeight)
          (lastBlockNumber ep.LatestL1L2InitL1Header ep.chainConfig.L1StartingHeight + 1)
          latest.Number db).result with
      | error err => simpa [hres] using hcall
      | ok db1 => simpa [hres] using hcall
    obtain ⟨tx1, htx⟩ := legacyThenBedrock_bedrock_call P _ _ _ _ _ db a b (by decide) hcall'
    obtain ⟨err, herr⟩ := hfail tx1
    rw [hP] at htx
    rw [herr] at htx
    exact ⟨tx1, err, herr, by simp [htx], by simp [htx], by simp [htx], by simp [htx]⟩

/-- C2 on a range with an ETHBridgeInitiated log at `(7, 10)` and no SentMessage log at all. -/
theorem missing_sent_message_aborts_witness :
    ((⟨.L1ProcessInitiatedBridgeEvents, 1, 3⟩ : ProcessorCall) ∈
        (processInitiatedL1Events (bridgeProcessors (exampleContracts []))
          { chainConfig := genesisConfig } { l1BlockHeaders := headerRange 1 3 }).calls) ∧
    (∀ tx, ∃ err, L1ProcessInitiatedBridgeEvents (exampleContracts []) tx 1 3 = .error err) ∧
    ((⟨.L1ProcessInitiatedBridgeEvents, 1, 3⟩ : ProcessorCall) ∈
        (processInitiatedL1Events (bridgeProcessors (exampleContracts []))
          { chainConfig := genesisConfig } { l1BlockHeaders := headerRange 1 3 }).calls →
      ∃ tx err, L1ProcessInitiatedBridgeEvents (exampleContracts []) tx 1 3 = .error err ∧
        (processInitiatedL1Events (bridgeProcessors (exampleContracts []))
          { chainConfig := genesisConfig } { l1BlockHeaders := headerRange 1 3 }).err = some err ∧
        (processInitiatedL1Events (bridgeProcessors (exampleContracts []))
          { chainConfig := genesisConfig }
          { l1BlockHeaders := headerRange 1 3 }).ep.LatestL1L2InitL1Header =
          ({ chainConfig := genesisConfig } : EventProcessor).LatestL1L2InitL1Header ∧
        (processInitiatedL1Events (bridgeProcessors (exampleContracts []))
          { chainConfig := genesisConfig } { l1BlockHeaders := headerRange 1 3 }).ep =
          { chainConfig := genesisConfig } ∧
        (processInitiatedL1Events (bridgeProcessors (exampleContracts []))
          { chainConfig := genesisConfig } { l1BlockHeaders := headerRange 1 3 }).db =
          { l1BlockHeaders := headerRange 1 3 }) :=
  And.intro (by decide) <|
  missing_sent_message_aborts (exampleContracts []) (bridgeProcessors (exampleContracts []))
    { chainConfig := genesisConfig } { l1BlockHeaders := headerRange 1 3 } 1 3
    [exampleBridge] [] exampleBridge rfl rfl rfl (List.mem_singleton.mpr rfl) rfl
    (fun _ h => absurd h (List.not_mem_nil _))

theorem UpdateL1ToL2InfoByTxHash_keys :
    ∀ (us t : List L1ToL2),
      (UpdateL1ToL2InfoByTxHash us t).map (fun r => r.L1TransactionHash) =
        t.map (fun r => r.L1TransactionHash) := by
  intro us
  induction us with
  | nil => intro t; rfl
  | cons u us ih =>
    intro t
    unfold UpdateL1ToL2InfoByTxHash
    split
    · rfl
    · rename_i t1 hu
      rw [ih t1]
      refine updateFirst_map_key _ _ (fun r : L1ToL2 => r.L1TransactionHash) ?_ _ _ hu
      intro r
      rfl

theorem UpdateMessageHashByTxHash_keys :
    ∀ (us t : List L1ToL2),
      (UpdateMessageHashByTxHash us t).map (fun r => r.L1TransactionHash) =
        t.map (fun r => r.L1TransactionHash) := by
  intro us
  induction us with
  | nil => intro t; rfl
  | cons u us ih =>
    intro t
    unfold UpdateMessageHashByTxHash
    split
    · rfl
    · rename_i t1 hu
      rw [ih t1]
      refine updateFirst_map_key _ _ (fun r : L1ToL2 => r.L1TransactionHash) ?_ _ _ hu
      intro r
      rfl

theorem correlateInitiatedBridges_keys (c : L1Contracts)
    (pd : LogMap OptimismPortalTransactionDepositEvent)
    (sm : LogMap CrossDomainMessengerSentMessageEvent) :
    ∀ (l : List StandardBridgeInitiatedEvent) (rs : List (L1ToL2 × StandardBridgeInitiatedEvent)),
      correlateInitiatedBridges c pd sm l = .ok rs →
      ∀ r ∈ rs, r.1.L1TransactionHash = 0 ∨
        ∃ key d, pd.lookup key = some d ∧ r.1.L1TransactionHash = d.Event.TransactionHash := by
  intro l
  induction l with
  | nil =>
    intro rs h r hr
    simp only [correlateInitiatedBridges, Except.ok.injEq] at h
    subst h
    cases hr
  | cons x xs ih =>
    intro rs h r hr
    unfold correlateInitiatedBridges at h
    cases hx : correlateInitiatedBridge c pd sm x with
    | error err => simp [hx] at h
    | ok r0 =>
      cases hxs : correlateInitiatedBridges c pd sm xs with
      | error err => simp [hx, hxs] at h
      | ok rs1 =>
        simp only [hx, hxs, Except.ok.injEq] at h
        subst h
        rcases List.mem_cons.mp hr with h1 | h1
        · subst h1
          unfold correlateInitiatedBridge at hx
          split_ifs at hx
          · obtain ⟨d, s, hd, _, h2, _⟩ := correlateAt_ok _ _ _ _ _ _ hx
            exact Or.inr ⟨_, d, hd, by rw [h2]⟩
          · obtain ⟨d, s, hd, _, h2, _⟩ := correlateAt_ok _ _ _ _ _ _ hx
            exact Or.inr ⟨_, d, hd, by rw [h2]⟩
          · obtain ⟨d, s, hd, _, h2, _⟩ := correlateAt_ok _ _ _ _ _ _ hx
            exact Or.inr ⟨_, d, hd, by rw [h2]⟩
          · simp only [Except.ok.injEq] at hx
            left
            rw [← hx]
        · exact ih rs1 hxs r h1

/-- The store-level effect of the third loop of `L1ProcessInitiatedBridgeEvents` for the entry
`l1ToL2s2[k]`, when its key is the transaction hash of a TransactionDeposit log of the range:
the row `Take` selects, what the `k`-th iteration of `UpdateL1ToL2InfoByTxHash` writes to it,
and what the store holds at the end. -/
theorem L1ProcessInitiatedBridgeEventsRun_write (c : L1Contracts) (db : DB) (a b : Int)
    (deposits : List OptimismPortalTransactionDepositEvent)
    (sent : List CrossDomainMessengerSentMessageEvent) (run : InitiatedRun)
    (k : Nat) (u : L1ToL2) (d : OptimismPortalTransactionDepositEvent)
    (hd : c.OptimismPortalTransactionDepositEvents a b = .ok deposits)
    (hs : c.CrossDomainMessengerSentMessageEvents a b = .ok sent)
    (hrun : L1ProcessInitiatedBridgeEventsRun c db a b = .ok run)
    (hu : run.l1ToL2s2[k]? = some u) (hdm : d ∈ deposits)
    (hkey : u.L1TransactionHash = d.Event.TransactionHash) :
    ∃ i row0,
      takeIndex (structWhere (fun r : L1ToL2 => r.L1TransactionHash) d.Event.TransactionHash)
        run.db.l1ToL2 = some i ∧
      (d.Event.TransactionHash ≠ 0 →
        ∃ row, run.db.l1ToL2[i]? = some row ∧
          row.L1TransactionHash = d.Event.TransactionHash ∧
          ∀ (j : Nat) (row1 : L1ToL2), j < i → run.db.l1ToL2[j]? = some row1 →
            row1.L1TransactionHash ≠ d.Event.TransactionHash) ∧
      (UpdateL1ToL2InfoByTxHash (run.l1ToL2s2.take k)
        (UpdateMessageHashByTxHash (sent.map sentMessageUpdate)
          (StoreL1ToL2Transactions (deposits.map (depositRow db.l1BlockHeaders))
            db.l1ToL2)))[i]? = some row0 ∧
      (UpdateL1ToL2InfoByTxHash (run.l1ToL2s2.take (k + 1))
        (UpdateMessageHashByTxHash (sent.map sentMessageUpdate)
          (StoreL1ToL2Transactions (deposits.map (depositRow db.l1BlockHeaders))
            db.l1ToL2)))[i]? =
        some { row0 with
          L1TokenAddress := u.L1TokenAddress
          L2TokenAddress := u.L2TokenAddress
          FromAddress := u.FromAddress
          ToAddress := u.ToAddress
          ERC20Amount := u.ERC20Amount } ∧
      run.db.l1ToL2 =
        UpdateL1ToL2InfoByTxHash (run.l1ToL2s2.drop (k + 1))
          (UpdateL1ToL2InfoByTxHash (run.l1ToL2s2.take (k + 1))
            (UpdateMessageHashByTxHash (sent.map sentMessageUpdate)
              (StoreL1ToL2Transactions (deposits.map (depositRow db.l1BlockHeaders))
                db.l1ToL2))) ∧
      ((∀ (j : Nat) (u1 : L1ToL2), k < j → run.l1ToL2s2[j]? = some u1 →
          takeIndex (structWhere (fun r : L1ToL2 => r.L1TransactionHash) u1.L1TransactionHash)
            run.db.l1ToL2 ≠ some i) →
        run.db.l1ToL2[i]? =
          some { row0 with
            L1TokenAddress := u.L1TokenAddress
            L2TokenAddress := u.L2TokenAddress
            FromAddress := u.FromAddress
            ToAddress := u.ToAddress
            ERC20Amount := u.ERC20Amount }) := by
  obtain ⟨deposits', sent', bridges, correlated, hd', hs', _, hc, hl, _, hdb⟩ :=
    L1ProcessInitiatedBridgeEventsRun_ok c db a b run hrun
  rw [hd] at hd'
  rw [hs] at hs'
  cases hd'
  cases hs'
  have hkeys2 : ∀ t : List L1ToL2, (UpdateL1ToL2InfoByTxHash run.l1ToL2s2 t).map
      (fun r : L1ToL2 => r.L1TransactionHash) = t.map (fun r => r.L1TransactionHash) :=
    fun t => UpdateL1ToL2InfoByTxHash_keys _ t
  have hmapdb : run.db.l1ToL2.map (fun r : L1ToL2 => r.L1TransactionHash) =
      (UpdateMessageHashByTxHash (sent.map sentMessageUpdate)
        (StoreL1ToL2Transactions (deposits.map (depositRow db.l1BlockHeaders))
          db.l1ToL2)).map (fun r => r.L1TransactionHash) := by
    rw [hdb, hkeys2]
  have hmem : ∀ d1 ∈ deposits, ∃ r ∈ (UpdateMessageHashByTxHash (sent.map sentMessageUpdate)
      (StoreL1ToL2Transactions (deposits.map (depositRow db.l1BlockHeaders)) db.l1ToL2)),
      r.L1TransactionHash = d1.Event.TransactionHash := by
    intro d1 hd1
    have : d1.Event.TransactionHash ∈ (UpdateMessageHashByTxHash (sent.map sentMessageUpdate)
        (StoreL1ToL2Transactions (deposits.map (depositRow db.l1BlockHeaders))
          db.l1ToL2)).map (fun r => r.L1TransactionHash) := by
      rw [UpdateMessageHashByTxHash_keys]
      simp only [StoreL1ToL2Transactions, List.map_append, List.mem_append, List.mem_map]
      exact Or.inr ⟨depositRow db.l1BlockHeaders d1, ⟨d1, hd1, rfl⟩, rfl⟩
    obtain ⟨r, hr, hrk⟩ := List.mem_map.mp this
    exact ⟨r, hr, hrk⟩
  have hfound : ∀ x ∈ run.l1ToL2s2,
      takeIndex (structWhere (fun r : L1ToL2 => r.L1TransactionHash) x.L1TransactionHash)
        (UpdateMessageHashByTxHash (sent.map sentMessageUpdate)
          (StoreL1ToL2Transactions (deposits.map (depositRow db.l1BlockHeaders))
            db.l1ToL2)) ≠ none := by
    intro x hx
    rw [hl] at hx
    obtain ⟨r, hr, rfl⟩ := List.mem_map.mp hx
    rcases correlateInitiatedBridges_keys c _ _ _ _ hc r hr with h0 | ⟨key, d1, hd1, h1⟩
    · obtain ⟨row, hrow, _⟩ := hmem d hdm
      exact takeIndex_ne_none _ _ row hrow (by simp [structWhere, h0])
    · obtain ⟨hd1m, _⟩ := portalDepositsOf_lookup _ _ _ hd1
      obtain ⟨row, hrow, hrk⟩ := hmem d1 hd1m
      exact takeIndex_ne_none _ _ row hrow (by simp [structWhere, h1, hrk])
  obtain ⟨i, hi⟩ := Option.ne_none_iff_exists'.mp
    (hfound u (List.getElem?_mem hu))
  obtain ⟨row0, h1, h2, _, h4, h5⟩ := saveLoop_write
    (fun r : L1ToL2 => r.L1TransactionHash)
    (fun (x l1ToL2 : L1ToL2) => { l1ToL2 with
      L1TokenAddress := x.L1TokenAddress
      L2TokenAddress := x.L2TokenAddress
      FromAddress := x.FromAddress
      ToAddress := x.ToAddress
      ERC20Amount := x.ERC20Amount })
    UpdateL1ToL2InfoByTxHash (fun _ => rfl)
    (fun x xs t h => by rw [UpdateL1ToL2InfoByTxHash, h])
    (fun x xs t t1 h => by rw [UpdateL1ToL2InfoByTxHash, h])
    (fun _ _ => rfl)
    run.l1ToL2s2 _ k i u hu
    (fun j x _ hj => hfound x (List.getElem?_mem hj)) hi
  have hidb : takeIndex (structWhere (fun r : L1ToL2 => r.L1TransactionHash)
      d.Event.TransactionHash) run.db.l1ToL2 = some i := by
    rw [takeIndex_structWhere_congr _ _ _ _ hmapdb, ← hkey]
    exact hi
  refine ⟨i, row0, hidb, ?_, h1, h2, ?_, ?_⟩
  · intro hnz
    obtain ⟨row, hr1, hr2, hr3⟩ := takeIndex_some _ _ _ hidb
    refine ⟨row, hr1, ?_, ?_⟩
    · simpa [structWhere, hnz] using hr2
    · intro j row1 hj hrow1
      have := hr3 j row1 hj hrow1
      simpa [structWhere, hnz] using this
  · rw [hdb]
    exact h4
  · intro hlater
    rw [hdb]
    apply h5
    intro j x hj hx
    have := hlater j x hj hx
    rw [takeIndex_structWhere_congr _ _ _ _ hmapdb] at this
    exact this

/-- C3. When `L1ProcessInitiatedBridgeEvents` succeeds on a range, then for every
ETHBridgeInitiated log at `(B, i)` among the range's bridge events (the `k`-th of them) there
are a TransactionDeposit log at `(B, i + 1)` and a SentMessage log at `(B, i + 2)` in the
range, and the message hash attached to the bridge event is that of that SentMessage log. The
deposit that the `k`-th iteration of `UpdateL1ToL2InfoByTxHash` updates is the row `Take`
selects for the transaction hash of that TransactionDeposit log (the first stored deposit with
that transaction hash, when it is not the zero hash): the iteration writes the event's token
pair, from/to addresses and ERC-20 amount to that row, the rest of the loop runs on the table
so written, and the stored row holds them at the end when no later update entry selects the
same row. -/
theorem bedrock_eth_correlation_offsets (c : L1Contracts) (db : DB) (a b : Int)
    (deposits : List OptimismPortalTransactionDepositEvent)
    (sent : List CrossDomainMessengerSentMessageEvent)
    (bridges : List StandardBridgeInitiatedEvent) (run : InitiatedRun)
    (k : Nat) (e : StandardBridgeInitiatedEvent)
    (hd : c.OptimismPortalTransactionDepositEvents a b = .ok deposits)
    (hs : c.CrossDomainMessengerSentMessageEvents a b = .ok sent)
    (hb : StandardBridgeInitiatedEvents c a b = .ok bridges)
    (hrun : L1ProcessInitiatedBridgeEventsRun c db a b = .ok run)
    (hk : bridges[k]? = some e)
    (hsig : e.Event.EventSignature = c.ETHBridgeInitiatedID) :
    L1ProcessInitiatedBridgeEvents c db a b = .ok run.db ∧
    ∃ d s u,
      (portalDepositsOf deposits).lookup (e.Event.BlockHash, e.Event.LogIndex + 1) = some d ∧
      d ∈ deposits ∧ d.Event.BlockHash = e.Event.BlockHash ∧
      d.Event.LogIndex = e.Event.LogIndex + 1 ∧
      (sentMessagesOf sent).lookup (e.Event.BlockHash, e.Event.LogIndex + 2) = some s ∧
      s ∈ sent ∧ s.Event.BlockHash = e.Event.BlockHash ∧
      s.Event.LogIndex = e.Event.LogIndex + 2 ∧
      run.l1ToL2s2[k]? = some u ∧
      u.L1TransactionHash = d.Event.TransactionHash ∧
      run.initiatedBridges[k]? = some { e with CrossDomainMessageHash := some s.MessageHash } ∧
      ∃ i row0,
        takeIndex (structWhere (fun r : L1ToL2 => r.L1TransactionHash) d.Event.TransactionHash)
          run.db.l1ToL2 = some i ∧
        (d.Event.TransactionHash ≠ 0 →
          ∃ row, run.db.l1ToL2[i]? = some row ∧
            row.L1TransactionHash = d.Event.TransactionHash ∧
            ∀ (j : Nat) (row1 : L1ToL2), j < i → run.db.l1ToL2[j]? = some row1 →
              row1.L1TransactionHash ≠ d.Event.TransactionHash) ∧
        (UpdateL1ToL2InfoByTxHash (run.l1ToL2s2.take k)
          (UpdateMessageHashByTxHash (sent.map sentMessageUpdate)
            (StoreL1ToL2Transactions (deposits.map (depositRow db.l1BlockHeaders))
              db.l1ToL2)))[i]? = some row0 ∧
        (UpdateL1ToL2InfoByTxHash (run.l1ToL2s2.take (k + 1))
          (UpdateMessageHashByTxHash (sent.map sentMessageUpdate)
            (StoreL1ToL2Transactions (deposits.map (depositRow db.l1BlockHeaders))
              db.l1ToL2)))[i]? =
          some { row0 with
            L1TokenAddress := e.LocalTokenAddress
            L2TokenAddress := e.RemoteTokenAddress
            FromAddress := e.FromAddress
            ToAddress := e.ToAddress
            ERC20Amount := e.ERC20Amount } ∧
        run.db.l1ToL2 =
          UpdateL1ToL2InfoByTxHash (run.l1ToL2s2.drop (k + 1))
            (UpdateL1ToL2InfoByTxHash (run.l1ToL2s2.take (k + 1))
              (UpdateMessageHashByTxHash (sent.map sentMessageUpdate)
                (StoreL1ToL2Transactions (deposits.map (depositRow db.l1BlockHeaders))
                  db.l1ToL2))) ∧
        ((∀ (j : Nat) (u1 : L1ToL2), k < j → run.l1ToL2s2[j]? = some u1 →
            takeIndex (structWhere (fun r : L1ToL2 => r.L1TransactionHash)
              u1.L1TransactionHash) run.db.l1ToL2 ≠ some i) →
          run.db.l1ToL2[i]? =
            some { row0 with
              L1TokenAddress := e.LocalTokenAddress
              L2TokenAddress := e.RemoteTokenAddress
              FromAddress := e.FromAddress
              ToAddress := e.ToAddress
              ERC20Amount := e.ERC20Amount }) := by
  refine ⟨by simp [L1ProcessInitiatedBridgeEvents, hrun], ?_⟩
  obtain ⟨deposits', sent', bridges', correlated, hd', hs', hb', hc, hu, hi, _⟩ :=
    L1ProcessInitiatedBridgeEventsRun_ok c db a b run hrun
  rw [hd] at hd'
  rw [hs] at hs'
  rw [hb] at hb'
  cases hd'
  cases hs'
  cases hb'
  obtain ⟨r, hr, hr1⟩ := correlateInitiatedBridges_ok c _ _ _ _ hc k e hk
  unfold correlateInitiatedBridge at hr1
  simp only [hsig, if_true] at hr1
  obtain ⟨d, s, hd1, hs1, h1, h2⟩ := correlateAt_ok _ _ _ _ _ _ hr1
  obtain ⟨hdm, hdk⟩ := portalDepositsOf_lookup _ _ _ hd1
  obtain ⟨hsm, hsk⟩ := sentMessagesOf_lookup _ _ _ hs1
  simp only [Prod.mk.injEq] at hdk hsk
  have hru : run.l1ToL2s2[k]? = some r.1 := by
    rw [hu]
    simp [hr]
  have hkey : r.1.L1TransactionHash = d.Event.TransactionHash := by rw [h1]
  obtain ⟨i, row0, w1, w2, w3, w4, w5, w6⟩ :=
    L1ProcessInitiatedBridgeEventsRun_write c db a b deposits sent run k r.1 d hd hs hrun hru
      hdm hkey
  rw [h1] at w4 w6
  refine ⟨d, s, r.1, hd1, hdm, hdk.1, hdk.2, hs1, hsm, hsk.1, hsk.2, hru, hkey, ?_,
    i, row0, w1, w2, w3, w4, w5, w6⟩
  rw [hi, ← h2]
  simp [hr]

/-- C3 at the spec's example: the ETHBridgeInitiated log at `(7, 10)` is paired with the
TransactionDeposit log at `(7, 11)` and the SentMessage log at `(7, 12)`, and the store ends
with the deposit of transaction 500 carrying the event's addresses, token pair and ERC-20
amount. -/
theorem bedrock_eth_correlation_offsets_witness :
    exampleRun.db.l1ToL2 =
      [{ L1BlockNumber := none, L2BlockNumber := some 0, L1TransactionHash := 500
         TransactionSourceHash := 600, MessageHash := 77, L1TxOrigin := 20
         Status := L1ToL2Pending, FromAddress := 20, ToAddress := 21, L1TokenAddress := 40
         L2TokenAddress := 40, ETHAmount := some 5, ERC20Amount := some 0, Version := 1 }] ∧
    L1ProcessInitiatedBridgeEvents (exampleContracts [exampleSentMessage]) {} 1 3
      = .ok exampleRun.db ∧
    ∃ d s u,
      (portalDepositsOf [exampleDeposit]).lookup
        (exampleBridge.Event.BlockHash, exampleBridge.Event.LogIndex + 1) = some d ∧
      d ∈ [exampleDeposit] ∧
      d.Event.BlockHash = exampleBridge.Event.BlockHash ∧
      d.Event.LogIndex = exampleBridge.Event.LogIndex + 1 ∧
      (sentMessagesOf [exampleSentMessage]).lookup
        (exampleBridge.Event.BlockHash, exampleBridge.Event.LogIndex + 2) = some s ∧
      s ∈ [exampleSentMessage] ∧ s.Event.BlockHash = exampleBridge.Event.BlockHash ∧
      s.Event.LogIndex = exampleBridge.Event.LogIndex + 2 ∧
      exampleRun.l1ToL2s2[0]? = some u ∧
      u.L1TransactionHash = d.Event.TransactionHash ∧
      exampleRun.initiatedBridges[0]? =
        some { exampleBridge with CrossDomainMessageHash := some s.MessageHash } ∧
      ∃ i row0,
        takeIndex (structWhere (fun r : L1ToL2 => r.L1TransactionHash) d.Event.TransactionHash)
          exampleRun.db.l1ToL2 = some i ∧
        (d.Event.TransactionHash ≠ 0 →
          ∃ row, exampleRun.db.l1ToL2[i]? = some row ∧
            row.L1TransactionHash = d.Event.TransactionHash ∧
            ∀ (j : Nat) (row1 : L1ToL2), j < i → exampleRun.db.l1ToL2[j]? = some row1 →
              row1.L1TransactionHash ≠ d.Event.TransactionHash) ∧
        (UpdateL1ToL2InfoByTxHash (exampleRun.l1ToL2s2.take 0)
          (UpdateMessageHashByTxHash ([exampleSentMessage].map sentMessageUpdate)
            (StoreL1ToL2Transactions
              ([exampleDeposit].map (depositRow ({} : DB).l1BlockHeaders))
              ({} : DB).l1ToL2)))[i]? = some row0 ∧
        (UpdateL1ToL2InfoByTxHash (exampleRun.l1ToL2s2.take (0 + 1))
          (UpdateMessageHashByTxHash ([exampleSentMessage].map sentMessageUpdate)
            (StoreL1ToL2Transactions
              ([exampleDeposit].map (depositRow ({} : DB).l1BlockHeaders))
              ({} : DB).l1ToL2)))[i]? =
          some { row0 with
            L1TokenAddress := exampleBridge.LocalTokenAddress
            L2TokenAddress := exampleBridge.RemoteTokenAddress
            FromAddress := exampleBridge.FromAddress
            ToAddress := exampleBridge.ToAddress
            ERC20Amount := exampleBridge.ERC20Amount } ∧
        exampleRun.db.l1ToL2 =
          UpdateL1ToL2InfoByTxHash (exampleRun.l1ToL2s2.drop (0 + 1))
            (UpdateL1ToL2InfoByTxHash (exampleRun.l1ToL2s2.take (0 + 1))
              (UpdateMessageHashByTxHash ([exampleSentMessage].map sentMessageUpdate)
                (StoreL1ToL2Transactions
                  ([exampleDeposit].map (depositRow ({} : DB).l1BlockHeaders))
                  ({} : DB).l1ToL2))) ∧
        ((∀ (j : Nat) (u1 : L1ToL2), 0 < j → exampleRun.l1ToL2s2[j]? = some u1 →
            takeIndex (structWhere (fun r : L1ToL2 => r.L1TransactionHash)
              u1.L1TransactionHash) exampleRun.db.l1ToL2 ≠ some i) →
          exampleRun.db.l1ToL2[i]? =
            some { row0 with
              L1TokenAddress := exampleBridge.LocalTokenAddress
              L2TokenAddress := exampleBridge.RemoteTokenAddress
              FromAddress := exampleBridge.FromAddress
              ToAddress := exampleBridge.ToAddress
              ERC20Amount := exampleBridge.ERC20Amount }) :=
  And.intro (by decide) <|
  bedrock_eth_correlation_offsets (exampleContracts [exampleSentMessage]) {} 1 3
    [exampleDeposit] [exampleSentMessage] [exampleBridge] exampleRun 0 exampleBridge rfl rfl rfl rfl rfl rfl

/-! ## The withdrawal state machine (C7 - C10) -/

theorem lastMarking_cons (key : L2ToL1 → Hash32) (t : List L2ToL1) (i : Nat) (e : L2ToL1)
    (es : List L2ToL1) :
    lastMarking key t i (e :: es) =
      match lastMarking key t i es with
      | some e1 => some e1
      | none => if marksRow key t i e then some e else none := rfl

theorem marksRow_congr (key : L2ToL1 → Hash32) (t t1 : List L2ToL1) (i : Nat)
    (hmap : t1.map key = t.map key) (e : L2ToL1) :
    marksRow key t1 i e = marksRow key t i e := by
  unfold marksRow
  rw [takeIndex_structWhere_congr key (key e) t t1 hmap]

theorem marksRow_eq_true (key : L2ToL1 → Hash32) (t : List L2ToL1) (i : Nat) (e : L2ToL1) :
    marksRow key t i e = true ↔
      ∃ b : Int, e.L1BlockNumber = some b ∧ Uint64 b ≠ 0 ∧
        takeIndex (structWhere key (key e)) t = some i := by
  unfold marksRow
  cases hb : e.L1BlockNumber with
  | none => simp
  | some b => simp

theorem lastMarking_congr (key : L2ToL1 → Hash32) (t t1 : List L2ToL1) (i : Nat)
    (hmap : t1.map key = t.map key) :
    ∀ l, lastMarking key t1 i l = lastMarking key t i l := by
  intro l
  induction l with
  | nil => rfl
  | cons e es ih =>
    rw [lastMarking_cons, lastMarking_cons, ih, marksRow_congr key t t1 i hmap]

theorem markLoop_cons (key : L2ToL1 → Hash32) (assign : L2ToL1 → L2ToL1 → L2ToL1)
    (e : L2ToL1) (es t : List L2ToL1) :
    markLoop key assign (e :: es) t =
      match e.L1BlockNumber with
      | none => none
      | some l1BlockNumber =>
        if Uint64 l1BlockNumber ≤ 0 then markLoop key assign es t
        else
          match updateFirst (structWhere key (key e)) (assign e) t with
          | none => some t
          | some t1 => markLoop key assign es t1 := rfl

/-- An entry whose `L1BlockNumber` is nil makes the loop panic when it is reached. -/
theorem markLoop_nil_block_number (key : L2ToL1 → Hash32) (assign : L2ToL1 → L2ToL1 → L2ToL1)
    (e : L2ToL1) (es t : List L2ToL1) (h : e.L1BlockNumber = none) :
    markLoop key assign (e :: es) t = none := by
  rw [markLoop_cons, h]

/-- Without an entry whose `L1BlockNumber` is nil the loop returns. -/
theorem markLoop_total (key : L2ToL1 → Hash32) (assign : L2ToL1 → L2ToL1 → L2ToL1) :
    ∀ (l t : List L2ToL1), (∀ e ∈ l, e.L1BlockNumber ≠ none) →
      ∃ t1, markLoop key assign l t = some t1 := by
  intro l
  induction l with
  | nil => intro t _; exact ⟨t, rfl⟩
  | cons e es ih =>
    intro t hnil
    have hnil' : ∀ x ∈ es, x.L1BlockNumber ≠ none :=
      fun x hx => hnil x (List.mem_cons_of_mem _ hx)
    rw [markLoop_cons]
    cases hb : e.L1BlockNumber with
    | none => exact absurd hb (hnil e (List.mem_cons_self _ _))
    | some b =>
      dsimp only
      by_cases hz : Uint64 b ≤ 0
      · rw [if_pos hz]
        exact ih t hnil'
      · rw [if_neg hz]
        cases hu : updateFirst (structWhere key (key e)) (assign e) t with
        | none => exact ⟨t, rfl⟩
        | some t1 => exact ih t1 hnil'

theorem markLoop_row (key : L2ToL1 → Hash32) (assign : L2ToL1 → L2ToL1 → L2ToL1)
    (hkey : ∀ e r, key (assign e r) = key r)
    (hover : ∀ e e1 r, assign e1 (assign e r) = assign e1 r) :
    ∀ (l t t1 : List L2ToL1), markLoop key assign l t = some t1 →
      (∀ e ∈ l, ∀ b : Int, e.L1BlockNumber = some b → Uint64 b ≠ 0 →
        takeIndex (structWhere key (key e)) t ≠ none) →
      ∀ (i : Nat) (r : L2ToL1), t[i]? = some r →
        t1[i]? =
          some (match lastMarking key t i l with
            | some e => assign e r
            | none => r) := by
  intro l
  induction l with
  | nil =>
    intro t t1 h _ i r hr
    simp only [markLoop, Option.some.injEq] at h
    subst h
    simpa [lastMarking] using hr
  | cons e es ih =>
    intro t t1 h hall i r hr
    have hall' : ∀ x ∈ es, ∀ b : Int, x.L1BlockNumber = some b → Uint64 b ≠ 0 →
        takeIndex (structWhere key (key x)) t ≠ none :=
      fun x hx => hall x (List.mem_cons_of_mem _ hx)
    rw [markLoop_cons] at h
    cases hb : e.L1BlockNumber with
    | none => simp [hb] at h
    | some b =>
      simp only [hb] at h
      by_cases hz : Uint64 b ≤ 0
      · have hz' : Uint64 b = 0 := by omega
        rw [if_pos hz] at h
        rw [ih t t1 h hall' i r hr, lastMarking_cons]
        cases hl : lastMarking key t i es with
        | some e1 => rfl
        | none => simp [marksRow, hb, hz']
      · have hz' : Uint64 b ≠ 0 := by omega
        rw [if_neg hz] at h
        cases hu : updateFirst (structWhere key (key e)) (assign e) t with
        | none =>
          exact absurd ((updateFirst_none _ _ _).mp hu)
            (hall e (List.mem_cons_self _ _) b hb hz')
        | some t2 =>
          simp only [hu] at h
          obtain ⟨i0, r0, h1, h2, h3, _, h5⟩ := updateFirst_some _ _ _ _ hu
          have hmap : t2.map key = t.map key :=
            updateFirst_map_key _ _ key (hkey e) _ _ hu
          have hall1 : ∀ x ∈ es, ∀ b : Int, x.L1BlockNumber = some b → Uint64 b ≠ 0 →
              takeIndex (structWhere key (key x)) t2 ≠ none := by
            intro x hx n hxn hxz
            rw [takeIndex_structWhere_congr key (key x) t t2 hmap]
            exact hall' x hx n hxn hxz
          rw [lastMarking_cons]
          by_cases hi : i = i0
          · subst hi
            rw [h2] at hr
            cases hr
            rw [ih t2 t1 h hall1 i _ h3, lastMarking_congr key t t2 i hmap]
            cases hl : lastMarking key t i es with
            | some e1 => simp [hover]
            | none => simp [marksRow, hb, hz', h1]
          · have hr1 : t2[i]? = some r := by rw [h5 i hi]; exact hr
            rw [ih t2 t1 h hall1 i r hr1, lastMarking_congr key t t2 i hmap]
            cases hl : lastMarking key t i es with
            | some e1 => rfl
            | none =>
              have : ¬ (i0 = i) := fun h => hi h.symm
              simp [marksRow, hb, hz', h1, this]

theorem lastMarking_some (key : L2ToL1 → Hash32) (t : List L2ToL1) (i : Nat) :
    ∀ (l : List L2ToL1) (e : L2ToL1), lastMarking key t i l = some e →
      ∃ l1 l2, l = l1 ++ e :: l2 ∧ marksRow key t i e = true ∧
        ∀ x ∈ l2, marksRow key t i x = false := by
  intro l
  induction l with
  | nil => intro e h; simp [lastMarking] at h
  | cons x xs ih =>
    intro e h
    rw [lastMarking_cons] at h
    cases hl : lastMarking key t i xs with
    | some e1 =>
      simp only [hl, Option.some.injEq] at h
      subst h
      obtain ⟨l1, l2, h1, h2, h3⟩ := ih e1 hl
      exact ⟨x :: l1, l2, by simp [h1], h2, h3⟩
    | none =>
      simp only [hl] at h
      by_cases hm : marksRow key t i x = true
      · simp only [hm, if_true, Option.some.injEq] at h
        subst h
        refine ⟨[], xs, rfl, hm, ?_⟩
        intro y hy
        by_contra hc
        have hy' : marksRow key t i y = true := by simpa using hc
        clear hc
        induction xs with
        | nil => simp at hy
        | cons z zs ihz =>
          rw [lastMarking_cons] at hl
          cases hz : lastMarking key t i zs with
          | some e2 => simp [hz] at hl
          | none =>
            simp only [hz] at hl
            by_cases hmz : marksRow key t i z = true
            · simp [hmz] at hl
            · rcases List.mem_cons.mp hy with rfl | hy2
              · exact hmz hy'
              · exact ihz (fun e he => by simp [hz] at he) hz hy2
      · simp [hm] at h

theorem lastMarking_none (key : L2ToL1 → Hash32) (t : List L2ToL1) (i : Nat) :
    ∀ (l : List L2ToL1), lastMarking key t i l = none → ∀ x ∈ l, marksRow key t i x = false := by
  intro l
  induction l with
  | nil => intro _ x hx; simp at hx
  | cons y ys ih =>
    intro h x hx
    rw [lastMarking_cons] at h
    cases hl : lastMarking key t i ys with
    | some e1 => simp [hl] at h
    | none =>
      simp only [hl] at h
      by_cases hm : marksRow key t i y = true
      · simp [hm] at h
      · rcases List.mem_cons.mp hx with rfl | hx2
        · simpa using hm
        · exact ih hl x hx2

/-- C7 as stated fails on a list with two proven entries for one withdrawal: the record ends
with the prove transaction hash and block number of the second entry, not of the first. -/
theorem proven_transition_as_stated_fails :
    ¬ ProvenTransitionAsStated [exampleProven1, exampleProven2] [exampleWithdrawal] := by
  intro h
  obtain ⟨table1, r1, h0, h1, _, h3, _⟩ :=
    h exampleProven1 (List.mem_cons_self _ _) ⟨5, rfl, by decide⟩ 0 exampleWithdrawal rfl rfl
  have h2 : MarkL2ToL1TransactionWithdrawalProven [exampleProven1, exampleProven2]
      [exampleWithdrawal] =
      some [{ exampleWithdrawal with
        L1BlockNumber := some 6, L1ProveTxHash := 102, Status := L2ToL1InChallengePeriod }] := by
    decide
  rw [h2] at h0
  cases h0
  simp only [List.getElem?_cons_zero, Option.some.injEq] at h1
  subst h1
  exact absurd h3 (by decide)

/-- The loop of `MarkL2ToL1TransactionWithdrawalProven` ends at the first entry whose record
is not found: the entry after it, whose record is stored, is not applied. -/
theorem proven_loop_ends_at_unknown_entry :
    MarkL2ToL1TransactionWithdrawalProven [exampleProvenUnknown, exampleProven1]
      [exampleWithdrawal] = some [exampleWithdrawal] := by
  decide

/-- `MarkL2ToL1TransactionWithdrawalProven` panics at an entry whose `L1BlockNumber` is nil:
the entry after it, whose record is stored, is not applied. -/
theorem proven_loop_panics_at_nil_block_number :
    MarkL2ToL1TransactionWithdrawalProven
      [{ WithdrawTransactionHash := 9, L1ProveTxHash := 100 }, exampleProven1]
      [exampleWithdrawal] = none := by
  decide

/-- C7, amended. When no list entry has a nil L1 block number (the function panics on one)
and every list entry that is not skipped (its L1 block number, read as a uint64, is non-zero)
matches a stored withdrawal, the function returns, and for every such entry the record it
matches (the row `Take` returns for its withdrawal hash, at position `i`) ends with status
InChallengePeriod if its stored `TimeLeft` (read as a uint64) is positive and ReadyForClaim if
it is zero, and with `L1ProveTxHash` and `L1BlockNumber` taken from the last list entry that
matches this record; its other fields are unchanged. -/
theorem proven_transition (l2L1List table : List L2ToL1)
    (entry : L2ToL1) (b : Int) (i : Nat) (r : L2ToL1)
    (hnil : ∀ x ∈ l2L1List, x.L1BlockNumber ≠ none)
    (hall : ∀ x ∈ l2L1List, ∀ n : Int, x.L1BlockNumber = some n → Uint64 n ≠ 0 →
      takeIndex (structWhere (fun r : L2ToL1 => r.WithdrawTransactionHash)
        x.WithdrawTransactionHash) table ≠ none)
    (he : entry ∈ l2L1List) (hb : entry.L1BlockNumber = some b) (hnz : Uint64 b ≠ 0)
    (hi : takeIndex (structWhere (fun r : L2ToL1 => r.WithdrawTransactionHash)
      entry.WithdrawTransactionHash) table = some i)
    (hr : table[i]? = some r) :
    ∃ table1 l1 last l2,
      MarkL2ToL1TransactionWithdrawalProven l2L1List table = some table1 ∧
      l2L1List = l1 ++ last :: l2 ∧
      marksRow (fun r => r.WithdrawTransactionHash) table i last = true ∧
      (∀ x ∈ l2, marksRow (fun r => r.WithdrawTransactionHash) table i x = false) ∧
      table1[i]? =
        some { r with
          L1BlockNumber := last.L1BlockNumber
          L1ProveTxHash := last.L1ProveTxHash
          Status := if Uint64 r.TimeLeft > 0 then L2ToL1InChallengePeriod
                    else L2ToL1ReadyForClaim } := by
  obtain ⟨table1, h0⟩ :=
    markLoop_total (fun r => r.WithdrawTransactionHash) markProvenRow l2L1List table hnil
  have hrow := markLoop_row (fun r => r.WithdrawTransactionHash) markProvenRow
    (fun _ _ => rfl) (fun _ _ _ => rfl) l2L1List table table1 h0 hall i r hr
  cases hl : lastMarking (fun r => r.WithdrawTransactionHash) table i l2L1List with
  | none =>
    have := lastMarking_none _ _ _ _ hl entry he
    simp [marksRow, hb, hnz, hi] at this
  | some last =>
    obtain ⟨l1, l2, h1, h2, h3⟩ := lastMarking_some _ _ _ _ _ hl
    refine ⟨table1, l1, last, l2, h0, h1, h2, h3, ?_⟩
    rw [hl] at hrow
    exact hrow

/-- The amended C7 on two proven entries for one stored withdrawal. -/
theorem proven_transition_witness :
    ∃ table1 l1 last l2,
      MarkL2ToL1TransactionWithdrawalProven [exampleProven1, exampleProven2]
        [exampleWithdrawal] = some table1 ∧
      [exampleProven1, exampleProven2] = l1 ++ last :: l2 ∧
      marksRow (fun r => r.WithdrawTransactionHash) [exampleWithdrawal] 0 last = true ∧
      (∀ x ∈ l2, marksRow (fun r => r.WithdrawTransactionHash) [exampleWithdrawal] 0 x = false) ∧
      table1[0]? =
        some { exampleWithdrawal with
          L1BlockNumber := last.L1BlockNumber
          L1ProveTxHash := last.L1ProveTxHash
          Status := if Uint64 exampleWithdrawal.TimeLeft > 0 then L2ToL1InChallengePeriod
                    else L2ToL1ReadyForClaim } :=
  proven_transition [exampleProven1, exampleProven2] [exampleWithdrawal] exampleProven1 5 0
    exampleWithdrawal (by decide) (by decide) (List.mem_cons_self _ _) rfl (by decide)
    (by decide) rfl

theorem UpdateTimeLeft_getElem? (table : List L2ToL1) (i : Nat) :
    (UpdateTimeLeft table)[i]? = (table[i]?).map (fun r =>
      if r.Status = L2ToL1InChallengePeriod then
        if r.TimeLeft > 0 then
          { r with
            TimeLeft := r.TimeLeft - 1
            Status := if r.TimeLeft = 1 then L2ToL1ReadyForClaim else L2ToL1InChallengePeriod }
        else if r.TimeLeft = 0 then { r with Status := L2ToL1ReadyForClaim }
        else r
      else r) := by
  simp only [UpdateTimeLeft, flipExpired, decrementTimeLeft, List.getElem?_map, Option.map_map]
  congr 1
  funext r
  simp only [Function.comp]
  by_cases hs : r.Status = L2ToL1InChallengePeriod
  · by_cases ht : r.TimeLeft > 0
    · have hm : max (r.TimeLeft - 1) 0 = r.TimeLeft - 1 := by omega
      by_cases h1 : r.TimeLeft = 1
      · simp [hs, ht, hm, h1]
      · have h2 : ¬ (r.TimeLeft - 1 = 0) := by omega
        simp [hs, ht, hm, h1, h2]
    · by_cases h0 : r.TimeLeft = 0
      · simp [hs, h0]
      · simp [hs, ht, h0]
  · simp [hs]

/-- C8. One call of `UpdateTimeLeft` gives every record that is InChallengePeriod with
`TimeLeft = n > 0` the `TimeLeft` `max (n - 1) 0`; a record that was InChallengePeriod at entry
and has `TimeLeft` 0 (at entry, or after the decrement) has status ReadyForClaim; a record
that was not InChallengePeriod is unchanged; no field other than `TimeLeft` and `Status`
changes. -/
theorem challenge_countdown_step (table : List L2ToL1) (i : Nat) (r : L2ToL1)
    (hr : table[i]? = some r) :
    ∃ r1, (UpdateTimeLeft table)[i]? = some r1 ∧
      (r.Status = L2ToL1InChallengePeriod → r.TimeLeft > 0 →
        r1.TimeLeft = max (r.TimeLeft - 1) 0) ∧
      (r.Status = L2ToL1InChallengePeriod → r.TimeLeft = 0 → r1.Status = L2ToL1ReadyForClaim) ∧
      (r.Status = L2ToL1InChallengePeriod → r1.TimeLeft = 0 → r1.Status = L2ToL1ReadyForClaim) ∧
      (r.Status ≠ L2ToL1InChallengePeriod → r1 = r) ∧
      { r1 with TimeLeft := r.TimeLeft, Status := r.Status } = r := by
  rw [UpdateTimeLeft_getElem?, hr]
  refine ⟨_, rfl, ?_, ?_, ?_, ?_, ?_⟩
  · intro hs ht
    have hm : max (r.TimeLeft - 1) 0 = r.TimeLeft - 1 := by omega
    simp [hs, ht, hm]
  · intro hs h0
    simp [hs, h0]
  · intro hs
    by_cases ht : r.TimeLeft > 0
    · by_cases h1 : r.TimeLeft = 1
      · simp [hs, ht, h1]
      · simp only [hs, ht, if_true, h1, if_false]
        intro h
        omega
    · by_cases h0 : r.TimeLeft = 0
      · simp [hs, h0]
      · simp only [hs, ht, if_true, h0, if_false]
        intro h
        exact False.elim h
  · intro hs
    simp [hs]
  · cases r
    dsimp only
    split_ifs <;> rfl

/-- C8 on a table holding one withdrawal in its challenge period. -/
theorem challenge_countdown_step_witness :
    ∃ r1, (UpdateTimeLeft [exampleChallenged])[0]? = some r1 ∧
      (exampleChallenged.Status = L2ToL1InChallengePeriod → exampleChallenged.TimeLeft > 0 →
        r1.TimeLeft = max (exampleChallenged.TimeLeft - 1) 0) ∧
      (exampleChallenged.Status = L2ToL1InChallengePeriod → exampleChallenged.TimeLeft = 0 →
        r1.Status = L2ToL1ReadyForClaim) ∧
      (exampleChallenged.Status = L2ToL1InChallengePeriod → r1.TimeLeft = 0 →
        r1.Status = L2ToL1ReadyForClaim) ∧
      (exampleChallenged.Status ≠ L2ToL1InChallengePeriod → r1 = exampleChallenged) ∧
      { r1 with TimeLeft := exampleChallenged.TimeLeft, Status := exampleChallenged.Status }
        = exampleChallenged :=
  challenge_countdown_step [exampleChallenged] 0 exampleChallenged rfl

/-- C9. A withdrawal that is InChallengePeriod with `TimeLeft = w`, `w ≥ 1`, under calls of
`UpdateTimeLeft` only: after `k < w` calls it is still InChallengePeriod with
`TimeLeft = w - k`; after exactly `w` calls it has `TimeLeft = 0` and status ReadyForClaim.
No other field changes. -/
theorem countdown_over_window (w : Nat) (table : List L2ToL1) (i : Nat) (r : L2ToL1)
    (hw : 1 ≤ w) (hr : table[i]? = some r)
    (hs : r.Status = L2ToL1InChallengePeriod) (ht : r.TimeLeft = (w : Int)) :
    (∀ k, k < w →
      (Nat.iterate UpdateTimeLeft k table)[i]? =
        some { r with TimeLeft := (w : Int) - (k : Int), Status := L2ToL1InChallengePeriod }) ∧
    (Nat.iterate UpdateTimeLeft w table)[i]? =
      some { r with TimeLeft := 0, Status := L2ToL1ReadyForClaim } := by
  have hbefore : ∀ k, k < w →
      (Nat.iterate UpdateTimeLeft k table)[i]? =
        some { r with TimeLeft := (w : Int) - (k : Int), Status := L2ToL1InChallengePeriod } := by
    intro k
    induction k with
    | zero =>
      intro _
      simp only [Function.iterate_zero, id_eq, hr, Option.some.injEq]
      cases r
      simp only [L2ToL1.mk.injEq] at hs ht ⊢
      simp [hs, ht]
    | succ k ih =>
      intro hk
      rw [Function.iterate_succ_apply', UpdateTimeLeft_getElem?, ih (by omega)]
      have h1 : (w : Int) - (k : Int) > 0 := by omega
      have h2 : ¬ ((w : Int) - (k : Int) = 1) := by omega
      simp only [Option.map_some', if_true, h1, h2, if_false, Option.some.injEq]
      have h3 : (w : Int) - (k : Int) - 1 = (w : Int) - ((k + 1 : Nat) : Int) := by
        push_cast
        omega
      rw [h3]
  refine ⟨hbefore, ?_⟩
  obtain ⟨n, rfl⟩ : ∃ n, w = n + 1 := ⟨w - 1, by omega⟩
  rw [Function.iterate_succ_apply', UpdateTimeLeft_getElem?, hbefore n (by omega)]
  have h1 : ((n + 1 : Nat) : Int) - (n : Int) > 0 := by push_cast; omega
  have h2 : ((n + 1 : Nat) : Int) - (n : Int) = 1 := by push_cast; omega
  simp only [Option.map_some', if_true, h1, h2, Option.some.injEq]
  rfl

/-- C9 at the default fraud proof window of 1800. -/
theorem countdown_over_window_witness :
    (∀ k, k < FraudProofWindowsDefault →
      (Nat.iterate UpdateTimeLeft k [exampleChallenged])[0]? =
        some { exampleChallenged with
          TimeLeft := (FraudProofWindowsDefault : Int) - (k : Int)
          Status := L2ToL1InChallengePeriod }) ∧
    (Nat.iterate UpdateTimeLeft FraudProofWindowsDefault [exampleChallenged])[0]? =
      some { exampleChallenged with TimeLeft := 0, Status := L2ToL1ReadyForClaim } :=
  countdown_over_window FraudProofWindowsDefault [exampleChallenged] 0 exampleChallenged
    (by decide) rfl rfl rfl

theorem markLoop_row_cases (key : L2ToL1 → Hash32) (assign : L2ToL1 → L2ToL1 → L2ToL1)
    (hover : ∀ e e1 r, assign e1 (assign e r) = assign e1 r) :
    ∀ (l t t1 : List L2ToL1), markLoop key assign l t = some t1 →
      ∀ (i : Nat) (r1 : L2ToL1), t1[i]? = some r1 →
        ∃ r, t[i]? = some r ∧ (r1 = r ∨ ∃ e ∈ l, r1 = assign e r) := by
  intro l
  induction l with
  | nil =>
    intro t t1 h0 i r1 h
    simp only [markLoop, Option.some.injEq] at h0
    subst h0
    exact ⟨r1, h, Or.inl rfl⟩
  | cons e es ih =>
    intro t t1 h0 i r1 h
    rw [markLoop_cons] at h0
    cases hb : e.L1BlockNumber with
    | none => simp [hb] at h0
    | some b =>
      simp only [hb] at h0
      by_cases hz : Uint64 b ≤ 0
      · rw [if_pos hz] at h0
        obtain ⟨r, h1, h2⟩ := ih t t1 h0 i r1 h
        refine ⟨r, h1, ?_⟩
        rcases h2 with h2 | ⟨e1, he1, h2⟩
        · exact Or.inl h2
        · exact Or.inr ⟨e1, List.mem_cons_of_mem _ he1, h2⟩
      · rw [if_neg hz] at h0
        cases hu : updateFirst (structWhere key (key e)) (assign e) t with
        | none =>
          simp only [hu, Option.some.injEq] at h0
          subst h0
          exact ⟨r1, h, Or.inl rfl⟩
        | some t2 =>
          simp only [hu] at h0
          obtain ⟨r, h1, h2⟩ := ih t2 t1 h0 i r1 h
          obtain ⟨i0, r0, _, h4, h5, _, h7⟩ := updateFirst_some _ _ _ _ hu
          by_cases hi : i = i0
          · subst hi
            rw [h5] at h1
            cases h1
            refine ⟨r0, h4, Or.inr ?_⟩
            rcases h2 with h2 | ⟨e1, he1, h2⟩
            · exact ⟨e, List.mem_cons_self _ _, h2⟩
            · exact ⟨e1, List.mem_cons_of_mem _ he1, by rw [h2, hover]⟩
          · rw [h7 i hi] at h1
            refine ⟨r, h1, ?_⟩
            rcases h2 with h2 | ⟨e1, he1, h2⟩
            · exact Or.inl h2
            · exact Or.inr ⟨e1, List.mem_cons_of_mem _ he1, h2⟩

theorem markLoop_length (key : L2ToL1 → Hash32) (assign : L2ToL1 → L2ToL1 → L2ToL1) :
    ∀ (l t t1 : List L2ToL1), markLoop key assign l t = some t1 → t1.length = t.length := by
  intro l
  induction l with
  | nil =>
    intro t t1 h
    simp only [markLoop, Option.some.injEq] at h
    rw [h]
  | cons e es ih =>
    intro t t1 h
    rw [markLoop_cons] at h
    cases hb : e.L1BlockNumber with
    | none => simp [hb] at h
    | some b =>
      simp only [hb] at h
      by_cases hz : Uint64 b ≤ 0
      · rw [if_pos hz] at h
        exact ih t t1 h
      · rw [if_neg hz] at h
        cases hu : updateFirst (structWhere key (key e)) (assign e) t with
        | none =>
          simp only [hu, Option.some.injEq] at h
          rw [h]
        | some t2 =>
          simp only [hu] at h
          obtain ⟨_, _, _, _, _, hlen, _⟩ := updateFirst_some _ _ _ _ hu
          rw [ih t2 t1 h, hlen]

theorem markLoop_row_forward (key : L2ToL1 → Hash32) (assign : L2ToL1 → L2ToL1 → L2ToL1)
    (hover : ∀ e e1 r, assign e1 (assign e r) = assign e1 r)
    (l t t1 : List L2ToL1) (h : markLoop key assign l t = some t1)
    (i : Nat) (r : L2ToL1) (hr : t[i]? = some r) :
    ∃ r1, t1[i]? = some r1 ∧ (r1 = r ∨ ∃ e ∈ l, r1 = assign e r) := by
  have hi : i < t.length := by
    rcases Nat.lt_or_ge i t.length with h | h
    · exact h
    · rw [List.getElem?_eq_none h] at hr
      cases hr
  have hi1 : i < t1.length := by
    rw [markLoop_length key assign l t t1 h]
    exact hi
  refine ⟨t1[i], List.getElem?_eq_getElem hi1, ?_⟩
  obtain ⟨r0, h0, h1⟩ :=
    markLoop_row_cases key assign hover l t t1 h i _ (List.getElem?_eq_getElem hi1)
  rw [hr] at h0
  cases h0
  exact h1

/-- A record that no list entry marks is left as it is, also when the loop ends early. -/
theorem markLoop_unmarked (key : L2ToL1 → Hash32) (assign : L2ToL1 → L2ToL1 → L2ToL1)
    (hkey : ∀ e r, key (assign e r) = key r) (i : Nat) (r : L2ToL1) :
    ∀ (l t t1 : List L2ToL1), markLoop key assign l t = some t1 →
      (∀ e ∈ l, marksRow key t i e = false) → t[i]? = some r → t1[i]? = some r := by
  intro l
  induction l with
  | nil =>
    intro t t1 h _ hr
    simp only [markLoop, Option.some.injEq] at h
    rw [← h]
    exact hr
  | cons e es ih =>
    intro t t1 h hm hr
    have hm' : ∀ x ∈ es, marksRow key t i x = false :=
      fun x hx => hm x (List.mem_cons_of_mem _ hx)
    rw [markLoop_cons] at h
    cases hb : e.L1BlockNumber with
    | none => simp [hb] at h
    | some b =>
      simp only [hb] at h
      by_cases hz : Uint64 b ≤ 0
      · rw [if_pos hz] at h
        exact ih t t1 h hm' hr
      · rw [if_neg hz] at h
        have hz' : Uint64 b ≠ 0 := by omega
        cases hu : updateFirst (structWhere key (key e)) (assign e) t with
        | none =>
          simp only [hu, Option.some.injEq] at h
          rw [← h]
          exact hr
        | some t2 =>
          simp only [hu] at h
          obtain ⟨i0, r0, h1, _, _, _, h5⟩ := updateFirst_some _ _ _ _ hu
          have hmap : t2.map key = t.map key :=
            updateFirst_map_key _ _ key (hkey e) _ _ hu
          have hne : i ≠ i0 := by
            intro hi
            have := hm e (List.mem_cons_self _ _)
            simp [marksRow, hb, hz', h1, hi] at this
          apply ih t2 t1 h
          · intro x hx
            rw [marksRow_congr key t t2 i hmap]
            exact hm' x hx
          · rw [h5 i hne]
            exact hr

theorem lastMarking_eq_none (key : L2ToL1 → Hash32) (t : List L2ToL1) (i : Nat) :
    ∀ (l : List L2ToL1), (∀ x ∈ l, marksRow key t i x = false) → lastMarking key t i l = none := by
  intro l
  induction l with
  | nil => intro _; rfl
  | cons y ys ih =>
    intro h
    rw [lastMarking_cons, ih (fun x hx => h x (List.mem_cons_of_mem _ hx))]
    simp [h y (List.mem_cons_self _ _)]

theorem WithdrawalOp.apply_total (op : WithdrawalOp) (table : List L2ToL1)
    (hnil : ∀ x ∈ op.l2L1List, x.L1BlockNumber ≠ none) :
    ∃ table1, op.apply table = some table1 := by
  cases op with
  | UpdateReadyForProvedStatus n w => exact ⟨_, rfl⟩
  | UpdateTimeLeft => exact ⟨_, rfl⟩
  | MarkL2ToL1TransactionWithdrawalProven l => exact markLoop_total _ _ l table hnil
  | MarkL2ToL1TransactionWithdrawalProvenV0 l => exact markLoop_total _ _ l table hnil
  | MarkL2ToL1TransactionWithdrawalFinalized l => exact markLoop_total _ _ l table hnil
  | MarkL2ToL1TransactionWithdrawalFinalizedV0 l => exact markLoop_total _ _ l table hnil

/-- C10 as stated fails: a proven mark whose withdrawal hash matches a Pending record moves it
directly to ReadyForClaim. -/
theorem no_skip_as_stated_fails :
    ¬ NoSkipAsStated (.MarkL2ToL1TransactionWithdrawalProven [exampleProven1]) [examplePending] := by
  intro h
  have h1 := h
    [{ examplePending with
      L1BlockNumber := some 5, L1ProveTxHash := 101, Status := L2ToL1ReadyForClaim }]
    0 examplePending
    { examplePending with
      L1BlockNumber := some 5, L1ProveTxHash := 101, Status := L2ToL1ReadyForClaim }
    (by decide) rfl rfl (by decide)
  revert h1
  unfold AllowedTransition
  decide

/-- C10, amended. An operation returns when no entry of its list has a nil L1 block number (a
`Mark...` function panics on one). For one step of the table under any of the six operations
and any record whose status changes: under `UpdateReadyForProvedStatus` the change is
Pending -> ReadyForProved; under `UpdateTimeLeft` it is InChallengePeriod -> ReadyForClaim;
under a proven mark the new status is InChallengePeriod or ReadyForClaim, chosen by the stored
`TimeLeft`, and under a finalized mark it is Claimed, whatever the status was. So the change
is one of the six allowed transitions whenever the mark found the record in a status it is
meant for (`MarkedFrom`). -/
theorem withdrawal_status_changes (op : WithdrawalOp) (table : List L2ToL1) :
    ((∀ x ∈ op.l2L1List, x.L1BlockNumber ≠ none) → ∃ table1, op.apply table = some table1) ∧
    ∀ (table1 : List L2ToL1) (i : Nat) (r r1 : L2ToL1), op.apply table = some table1 →
      table[i]? = some r → table1[i]? = some r1 → r1.Status ≠ r.Status →
      (match op with
        | .UpdateReadyForProvedStatus _ _ =>
          r.Status = L2ToL1Pending ∧ r1.Status = L2ToL1ReadyForProved
        | .UpdateTimeLeft =>
          r.Status = L2ToL1InChallengePeriod ∧ r1.Status = L2ToL1ReadyForClaim
        | .MarkL2ToL1TransactionWithdrawalProven _ =>
          r1.Status =
            (if Uint64 r.TimeLeft > 0 then L2ToL1InChallengePeriod else L2ToL1ReadyForClaim)
        | .MarkL2ToL1TransactionWithdrawalProvenV0 _ =>
          r1.Status =
            (if Uint64 r.TimeLeft > 0 then L2ToL1InChallengePeriod else L2ToL1ReadyForClaim)
        | .MarkL2ToL1TransactionWithdrawalFinalized _ => r1.Status = L2ToL1Claimed
        | .MarkL2ToL1TransactionWithdrawalFinalizedV0 _ => r1.Status = L2ToL1Claimed) ∧
      (MarkedFrom op r.Status → AllowedTransition r.Status r1.Status) := by
  refine ⟨WithdrawalOp.apply_total op table, ?_⟩
  intro table1 i r r1 happ hr hr1 hne
  have hproven : ∀ (key : L2ToL1 → Hash32) (l : List L2ToL1),
      markLoop key markProvenRow l table = some table1 →
      r1.Status = (if Uint64 r.TimeLeft > 0 then L2ToL1InChallengePeriod
        else L2ToL1ReadyForClaim) := by
    intro key l h
    obtain ⟨r0, h1, h2⟩ :=
      markLoop_row_cases key markProvenRow (fun _ _ _ => rfl) l table table1 h i r1 hr1
    rw [hr] at h1
    cases h1
    rcases h2 with h2 | ⟨e, _, h2⟩
    · exact absurd (by rw [h2]) hne
    · rw [h2]
      rfl
  have hfinal : ∀ (key : L2ToL1 → Hash32) (l : List L2ToL1),
      markLoop key markFinalizedRow l table = some table1 → r1.Status = L2ToL1Claimed := by
    intro key l h
    obtain ⟨r0, h1, h2⟩ :=
      markLoop_row_cases key markFinalizedRow (fun _ _ _ => rfl) l table table1 h i r1 hr1
    rw [hr] at h1
    cases h1
    rcases h2 with h2 | ⟨e, _, h2⟩
    · exact absurd (by rw [h2]) hne
    · rw [h2]
      rfl
  cases op with
  | UpdateReadyForProvedStatus n w =>
    simp only [WithdrawalOp.apply, Option.some.injEq] at happ
    subst happ
    simp only [UpdateReadyForProvedStatus, List.getElem?_map, hr,
      Option.map_some', Option.some.injEq] at hr1
    by_cases hc : (l2BlockNumberLe r n && decide (r.Status = 0)) = true
    · simp only [hc, if_true] at hr1
      simp only [Bool.and_eq_true, decide_eq_true_eq] at hc
      have h1 : r.Status = L2ToL1Pending := hc.2
      have h2 : r1.Status = L2ToL1ReadyForProved := by rw [← hr1]
      exact ⟨⟨h1, h2⟩, fun _ => Or.inl ⟨h1, h2⟩⟩
    · simp only [hc, Bool.false_eq_true, if_false] at hr1
      exact absurd (by rw [hr1]) hne
  | UpdateTimeLeft =>
    simp only [WithdrawalOp.apply, Option.some.injEq] at happ
    subst happ
    rw [UpdateTimeLeft_getElem?, hr] at hr1
    simp only [Option.map_some', Option.some.injEq] at hr1
    subst hr1
    by_cases hs : r.Status = L2ToL1InChallengePeriod
    · have h2 : ∀ x : L2ToL1, x.Status ≠ r.Status → (x.Status = L2ToL1ReadyForClaim ∨ x = r ∨
          x.Status = L2ToL1InChallengePeriod) → x.Status = L2ToL1ReadyForClaim := by
        intro x hx h
        rcases h with h | h | h
        · exact h
        · exact absurd (by rw [h]) hx
        · exact absurd (by rw [h, hs]) hx
      have h3 := h2 _ hne (by
        simp only [hs, if_true]
        split_ifs
        · exact Or.inl rfl
        · exact Or.inr (Or.inr rfl)
        · exact Or.inl rfl
        · exact Or.inr (Or.inl rfl))
      exact ⟨⟨hs, h3⟩, fun _ => Or.inr (Or.inr (Or.inr (Or.inl ⟨hs, h3⟩)))⟩
    · simp only [hs, if_false] at hne
      exact absurd rfl hne
  | MarkL2ToL1TransactionWithdrawalProven l =>
    have h := hproven _ l happ
    refine ⟨h, ?_⟩
    intro hm
    simp only [MarkedFrom] at hm
    unfold AllowedTransition
    by_cases ht : Uint64 r.TimeLeft > 0
    · simp only [ht, if_true] at h
      rcases hm with hm | hm
      · exact Or.inr (Or.inl ⟨hm, h⟩)
      · exact absurd (by rw [h, hm]) hne
    · simp only [ht, if_false] at h
      rcases hm with hm | hm
      · exact Or.inr (Or.inr (Or.inl ⟨hm, h⟩))
      · exact Or.inr (Or.inr (Or.inr (Or.inl ⟨hm, h⟩)))
  | MarkL2ToL1TransactionWithdrawalProvenV0 l =>
    have h := hproven _ l happ
    refine ⟨h, ?_⟩
    intro hm
    simp only [MarkedFrom] at hm
    unfold AllowedTransition
    by_cases ht : Uint64 r.TimeLeft > 0
    · simp only [ht, if_true] at h
      rcases hm with hm | hm
      · exact Or.inr (Or.inl ⟨hm, h⟩)
      · exact absurd (by rw [h, hm]) hne
    · simp only [ht, if_false] at h
      rcases hm with hm | hm
      · exact Or.inr (Or.inr (Or.inl ⟨hm, h⟩))
      · exact Or.inr (Or.inr (Or.inr (Or.inl ⟨hm, h⟩)))
  | MarkL2ToL1TransactionWithdrawalFinalized l =>
    have h := hfinal _ l happ
    refine ⟨h, ?_⟩
    intro hm
    simp only [MarkedFrom] at hm
    unfold AllowedTransition
    rcases hm with hm | hm
    · exact Or.inr (Or.inr (Or.inr (Or.inr (Or.inl ⟨hm, h⟩))))
    · exact Or.inr (Or.inr (Or.inr (Or.inr (Or.inr ⟨hm, h⟩))))
  | MarkL2ToL1TransactionWithdrawalFinalizedV0 l =>
    have h := hfinal _ l happ
    refine ⟨h, ?_⟩
    intro hm
    simp only [MarkedFrom] at hm
    unfold AllowedTransition
    rcases hm with hm | hm
    · exact Or.inr (Or.inr (Or.inr (Or.inr (Or.inl ⟨hm, h⟩))))
    · exact Or.inr (Or.inr (Or.inr (Or.inr (Or.inr ⟨hm, h⟩))))

/-- The amended C10 on a proven mark that reaches a ReadyForProved record with time left: the
mark returns and the change is ReadyForProved -> InChallengePeriod. -/
theorem withdrawal_status_changes_witness :
    (∃ table1, (WithdrawalOp.MarkL2ToL1TransactionWithdrawalProven [exampleProven1]).apply
      [exampleWithdrawal] = some table1) ∧
    ({ exampleWithdrawal with
        L1BlockNumber := some 5, L1ProveTxHash := 101, Status := L2ToL1InChallengePeriod } :
      L2ToL1).Status =
      (if Uint64 exampleWithdrawal.TimeLeft > 0 then L2ToL1InChallengePeriod
        else L2ToL1ReadyForClaim) ∧
    (MarkedFrom (.MarkL2ToL1TransactionWithdrawalProven [exampleProven1])
        exampleWithdrawal.Status →
      AllowedTransition exampleWithdrawal.Status
        ({ exampleWithdrawal with
          L1BlockNumber := some 5, L1ProveTxHash := 101, Status := L2ToL1InChallengePeriod } :
          L2ToL1).Status) :=
  ⟨(withdrawal_status_changes (.MarkL2ToL1TransactionWithdrawalProven [exampleProven1])
      [exampleWithdrawal]).1 (by decide),
   (withdrawal_status_changes (.MarkL2ToL1TransactionWithdrawalProven [exampleProven1])
      [exampleWithdrawal]).2
      [{ exampleWithdrawal with
        L1BlockNumber := some 5, L1ProveTxHash := 101, Status := L2ToL1InChallengePeriod }]
      0 exampleWithdrawal
      { exampleWithdrawal with
        L1BlockNumber := some 5, L1ProveTxHash := 101, Status := L2ToL1InChallengePeriod }
      (by decide) rfl rfl (by decide)⟩

/-! ## Claimed records and the finalized transition (C11, C12) -/

/-- C11 as stated fails: a proven mark whose withdrawal hash matches a Claimed record moves it
back to ReadyForClaim. -/
theorem claimed_terminal_as_stated_fails :
    ¬ ClaimedTerminalAsStated (.MarkL2ToL1TransactionWithdrawalProven [exampleProven1])
      [exampleClaimed] := by
  intro h
  have h1 := h
    [{ exampleClaimed with
      L1BlockNumber := some 5, L1ProveTxHash := 101, Status := L2ToL1ReadyForClaim }]
    0 exampleClaimed
    { exampleClaimed with
      L1BlockNumber := some 5, L1ProveTxHash := 101, Status := L2ToL1ReadyForClaim }
    (by decide) rfl rfl rfl
  revert h1
  decide

theorem proven_mark_of_claimed (key : L2ToL1 → Hash32)
    (hkey : ∀ e r, key (markProvenRow e r) = key r) (l table table1 : List L2ToL1)
    (i : Nat) (r : L2ToL1) (hr : table[i]? = some r)
    (happ : markLoop key markProvenRow l table = some table1) :
    ∃ r1, table1[i]? = some r1 ∧
      ((∀ e ∈ l, marksRow key table i e = false) → r1 = r) ∧
      ((∀ x ∈ l, ∀ n : Int, x.L1BlockNumber = some n → Uint64 n ≠ 0 →
          takeIndex (structWhere key (key x)) table ≠ none) →
        (∃ e ∈ l, marksRow key table i e = true) →
        ∃ l1 last l2, l = l1 ++ last :: l2 ∧ marksRow key table i last = true ∧
          (∀ x ∈ l2, marksRow key table i x = false) ∧
          r1 = { r with
            L1BlockNumber := last.L1BlockNumber
            L1ProveTxHash := last.L1ProveTxHash
            Status := if Uint64 r.TimeLeft > 0 then L2ToL1InChallengePeriod
                      else L2ToL1ReadyForClaim }) ∧
      (r1 = r ∨ r1.Status =
        (if Uint64 r.TimeLeft > 0 then L2ToL1InChallengePeriod else L2ToL1ReadyForClaim)) := by
  obtain ⟨r1, h1, h2⟩ :=
    markLoop_row_forward key markProvenRow (fun _ _ _ => rfl) l table table1 happ i r hr
  refine ⟨r1, h1, ?_, ?_, ?_⟩
  · intro hm
    have := markLoop_unmarked key markProvenRow hkey i r l table table1 happ hm hr
    rw [h1] at this
    exact Option.some.inj this
  · intro hall ⟨e, he, hm⟩
    have hrow := markLoop_row key markProvenRow hkey (fun _ _ _ => rfl)
      l table table1 happ hall i r hr
    cases hl : lastMarking key table i l with
    | none =>
      have := lastMarking_none _ _ _ _ hl e he
      rw [hm] at this
      cases this
    | some last =>
      obtain ⟨l1, l2, h4, h5, h6⟩ := lastMarking_some _ _ _ _ _ hl
      refine ⟨l1, last, l2, h4, h5, h6, ?_⟩
      rw [hl, h1] at hrow
      exact Option.some.inj hrow
  · rcases h2 with h2 | ⟨e, _, h2⟩
    · exact Or.inl h2
    · right
      rw [h2]
      rfl

/-- C11, amended. An operation returns when no entry of its list has a nil L1 block number. A
record that is Claimed keeps its status under `UpdateReadyForProvedStatus`, `UpdateTimeLeft`,
`MarkL2ToL1TransactionWithdrawalFinalized` and `...FinalizedV0`, whatever their arguments. The
two proven marks do not look at the status: a Claimed record that no list entry marks is
unchanged; when every entry that is not skipped finds its record, a Claimed record that some
entry marks gets the status chosen by its stored `TimeLeft` (InChallengePeriod if positive,
ReadyForClaim if zero) and the prove transaction hash and block number of the last entry that
marks it; in every case the record is unchanged or has the status chosen by its `TimeLeft`. -/
theorem claimed_is_terminal (op : WithdrawalOp) (table : List L2ToL1) (i : Nat) (r : L2ToL1)
    (hr : table[i]? = some r) (hs : r.Status = L2ToL1Claimed) :
    ((∀ x ∈ op.l2L1List, x.L1BlockNumber ≠ none) → ∃ table1, op.apply table = some table1) ∧
    ∀ table1, op.apply table = some table1 →
      ∃ r1, table1[i]? = some r1 ∧
        match op with
        | .MarkL2ToL1TransactionWithdrawalProven l =>
          ((∀ e ∈ l, marksRow (fun r => r.WithdrawTransactionHash) table i e = false) → r1 = r) ∧
          ((∀ x ∈ l, ∀ n : Int, x.L1BlockNumber = some n → Uint64 n ≠ 0 →
              takeIndex (structWhere (fun r : L2ToL1 => r.WithdrawTransactionHash)
                x.WithdrawTransactionHash) table ≠ none) →
            (∃ e ∈ l, marksRow (fun r => r.WithdrawTransactionHash) table i e = true) →
            ∃ l1 last l2, l = l1 ++ last :: l2 ∧
              marksRow (fun r => r.WithdrawTransactionHash) table i last = true ∧
              (∀ x ∈ l2, marksRow (fun r => r.WithdrawTransactionHash) table i x = false) ∧
              r1 = { r with
                L1BlockNumber := last.L1BlockNumber
                L1ProveTxHash := last.L1ProveTxHash
                Status := if Uint64 r.TimeLeft > 0 then L2ToL1InChallengePeriod
                          else L2ToL1ReadyForClaim }) ∧
          (r1 = r ∨ r1.Status =
            (if Uint64 r.TimeLeft > 0 then L2ToL1InChallengePeriod else L2ToL1ReadyForClaim))
        | .MarkL2ToL1TransactionWithdrawalProvenV0 l =>
          ((∀ e ∈ l, marksRow (fun r => r.MessageHash) table i e = false) → r1 = r) ∧
          ((∀ x ∈ l, ∀ n : Int, x.L1BlockNumber = some n → Uint64 n ≠ 0 →
              takeIndex (structWhere (fun r : L2ToL1 => r.MessageHash) x.MessageHash) table
                ≠ none) →
            (∃ e ∈ l, marksRow (fun r => r.MessageHash) table i e = true) →
            ∃ l1 last l2, l = l1 ++ last :: l2 ∧
              marksRow (fun r => r.MessageHash) table i last = true ∧
              (∀ x ∈ l2, marksRow (fun r => r.MessageHash) table i x = false) ∧
              r1 = { r with
                L1BlockNumber := last.L1BlockNumber
                L1ProveTxHash := last.L1ProveTxHash
                Status := if Uint64 r.TimeLeft > 0 then L2ToL1InChallengePeriod
                          else L2ToL1ReadyForClaim }) ∧
          (r1 = r ∨ r1.Status =
            (if Uint64 r.TimeLeft > 0 then L2ToL1InChallengePeriod else L2ToL1ReadyForClaim))
        | .UpdateReadyForProvedStatus _ _ => r1.Status = L2ToL1Claimed
        | .UpdateTimeLeft => r1.Status = L2ToL1Claimed
        | .MarkL2ToL1TransactionWithdrawalFinalized _ => r1.Status = L2ToL1Claimed
        | .MarkL2ToL1TransactionWithdrawalFinalizedV0 _ => r1.Status = L2ToL1Claimed := by
  refine ⟨WithdrawalOp.apply_total op table, ?_⟩
  intro table1 happ
  cases op with
  | UpdateReadyForProvedStatus n w =>
    have hne : ¬ (r.Status = 0) := by rw [hs]; decide
    simp only [WithdrawalOp.apply, Option.some.injEq] at happ
    subst happ
    refine ⟨r, ?_, hs⟩
    simp [UpdateReadyForProvedStatus, List.getElem?_map, hr, hne]
  | UpdateTimeLeft =>
    have hne : ¬ (r.Status = L2ToL1InChallengePeriod) := by rw [hs]; decide
    simp only [WithdrawalOp.apply, Option.some.injEq] at happ
    subst happ
    refine ⟨r, ?_, hs⟩
    rw [UpdateTimeLeft_getElem?, hr]
    simp [hne]
  | MarkL2ToL1TransactionWithdrawalProven l =>
    exact proven_mark_of_claimed (fun r => r.WithdrawTransactionHash) (fun _ _ => rfl) l table table1 i r hr happ
  | MarkL2ToL1TransactionWithdrawalProvenV0 l =>
    exact proven_mark_of_claimed (fun r => r.MessageHash) (fun _ _ => rfl) l table table1 i r hr happ
  | MarkL2ToL1TransactionWithdrawalFinalized l =>
    obtain ⟨r1, h1, h2⟩ := markLoop_row_forward (fun r => r.WithdrawTransactionHash)
      markFinalizedRow (fun _ _ _ => rfl) l table table1 happ i r hr
    refine ⟨r1, h1, ?_⟩
    rcases h2 with h2 | ⟨e, _, h2⟩
    · rw [h2]; exact hs
    · rw [h2]; rfl
  | MarkL2ToL1TransactionWithdrawalFinalizedV0 l =>
    obtain ⟨r1, h1, h2⟩ := markLoop_row_forward (fun r => r.MessageHash)
      markFinalizedRow (fun _ _ _ => rfl) l table table1 happ i r hr
    refine ⟨r1, h1, ?_⟩
    rcases h2 with h2 | ⟨e, _, h2⟩
    · rw [h2]; exact hs
    · rw [h2]; rfl

/-- The amended C11 on a table holding one Claimed record with `TimeLeft` 0: a proven mark for
its withdrawal hash returns and leaves it ReadyForClaim with the entry's prove transaction
hash and block number; a proven mark for another withdrawal hash leaves it as it is. -/
theorem claimed_is_terminal_witness :
    (∃ table1, (WithdrawalOp.MarkL2ToL1TransactionWithdrawalProven [exampleProven1]).apply
      [exampleClaimed] = some table1) ∧
    (∃ r1,
      [{ exampleClaimed with
          L1BlockNumber := some 5, L1ProveTxHash := 101, Status := L2ToL1ReadyForClaim }][0]?
        = some r1 ∧
      ∃ l1 last l2, [exampleProven1] = l1 ++ last :: l2 ∧
        marksRow (fun r => r.WithdrawTransactionHash) [exampleClaimed] 0 last = true ∧
        (∀ x ∈ l2,
          marksRow (fun r => r.WithdrawTransactionHash) [exampleClaimed] 0 x = false) ∧
        r1 = { exampleClaimed with
          L1BlockNumber := last.L1BlockNumber
          L1ProveTxHash := last.L1ProveTxHash
          Status := if Uint64 exampleClaimed.TimeLeft > 0 then L2ToL1InChallengePeriod
                    else L2ToL1ReadyForClaim }) ∧
    (∃ r1, [exampleClaimed][0]? = some r1 ∧ r1 = exampleClaimed) :=
  ⟨(claimed_is_terminal (.MarkL2ToL1TransactionWithdrawalProven [exampleProven1])
      [exampleClaimed] 0 exampleClaimed rfl rfl).1 (by decide),
   Exists.elim
     ((claimed_is_terminal (.MarkL2ToL1TransactionWithdrawalProven [exampleProven1])
        [exampleClaimed] 0 exampleClaimed rfl rfl).2
        [{ exampleClaimed with
            L1BlockNumber := some 5, L1ProveTxHash := 101, Status := L2ToL1ReadyForClaim }]
        (by decide))
     (fun r1 h => ⟨r1, h.1, h.2.2.1 (by decide) (by decide)⟩),
   Exists.elim
     ((claimed_is_terminal (.MarkL2ToL1TransactionWithdrawalProven [exampleProvenUnknown])
        [exampleClaimed] 0 exampleClaimed rfl rfl).2 [exampleClaimed] (by decide))
     (fun r1 h => ⟨r1, h.1, h.2.1 (by decide)⟩)⟩

/-- C12 as stated fails on a list with two finalized entries for one withdrawal: the record
ends with the finalize transaction hash and block number of the second entry, not of the
first. -/
theorem finalized_transition_as_stated_fails :
    ¬ FinalizedTransitionAsStated [exampleFinalized1, exampleFinalized2] [exampleWithdrawal] := by
  intro h
  obtain ⟨table1, h0, h1⟩ := h exampleFinalized1 (List.mem_cons_self _ _) ⟨8, rfl, by decide⟩ 0
    exampleWithdrawal rfl rfl
  have h2 : MarkL2ToL1TransactionWithdrawalFinalized [exampleFinalized1, exampleFinalized2]
      [exampleWithdrawal] =
      some [{ exampleWithdrawal with
        L1BlockNumber := some 9, L1FinalizeTxHash := 202, Status := L2ToL1Claimed }] := by
    decide
  rw [h2] at h0
  cases h0
  revert h1
  decide

/-- `MarkL2ToL1TransactionWithdrawalFinalized` panics on the entries that
`LegacyL1ProcessFinalizedBridgeEvents` builds: they carry a message hash and a finalize
transaction hash and their `L1BlockNumber` is nil. -/
theorem finalized_loop_panics_at_nil_block_number :
    MarkL2ToL1TransactionWithdrawalFinalized
      [{ MessageHash := 77, L1FinalizeTxHash := 201 }] [exampleWithdrawal] = none := by
  decide

/-- C12, amended. When no list entry has a nil L1 block number (the function panics on one)
and every list entry that is not skipped (its L1 block number, read as a uint64, is non-zero)
matches a stored withdrawal, the function returns a table of the same length in which: a
record that some entry marks (the row `Take` returns for the entry's withdrawal hash) is
Claimed, with `L1FinalizeTxHash` and `L1BlockNumber` taken from the last list entry that marks
it and every other field unchanged; a record that no entry marks is unchanged. -/
theorem finalized_transition (l2L1List table : List L2ToL1) (i : Nat) (r : L2ToL1)
    (hnil : ∀ x ∈ l2L1List, x.L1BlockNumber ≠ none)
    (hall : ∀ x ∈ l2L1List, ∀ n : Int, x.L1BlockNumber = some n → Uint64 n ≠ 0 →
      takeIndex (structWhere (fun r : L2ToL1 => r.WithdrawTransactionHash)
        x.WithdrawTransactionHash) table ≠ none)
    (hr : table[i]? = some r) :
    ∃ table1, MarkL2ToL1TransactionWithdrawalFinalized l2L1List table = some table1 ∧
      table1.length = table.length ∧
      ((∃ entry ∈ l2L1List,
          marksRow (fun r => r.WithdrawTransactionHash) table i entry = true) →
        ∃ l1 last l2, l2L1List = l1 ++ last :: l2 ∧
          marksRow (fun r => r.WithdrawTransactionHash) table i last = true ∧
          (∀ x ∈ l2, marksRow (fun r => r.WithdrawTransactionHash) table i x = false) ∧
          table1[i]? =
            some { r with
              L1BlockNumber := last.L1BlockNumber
              L1FinalizeTxHash := last.L1FinalizeTxHash
              Status := L2ToL1Claimed }) ∧
      ((∀ entry ∈ l2L1List,
          marksRow (fun r => r.WithdrawTransactionHash) table i entry = false) →
        table1[i]? = some r) := by
  obtain ⟨table1, h0⟩ :=
    markLoop_total (fun r => r.WithdrawTransactionHash) markFinalizedRow l2L1List table hnil
  have hrow := markLoop_row (fun r => r.WithdrawTransactionHash) markFinalizedRow
    (fun _ _ => rfl) (fun _ _ _ => rfl) l2L1List table table1 h0 hall i r hr
  refine ⟨table1, h0, markLoop_length _ _ _ _ _ h0, ?_, ?_⟩
  · rintro ⟨entry, he, hm⟩
    cases hl : lastMarking (fun r => r.WithdrawTransactionHash) table i l2L1List with
    | none =>
      have := lastMarking_none _ _ _ _ hl entry he
      rw [hm] at this
      cases this
    | some last =>
      obtain ⟨l1, l2, h1, h2, h3⟩ := lastMarking_some _ _ _ _ _ hl
      refine ⟨l1, last, l2, h1, h2, h3, ?_⟩
      rw [hl] at hrow
      exact hrow
  · intro hnone
    rw [lastMarking_eq_none _ _ _ _ hnone] at hrow
    exact hrow

/-- The amended C12 on two finalized entries for the first of two stored withdrawals: the
function returns, the first record is Claimed by the second entry, the other record is
unchanged. -/
theorem finalized_transition_witness :
    (∃ table1, MarkL2ToL1TransactionWithdrawalFinalized [exampleFinalized1, exampleFinalized2]
        [exampleWithdrawal, exampleOtherWithdrawal] = some table1 ∧
      table1.length = [exampleWithdrawal, exampleOtherWithdrawal].length ∧
      ∃ l1 last l2, [exampleFinalized1, exampleFinalized2] = l1 ++ last :: l2 ∧
        marksRow (fun r => r.WithdrawTransactionHash)
          [exampleWithdrawal, exampleOtherWithdrawal] 0 last = true ∧
        (∀ x ∈ l2, marksRow (fun r => r.WithdrawTransactionHash)
          [exampleWithdrawal, exampleOtherWithdrawal] 0 x = false) ∧
        table1[0]? =
          some { exampleWithdrawal with
            L1BlockNumber := last.L1BlockNumber
            L1FinalizeTxHash := last.L1FinalizeTxHash
            Status := L2ToL1Claimed }) ∧
    (∃ table1, MarkL2ToL1TransactionWithdrawalFinalized [exampleFinalized1, exampleFinalized2]
        [exampleWithdrawal, exampleOtherWithdrawal] = some table1 ∧
      table1[1]? = some exampleOtherWithdrawal) :=
  ⟨Exists.elim
     (finalized_transition [exampleFinalized1, exampleFinalized2]
       [exampleWithdrawal, exampleOtherWithdrawal] 0 exampleWithdrawal
       (by decide) (by decide) rfl)
     (fun table1 h => ⟨table1, h.1, h.2.1, h.2.2.1 (by decide)⟩),
   Exists.elim
     (finalized_transition [exampleFinalized1, exampleFinalized2]
       [exampleWithdrawal, exampleOtherWithdrawal] 1 exampleOtherWithdrawal
       (by decide) (by decide) rfl)
     (fun table1 h => ⟨table1, h.1, h.2.2.2 (by decide)⟩)⟩

/-! ## Pending to ReadyForProved (C13) -/

theorem latestStateRoot_foldl (ss : List StateRoot) :
    ∀ s0 : StateRoot,
      ss.foldl (fun best x => if best.Timestamp < x.Timestamp then x else best) s0 ∈ s0 :: ss ∧
      ∀ x ∈ s0 :: ss, x.Timestamp ≤
        (ss.foldl (fun best x => if best.Timestamp < x.Timestamp then x else best) s0).Timestamp := by
  induction ss with
  | nil =>
    intro s0
    simp
  | cons y ys ih =>
    intro s0
    simp only [List.foldl_cons]
    obtain ⟨h1, h2⟩ := ih (if s0.Timestamp < y.Timestamp then y else s0)
    constructor
    · rcases List.mem_cons.mp h1 with h | h
      · rw [h]
        split_ifs
        · exact List.mem_cons_of_mem _ (List.mem_cons_self _ _)
        · exact List.mem_cons_self _ _
      · exact List.mem_cons_of_mem _ (List.mem_cons_of_mem _ h)
    · intro x hx
      have h3 := h2 _ (List.mem_cons_self _ _)
      rcases List.mem_cons.mp hx with h | h
      · subst h
        refine Nat.le_trans ?_ h3
        split_ifs with hlt
        · exact Nat.le_of_lt hlt
        · exact Nat.le_refl _
      · rcases List.mem_cons.mp h with h | h
        · subst h
          refine Nat.le_trans ?_ h3
          split_ifs with hlt
          · exact Nat.le_refl _
          · exact Nat.le_of_not_lt hlt
        · exact h2 x (List.mem_cons_of_mem _ h)

/-- The row `ORDER BY timestamp DESC LIMIT 1` returns is a stored state root whose timestamp
no stored state root exceeds. -/
theorem latestStateRoot_max (table : List StateRoot) (s : StateRoot)
    (h : latestStateRoot table = some s) :
    s ∈ table ∧ ∀ x ∈ table, x.Timestamp ≤ s.Timestamp := by
  cases table with
  | nil => simp [latestStateRoot] at h
  | cons s0 ss =>
    simp only [latestStateRoot, Option.some.injEq] at h
    subst h
    exact latestStateRoot_foldl ss s0

/-- C13 as stated fails on a store whose latest state root is for L2 block 0: the call
`UpdateReadyForProvedStatus(0, w)` would make the Pending withdrawal stored with L2 block
number 0 ReadyForProved, but `syncL2ToL1StateRoot` returns before the call and the withdrawal
stays Pending. -/
theorem sync_state_root_as_stated_fails :
    ¬ SyncL2ToL1StateRootAsStated (BusinessProcessor.mk 1800) exampleGenesisStateRootStore := by
  intro h
  have h1 := h { L2BlockNumber := some 0, Timestamp := 5 } 0 rfl rfl (by decide) (by decide)
  revert h1
  decide

/-- C13, amended. `UpdateReadyForProvedStatus n w` gives every record that is Pending and has
an L2 block number `b ≤ n` the status ReadyForProved and `TimeLeft = w`; a record that is not
Pending, has no L2 block number, or has an L2 block number above `n` is unchanged; the table
keeps its length. `syncL2ToL1StateRoot` changes nothing when no state root is stored and when
the L2 block number of the latest state root (a stored state root of greatest timestamp) is
0; when that number is positive it leaves the store that `UpdateReadyForProvedStatus` gives for
it and the configured fraud proof window. -/
theorem pending_to_ready_for_proved (n w : Nat) (table : List L2ToL1)
    (bp : BusinessProcessor) (db : DB) :
    (∀ (i : Nat) (r : L2ToL1), table[i]? = some r →
      (∀ b : Int, r.Status = L2ToL1Pending → r.L2BlockNumber = some b → b ≤ (n : Int) →
        (UpdateReadyForProvedStatus n w table)[i]? =
          some { r with Status := L2ToL1ReadyForProved, TimeLeft := (w : Int) }) ∧
      (r.Status ≠ L2ToL1Pending → (UpdateReadyForProvedStatus n w table)[i]? = some r) ∧
      (r.L2BlockNumber = none → (UpdateReadyForProvedStatus n w table)[i]? = some r) ∧
      (∀ b : Int, r.L2BlockNumber = some b → (n : Int) < b →
        (UpdateReadyForProvedStatus n w table)[i]? = some r)) ∧
    (UpdateReadyForProvedStatus n w table).length = table.length ∧
    (db.stateRoot = [] → bp.syncL2ToL1StateRoot db = (db, none)) ∧
    (∀ s : StateRoot, latestStateRoot db.stateRoot = some s →
      s ∈ db.stateRoot ∧ ∀ x ∈ db.stateRoot, x.Timestamp ≤ s.Timestamp) ∧
    (∀ s : StateRoot, latestStateRoot db.stateRoot = some s → s.L2BlockNumber = some 0 →
      bp.syncL2ToL1StateRoot db = (db, none)) ∧
    (∀ (s : StateRoot) (b : Int), latestStateRoot db.stateRoot = some s →
      s.L2BlockNumber = some b → 0 < b → b < 2 ^ 64 →
      bp.syncL2ToL1StateRoot db =
        ({ db with l2ToL1 := UpdateReadyForProvedStatus b.toNat bp.fraudProofWindows db.l2ToL1 },
          none)) := by
  refine ⟨?_, ?_, ?_, ?_, ?_, ?_⟩
  · intro i r hr
    simp only [UpdateReadyForProvedStatus, List.getElem?_map, hr, Option.map_some',
      Option.some.injEq]
    refine ⟨?_, ?_, ?_, ?_⟩
    · intro b hs hb hle
      have h1 : r.Status = 0 := hs
      have h2 : l2BlockNumberLe r n = true := by
        unfold l2BlockNumberLe
        rw [hb]
        exact decide_eq_true hle
      rw [if_pos (by simp [h1, h2])]
    · intro hs
      have h1 : ¬ (r.Status = 0) := hs
      rw [if_neg (by simp [h1])]
    · intro hb
      have h2 : l2BlockNumberLe r n = false := by
        unfold l2BlockNumberLe
        rw [hb]
      rw [if_neg (by simp [h2])]
    · intro b hb hlt
      have h2 : l2BlockNumberLe r n = false := by
        unfold l2BlockNumberLe
        rw [hb]
        exact decide_eq_false (by omega)
      rw [if_neg (by simp [h2])]
  · simp [UpdateReadyForProvedStatus]
  · intro h
    simp [BusinessProcessor.syncL2ToL1StateRoot, GetLatestStateRootL2BlockNumber, h,
      latestStateRoot]
  · intro s hs
    exact latestStateRoot_max db.stateRoot s hs
  · intro s hs hb
    simp [BusinessProcessor.syncL2ToL1StateRoot, GetLatestStateRootL2BlockNumber, hs, hb]
  · intro s b hs hb h0 h64
    have h0' : 0 ≤ b := by omega
    have hz : ¬ (b.toNat = 0) := by omega
    simp only [BusinessProcessor.syncL2ToL1StateRoot, GetLatestStateRootL2BlockNumber, hs, hb,
      h0', h64, and_self, if_true, hz, if_false]

/-- The amended C13 at the boundary. With `n = 60` the Pending withdrawal of L2 block 60
becomes ReadyForProved with the window 1800 and the Pending withdrawal of L2 block 61 is
unchanged; on the store whose latest state root is for L2 block 60 `syncL2ToL1StateRoot`
leaves exactly that table; on the store whose latest state root is for L2 block 0 it changes
nothing. -/
theorem pending_to_ready_for_proved_witness :
    (UpdateReadyForProvedStatus 60 1800 exampleStateRootStore.l2ToL1)[1]? =
      some { examplePendingAt 60 with Status := L2ToL1ReadyForProved, TimeLeft := 1800 } ∧
    (UpdateReadyForProvedStatus 60 1800 exampleStateRootStore.l2ToL1)[2]? =
      some (examplePendingAt 61) ∧
    (BusinessProcessor.mk 1800).syncL2ToL1StateRoot exampleStateRootStore =
      ({ exampleStateRootStore with
          l2ToL1 := UpdateReadyForProvedStatus (60 : Int).toNat 1800
            exampleStateRootStore.l2ToL1 }, none) ∧
    UpdateReadyForProvedStatus (60 : Int).toNat 1800 exampleStateRootStore.l2ToL1 =
      [{ examplePending with Status := L2ToL1ReadyForProved, TimeLeft := 1800 },
       { examplePendingAt 60 with Status := L2ToL1ReadyForProved, TimeLeft := 1800 },
       examplePendingAt 61, exampleWithdrawal] ∧
    (BusinessProcessor.mk 1800).syncL2ToL1StateRoot exampleGenesisStateRootStore =
      (exampleGenesisStateRootStore, none) :=
  ⟨((pending_to_ready_for_proved 60 1800 exampleStateRootStore.l2ToL1
      (BusinessProcessor.mk 1800) exampleStateRootStore).1 1 (examplePendingAt 60) rfl).1
      60 rfl rfl (by decide),
   ((pending_to_ready_for_proved 60 1800 exampleStateRootStore.l2ToL1
      (BusinessProcessor.mk 1800) exampleStateRootStore).1 2 (examplePendingAt 61) rfl).2.2.2
      61 rfl (by decide),
   (pending_to_ready_for_proved 60 1800 exampleStateRootStore.l2ToL1
      (BusinessProcessor.mk 1800) exampleStateRootStore).2.2.2.2.2
      { L2BlockNumber := some 60, Timestamp := 9 } 60 (by decide) rfl (by decide) (by decide),
   by decide,
   (pending_to_ready_for_proved 0 1800 exampleGenesisStateRootStore.l2ToL1
      (BusinessProcessor.mk 1800) exampleGenesisStateRootStore).2.2.2.2.1
      { L2BlockNumber := some 0, Timestamp := 5 } (by decide) rfl⟩

/-! ## Deposits and their relay message (C14) -/

/-- C14, evaluated where the code departs from it: deposits A (message hash 11) and B (message
hash 22) are stored, both Pending, and the relay message of B is not yet related.
`markedL1ToL2Finalized` finds the deposit of the relay message by its message hash, but the
entry it hands to `MarkL1ToL2TransactionDepositFinalized` carries no message hash, so the
condition is empty and the first stored deposit is taken: deposit A ends Claimed with the relay
transaction hash 900, deposit B stays Pending, and the relay message is marked related. -/
theorem relay_message_claims_first_deposit :
    (BusinessProcessor.mk 1800).markedL1ToL2Finalized
        { l1ToL2 := [exampleDepositA, exampleDepositB], relayMessage := [exampleRelayB] } =
      some ({ l1ToL2 := [{ exampleDepositA with
                            L2BlockNumber := none, L2TransactionHash := 900
                            Status := L1ToL2Claimed },
                         exampleDepositB]
              relayMessage := [{ exampleRelayB with Related := true }] }, none) ∧
    exampleDepositB.Status = L1ToL2Pending ∧
    exampleDepositA.MessageHash ≠ exampleRelayB.MessageHash := by
  decide

/-! ## The batches of the synchronizers (C15 - C17) -/

theorem retryAttempts_cases (op : Nat → DB → DB × Option Err) (g : DB → DB)
    (hop : ∀ k d, (∃ e, op k d = (d, some e)) ∨ op k d = (g d, none)) :
    ∀ (n k : Nat) (e : Err) (db : DB),
      (∃ e1, retryAttempts op n k e db = (db, some e1)) ∨
        retryAttempts op n k e db = (g db, none) := by
  intro n
  induction n with
  | zero =>
    intro k e db
    exact Or.inl ⟨e, rfl⟩
  | succ n ih =>
    intro k e db
    rcases hop k db with ⟨e1, h⟩ | h
    · simp only [retryAttempts, h]
      exact ih (k + 1) e1 db
    · simp only [retryAttempts, h]
      exact Or.inr trivial

theorem Transaction_l1StoreBatch (fault : StoreStep → Option Err) (hs : List BlockHeader)
    (evs : List ContractEvent) (db : DB) :
    (∃ e, db.Transaction (l1StoreBatch fault hs evs) = (db, some e)) ∨
      db.Transaction (l1StoreBatch fault hs evs) =
        ({ db with l1BlockHeaders := db.l1BlockHeaders ++ hs
                   l1ContractEvents := db.l1ContractEvents ++ evs }, none) := by
  unfold DB.Transaction l1StoreBatch
  cases h1 : fault .headers <;> cases h2 : fault .contractEvents <;>
    simp [StoreBlockHeaders, StoreContractEvents]

theorem Transaction_l2StoreBatch (fault : StoreStep → Option Err) (hs : List BlockHeader)
    (evs : List ContractEvent) (txs : List Transactions) (db : DB) :
    (∃ e, db.Transaction (l2StoreBatch fault hs evs txs) = (db, some e)) ∨
      db.Transaction (l2StoreBatch fault hs evs txs) =
        ({ db with l2BlockHeaders := db.l2BlockHeaders ++ hs
                   l2ContractEvents := db.l2ContractEvents ++ evs
                   transactions := db.transactions ++ txs }, none) := by
  unfold DB.Transaction l2StoreBatch
  cases h1 : fault .headers <;> cases h2 : fault .contractEvents <;>
    cases h3 : fault .transactions <;> cases evs <;> cases txs <;>
    simp [StoreBlockHeaders, StoreContractEvents, StoreTransactions]

theorem contractEventsOfBatch_some (batch : SynchronizerBatch) :
    ∀ (logs : List Log) (evs : List ContractEvent), contractEventsOfBatch batch logs = some evs →
      evs.length = logs.length ∧
      ∀ (i : Nat) (log : Log), logs[i]? = some log →
        ∃ header, batch.header log.BlockHash = some header ∧
          evs[i]? = some (ContractEventFromLog log header.Time) := by
  intro logs
  induction logs with
  | nil =>
    intro evs h
    simp only [contractEventsOfBatch, Option.some.injEq] at h
    subst h
    simp
  | cons l rest ih =>
    intro evs h
    simp only [contractEventsOfBatch] at h
    cases hh : batch.header l.BlockHash with
    | none => simp [hh] at h
    | some header =>
      cases hr : contractEventsOfBatch batch rest with
      | none => simp [hh, hr] at h
      | some more =>
        simp only [hh, hr, Option.some.injEq] at h
        subst h
        obtain ⟨hlen, hidx⟩ := ih more hr
        refine ⟨by simp [hlen], ?_⟩
        intro i log hi
        cases i with
        | zero =>
          simp only [List.getElem?_cons_zero, Option.some.injEq] at hi
          subst hi
          exact ⟨header, hh, by simp⟩
        | succ j =>
          simp only [List.getElem?_cons_succ] at hi ⊢
          exact hidx j log hi

theorem contractEventsOfBatch_total (batch : SynchronizerBatch) :
    ∀ (logs : List Log), (∀ log ∈ logs, batch.header log.BlockHash ≠ none) →
      ∃ evs, contractEventsOfBatch batch logs = some evs := by
  intro logs
  induction logs with
  | nil => intro _; exact ⟨[], rfl⟩
  | cons l rest ih =>
    intro h
    obtain ⟨more, hm⟩ := ih (fun x hx => h x (List.mem_cons_of_mem _ hx))
    cases hh : batch.header l.BlockHash with
    | none => exact absurd hh (h l (List.mem_cons_self _ _))
    | some header =>
      exact ⟨ContractEventFromLog l header.Time :: more, by
        simp only [contractEventsOfBatch, hh, hm]⟩

/-- C15. Batch atomicity. Whatever store call fails in whatever attempt: when
`L1Sync.handleBatch` returns, the store either is as it was (and then an error is returned, or
the batch had no header with a log) or holds all header rows and all contract-event rows built
from the batch, with no error; when `L2Sync.handleBatch` returns, the store either is as it was,
with an error, or holds all header, contract-event and transaction rows built from the batch,
with no error. Within one attempt, when the headers were written and storing the contract
events fails, the transaction gives back the store without those headers. Both handlers return
when every log's block is in the batch's header map (and, on L2, the batch has a header). -/
theorem batch_atomicity (transactionsOf : Hash32 → Except Err (List Transactions))
    (faults : StoreFaults) (db : DB) (batch : SynchronizerBatch) :
    (∀ db1 err, L1Sync.handleBatch faults db batch = some (db1, err) →
      (db1 = db ∧ (err = none → l1HeadersOfBatch batch = [])) ∨
      (err = none ∧ ∃ events, contractEventsOfBatch batch batch.Logs = some events ∧
        db1 = { db with l1BlockHeaders := db.l1BlockHeaders ++ l1HeadersOfBatch batch
                        l1ContractEvents := db.l1ContractEvents ++ events })) ∧
    (∀ db1 err, L2Sync.handleBatch transactionsOf faults db batch = some (db1, err) →
      (db1 = db ∧ err ≠ none) ∨
      (err = none ∧ ∃ events txList, contractEventsOfBatch batch batch.Logs = some events ∧
        l2TransactionsOfBatch transactionsOf batch.Headers = .ok txList ∧
        db1 = { db with
                l2BlockHeaders := db.l2BlockHeaders ++ batch.Headers.map BlockHeaderFromHeader
                l2ContractEvents := db.l2ContractEvents ++ events
                transactions := db.transactions ++ txList })) ∧
    (∀ (fault : StoreStep → Option Err) (hs : List BlockHeader) (evs : List ContractEvent)
        (e : Err), fault .headers = none → fault .contractEvents = some e →
      (l1StoreBatch fault hs evs db).1.l1BlockHeaders = db.l1BlockHeaders ++ hs ∧
      db.Transaction (l1StoreBatch fault hs evs) = (db, some e)) ∧
    (∀ (fault : StoreStep → Option Err) (hs : List BlockHeader) (evs : List ContractEvent)
        (txs : List Transactions) (e : Err), fault .headers = none →
        fault .contractEvents = some e → evs ≠ [] →
      (l2StoreBatch fault hs evs txs db).1.l2BlockHeaders = db.l2BlockHeaders ++ hs ∧
      db.Transaction (l2StoreBatch fault hs evs txs) = (db, some e)) ∧
    ((∀ log ∈ batch.Logs, batch.header log.BlockHash ≠ none) →
      (L1Sync.handleBatch faults db batch).isSome = true ∧
      (batch.Headers ≠ [] →
        (L2Sync.handleBatch transactionsOf faults db batch).isSome = true)) := by
  refine ⟨?_, ?_, ?_, ?_, ?_⟩
  · intro db1 err h
    simp only [L1Sync.handleBatch] at h
    by_cases h0 : (l1HeadersOfBatch batch).length = 0
    · simp only [h0, if_true, Option.some.injEq, Prod.mk.injEq] at h
      exact Or.inl ⟨h.1.symm, fun _ => List.length_eq_zero.mp h0⟩
    · simp only [h0, if_false] at h
      cases hev : contractEventsOfBatch batch batch.Logs with
      | none => simp [hev] at h
      | some events =>
        simp only [hev, Option.some.injEq] at h
        rcases retryAttempts_cases _ _
          (fun k d => Transaction_l1StoreBatch (faults k) (l1HeadersOfBatch batch) events d)
          10 0 "need at least 1 attempt to run op" db with ⟨e1, hr⟩ | hr
        · rw [retryDo, hr, Prod.mk.injEq] at h
          exact Or.inl ⟨h.1.symm, fun hn => by rw [← h.2] at hn; cases hn⟩
        · rw [retryDo, hr, Prod.mk.injEq] at h
          exact Or.inr ⟨h.2.symm, events, rfl, h.1.symm⟩
  · intro db1 err h
    simp only [L2Sync.handleBatch] at h
    cases htx : l2TransactionsOfBatch transactionsOf batch.Headers with
    | error e =>
      simp only [htx, Option.some.injEq, Prod.mk.injEq] at h
      exact Or.inl ⟨h.1.symm, fun hn => by rw [← h.2] at hn; cases hn⟩
    | ok txList =>
      simp only [htx] at h
      cases hev : contractEventsOfBatch batch batch.Logs with
      | none => simp [hev] at h
      | some events =>
        simp only [hev] at h
        rcases retryAttempts_cases _ _
          (fun k d => Transaction_l2StoreBatch (faults k)
            (batch.Headers.map BlockHeaderFromHeader) events txList d)
          10 0 "need at least 1 attempt to run op" db with ⟨e1, hr⟩ | hr
        · rw [retryDo, hr] at h
          simp only [Option.some.injEq, Prod.mk.injEq] at h
          exact Or.inl ⟨h.1.symm, fun hn => by rw [← h.2] at hn; cases hn⟩
        · rw [retryDo, hr] at h
          simp only at h
          split_ifs at h
          simp only [Option.some.injEq, Prod.mk.injEq] at h
          exact Or.inr ⟨h.2.symm, events, txList, rfl, rfl, h.1.symm⟩
  · intro fault hs evs e h1 h2
    simp [DB.Transaction, l1StoreBatch, h1, h2, StoreBlockHeaders]
  · intro fault hs evs txs e h1 h2 h3
    have h4 : evs.length > 0 := List.length_pos.mpr h3
    simp [DB.Transaction, l2StoreBatch, h1, h2, h4, StoreBlockHeaders]
  · intro hmap
    obtain ⟨events, hev⟩ := contractEventsOfBatch_total batch batch.Logs hmap
    refine ⟨?_, ?_⟩
    · simp only [L1Sync.handleBatch, hev]
      split_ifs <;> rfl
    · intro hne
      have hlen : ¬ (batch.Headers.map BlockHeaderFromHeader).length = 0 := by
        simpa using hne
      simp only [L2Sync.handleBatch, hev]
      cases htx : l2TransactionsOfBatch transactionsOf batch.Headers with
      | error e => rfl
      | ok txList =>
        simp only []
        cases hr : retryDo 10 (fun attempt db1 => db1.Transaction
            (l2StoreBatch (faults attempt) (batch.Headers.map BlockHeaderFromHeader) events
              txList)) db with
        | mk d oe =>
          cases oe with
          | none => simp only [hlen, if_false, Option.isSome_some]
          | some e => rfl

/-- C15 on `exampleBatch` and an empty store. On L1 storing the contract events fails in the
first attempt only: the handler returns no error and the store holds both headers with a log
and both events. On L2 it fails in every attempt: the handler returns the error and the store
is still empty. In the failing attempt the headers had been written before the rollback. -/
theorem batch_atomicity_witness :
    L1Sync.handleBatch eventsFailOnce {} exampleBatch = some (exampleL1Stored, none) ∧
    ((exampleL1Stored = {} ∧ ((none : Option Err) = none → l1HeadersOfBatch exampleBatch = [])) ∨
      ((none : Option Err) = none ∧
        ∃ events, contractEventsOfBatch exampleBatch exampleBatch.Logs = some events ∧
          exampleL1Stored =
            { ({} : DB) with
              l1BlockHeaders := ({} : DB).l1BlockHeaders ++ l1HeadersOfBatch exampleBatch
              l1ContractEvents := ({} : DB).l1ContractEvents ++ events })) ∧
    L2Sync.handleBatch exampleTransactionsOf eventsFailAlways {} exampleBatch =
      some ({}, some "store contract events") ∧
    ((l1StoreBatch (eventsFailOnce 0) (l1HeadersOfBatch exampleBatch)
        [ContractEventFromLog exampleLog1 11] {}).1.l1BlockHeaders =
        ({} : DB).l1BlockHeaders ++ l1HeadersOfBatch exampleBatch ∧
      DB.Transaction {} (l1StoreBatch (eventsFailOnce 0) (l1HeadersOfBatch exampleBatch)
        [ContractEventFromLog exampleLog1 11]) = ({}, some "store contract events")) ∧
    (L1Sync.handleBatch eventsFailOnce {} exampleBatch).isSome = true ∧
    (L2Sync.handleBatch exampleTransactionsOf eventsFailOnce {} exampleBatch).isSome = true :=
  ⟨by decide,
    (batch_atomicity exampleTransactionsOf eventsFailOnce {} exampleBatch).1
      exampleL1Stored none (by decide),
    by decide,
    (batch_atomicity exampleTransactionsOf eventsFailOnce {} exampleBatch).2.2.1
      (eventsFailOnce 0) (l1HeadersOfBatch exampleBatch) [ContractEventFromLog exampleLog1 11]
      "store contract events" (by decide) (by decide),
    ((batch_atomicity exampleTransactionsOf eventsFailOnce {} exampleBatch).2.2.2.2
      (by decide)).1,
    ((batch_atomicity exampleTransactionsOf eventsFailOnce {} exampleBatch).2.2.2.2
      (by decide)).2 (by decide)⟩

theorem L1Sync_handleBatch_ok (faults : StoreFaults) (db db1 : DB) (batch : SynchronizerBatch)
    (h : L1Sync.handleBatch faults db batch = some (db1, none)) :
    (l1HeadersOfBatch batch = [] ∧ db1 = db) ∨
      ∃ events, contractEventsOfBatch batch batch.Logs = some events ∧
        db1 = { db with l1BlockHeaders := db.l1BlockHeaders ++ l1HeadersOfBatch batch
                        l1ContractEvents := db.l1ContractEvents ++ events } := by
  simp only [L1Sync.handleBatch] at h
  by_cases h0 : (l1HeadersOfBatch batch).length = 0
  · simp only [h0, if_true, Option.some.injEq, Prod.mk.injEq] at h
    exact Or.inl ⟨List.length_eq_zero.mp h0, h.1.symm⟩
  · simp only [h0, if_false] at h
    cases hev : contractEventsOfBatch batch batch.Logs with
    | none => simp [hev] at h
    | some events =>
      simp only [hev, Option.some.injEq] at h
      rcases retryAttempts_cases _ _
        (fun k d => Transaction_l1StoreBatch (faults k) (l1HeadersOfBatch batch) events d)
        10 0 "need at least 1 attempt to run op" db with ⟨e1, hr⟩ | hr
      · rw [retryDo, hr, Prod.mk.injEq] at h
        exact absurd h.2 (by simp)
      · rw [retryDo, hr, Prod.mk.injEq] at h
        exact Or.inr ⟨events, rfl, h.1.symm⟩

theorem L2Sync_handleBatch_ok (transactionsOf : Hash32 → Except Err (List Transactions))
    (faults : StoreFaults) (db db1 : DB) (batch : SynchronizerBatch)
    (h : L2Sync.handleBatch transactionsOf faults db batch = some (db1, none)) :
    ∃ events txList, contractEventsOfBatch batch batch.Logs = some events ∧
      l2TransactionsOfBatch transactionsOf batch.Headers = .ok txList ∧
      db1 = { db with
              l2BlockHeaders := db.l2BlockHeaders ++ batch.Headers.map BlockHeaderFromHeader
              l2ContractEvents := db.l2ContractEvents ++ events
              transactions := db.transactions ++ txList } := by
  simp only [L2Sync.handleBatch] at h
  cases htx : l2TransactionsOfBatch transactionsOf batch.Headers with
  | error e => simp [htx] at h
  | ok txList =>
    simp only [htx] at h
    cases hev : contractEventsOfBatch batch batch.Logs with
    | none => simp [hev] at h
    | some events =>
      simp only [hev] at h
      rcases retryAttempts_cases _ _
        (fun k d => Transaction_l2StoreBatch (faults k)
          (batch.Headers.map BlockHeaderFromHeader) events txList d)
        10 0 "need at least 1 attempt to run op" db with ⟨e1, hr⟩ | hr
      · rw [retryDo, hr] at h
        simp at h
      · rw [retryDo, hr] at h
        simp only at h
        split_ifs at h
        simp only [Option.some.injEq, Prod.mk.injEq] at h
        exact ⟨events, txList, rfl, rfl, h.1.symm⟩

theorem Transaction_l1StoreBatch_ok (fault : StoreStep → Option Err) (hs : List BlockHeader)
    (evs : List ContractEvent) (db : DB) (hf : ∀ step, fault step = none) :
    db.Transaction (l1StoreBatch fault hs evs) =
      ({ db with l1BlockHeaders := db.l1BlockHeaders ++ hs
                 l1ContractEvents := db.l1ContractEvents ++ evs }, none) := by
  simp [DB.Transaction, l1StoreBatch, hf, StoreBlockHeaders, StoreContractEvents]

theorem Transaction_l2StoreBatch_ok (fault : StoreStep → Option Err) (hs : List BlockHeader)
    (evs : List ContractEvent) (txs : List Transactions) (db : DB)
    (hf : ∀ step, fault step = none) :
    db.Transaction (l2StoreBatch fault hs evs txs) =
      ({ db with l2BlockHeaders := db.l2BlockHeaders ++ hs
                 l2ContractEvents := db.l2ContractEvents ++ evs
                 transactions := db.transactions ++ txs }, none) := by
  cases evs <;> cases txs <;>
    simp [DB.Transaction, l2StoreBatch, hf, StoreBlockHeaders, StoreContractEvents,
      StoreTransactions]

theorem retryDo_first_attempt (op : Nat → DB → DB × Option Err) (n : Nat) (db d : DB)
    (h : op 0 db = (d, none)) : retryDo (n + 1) op db = (d, none) := by
  simp only [retryDo, retryAttempts, h]

theorem l2TransactionsOfBatch_total (transactionsOf : Hash32 → Except Err (List Transactions)) :
    ∀ (headers : List Header),
      (∀ h ∈ headers, ∃ txs, transactionsOf h.Hash = .ok txs) →
      ∃ txList, l2TransactionsOfBatch transactionsOf headers = .ok txList := by
  intro headers
  induction headers with
  | nil => intro _; exact ⟨[], rfl⟩
  | cons x rest ih =>
    intro h
    obtain ⟨more, hm⟩ := ih (fun y hy => h y (List.mem_cons_of_mem _ hy))
    obtain ⟨txs, ht⟩ := h x (List.mem_cons_self _ _)
    exact ⟨txs ++ more, by simp only [l2TransactionsOfBatch, ht, hm]⟩

/-- C16. Which rows a batch persists. When `L1Sync.handleBatch` returns no error the L1 header
table has grown by exactly the headers of `batch.Headers` whose hash is a key of
`batch.HeadersWithLog`, in batch order, and the L1 event table by one contract event per entry
of `batch.Logs`, in order, built from that log and the time of its block (for a batch in which
a log implies a header with a log). When `L2Sync.handleBatch` returns no error the L2 header
table has grown by one header per entry of `batch.Headers`, in batch order, and the L2 event
table by one contract event per entry of `batch.Logs`, in order. Both return no error when no
store call of the first attempt fails, every log's block is in the header map and, on L2, the
batch has a header and the client calls succeed. -/
theorem batch_rows_persisted (transactionsOf : Hash32 → Except Err (List Transactions))
    (faults : StoreFaults) (db : DB) (batch : SynchronizerBatch)
    (hlogs : batch.Logs ≠ [] → ∃ h ∈ batch.Headers, h.Hash ∈ batch.HeadersWithLog) :
    (∀ db1, L1Sync.handleBatch faults db batch = some (db1, none) →
      ∃ events,
        db1 = { db with
                l1BlockHeaders := db.l1BlockHeaders ++
                  (batch.Headers.filter (fun h => decide (h.Hash ∈ batch.HeadersWithLog))).map
                    BlockHeaderFromHeader
                l1ContractEvents := db.l1ContractEvents ++ events } ∧
        events.length = batch.Logs.length ∧
        ∀ (i : Nat) (log : Log), batch.Logs[i]? = some log →
          ∃ header, batch.header log.BlockHash = some header ∧
            events[i]? = some (ContractEventFromLog log header.Time)) ∧
    (∀ db1, L2Sync.handleBatch transactionsOf faults db batch = some (db1, none) →
      ∃ events txList,
        db1 = { db with
                l2BlockHeaders := db.l2BlockHeaders ++ batch.Headers.map BlockHeaderFromHeader
                l2ContractEvents := db.l2ContractEvents ++ events
                transactions := db.transactions ++ txList } ∧
        events.length = batch.Logs.length ∧
        ∀ (i : Nat) (log : Log), batch.Logs[i]? = some log →
          ∃ header, batch.header log.BlockHash = some header ∧
            events[i]? = some (ContractEventFromLog log header.Time)) ∧
    ((∀ log ∈ batch.Logs, batch.header log.BlockHash ≠ none) → (∀ step, faults 0 step = none) →
      (∃ db1, L1Sync.handleBatch faults db batch = some (db1, none)) ∧
      (batch.Headers ≠ [] → (∀ h ∈ batch.Headers, ∃ txs, transactionsOf h.Hash = .ok txs) →
        ∃ db1, L2Sync.handleBatch transactionsOf faults db batch = some (db1, none))) := by
  refine ⟨?_, ?_, ?_⟩
  · intro db1 h
    rcases L1Sync_handleBatch_ok faults db db1 batch h with ⟨h0, hd⟩ | ⟨events, hev, hd⟩
    · have hl : batch.Logs = [] := by
        by_contra hne
        obtain ⟨x, hx, hk⟩ := hlogs hne
        have hmem : BlockHeaderFromHeader x ∈ l1HeadersOfBatch batch :=
          List.mem_map_of_mem _ (List.mem_filter.mpr ⟨hx, by simpa using hk⟩)
        rw [h0] at hmem
        cases hmem
      refine ⟨[], ?_, by simp [hl], by simp [hl]⟩
      have h1 : (batch.Headers.filter (fun h => decide (h.Hash ∈ batch.HeadersWithLog))).map
          BlockHeaderFromHeader = [] := h0
      rw [hd, h1]
      simp
    · obtain ⟨hlen, hidx⟩ := contractEventsOfBatch_some batch batch.Logs events hev
      exact ⟨events, hd, hlen, hidx⟩
  · intro db1 h
    obtain ⟨events, txList, hev, _, hd⟩ := L2Sync_handleBatch_ok transactionsOf faults db db1 batch h
    obtain ⟨hlen, hidx⟩ := contractEventsOfBatch_some batch batch.Logs events hev
    exact ⟨events, txList, hd, hlen, hidx⟩
  · intro hmap hf
    obtain ⟨events, hev⟩ := contractEventsOfBatch_total batch batch.Logs hmap
    refine ⟨?_, ?_⟩
    · simp only [L1Sync.handleBatch, hev]
      split_ifs
      · exact ⟨db, rfl⟩
      · rw [retryDo_first_attempt _ 9 db _ (Transaction_l1StoreBatch_ok _ _ _ _ hf)]
        exact ⟨_, rfl⟩
    · intro hne hcl
      obtain ⟨txList, htx⟩ := l2TransactionsOfBatch_total transactionsOf batch.Headers hcl
      have hlen : ¬ (batch.Headers.map BlockHeaderFromHeader).length = 0 := by
        simpa using hne
      simp only [L2Sync.handleBatch, hev, htx]
      rw [retryDo_first_attempt _ 9 db _ (Transaction_l2StoreBatch_ok _ _ _ _ _ hf)]
      simp only [hlen, if_false]
      exact ⟨_, rfl⟩

/-- C16 on `exampleBatch`, an empty store and no failing store call: both handlers return no
error; the L1 store then holds the first and the third header (the second has no log) and one
event per log. -/
theorem batch_rows_persisted_witness :
    (∃ db1, L1Sync.handleBatch noFaults {} exampleBatch = some (db1, none)) ∧
    (∃ db1, L2Sync.handleBatch exampleTransactionsOf noFaults {} exampleBatch =
      some (db1, none)) ∧
    (∃ events,
      exampleL1Stored =
        { ({} : DB) with
          l1BlockHeaders := ({} : DB).l1BlockHeaders ++
            (exampleBatch.Headers.filter
              (fun h => decide (h.Hash ∈ exampleBatch.HeadersWithLog))).map BlockHeaderFromHeader
          l1ContractEvents := ({} : DB).l1ContractEvents ++ events } ∧
      events.length = exampleBatch.Logs.length ∧
      ∀ (i : Nat) (log : Log), exampleBatch.Logs[i]? = some log →
        ∃ header, exampleBatch.header log.BlockHash = some header ∧
          events[i]? = some (ContractEventFromLog log header.Time)) ∧
    exampleL1Stored.l1BlockHeaders =
      [BlockHeaderFromHeader exampleHeader1, BlockHeaderFromHeader exampleHeader3] :=
  have h := batch_rows_persisted exampleTransactionsOf noFaults {} exampleBatch
    (fun _ => ⟨exampleHeader1, by decide, by decide⟩)
  ⟨(h.2.2 (by decide) (fun _ => rfl)).1,
    (h.2.2 (by decide) (fun _ => rfl)).2 (by decide) (fun _ _ => ⟨_, rfl⟩),
    h.1 exampleL1Stored (by decide),
    rfl⟩

theorem parentLinked_map :
    ∀ (headers : List Header),
      parentLinked (fun h : BlockHeader => h.Hash) (fun h => h.ParentHash)
          (headers.map BlockHeaderFromHeader) =
        parentLinked (fun h : Header => h.Hash) (fun h => h.ParentHash) headers
  | [] => rfl
  | [_] => rfl
  | a :: b :: rest => by
    have ih := parentLinked_map (b :: rest)
    simp only [List.map_cons] at ih ⊢
    simp only [parentLinked]
    rw [ih]
    rfl

theorem ParentLinked_map (headers : List Header)
    (h : parentLinked (fun h : Header => h.Hash) (fun h => h.ParentHash) headers = true) :
    ParentLinked (headers.map BlockHeaderFromHeader) := by
  unfold ParentLinked
  rw [parentLinked_map]
  exact h

/-- C17 as stated fails on L1: of the parent-linked headers 1, 2, 3 of `exampleBatch` only 1
and 3 have a log and are persisted, and the parent of header 3 is header 2. -/
theorem l1_continuity_as_stated_fails :
    ¬ L1ContinuityAsStated noFaults {} exampleBatch := by
  intro h
  have h1 := h (by decide) exampleL1Stored
    [BlockHeaderFromHeader exampleHeader1, BlockHeaderFromHeader exampleHeader3]
    (by decide) rfl
  revert h1
  decide

/-- C17, amended. From a parent-linked batch, `L2Sync.handleBatch` persists every header of
the batch in order, and any two adjacent persisted headers are parent-linked.
`L1Sync.handleBatch` persists the sub-sequence of the headers that have a log: it is
parent-linked when every header of the batch has a log, and need not be otherwise. -/
theorem persisted_headers_continuity (transactionsOf : Hash32 → Except Err (List Transactions))
    (faults : StoreFaults) (db : DB) (batch : SynchronizerBatch)
    (hlinked : ParentLinkedBatch batch) :
    (∀ db1, L2Sync.handleBatch transactionsOf faults db batch = some (db1, none) →
      ∃ stored, db1.l2BlockHeaders = db.l2BlockHeaders ++ stored ∧
        stored = batch.Headers.map BlockHeaderFromHeader ∧ ParentLinked stored) ∧
    (∀ db1, L1Sync.handleBatch faults db batch = some (db1, none) →
      ∃ stored, db1.l1BlockHeaders = db.l1BlockHeaders ++ stored ∧
        List.Sublist stored (batch.Headers.map BlockHeaderFromHeader) ∧
        ((∀ h ∈ batch.Headers, h.Hash ∈ batch.HeadersWithLog) → ParentLinked stored)) := by
  refine ⟨?_, ?_⟩
  · intro db1 h
    obtain ⟨events, txList, _, _, hd⟩ :=
      L2Sync_handleBatch_ok transactionsOf faults db db1 batch h
    exact ⟨_, by rw [hd], rfl, ParentLinked_map _ hlinked⟩
  · intro db1 h
    have hd : db1.l1BlockHeaders = db.l1BlockHeaders ++ l1HeadersOfBatch batch := by
      rcases L1Sync_handleBatch_ok faults db db1 batch h with ⟨h0, hd⟩ | ⟨events, _, hd⟩
      · rw [hd, h0, List.append_nil]
      · rw [hd]
    refine ⟨l1HeadersOfBatch batch, hd, List.Sublist.map _ (List.filter_sublist _), ?_⟩
    intro hall
    have hf : batch.Headers.filter (fun h => decide (h.Hash ∈ batch.HeadersWithLog)) =
        batch.Headers :=
      List.filter_eq_self.mpr (fun a ha => by simpa using hall a ha)
    unfold l1HeadersOfBatch
    rw [hf]
    exact ParentLinked_map _ hlinked

/-- C17 on `exampleBatch` and an empty store: the three headers persisted on L2 are
parent-linked. -/
theorem persisted_headers_continuity_witness :
    ParentLinkedBatch exampleBatch ∧
    ∃ stored, [BlockHeaderFromHeader exampleHeader1, BlockHeaderFromHeader exampleHeader2,
        BlockHeaderFromHeader exampleHeader3] = ({} : DB).l2BlockHeaders ++ stored ∧
      stored = exampleBatch.Headers.map BlockHeaderFromHeader ∧ ParentLinked stored :=
  ⟨by decide,
    (persisted_headers_continuity exampleTransactionsOf noFaults {} exampleBatch
      (by decide)).1
      { l2BlockHeaders := [BlockHeaderFromHeader exampleHeader1,
          BlockHeaderFromHeader exampleHeader2, BlockHeaderFromHeader exampleHeader3]
        l2ContractEvents := [ContractEventFromLog exampleLog1 11,
          ContractEventFromLog exampleLog3 13]
        transactions := [{ BlockHash := 1001, TransactionHash := 6001 },
          { BlockHash := 1002, TransactionHash := 6002 },
          { BlockHash := 1003, TransactionHash := 6003 }] }
      (by decide)⟩

/-! ## Bounded look-ahead (C18) -/

theorem foldl_max_ge (xs : List Int) : ∀ x : Int, ∀ y ∈ x :: xs, y ≤ xs.foldl max x := by
  induction xs with
  | nil =>
    intro x y hy
    simp only [List.mem_singleton] at hy
    simp [hy]
  | cons z zs ih =>
    intro x y hy
    simp only [List.foldl_cons]
    have h1 := ih (max x z)
    rcases List.mem_cons.mp hy with h | h
    · rw [h]
      exact le_trans (le_max_left x z) (h1 _ (List.mem_cons_self _ _))
    · rcases List.mem_cons.mp h with h2 | h2
      · rw [h2]
        exact le_trans (le_max_right x z) (h1 _ (List.mem_cons_self _ _))
      · exact h1 _ (List.mem_cons_of_mem _ h2)

theorem look_ahead_window (headers : List BlockHeader) (cond : Int → Bool)
    (latest : BlockHeader) (h : BlockHeaderWithScope headers cond = some latest) :
    latest.Number ∈ scopeWindow headers cond ∧
    (∀ n ∈ scopeWindow headers cond, n ≤ latest.Number) ∧
    (scopeWindow headers cond).length ≤ blocksLimit := by
  unfold BlockHeaderWithScope at h
  cases hm : maxNumber (scopeWindow headers cond) with
  | none => simp [hm] at h
  | some m =>
    simp only [hm] at h
    have hfind := List.find?_some h
    simp only [decide_eq_true_eq] at hfind
    rw [hfind]
    refine ⟨?_, ?_, ?_⟩
    · cases hw : scopeWindow headers cond with
      | nil => simp [hw, maxNumber] at hm
      | cons x xs =>
        simp only [hw, maxNumber, Option.some.injEq] at hm
        rw [← hm]
        exact foldl_max_mem xs x
    · cases hw : scopeWindow headers cond with
      | nil => simp
      | cons x xs =>
        simp only [hw, maxNumber, Option.some.injEq] at hm
        rw [← hm]
        exact foldl_max_ge xs x
    · simp [scopeWindow, List.length_take]

theorem look_ahead_count (headers : List BlockHeader) (cond : Int → Bool)
    (latest : BlockHeader) (h : BlockHeaderWithScope headers cond = some latest)
    (hnodup : (headers.map (fun x => x.Number)).Nodup) :
    (headers.filter (fun x => cond x.Number && decide (x.Number ≤ latest.Number))).length ≤
      blocksLimit := by
  obtain ⟨hmem, hmax, hlen⟩ := look_ahead_window headers cond latest h
  have hperm : List.Perm
      (((headers.map (fun x => x.Number)).filter cond).insertionSort (fun a b => a ≤ b))
      ((headers.map (fun x => x.Number)).filter cond) := List.perm_insertionSort _ _
  have hsorted : List.Sorted (fun a b : Int => a ≤ b)
      (((headers.map (fun x => x.Number)).filter cond).insertionSort (fun a b => a ≤ b)) :=
    List.sorted_insertionSort _ _
  generalize hs : ((headers.map (fun x => x.Number)).filter cond).insertionSort
    (fun a b => a ≤ b) = s at hperm hsorted
  have hw : scopeWindow headers cond = s.take blocksLimit := by
    rw [← hs]
    rfl
  rw [hw] at hmem hmax hlen
  have hsn : s.Nodup := hperm.nodup_iff.mpr (hnodup.filter _)
  have hsplit : s.take blocksLimit ++ s.drop blocksLimit = s := List.take_append_drop _ _
  have hin : ∀ x ∈ s, x ≤ latest.Number → x ∈ s.take blocksLimit := by
    intro x hx hle
    rw [← hsplit] at hx
    rcases List.mem_append.mp hx with h1 | h1
    · exact h1
    · exfalso
      have hpair : List.Pairwise (fun a b : Int => a ≤ b)
          (s.take blocksLimit ++ s.drop blocksLimit) := by
        rw [hsplit]
        exact hsorted
      have hle2 := (List.pairwise_append.mp hpair).2.2 _ hmem _ h1
      have heq : x = latest.Number := le_antisymm hle hle2
      have hdis : List.Disjoint (s.take blocksLimit) (s.drop blocksLimit) := by
        have hn : (s.take blocksLimit ++ s.drop blocksLimit).Nodup := by
          rw [hsplit]
          exact hsn
        exact (List.nodup_append.mp hn).2.2
      exact hdis hmem (heq ▸ h1)
  have hsub : (s.filter (fun n => decide (n ≤ latest.Number))).length ≤
      (s.take blocksLimit).length := by
    apply List.Subperm.length_le
    apply List.subperm_of_subset (hsn.filter _)
    intro x hx
    have hx2 := List.mem_filter.mp hx
    exact hin x hx2.1 (by simpa using hx2.2)
  have hcount : (headers.filter
      (fun x => cond x.Number && decide (x.Number ≤ latest.Number))).length =
      (s.filter (fun n => decide (n ≤ latest.Number))).length := by
    rw [(hperm.filter _).length_eq, List.filter_filter,
      ← List.length_map _ (fun x : BlockHeader => x.Number), List.filter_map]
    congr 2
    congr 1
    funext x
    exact Bool.and_comm _ _
  rw [hcount]
  exact le_trans hsub hlen

theorem no_new_header_is_noop (P : Processors) (ep : EventProcessor) (db : DB) :
    (BlockHeaderWithScope db.l1BlockHeaders (fun number => decide (number >
        lastBlockNumber ep.LatestL1L2InitL1Header ep.chainConfig.L1StartingHeight)) = none →
      processInitiatedL1Events P ep db = ⟨ep, db, none, []⟩) ∧
    (BlockHeaderWithScope db.l2BlockHeaders (fun number => decide (number >
        lastBlockNumber ep.LatestL2L1InitL2Header ep.chainConfig.L2StartingHeight)) = none →
      processInitiatedL2Events P ep db = ⟨ep, db, none, []⟩) ∧
    (BlockHeaderWithScope db.l1BlockHeaders (fun number => decide (number >
        lastBlockNumber ep.LatestProvenL1Header ep.chainConfig.L1StartingHeight)) = none →
      processProvenL1Events P ep db = ⟨ep, db, none, []⟩) ∧
    (BlockHeaderWithScope db.l1BlockHeaders (fun number => decide (number >
        lastBlockNumber ep.LatestFinalizedL1Header ep.chainConfig.L1StartingHeight)) = none →
      processFinalizedL1Events P ep db = ⟨ep, db, none, []⟩) ∧
    (BlockHeaderWithScope db.l1BlockHeaders (fun number => decide (number >
        lastBlockNumber ep.LatestStateRootL1Header ep.chainConfig.L1StartingHeight)) = none →
      processRollupStateRoot P ep db = ⟨ep, db, none, []⟩) ∧
    (BlockHeaderWithScope db.l1BlockHeaders (fun number => decide (number >
        lastBlockNumber ep.LatestMantleDAL1Header ep.chainConfig.L1StartingHeight)) = none →
      processRollupMantleDA P ep db = ⟨ep, db, none, []⟩) := by
  refine ⟨?_, ?_, ?_, ?_, ?_, ?_⟩ <;> intro h
  · simp only [processInitiatedL1Events, h]
  · simp only [processInitiatedL2Events, h]
  · simp only [processProvenL1Events, h]
  · simp only [processFinalizedL1Events, h]
  · simp only [processRollupStateRoot, h]
  · simp only [processRollupMantleDA, h]

/-- C18, evaluated where the code departs from it: the L2 headers 5, 6, 7 are persisted and
the L2 finalization cursor is the header numbered 7, so no persisted header has a greater
number. `processFinalizedL2Events` writes nothing and returns no error, but its cursor does
not stay as it was: it is unset, and the next call hands the heights 1 to 7 to the processor
again. `processInitiatedL2Events`, with its cursor on the same header, leaves it there. -/
theorem finalized_l2_noop_unsets_cursor :
    let ep : EventProcessor :=
      { chainConfig := genesisConfig
        LatestL1L2FinalizedL2Header := some (headerAt 7)
        LatestL2L1InitL2Header := some (headerAt 7) }
    let db : DB := { l2BlockHeaders := [headerAt 5, headerAt 6, headerAt 7] }
    let t := processFinalizedL2Events idleProcessors ep db
    let t2 := processFinalizedL2Events idleProcessors t.ep t.db
    (∀ h ∈ db.l2BlockHeaders, ¬ h.Number > 7) ∧
    t.err = none ∧ t.db = db ∧ t.calls = [] ∧
    t.ep.LatestL1L2FinalizedL2Header = none ∧
    t.ep.LatestL1L2FinalizedL2Header ≠ ep.LatestL1L2FinalizedL2Header ∧
    t2.calls = [⟨.L2ProcessFinalizedBridgeEvents, 1, 7⟩] ∧
    (processInitiatedL2Events idleProcessors ep db).ep.LatestL2L1InitL2Header =
      some (headerAt 7) := by
  decide

/-! ## State roots per era (C19) -/

/-- C19, evaluated where the code departs from it: the L1 bedrock starting height is 100, the
state-root cursor is the header numbered 94 and the L1 headers 95 to 110 are persisted, with a
StateBatchAppended event at height 96 and an OutputProposed event at height 105.
`processRollupStateRoot` makes one processor call, `L2OutputEvent` on the whole range 95 to
110, and none of `LegacyL1ProcessSCCEvent`: the store gets the root of the OutputProposed event
only, and the cursor moves to header 110, past the legacy event. On the same store
`processFinalizedL1Events` hands 95 to 99 to its legacy processor and 100 to 110 to its
bedrock processor. -/
theorem state_root_legacy_heights_skipped :
    let ep : EventProcessor :=
      { chainConfig := forkConfig
        LatestStateRootL1Header := some (headerAt 94)
        LatestFinalizedL1Header := some (headerAt 94) }
    let db : DB := { l1BlockHeaders := headerRange 95 16 }
    let t := processRollupStateRoot stateRootProcessors ep db
    t.err = none ∧
    t.calls = [⟨.L2OutputEvent, 95, 110⟩] ∧
    t.db.stateRoot = [exampleOutputRoot] ∧
    exampleLegacyRoot ∉ t.db.stateRoot ∧
    t.ep.LatestStateRootL1Header = some (headerAt 110) ∧
    (processFinalizedL1Events stateRootProcessors ep db).calls =
      [⟨.LegacyL1ProcessFinalizedBridgeEvents, 95, 99⟩,
       ⟨.L1ProcessFinalizedBridgeEvents, 100, 110⟩] := by
  decide

/-! ## Construction of the synchronizers (C20) -/

theorem forEachField_check (bad : String → Addr → Prop) [∀ n a, Decidable (bad n a)] (E : Err) :
    ∀ (fields : List (String × Addr)) (s : List Addr),
      forEachField (fun (acc : List Addr) name addr =>
          if bad name addr then .error E else .ok (acc ++ [addr])) fields s =
        if fields.any (fun f => decide (bad f.1 f.2)) = true then .error E
        else .ok (s ++ fields.map (fun f => f.2)) := by
  intro fields
  induction fields with
  | nil => intro s; simp [forEachField]
  | cons f rest ih =>
    intro s
    obtain ⟨name, addr⟩ := f
    by_cases hb : bad name addr
    · simp [forEachField, hb]
    · have hany : ((name, addr) :: rest).any (fun f => decide (bad f.1 f.2)) =
          rest.any (fun f => decide (bad f.1 f.2)) := by
        rw [List.any_cons]
        exact (congrArg (fun b => b || rest.any (fun f => decide (bad f.1 f.2)))
          (decide_eq_false hb)).trans (Bool.false_or _)
      rw [hany]
      simp only [forEachField, hb, if_false, ih, List.map_cons, List.append_assoc,
        List.singleton_append]

theorem newSyncFrom_calls (cfg : Config) (latest : Except Err (Option Header))
    (byNumber : Int → Except Err Header) (contracts extra : List Addr) :
    .LatestBlockHeader ∈ (newSyncFrom cfg latest byNumber contracts extra).calls := by
  unfold newSyncFrom
  rcases latest with e | l
  · simp
  · rcases l with _ | h
    · by_cases h0 : cfg.StartHeight = 0
      · simp [h0]
      · cases hb : byNumber cfg.StartHeight <;> simp [h0, hb]
    · simp

theorem newSyncFrom_ok (cfg : Config) (latest : Option Header) (byNumber : Int → Except Err Header)
    (contracts extra : List Addr) (hb : ∀ n, ∃ h, byNumber n = .ok h) :
    (newSyncFrom cfg (.ok latest) byNumber contracts extra).err = none ∧
    (newSyncFrom cfg (.ok latest) byNumber contracts extra).sync ≠ none := by
  unfold newSyncFrom
  rcases latest with _ | h
  · by_cases h0 : cfg.StartHeight = 0
    · simp [h0]
    · obtain ⟨h, hh⟩ := hb cfg.StartHeight
      simp [h0, hh]
  · simp

theorem NewL1Sync_eq (cfg : Config) (latest : Except Err (Option Header))
    (byNumber : Int → Except Err Header) (c : config.L1Contracts) (extra : List Addr) :
    NewL1Sync cfg latest byNumber c extra =
      if c.fields.any (fun f =>
          decide (f.2 = zeroAddr ∧ ¬ strings.HasPrefix f.1 "Legacy" = true)) = true then
        ⟨[], none, some "all L1Contracts must be configured"⟩
      else newSyncFrom cfg latest byNumber (c.fields.map (fun f => f.2)) extra := by
  unfold NewL1Sync config.L1Contracts.ForEach
  rw [forEachField_check
    (fun name addr => addr = zeroAddr ∧ ¬ strings.HasPrefix name "Legacy" = true)
    "all L1Contracts must be configured"]
  split_ifs <;> simp

theorem NewL2Sync_eq (cfg : Config) (latest : Except Err (Option Header))
    (byNumber : Int → Except Err Header) (c : config.L2Contracts) (extra : List Addr) :
    NewL2Sync cfg latest byNumber c extra =
      if c.fields.any (fun f => decide (f.2 = zeroAddr)) = true then
        ⟨[], none, some "all L2Contracts must be configured"⟩
      else newSyncFrom cfg latest byNumber (c.fields.map (fun f => f.2)) extra := by
  unfold NewL2Sync config.L2Contracts.ForEach
  rw [forEachField_check (fun _ addr => addr = zeroAddr) "all L2Contracts must be configured"]
  split_ifs <;> simp

theorem L1Contracts_required_unset (c : config.L1Contracts) :
    c.fields.any (fun f =>
        decide (f.2 = zeroAddr ∧ ¬ strings.HasPrefix f.1 "Legacy" = true)) = true ↔
      (c.AddressManager = 0 ∨ c.SystemConfigProxy = 0 ∨ c.OptimismPortalProxy = 0 ∨
        c.L2OutputOracleProxy = 0 ∨ c.L1CrossDomainMessengerProxy = 0 ∨
        c.L1StandardBridgeProxy = 0 ∨ c.L1ERC721BridgeProxy = 0 ∨
        c.DataLayrServiceManagerAddr = 0) := by
  have p1 : strings.HasPrefix "AddressManager" "Legacy" = false := by decide
  have p2 : strings.HasPrefix "SystemConfigProxy" "Legacy" = false := by decide
  have p3 : strings.HasPrefix "OptimismPortalProxy" "Legacy" = false := by decide
  have p4 : strings.HasPrefix "L2OutputOracleProxy" "Legacy" = false := by decide
  have p5 : strings.HasPrefix "L1CrossDomainMessengerProxy" "Legacy" = false := by decide
  have p6 : strings.HasPrefix "L1StandardBridgeProxy" "Legacy" = false := by decide
  have p7 : strings.HasPrefix "L1ERC721BridgeProxy" "Legacy" = false := by decide
  have p8 : strings.HasPrefix "DataLayrServiceManagerAddr" "Legacy" = false := by decide
  have p9 : strings.HasPrefix "LegacyCanonicalTransactionChain" "Legacy" = true := by decide
  have p10 : strings.HasPrefix "LegacyStateCommitmentChain" "Legacy" = true := by decide
  simp only [config.L1Contracts.fields, List.any_cons, List.any_nil, p1, p2, p3, p4, p5, p6, p7,
    p8, p9, p10, zeroAddr, Bool.or_eq_true, decide_eq_true_eq, Bool.or_false, not_true_eq_false,
    and_false, or_false, Bool.false_eq_true, not_false_eq_true, and_true]

theorem L2Contracts_unset (c : config.L2Contracts) :
    c.fields.any (fun f => decide (f.2 = zeroAddr)) = true ↔
      (c.L2ToL1MessagePasser = 0 ∨ c.L2CrossDomainMessenger = 0 ∨ c.L2StandardBridge = 0 ∨
        c.L2ERC721Bridge = 0) := by
  simp only [config.L2Contracts.fields, List.any_cons, List.any_nil, zeroAddr, Bool.or_eq_true,
    decide_eq_true_eq, Bool.or_false]

/-- C20. Fail-fast on unconfigured contracts. When some field of `config.L1Contracts` other
than the two whose name starts with "Legacy" holds the zero address, `NewL1Sync` returns the
error "all L1Contracts must be configured" and no synchronizer, and has made no latest-header
query and no client call; likewise `NewL2Sync` when some field of `config.L2Contracts` holds
the zero address. When the latest-header query and the client call succeed, each constructor
returns an error exactly in that case, and otherwise returns a synchronizer after querying the
latest header. -/
theorem fail_fast_on_unconfigured_contracts (cfg : Config)
    (latest : Except Err (Option Header)) (byNumber : Int → Except Err Header)
    (c1 : config.L1Contracts) (c2 : config.L2Contracts) (extra : List Addr) :
    ((c1.AddressManager = 0 ∨ c1.SystemConfigProxy = 0 ∨ c1.OptimismPortalProxy = 0 ∨
        c1.L2OutputOracleProxy = 0 ∨ c1.L1CrossDomainMessengerProxy = 0 ∨
        c1.L1StandardBridgeProxy = 0 ∨ c1.L1ERC721BridgeProxy = 0 ∨
        c1.DataLayrServiceManagerAddr = 0) →
      NewL1Sync cfg latest byNumber c1 extra =
        ⟨[], none, some "all L1Contracts must be configured"⟩) ∧
    ((c2.L2ToL1MessagePasser = 0 ∨ c2.L2CrossDomainMessenger = 0 ∨ c2.L2StandardBridge = 0 ∨
        c2.L2ERC721Bridge = 0) →
      NewL2Sync cfg latest byNumber c2 extra =
        ⟨[], none, some "all L2Contracts must be configured"⟩) ∧
    ((∃ l, latest = .ok l) → (∀ n, ∃ h, byNumber n = .ok h) →
      ((NewL1Sync cfg latest byNumber c1 extra).err ≠ none ↔
        (c1.AddressManager = 0 ∨ c1.SystemConfigProxy = 0 ∨ c1.OptimismPortalProxy = 0 ∨
          c1.L2OutputOracleProxy = 0 ∨ c1.L1CrossDomainMessengerProxy = 0 ∨
          c1.L1StandardBridgeProxy = 0 ∨ c1.L1ERC721BridgeProxy = 0 ∨
          c1.DataLayrServiceManagerAddr = 0)) ∧
      ((NewL2Sync cfg latest byNumber c2 extra).err ≠ none ↔
        (c2.L2ToL1MessagePasser = 0 ∨ c2.L2CrossDomainMessenger = 0 ∨
          c2.L2StandardBridge = 0 ∨ c2.L2ERC721Bridge = 0)) ∧
      ((NewL1Sync cfg latest byNumber c1 extra).err = none →
        (NewL1Sync cfg latest byNumber c1 extra).sync ≠ none ∧
        StartupCall.LatestBlockHeader ∈ (NewL1Sync cfg latest byNumber c1 extra).calls) ∧
      ((NewL2Sync cfg latest byNumber c2 extra).err = none →
        (NewL2Sync cfg latest byNumber c2 extra).sync ≠ none ∧
        StartupCall.LatestBlockHeader ∈ (NewL2Sync cfg latest byNumber c2 extra).calls)) := by
  refine ⟨?_, ?_, ?_⟩
  · intro h
    rw [NewL1Sync_eq, if_pos ((L1Contracts_required_unset c1).mpr h)]
  · intro h
    rw [NewL2Sync_eq, if_pos ((L2Contracts_unset c2).mpr h)]
  · rintro ⟨l, rfl⟩ hb
    rw [NewL1Sync_eq, NewL2Sync_eq]
    refine ⟨?_, ?_, ?_, ?_⟩
    · rw [← L1Contracts_required_unset]
      split_ifs with h
      · exact ⟨fun _ => h, fun _ he => by cases he⟩
      · exact ⟨fun he => absurd (newSyncFrom_ok cfg l byNumber _ extra hb).1 he,
          fun ha => absurd ha h⟩
    · rw [← L2Contracts_unset]
      split_ifs with h
      · exact ⟨fun _ => h, fun _ he => by cases he⟩
      · exact ⟨fun he => absurd (newSyncFrom_ok cfg l byNumber _ extra hb).1 he,
          fun ha => absurd ha h⟩
    · split_ifs with h
      · intro he
        simp at he
      · intro _
        exact ⟨(newSyncFrom_ok cfg l byNumber _ extra hb).2, newSyncFrom_calls _ _ _ _ _⟩
    · split_ifs with h
      · intro he
        simp at he
      · intro _
        exact ⟨(newSyncFrom_ok cfg l byNumber _ extra hb).2, newSyncFrom_calls _ _ _ _ _⟩

/-- C20 on two configurations: with the portal address missing `NewL1Sync` fails before any
call; with only the two legacy addresses missing it returns a synchronizer, and `NewL2Sync`
does so with all four addresses set. -/
theorem fail_fast_on_unconfigured_contracts_witness :
    NewL1Sync { StartHeight := 5 } (.ok none) (fun _ => .ok exampleHeader1)
        { exampleL1Contracts with OptimismPortalProxy := 0 } [77] =
      ⟨[], none, some "all L1Contracts must be configured"⟩ ∧
    ((NewL1Sync { StartHeight := 5 } (.ok none) (fun _ => .ok exampleHeader1)
        exampleL1Contracts [77]).err = none ∧
      (NewL1Sync { StartHeight := 5 } (.ok none) (fun _ => .ok exampleHeader1)
        exampleL1Contracts [77]).sync ≠ none ∧
      StartupCall.LatestBlockHeader ∈
        (NewL1Sync { StartHeight := 5 } (.ok none) (fun _ => .ok exampleHeader1)
          exampleL1Contracts [77]).calls) ∧
    ((NewL2Sync { StartHeight := 5 } (.ok none) (fun _ => .ok exampleHeader1)
        exampleL2Contracts [77]).err = none ∧
      (NewL2Sync { StartHeight := 5 } (.ok none) (fun _ => .ok exampleHeader1)
        exampleL2Contracts [77]).sync ≠ none ∧
      StartupCall.LatestBlockHeader ∈
        (NewL2Sync { StartHeight := 5 } (.ok none) (fun _ => .ok exampleHeader1)
          exampleL2Contracts [77]).calls) :=
  have h := (fail_fast_on_unconfigured_contracts { StartHeight := 5 } (.ok none)
    (fun _ => .ok exampleHeader1) exampleL1Contracts exampleL2Contracts [77]).2.2
    ⟨none, rfl⟩ (fun _ => ⟨exampleHeader1, rfl⟩)
  ⟨(fail_fast_on_unconfigured_contracts { StartHeight := 5 } (.ok none)
      (fun _ => .ok exampleHeader1) { exampleL1Contracts with OptimismPortalProxy := 0 }
      exampleL2Contracts [77]).1 (by decide),
    ⟨by decide, h.2.2.1 (by decide)⟩,
    ⟨by decide, h.2.2.2 (by decide)⟩⟩

/-! ## Header ranges of the node client (C21) -/

theorem rangeLoop_ok (batchElems : Nat → BatchElem) (headers : Nat → Header) :
    ∀ (remaining i size : Nat), rangeLoop batchElems headers remaining i i = .ok size →
      i ≤ size ∧ size ≤ i + remaining ∧
      ∀ j, i ≤ j → j < size → 0 < j → (headers j).ParentHash = (headers (j - 1)).Hash := by
  intro remaining
  induction remaining with
  | zero =>
    intro i size h
    simp only [rangeLoop, Except.ok.injEq] at h
    subst h
    exact ⟨le_refl _, le_refl _, fun j h1 h2 _ => absurd h2 (not_lt.mpr h1)⟩
  | succ n ih =>
    intro i size h
    have hstop : i = size → i ≤ size ∧ size ≤ i + (n + 1) ∧
        ∀ j, i ≤ j → j < size → 0 < j → (headers j).ParentHash = (headers (j - 1)).Hash := by
      intro e
      subst e
      exact ⟨le_refl _, by omega, fun j h1 h2 _ => absurd h2 (not_lt.mpr h1)⟩
    unfold rangeLoop at h
    cases he : (batchElems i).Error with
    | some err =>
      simp only [he] at h
      split_ifs at h
      exact hstop (by simpa using h)
    | none =>
      simp only [he] at h
      split_ifs at h with h1 h2
      · exact hstop (by simpa using h)
      · obtain ⟨a, b, c⟩ := ih (i + 1) size h
        refine ⟨by omega, by omega, ?_⟩
        intro j hj1 hj2 hj3
        by_cases hji : j = i
        · subst hji
          by_contra hne
          exact h2 ⟨hj3, hne⟩
        · exact c j (by omega) hj2 hj3

theorem parentLinked_range (headers : Nat → Header) :
    ∀ (n a : Nat),
      (∀ j, a < j → j < a + n → (headers j).ParentHash = (headers (j - 1)).Hash) →
      parentLinked (fun h : Header => h.Hash) (fun h => h.ParentHash)
        ((List.range' a n).map headers) = true := by
  intro n
  induction n with
  | zero => intro a _; rfl
  | succ n ih =>
    intro a h
    cases n with
    | zero => rfl
    | succ m =>
      have h1 := ih (a + 1) (fun j hj1 hj2 => h j (by omega) (by omega))
      have h2 := h (a + 1) (by omega) (by omega)
      simp only [List.range'_succ, List.map_cons, parentLinked, Nat.add_sub_cancel] at h1 h2 ⊢
      simp only [h2, decide_True, Bool.true_and]
      exact h1

theorem rangeLoop_mismatch (batchElems : Nat → BatchElem) (headers : Nat → Header) (i : Nat)
    (hpos : 0 < i)
    (hclean : ∀ j, j ≤ i → (batchElems j).Error = none ∧ (batchElems j).Result ≠ none)
    (hbad : (headers i).ParentHash ≠ (headers (i - 1)).Hash) :
    ∀ (remaining k : Nat), k ≤ i → i < k + remaining →
      ∃ err, rangeLoop batchElems headers remaining k k = .error err := by
  intro remaining
  induction remaining with
  | zero => intro k h1 h2; omega
  | succ n ih =>
    intro k h1 h2
    obtain ⟨he, hr⟩ := hclean k h1
    unfold rangeLoop
    simp only [he, hr, if_false]
    split_ifs with h3
    · exact ⟨_, rfl⟩
    · have hk : k ≠ i := by
        intro e
        subst e
        exact h3 ⟨hpos, hbad⟩
      exact ih (k + 1) (by omega) (by omega)

/-- C21. For `startHeight < endHeight`, every list of headers that `BlockHeadersByRange`
returns has at most `endHeight - startHeight + 1` headers and is parent-linked. When the batch
call itself succeeds and the element at an index `i > 0` of the batch holds a header that does
not follow the header of element `i - 1`, all elements up to `i` being answered without error,
the call returns an error (and so no list). -/
theorem header_range_parent_linked (c : clnt) (startHeight endHeight : Int)
    (h : startHeight < endHeight) :
    (∀ headers, c.BlockHeadersByRange startHeight endHeight = .ok headers →
      (headers.length : Int) ≤ endHeight - startHeight + 1 ∧
      parentLinked (fun h : Header => h.Hash) (fun h => h.ParentHash) headers = true) ∧
    (∀ (batchElems : Nat → BatchElem) (i : Nat) (header parent : Header),
      c.BatchCallContext
        (rangeHeights startHeight ((Uint64 (endHeight - startHeight) + 1) % 2 ^ 64)) =
          .ok batchElems →
      0 < i → i < (Uint64 (endHeight - startHeight) + 1) % 2 ^ 64 →
      (∀ j, j ≤ i → (batchElems j).Error = none ∧ (batchElems j).Result ≠ none) →
      (batchElems i).Result = some header → (batchElems (i - 1)).Result = some parent →
      header.ParentHash ≠ parent.Hash →
      ∃ err, c.BlockHeadersByRange startHeight endHeight = .error err) := by
  have hne : ¬ startHeight = endHeight := ne_of_lt h
  refine ⟨?_, ?_⟩
  · intro headers hok
    unfold clnt.BlockHeadersByRange at hok
    rw [if_neg hne] at hok
    dsimp only at hok
    cases hb : c.BatchCallContext
        (rangeHeights startHeight ((Uint64 (endHeight - startHeight) + 1) % 2 ^ 64)) with
    | error err =>
      rw [hb] at hok
      cases hok
    | ok batchElems =>
      rw [hb] at hok
      cases hl : rangeLoop batchElems (fun i => ((batchElems i).Result).getD zeroHeader)
          ((Uint64 (endHeight - startHeight) + 1) % 2 ^ 64) 0 0 with
      | error err =>
        dsimp only at hok
        rw [hl] at hok
        cases hok
      | ok size =>
        dsimp only at hok
        rw [hl] at hok
        injection hok with hok
        obtain ⟨_, hsize, hlink⟩ := rangeLoop_ok _ _ _ _ _ hl
        subst hok
        refine ⟨?_, ?_⟩
        · simp only [List.length_map, List.length_range]
          have h1 : (Uint64 (endHeight - startHeight) + 1) % 2 ^ 64 ≤
              Uint64 (endHeight - startHeight) + 1 := Nat.mod_le _ _
          have h2 : Uint64 (endHeight - startHeight) ≤ (endHeight - startHeight).natAbs :=
            Nat.mod_le _ _
          omega
        · rw [List.range_eq_range']
          exact parentLinked_range _ size 0 (fun j hj1 hj2 => hlink j (Nat.zero_le _) (by omega) hj1)
  · intro batchElems i header parent hb hpos hi hclean hh hp hbad
    unfold clnt.BlockHeadersByRange
    rw [if_neg hne]
    dsimp only
    rw [hb]
    dsimp only
    obtain ⟨err, herr⟩ := rangeLoop_mismatch batchElems
      (fun i => ((batchElems i).Result).getD zeroHeader) i hpos hclean
      (by simpa [hh, hp] using hbad)
      ((Uint64 (endHeight - startHeight) + 1) % 2 ^ 64) 0 (Nat.zero_le _) (by omega)
    rw [herr]
    exact ⟨err, rfl⟩

/-- C21 on two nodes and the range 1 to 5: the node that knows the linked headers 1, 2, 3
returns these three; the node whose third header does not follow the second returns an
error. -/
theorem header_range_parent_linked_witness :
    exampleNode.BlockHeadersByRange 1 5 =
      .ok [exampleHeader1, exampleHeader2, exampleHeader3] ∧
    (([exampleHeader1, exampleHeader2, exampleHeader3].length : Int) ≤ 5 - 1 + 1 ∧
      parentLinked (fun h : Header => h.Hash) (fun h => h.ParentHash)
        [exampleHeader1, exampleHeader2, exampleHeader3] = true) ∧
    ∃ err, exampleForkedNode.BlockHeadersByRange 1 5 = .error err :=
  ⟨rfl,
    (header_range_parent_linked exampleNode 1 5 (by decide)).1 _ rfl,
    (header_range_parent_linked exampleForkedNode 1 5 (by decide)).2
      (fun i =>
        if i = 0 then { Result := some exampleHeader1 }
        else if i = 1 then { Result := some exampleHeader2 }
        else { Result := some { exampleHeader3 with ParentHash := 4242 } })
      2 { exampleHeader3 with ParentHash := 4242 } exampleHeader2 rfl (by decide) (by decide)
      (fun j hj => by
        rcases j with _ | _ | _ | j
        · exact ⟨rfl, by decide⟩
        · exact ⟨rfl, by decide⟩
        · exact ⟨rfl, by decide⟩
        · omega)
      rfl rfl (by decide)⟩

/-! ## Bedrock correlation offsets per asset kind (C22, C23) -/

theorem LogMap.lookup_foldl_insert_isSome {α : Type} (key : α → logKey) (k : logKey)
    (l : List α) :
    ∀ (m0 : LogMap α), ((∃ x ∈ l, key x = k) ∨ m0.lookup k ≠ none) →
      (l.foldl (fun m x => m.insert (key x) x) m0).lookup k ≠ none := by
  induction l with
  | nil =>
    intro m0 h
    rcases h with ⟨x, hx, _⟩ | h
    · cases hx
    · exact h
  | cons y ys ih =>
    intro m0 h
    simp only [List.foldl_cons]
    apply ih
    by_cases hy : key y = k
    · right
      simp [LogMap.lookup, LogMap.insert, hy]
    · rcases h with ⟨x, hx, hk⟩ | h
      · rcases List.mem_cons.mp hx with e | hx1
        · subst e
          exact absurd hk hy
        · exact Or.inl ⟨x, hx1, hk⟩
      · right
        simpa [LogMap.lookup, LogMap.insert, hy] using h

theorem correlateInitiatedBridge_kind (c : L1Contracts)
    (pd : LogMap OptimismPortalTransactionDepositEvent)
    (sm : LogMap CrossDomainMessengerSentMessageEvent) (e : StandardBridgeInitiatedEvent)
    (kind : BridgeEventType)
    (hids : c.ETHBridgeInitiatedID ≠ c.MNTBridgeInitiatedID ∧
      c.ETHBridgeInitiatedID ≠ c.ERC20BridgeInitiatedID ∧
      c.MNTBridgeInitiatedID ≠ c.ERC20BridgeInitiatedID)
    (hsig : e.Event.EventSignature = c.eventID kind) :
    correlateInitiatedBridge c pd sm e =
      correlateAt pd sm (if kind = .MNTBridgeInitiated then 6 else 1)
        (if kind = .MNTBridgeInitiated then 7 else 2) e := by
  obtain ⟨h1, h2, h3⟩ := hids
  unfold correlateInitiatedBridge
  cases kind with
  | ETHBridgeInitiated =>
    simp only [L1Contracts.eventID] at hsig
    simp [hsig]
  | ERC20BridgeInitiated =>
    simp only [L1Contracts.eventID] at hsig
    simp [hsig, h2.symm, h3.symm]
  | MNTBridgeInitiated =>
    simp only [L1Contracts.eventID] at hsig
    simp [hsig, h1.symm]

/-- C22. In `L1ProcessInitiatedBridgeEvents`, for a bridge-initiated log at `(B, i)` of the
range (the `k`-th bridge event), the TransactionDeposit log is looked up at `(B, i + 1)` and
the SentMessage log at `(B, i + 2)` for ETHBridgeInitiated and ERC20BridgeInitiated, and at
`(B, i + 6)` and `(B, i + 7)` for MNTBridgeInitiated (the three event ids being distinct). If
the range has no TransactionDeposit log or no SentMessage log at that place the function
returns an error. If it has both, the iteration for the event gives the update entry with the
transaction hash of the TransactionDeposit log found there and the event's from/to addresses,
token pair and ERC-20 amount, and in every run that returns no error: that entry is
`l1ToL2s2[k]`; the `k`-th iteration of `UpdateL1ToL2InfoByTxHash` selects the row `Take`
returns for that transaction hash (the first stored deposit with it, when it is not the zero
hash) and writes the event's token pair, from/to addresses and ERC-20 amount to it; the rest
of the loop runs on the table so written; and the stored row holds them at the end when no
later update entry selects the same row. -/
theorem bedrock_l1_offsets_per_kind (c : L1Contracts) (db : DB) (a b : Int)
    (deposits : List OptimismPortalTransactionDepositEvent)
    (sent : List CrossDomainMessengerSentMessageEvent)
    (bridges : List StandardBridgeInitiatedEvent)
    (k : Nat) (e : StandardBridgeInitiatedEvent) (kind : BridgeEventType)
    (hd : c.OptimismPortalTransactionDepositEvents a b = .ok deposits)
    (hs : c.CrossDomainMessengerSentMessageEvents a b = .ok sent)
    (hb : StandardBridgeInitiatedEvents c a b = .ok bridges)
    (hids : c.ETHBridgeInitiatedID ≠ c.MNTBridgeInitiatedID ∧
      c.ETHBridgeInitiatedID ≠ c.ERC20BridgeInitiatedID ∧
      c.MNTBridgeInitiatedID ≠ c.ERC20BridgeInitiatedID)
    (hk : bridges[k]? = some e)
    (hsig : e.Event.EventSignature = c.eventID kind) :
    (((∀ d ∈ deposits, ¬ (d.Event.BlockHash = e.Event.BlockHash ∧
          d.Event.LogIndex = e.Event.LogIndex + (if kind = .MNTBridgeInitiated then 6 else 1))) ∨
        (∀ s ∈ sent, ¬ (s.Event.BlockHash = e.Event.BlockHash ∧
          s.Event.LogIndex = e.Event.LogIndex + (if kind = .MNTBridgeInitiated then 7 else 2)))) →
      ∃ err, L1ProcessInitiatedBridgeEvents c db a b = .error err) ∧
    ((∃ d ∈ deposits, d.Event.BlockHash = e.Event.BlockHash ∧
          d.Event.LogIndex = e.Event.LogIndex + (if kind = .MNTBridgeInitiated then 6 else 1)) →
      (∃ s ∈ sent, s.Event.BlockHash = e.Event.BlockHash ∧
          s.Event.LogIndex = e.Event.LogIndex + (if kind = .MNTBridgeInitiated then 7 else 2)) →
      ∃ d s, d ∈ deposits ∧ d.Event.BlockHash = e.Event.BlockHash ∧
        d.Event.LogIndex = e.Event.LogIndex + (if kind = .MNTBridgeInitiated then 6 else 1) ∧
        s ∈ sent ∧ s.Event.BlockHash = e.Event.BlockHash ∧
        s.Event.LogIndex = e.Event.LogIndex + (if kind = .MNTBridgeInitiated then 7 else 2) ∧
        correlateInitiatedBridge c (portalDepositsOf deposits) (sentMessagesOf sent) e =
          .ok ({ L1TransactionHash := d.Event.TransactionHash
                 FromAddress := e.FromAddress
                 ToAddress := e.ToAddress
                 L1TokenAddress := e.LocalTokenAddress
                 L2TokenAddress := e.RemoteTokenAddress
                 ERC20Amount := e.ERC20Amount },
               { e with CrossDomainMessageHash := some s.MessageHash }) ∧
        ∀ run, L1ProcessInitiatedBridgeEventsRun c db a b = .ok run →
          run.l1ToL2s2[k]? = some
            { L1TransactionHash := d.Event.TransactionHash
              FromAddress := e.FromAddress
              ToAddress := e.ToAddress
              L1TokenAddress := e.LocalTokenAddress
              L2TokenAddress := e.RemoteTokenAddress
              ERC20Amount := e.ERC20Amount } ∧
          ∃ i row0,
            takeIndex (structWhere (fun r : L1ToL2 => r.L1TransactionHash) d.Event.TransactionHash)
              run.db.l1ToL2 = some i ∧
            (d.Event.TransactionHash ≠ 0 →
              ∃ row, run.db.l1ToL2[i]? = some row ∧
                row.L1TransactionHash = d.Event.TransactionHash ∧
                ∀ (j : Nat) (row1 : L1ToL2), j < i → run.db.l1ToL2[j]? = some row1 →
                  row1.L1TransactionHash ≠ d.Event.TransactionHash) ∧
            (UpdateL1ToL2InfoByTxHash (run.l1ToL2s2.take k)
              (UpdateMessageHashByTxHash (sent.map sentMessageUpdate)
                (StoreL1ToL2Transactions (deposits.map (depositRow db.l1BlockHeaders))
                  db.l1ToL2)))[i]? = some row0 ∧
            (UpdateL1ToL2InfoByTxHash (run.l1ToL2s2.take (k + 1))
              (UpdateMessageHashByTxHash (sent.map sentMessageUpdate)
                (StoreL1ToL2Transactions (deposits.map (depositRow db.l1BlockHeaders))
                  db.l1ToL2)))[i]? =
              some { row0 with
                L1TokenAddress := e.LocalTokenAddress
                L2TokenAddress := e.RemoteTokenAddress
                FromAddress := e.FromAddress
                ToAddress := e.ToAddress
                ERC20Amount := e.ERC20Amount } ∧
            run.db.l1ToL2 =
              UpdateL1ToL2InfoByTxHash (run.l1ToL2s2.drop (k + 1))
                (UpdateL1ToL2InfoByTxHash (run.l1ToL2s2.take (k + 1))
                  (UpdateMessageHashByTxHash (sent.map sentMessageUpdate)
                    (StoreL1ToL2Transactions (deposits.map (depositRow db.l1BlockHeaders))
                      db.l1ToL2))) ∧
            ((∀ (j : Nat) (u1 : L1ToL2), k < j → run.l1ToL2s2[j]? = some u1 →
                takeIndex (structWhere (fun r : L1ToL2 => r.L1TransactionHash)
                  u1.L1TransactionHash) run.db.l1ToL2 ≠ some i) →
              run.db.l1ToL2[i]? =
                some { row0 with
                  L1TokenAddress := e.LocalTokenAddress
                  L2TokenAddress := e.RemoteTokenAddress
                  FromAddress := e.FromAddress
                  ToAddress := e.ToAddress
                  ERC20Amount := e.ERC20Amount })) := by
  have hkind := correlateInitiatedBridge_kind c (portalDepositsOf deposits) (sentMessagesOf sent)
    e kind hids hsig
  have hrun : ∀ run, L1ProcessInitiatedBridgeEventsRun c db a b = .ok run →
      ∃ r, run.l1ToL2s2[k]? = some r.1 ∧
        correlateInitiatedBridge c (portalDepositsOf deposits) (sentMessagesOf sent) e =
          .ok r := by
    intro run hr
    obtain ⟨deposits', sent', bridges', correlated, hd', hs', hb', hc, hu, _, _⟩ :=
      L1ProcessInitiatedBridgeEventsRun_ok c db a b run hr
    rw [hd] at hd'
    rw [hs] at hs'
    rw [hb] at hb'
    cases hd'
    cases hs'
    cases hb'
    obtain ⟨r, hr1, hr2⟩ := correlateInitiatedBridges_ok c _ _ _ _ hc k e hk
    exact ⟨r, by rw [hu]; simp [hr1], hr2⟩
  refine ⟨?_, ?_⟩
  · intro habs
    unfold L1ProcessInitiatedBridgeEvents
    cases hr : L1ProcessInitiatedBridgeEventsRun c db a b with
    | error err => exact ⟨err, rfl⟩
    | ok run =>
      exfalso
      obtain ⟨r, _, hr2⟩ := hrun run hr
      rw [hkind] at hr2
      obtain ⟨d, s, hd1, hs1, _, _⟩ := correlateAt_ok _ _ _ _ _ _ hr2
      obtain ⟨hdm, hdk⟩ := portalDepositsOf_lookup _ _ _ hd1
      obtain ⟨hsm, hsk⟩ := sentMessagesOf_lookup _ _ _ hs1
      simp only [Prod.mk.injEq] at hdk hsk
      rcases habs with h | h
      · exact h d hdm hdk
      · exact h s hsm hsk
  · rintro ⟨d0, hd0, hd0k⟩ ⟨s0, hs0, hs0k⟩
    have h1 : (portalDepositsOf deposits).lookup (e.Event.BlockHash,
        e.Event.LogIndex + (if kind = .MNTBridgeInitiated then 6 else 1)) ≠ none :=
      LogMap.lookup_foldl_insert_isSome
        (fun x : OptimismPortalTransactionDepositEvent => (x.Event.BlockHash, x.Event.LogIndex))
        _ deposits [] (Or.inl ⟨d0, hd0, by simp [hd0k.1, hd0k.2]⟩)
    have h2 : (sentMessagesOf sent).lookup (e.Event.BlockHash,
        e.Event.LogIndex + (if kind = .MNTBridgeInitiated then 7 else 2)) ≠ none :=
      LogMap.lookup_foldl_insert_isSome
        (fun x : CrossDomainMessengerSentMessageEvent => (x.Event.BlockHash, x.Event.LogIndex))
        _ sent [] (Or.inl ⟨s0, hs0, by simp [hs0k.1, hs0k.2]⟩)
    obtain ⟨d, hd1⟩ := Option.ne_none_iff_exists'.mp h1
    obtain ⟨s, hs1⟩ := Option.ne_none_iff_exists'.mp h2
    obtain ⟨hdm, hdk⟩ := portalDepositsOf_lookup _ _ _ hd1
    obtain ⟨hsm, hsk⟩ := sentMessagesOf_lookup _ _ _ hs1
    simp only [Prod.mk.injEq] at hdk hsk
    have hcorr : correlateInitiatedBridge c (portalDepositsOf deposits) (sentMessagesOf sent) e =
        .ok ({ L1TransactionHash := d.Event.TransactionHash
               FromAddress := e.FromAddress
               ToAddress := e.ToAddress
               L1TokenAddress := e.LocalTokenAddress
               L2TokenAddress := e.RemoteTokenAddress
               ERC20Amount := e.ERC20Amount },
             { e with CrossDomainMessageHash := some s.MessageHash }) := by
      rw [hkind]
      unfold correlateAt
      rw [hd1, hs1]
    refine ⟨d, s, hdm, hdk.1, hdk.2, hsm, hsk.1, hsk.2, hcorr, ?_⟩
    intro run hr
    obtain ⟨r, hr1, hr2⟩ := hrun run hr
    rw [hcorr] at hr2
    injection hr2 with hr2
    have hru : run.l1ToL2s2[k]? = some
        { L1TransactionHash := d.Event.TransactionHash
          FromAddress := e.FromAddress
          ToAddress := e.ToAddress
          L1TokenAddress := e.LocalTokenAddress
          L2TokenAddress := e.RemoteTokenAddress
          ERC20Amount := e.ERC20Amount } := by
      rw [hr1, ← hr2]
    exact ⟨hru, L1ProcessInitiatedBridgeEventsRun_write c db a b deposits sent run k _ d hd hs
      hr hru hdm rfl⟩

/-- C22 on two ranges. With an MNTBridgeInitiated log at `(7, 10)`, the TransactionDeposit log
at `(7, 16)` and the SentMessage log at `(7, 17)`, the update for the event carries the
deposit's transaction hash 501 and the store ends with the deposit of transaction 501 carrying
the event's addresses, token pair and ERC-20 amount. With an ETHBridgeInitiated log at
`(7, 10)` and no SentMessage log, the function returns an error. -/
theorem bedrock_l1_offsets_per_kind_witness :
    L1ProcessInitiatedBridgeEvents exampleMNTContracts {} 1 3 =
      .ok { l1ToL2 :=
        [{ L1BlockNumber := none, L2BlockNumber := some 0, L1TransactionHash := 501
           TransactionSourceHash := 601, MessageHash := 78, L1TxOrigin := 20
           Status := L1ToL2Pending, FromAddress := 20, ToAddress := 21, L1TokenAddress := 41
           L2TokenAddress := 41, ERC20Amount := some 5, Version := 1 }] } ∧
    (∃ d s, d ∈ [exampleMNTDeposit] ∧ d.Event.BlockHash = exampleMNTBridge.Event.BlockHash ∧
      d.Event.LogIndex = exampleMNTBridge.Event.LogIndex +
        (if BridgeEventType.MNTBridgeInitiated = .MNTBridgeInitiated then 6 else 1) ∧
      s ∈ [exampleMNTSentMessage] ∧ s.Event.BlockHash = exampleMNTBridge.Event.BlockHash ∧
      s.Event.LogIndex = exampleMNTBridge.Event.LogIndex +
        (if BridgeEventType.MNTBridgeInitiated = .MNTBridgeInitiated then 7 else 2) ∧
      correlateInitiatedBridge exampleMNTContracts (portalDepositsOf [exampleMNTDeposit])
          (sentMessagesOf [exampleMNTSentMessage]) exampleMNTBridge =
        .ok ({ L1TransactionHash := d.Event.TransactionHash
               FromAddress := exampleMNTBridge.FromAddress
               ToAddress := exampleMNTBridge.ToAddress
               L1TokenAddress := exampleMNTBridge.LocalTokenAddress
               L2TokenAddress := exampleMNTBridge.RemoteTokenAddress
               ERC20Amount := exampleMNTBridge.ERC20Amount },
             { exampleMNTBridge with CrossDomainMessageHash := some s.MessageHash }) ∧
      ∀ run, L1ProcessInitiatedBridgeEventsRun exampleMNTContracts {} 1 3 = .ok run →
        run.l1ToL2s2[0]? = some
          { L1TransactionHash := d.Event.TransactionHash
            FromAddress := exampleMNTBridge.FromAddress
            ToAddress := exampleMNTBridge.ToAddress
            L1TokenAddress := exampleMNTBridge.LocalTokenAddress
            L2TokenAddress := exampleMNTBridge.RemoteTokenAddress
            ERC20Amount := exampleMNTBridge.ERC20Amount } ∧
        ∃ i row0,
          takeIndex (structWhere (fun r : L1ToL2 => r.L1TransactionHash) d.Event.TransactionHash)
            run.db.l1ToL2 = some i ∧
          (d.Event.TransactionHash ≠ 0 →
            ∃ row, run.db.l1ToL2[i]? = some row ∧
              row.L1TransactionHash = d.Event.TransactionHash ∧
              ∀ (j : Nat) (row1 : L1ToL2), j < i → run.db.l1ToL2[j]? = some row1 →
                row1.L1TransactionHash ≠ d.Event.TransactionHash) ∧
          (UpdateL1ToL2InfoByTxHash (run.l1ToL2s2.take 0)
            (UpdateMessageHashByTxHash ([exampleMNTSentMessage].map sentMessageUpdate)
              (StoreL1ToL2Transactions ([exampleMNTDeposit].map (depositRow ({} : DB).l1BlockHeaders))
                ({} : DB).l1ToL2)))[i]? = some row0 ∧
          (UpdateL1ToL2InfoByTxHash (run.l1ToL2s2.take (0 + 1))
            (UpdateMessageHashByTxHash ([exampleMNTSentMessage].map sentMessageUpdate)
              (StoreL1ToL2Transactions ([exampleMNTDeposit].map (depositRow ({} : DB).l1BlockHeaders))
                ({} : DB).l1ToL2)))[i]? =
            some { row0 with
              L1TokenAddress := exampleMNTBridge.LocalTokenAddress
              L2TokenAddress := exampleMNTBridge.RemoteTokenAddress
              FromAddress := exampleMNTBridge.FromAddress
              ToAddress := exampleMNTBridge.ToAddress
              ERC20Amount := exampleMNTBridge.ERC20Amount } ∧
          run.db.l1ToL2 =
            UpdateL1ToL2InfoByTxHash (run.l1ToL2s2.drop (0 + 1))
              (UpdateL1ToL2InfoByTxHash (run.l1ToL2s2.take (0 + 1))
                (UpdateMessageHashByTxHash ([exampleMNTSentMessage].map sentMessageUpdate)
                  (StoreL1ToL2Transactions ([exampleMNTDeposit].map (depositRow ({} : DB).l1BlockHeaders))
                    ({} : DB).l1ToL2))) ∧
          ((∀ (j : Nat) (u1 : L1ToL2), 0 < j → run.l1ToL2s2[j]? = some u1 →
              takeIndex (structWhere (fun r : L1ToL2 => r.L1TransactionHash)
                u1.L1TransactionHash) run.db.l1ToL2 ≠ some i) →
            run.db.l1ToL2[i]? =
              some { row0 with
                L1TokenAddress := exampleMNTBridge.LocalTokenAddress
                L2TokenAddress := exampleMNTBridge.RemoteTokenAddress
                FromAddress := exampleMNTBridge.FromAddress
                ToAddress := exampleMNTBridge.ToAddress
                ERC20Amount := exampleMNTBridge.ERC20Amount })) ∧
    (∃ err, L1ProcessInitiatedBridgeEvents (exampleContracts []) {} 1 3 = .error err) :=
  ⟨by decide,
    (bedrock_l1_offsets_per_kind exampleMNTContracts {} 1 3 [exampleMNTDeposit]
      [exampleMNTSentMessage] [exampleMNTBridge] 0 exampleMNTBridge .MNTBridgeInitiated
      rfl rfl rfl (by decide) rfl rfl).2
      ⟨exampleMNTDeposit, List.mem_singleton.mpr rfl, by decide⟩
      ⟨exampleMNTSentMessage, List.mem_singleton.mpr rfl, by decide⟩,
    (bedrock_l1_offsets_per_kind (exampleContracts []) {} 1 3 [exampleDeposit] []
      [exampleBridge] 0 exampleBridge .ETHBridgeInitiated
      rfl rfl rfl (by decide) rfl rfl).1
      (Or.inr (fun _ h => absurd h (List.not_mem_nil _)))⟩

theorem messagesPassedOf_lookup (l : List L2ToL1MessagePasserMessagePassed) (k : logKey)
    (m : L2ToL1MessagePasserMessagePassed) (h : (messagesPassedOf l).lookup k = some m) :
    m ∈ l ∧ (m.Event.BlockHash, m.Event.LogIndex) = k := by
  rcases LogMap.lookup_foldl_insert (fun x : L2ToL1MessagePasserMessagePassed =>
    (x.Event.BlockHash, x.Event.LogIndex)) k l [] m h with h1 | h1
  · exact h1
  · simp [LogMap.lookup] at h1

theorem correlateWithdrawalAt_ok (mp : LogMap L2ToL1MessagePasserMessagePassed)
    (sm : LogMap CrossDomainMessengerSentMessageEvent) (i j : Nat)
    (e : StandardBridgeInitiatedEvent) (r : L2ToL1 × StandardBridgeInitiatedEvent)
    (h : correlateWithdrawalAt mp sm i j e = .ok r) :
    ∃ m s, mp.lookup (e.Event.BlockHash, e.Event.LogIndex + i) = some m ∧
      sm.lookup (e.Event.BlockHash, e.Event.LogIndex + j) = some s ∧
      r.1 = { WithdrawTransactionHash := m.WithdrawalHash
              L2TransactionHash := e.Event.TransactionHash
              FromAddress := e.FromAddress
              ToAddress := e.ToAddress
              ETHAmount := e.ETHAmount
              ERC20Amount := e.ERC20Amount
              L1TokenAddress := e.LocalTokenAddress
              L2TokenAddress := e.RemoteTokenAddress } ∧
      r.2 = { e with CrossDomainMessageHash := some s.MessageHash } := by
  unfold correlateWithdrawalAt at h
  cases hd : mp.lookup (e.Event.BlockHash, e.Event.LogIndex + i) with
  | none => simp [hd] at h
  | some m =>
    cases hs : sm.lookup (e.Event.BlockHash, e.Event.LogIndex + j) with
    | none => simp [hd, hs] at h
    | some s =>
      simp only [hd, hs, Except.ok.injEq] at h
      exact ⟨m, s, rfl, rfl, by rw [← h], by rw [← h]⟩

theorem correlateInitiatedWithdrawals_ok (c : L2Contracts)
    (mp : LogMap L2ToL1MessagePasserMessagePassed)
    (sm : LogMap CrossDomainMessengerSentMessageEvent) :
    ∀ (l : List StandardBridgeInitiatedEvent) (rs : List (L2ToL1 × StandardBridgeInitiatedEvent)),
      correlateInitiatedWithdrawals c mp sm l = .ok rs →
      ∀ (k : Nat) (e : StandardBridgeInitiatedEvent), l[k]? = some e →
        ∃ r, rs[k]? = some r ∧ correlateInitiatedWithdrawal c mp sm e = .ok r := by
  intro l
  induction l with
  | nil => intro rs _ k e hk; simp at hk
  | cons x xs ih =>
    intro rs h k e hk
    unfold correlateInitiatedWithdrawals at h
    cases hx : correlateInitiatedWithdrawal c mp sm x with
    | error err => simp [hx] at h
    | ok r =>
      cases hxs : correlateInitiatedWithdrawals c mp sm xs with
      | error err => simp [hx, hxs] at h
      | ok rs1 =>
        simp only [hx, hxs, Except.ok.injEq] at h
        subst h
        cases k with
        | zero =>
          simp only [List.getElem?_cons_zero, Option.some.injEq] at hk
          subst hk
          exact ⟨r, by simp, hx⟩
        | succ k =>
          simp only [List.getElem?_cons_succ] at hk
          obtain ⟨r1, h1, h2⟩ := ih rs1 hxs k e hk
          exact ⟨r1, by simpa using h1, h2⟩

theorem L2ProcessInitiatedBridgeEventsRun_ok (c : L2Contracts) (db : DB) (a b : Int)
    (run : InitiatedWithdrawalRun) (h : L2ProcessInitiatedBridgeEventsRun c db a b = .ok run) :
    ∃ passed sent bridges correlated,
      c.L2ToL1MessagePasserMessagePassedEvents a b = .ok passed ∧
      c.CrossDomainMessengerSentMessageEvents a b = .ok sent ∧
      c.StandardBridgeInitiatedEvents a b = .ok bridges ∧
      correlateInitiatedWithdrawals c (messagesPassedOf passed) (sentMessagesOf sent) bridges
        = .ok correlated ∧
      run.l2ToL1s2 = correlated.map (fun r => r.1) := by
  unfold L2ProcessInitiatedBridgeEventsRun at h
  cases hd : c.L2ToL1MessagePasserMessagePassedEvents a b with
  | error e => simp [hd] at h
  | ok passed =>
    cases hs : c.CrossDomainMessengerSentMessageEvents a b with
    | error e => simp [hd, hs] at h
    | ok sent =>
      cases hb : c.StandardBridgeInitiatedEvents a b with
      | error e => simp [hd, hs, hb] at h
      | ok bridges =>
        cases hc : correlateInitiatedWithdrawals c (messagesPassedOf passed) (sentMessagesOf sent)
            bridges with
        | error e => simp [hd, hs, hb, hc] at h
        | ok correlated =>
          simp only [hd, hs, hb, hc, Except.ok.injEq] at h
          exact ⟨passed, sent, bridges, correlated, rfl, rfl, rfl, hc, by rw [← h]⟩

theorem correlateInitiatedWithdrawal_kind (c : L2Contracts)
    (mp : LogMap L2ToL1MessagePasserMessagePassed)
    (sm : LogMap CrossDomainMessengerSentMessageEvent) (e : StandardBridgeInitiatedEvent)
    (kind : BridgeEventType)
    (hids : c.ETHWithdrawEventSignature ≠ c.MNTWithdrawEventSignature ∧
      c.ETHWithdrawEventSignature ≠ c.ERC20WithdrawEventSignature ∧
      c.MNTWithdrawEventSignature ≠ c.ERC20WithdrawEventSignature)
    (hsig : e.Event.EventSignature = c.eventSignature kind) :
    correlateInitiatedWithdrawal c mp sm e =
      correlateWithdrawalAt mp sm (if kind = .ETHBridgeInitiated then 5 else 1)
        (if kind = .ETHBridgeInitiated then 6 else 2) e := by
  obtain ⟨h1, h2, h3⟩ := hids
  unfold correlateInitiatedWithdrawal
  cases kind with
  | ETHBridgeInitiated =>
    simp only [L2Contracts.eventSignature] at hsig
    simp [hsig]
  | ERC20BridgeInitiated =>
    simp only [L2Contracts.eventSignature] at hsig
    simp [hsig, h2.symm, h3.symm]
  | MNTBridgeInitiated =>
    simp only [L2Contracts.eventSignature] at hsig
    simp [hsig, h1.symm]

theorem saveLoop_map {ρ κ : Type} (key : ρ → Hash32) (assign : ρ → ρ → ρ)
    (F : List ρ → List ρ → List ρ) (hF0 : ∀ t, F [] t = t)
    (hFnone : ∀ u us t, updateFirst (structWhere key (key u)) (assign u) t = none →
      F (u :: us) t = t)
    (hFsome : ∀ u us t t1, updateFirst (structWhere key (key u)) (assign u) t = some t1 →
      F (u :: us) t = F us t1)
    (g : ρ → κ) (hg : ∀ u r, g (assign u r) = g r) :
    ∀ (us t : List ρ), (F us t).map g = t.map g := by
  intro us
  induction us with
  | nil => intro t; rw [hF0]
  | cons u us ih =>
    intro t
    cases hu : updateFirst (structWhere key (key u)) (assign u) t with
    | none => rw [hFnone u us t hu]
    | some t1 =>
      rw [hFsome u us t t1 hu, ih t1]
      exact updateFirst_map_key _ _ g (hg u) _ _ hu

theorem getElem?_of_map_eq {ρ κ : Type} (g : ρ → κ) (l1 l2 : List ρ)
    (h : l1.map g = l2.map g) (i : Nat) (x : ρ) (hx : l1[i]? = some x) :
    ∃ y, l2[i]? = some y ∧ g y = g x := by
  have h1 : (l1.map g)[i]? = (l2.map g)[i]? := by rw [h]
  simp only [List.getElem?_map, hx, Option.map_some'] at h1
  cases hy : l2[i]? with
  | none => simp [hy] at h1
  | some y =>
    simp only [hy, Option.map_some', Option.some.injEq] at h1
    exact ⟨y, rfl, h1.symm⟩

theorem LogMap.length_foldl_insert {α : Type} (key : α → logKey) (l : List α) :
    ∀ (m0 : LogMap α),
      (l.foldl (fun m x => m.insert (key x) x) m0).length = m0.length + l.length := by
  induction l with
  | nil => intro m0; rfl
  | cons x xs ih =>
    intro m0
    rw [List.foldl_cons, ih]
    simp only [LogMap.insert, List.length_cons]
    omega

theorem L2ProcessInitiatedBridgeEventsRun_db (c : L2Contracts) (db : DB) (a b : Int)
    (passed : List L2ToL1MessagePasserMessagePassed)
    (sent : List CrossDomainMessengerSentMessageEvent) (run : InitiatedWithdrawalRun)
    (hd : c.L2ToL1MessagePasserMessagePassedEvents a b = .ok passed)
    (hs : c.CrossDomainMessengerSentMessageEvents a b = .ok sent)
    (h : L2ProcessInitiatedBridgeEventsRun c db a b = .ok run) :
    run.db.l2ToL1 = UpdateL2ToL1InfoByTxHash run.l2ToL1s2
      (UpdateL2ToL1InfoByTxHash (sent.map sentMessageWithdrawalUpdate)
        (StoreL2ToL1Transactions (passed.map (withdrawalRow db.l2BlockHeaders)) db.l2ToL1)) := by
  unfold L2ProcessInitiatedBridgeEventsRun at h
  cases hb : c.StandardBridgeInitiatedEvents a b with
  | error e => simp [hd, hs, hb] at h
  | ok bridges =>
    cases hc : correlateInitiatedWithdrawals c (messagesPassedOf passed) (sentMessagesOf sent)
        bridges with
    | error e => simp [hd, hs, hb, hc] at h
    | ok correlated =>
      simp only [hd, hs, hb, hc, Except.ok.injEq] at h
      rw [← h]
      have e1 : ∀ t : List L2ToL1,
          (if (messagesPassedOf passed).length > 0 then
            StoreL2ToL1Transactions (List.map (withdrawalRow db.l2BlockHeaders) passed) t
          else t) =
          StoreL2ToL1Transactions (List.map (withdrawalRow db.l2BlockHeaders) passed) t := by
        intro t
        have hlen : (messagesPassedOf passed).length = passed.length := by
          unfold messagesPassedOf
          rw [LogMap.length_foldl_insert]
          simp
        rw [hlen]
        cases passed with
        | nil => simp [StoreL2ToL1Transactions]
        | cons x xs => simp
      have e2 : ∀ t : List L2ToL1,
          (if sent.length > 0 then
            UpdateL2ToL1InfoByTxHash (List.map sentMessageWithdrawalUpdate sent) t
          else t) = UpdateL2ToL1InfoByTxHash (List.map sentMessageWithdrawalUpdate sent) t := by
        intro t
        cases sent with
        | nil => simp [UpdateL2ToL1InfoByTxHash]
        | cons x xs => simp
      have e3 : ∀ t : List L2ToL1,
          (if (List.map (fun r => r.1) correlated).length > 0 then
            UpdateL2ToL1InfoByTxHash (List.map (fun r => r.1) correlated) t
          else t) = UpdateL2ToL1InfoByTxHash (List.map (fun r => r.1) correlated) t := by
        intro t
        cases correlated with
        | nil => simp [UpdateL2ToL1InfoByTxHash]
        | cons x xs => simp
      simp only [e1, e2, e3]

/-- The store-level effect of the third loop of `L2ProcessInitiatedBridgeEvents` for the entry
`l2ToL1s2[k]`, when the entries up to it find their records: the row `Take` selects, the record
it was stored as, what the `k`-th iteration of `UpdateL2ToL1InfoByTxHash` writes to it, and
what the store holds at the end. -/
theorem L2ProcessInitiatedBridgeEventsRun_write (c : L2Contracts) (db : DB) (a b : Int)
    (passed : List L2ToL1MessagePasserMessagePassed)
    (sent : List CrossDomainMessengerSentMessageEvent) (run : InitiatedWithdrawalRun)
    (k : Nat) (u : L2ToL1)
    (hd : c.L2ToL1MessagePasserMessagePassedEvents a b = .ok passed)
    (hs : c.CrossDomainMessengerSentMessageEvents a b = .ok sent)
    (hrun : L2ProcessInitiatedBridgeEventsRun c db a b = .ok run)
    (hu : run.l2ToL1s2[k]? = some u)
    (hfound : ∀ (j : Nat) (u1 : L2ToL1), j ≤ k → run.l2ToL1s2[j]? = some u1 →
      takeIndex (structWhere (fun r : L2ToL1 => r.L2TransactionHash) u1.L2TransactionHash)
        run.db.l2ToL1 ≠ none) :
    ∃ i row0 stored,
      takeIndex (structWhere (fun r : L2ToL1 => r.L2TransactionHash) u.L2TransactionHash)
        run.db.l2ToL1 = some i ∧
      (u.L2TransactionHash ≠ 0 →
        ∃ row, run.db.l2ToL1[i]? = some row ∧
          row.L2TransactionHash = u.L2TransactionHash ∧
          ∀ (j : Nat) (row1 : L2ToL1), j < i → run.db.l2ToL1[j]? = some row1 →
            row1.L2TransactionHash ≠ u.L2TransactionHash) ∧
      (StoreL2ToL1Transactions (passed.map (withdrawalRow db.l2BlockHeaders)) db.l2ToL1)[i]?
        = some stored ∧
      row0.WithdrawTransactionHash = stored.WithdrawTransactionHash ∧
      (UpdateL2ToL1InfoByTxHash (run.l2ToL1s2.take k)
        (UpdateL2ToL1InfoByTxHash (sent.map sentMessageWithdrawalUpdate)
          (StoreL2ToL1Transactions (passed.map (withdrawalRow db.l2BlockHeaders))
            db.l2ToL1)))[i]? = some row0 ∧
      (UpdateL2ToL1InfoByTxHash (run.l2ToL1s2.take (k + 1))
        (UpdateL2ToL1InfoByTxHash (sent.map sentMessageWithdrawalUpdate)
          (StoreL2ToL1Transactions (passed.map (withdrawalRow db.l2BlockHeaders))
            db.l2ToL1)))[i]? =
        some { row0 with
          L1BlockNumber := u.L1BlockNumber
          FromAddress := u.FromAddress
          ToAddress := u.ToAddress
          ETHAmount := u.ETHAmount
          ERC20Amount := u.ERC20Amount
          L1TokenAddress := u.L1TokenAddress
          L2TokenAddress := u.L2TokenAddress } ∧
      run.db.l2ToL1 =
        UpdateL2ToL1InfoByTxHash (run.l2ToL1s2.drop (k + 1))
          (UpdateL2ToL1InfoByTxHash (run.l2ToL1s2.take (k + 1))
            (UpdateL2ToL1InfoByTxHash (sent.map sentMessageWithdrawalUpdate)
              (StoreL2ToL1Transactions (passed.map (withdrawalRow db.l2BlockHeaders))
                db.l2ToL1))) ∧
      ((∀ (j : Nat) (u1 : L2ToL1), k < j → run.l2ToL1s2[j]? = some u1 →
          takeIndex (structWhere (fun r : L2ToL1 => r.L2TransactionHash) u1.L2TransactionHash)
            run.db.l2ToL1 ≠ some i) →
        run.db.l2ToL1[i]? =
          some { row0 with
            L1BlockNumber := u.L1BlockNumber
            FromAddress := u.FromAddress
            ToAddress := u.ToAddress
            ETHAmount := u.ETHAmount
            ERC20Amount := u.ERC20Amount
            L1TokenAddress := u.L1TokenAddress
            L2TokenAddress := u.L2TokenAddress }) := by
  have hdb := L2ProcessInitiatedBridgeEventsRun_db c db a b passed sent run hd hs hrun
  have hF0 : ∀ t : List L2ToL1, UpdateL2ToL1InfoByTxHash [] t = t := fun _ => rfl
  have hFnone : ∀ (x : L2ToL1) (xs t : List L2ToL1),
      updateFirst (structWhere (fun r : L2ToL1 => r.L2TransactionHash) x.L2TransactionHash)
        (fun l2ToL1 => { l2ToL1 with
          L1BlockNumber := x.L1BlockNumber
          FromAddress := x.FromAddress
          ToAddress := x.ToAddress
          ETHAmount := x.ETHAmount
          ERC20Amount := x.ERC20Amount
          L1TokenAddress := x.L1TokenAddress
          L2TokenAddress := x.L2TokenAddress }) t = none →
      UpdateL2ToL1InfoByTxHash (x :: xs) t = t := by
    intro x xs t h
    rw [UpdateL2ToL1InfoByTxHash, h]
  have hFsome : ∀ (x : L2ToL1) (xs t t1 : List L2ToL1),
      updateFirst (structWhere (fun r : L2ToL1 => r.L2TransactionHash) x.L2TransactionHash)
        (fun l2ToL1 => { l2ToL1 with
          L1BlockNumber := x.L1BlockNumber
          FromAddress := x.FromAddress
          ToAddress := x.ToAddress
          ETHAmount := x.ETHAmount
          ERC20Amount := x.ERC20Amount
          L1TokenAddress := x.L1TokenAddress
          L2TokenAddress := x.L2TokenAddress }) t = some t1 →
      UpdateL2ToL1InfoByTxHash (x :: xs) t = UpdateL2ToL1InfoByTxHash xs t1 := by
    intro x xs t t1 h
    rw [UpdateL2ToL1InfoByTxHash, h]
  have hmapK : ∀ (us t : List L2ToL1), (UpdateL2ToL1InfoByTxHash us t).map
      (fun r : L2ToL1 => r.L2TransactionHash) = t.map (fun r => r.L2TransactionHash) :=
    saveLoop_map (fun r : L2ToL1 => r.L2TransactionHash) _ UpdateL2ToL1InfoByTxHash
      hF0 hFnone hFsome (fun r : L2ToL1 => r.L2TransactionHash) (fun _ _ => rfl)
  have hmapW : ∀ (us t : List L2ToL1), (UpdateL2ToL1InfoByTxHash us t).map
      (fun r : L2ToL1 => r.WithdrawTransactionHash) =
      t.map (fun r => r.WithdrawTransactionHash) :=
    saveLoop_map (fun r : L2ToL1 => r.L2TransactionHash) _ UpdateL2ToL1InfoByTxHash
      hF0 hFnone hFsome (fun r : L2ToL1 => r.WithdrawTransactionHash) (fun _ _ => rfl)
  have hmapdb : run.db.l2ToL1.map (fun r : L2ToL1 => r.L2TransactionHash) =
      (UpdateL2ToL1InfoByTxHash (sent.map sentMessageWithdrawalUpdate)
        (StoreL2ToL1Transactions (passed.map (withdrawalRow db.l2BlockHeaders))
          db.l2ToL1)).map (fun r => r.L2TransactionHash) := by
    rw [hdb, hmapK]
  have hfound' : ∀ (j : Nat) (x : L2ToL1), j ≤ k → run.l2ToL1s2[j]? = some x →
      takeIndex (structWhere (fun r : L2ToL1 => r.L2TransactionHash) x.L2TransactionHash)
        (UpdateL2ToL1InfoByTxHash (sent.map sentMessageWithdrawalUpdate)
          (StoreL2ToL1Transactions (passed.map (withdrawalRow db.l2BlockHeaders))
            db.l2ToL1)) ≠ none := by
    intro j x hj hx
    rw [← takeIndex_structWhere_congr _ _ _ _ hmapdb]
    exact hfound j x hj hx
  obtain ⟨i, hi⟩ := Option.ne_none_iff_exists'.mp (hfound' k u (Nat.le_refl _) hu)
  obtain ⟨row0, h1, h2, _, h4, h5⟩ := saveLoop_write
    (fun r : L2ToL1 => r.L2TransactionHash)
    (fun (x l2ToL1 : L2ToL1) => { l2ToL1 with
      L1BlockNumber := x.L1BlockNumber
      FromAddress := x.FromAddress
      ToAddress := x.ToAddress
      ETHAmount := x.ETHAmount
      ERC20Amount := x.ERC20Amount
      L1TokenAddress := x.L1TokenAddress
      L2TokenAddress := x.L2TokenAddress })
    UpdateL2ToL1InfoByTxHash hF0 hFnone hFsome (fun _ _ => rfl)
    run.l2ToL1s2 _ k i u hu
    (fun j x hj hx => hfound' j x (Nat.le_of_lt hj) hx) hi
  have hidb : takeIndex (structWhere (fun r : L2ToL1 => r.L2TransactionHash)
      u.L2TransactionHash) run.db.l2ToL1 = some i := by
    rw [takeIndex_structWhere_congr _ _ _ _ hmapdb]
    exact hi
  obtain ⟨stored, hst1, hst2⟩ := getElem?_of_map_eq (fun r : L2ToL1 => r.WithdrawTransactionHash)
    _ (StoreL2ToL1Transactions (passed.map (withdrawalRow db.l2BlockHeaders)) db.l2ToL1)
    (by rw [hmapW, hmapW]) i row0 h1
  refine ⟨i, row0, stored, hidb, ?_, hst1, hst2.symm, h1, h2, ?_, ?_⟩
  · intro hnz
    obtain ⟨row, hr1, hr2, hr3⟩ := takeIndex_some _ _ _ hidb
    refine ⟨row, hr1, ?_, ?_⟩
    · simpa [structWhere, hnz] using hr2
    · intro j row1 hj hrow1
      have := hr3 j row1 hj hrow1
      simpa [structWhere, hnz] using this
  · rw [hdb]
    exact h4
  · intro hlater
    rw [hdb]
    apply h5
    intro j x hj hx
    have := hlater j x hj hx
    rw [takeIndex_structWhere_congr _ _ _ _ hmapdb] at this
    exact this

/-- C23 as stated, read of the stored write, fails on a transaction with two ETH withdrawals:
the update for the second bridge-initiated log (MessagePassed log at `(9, 35)`, withdrawal hash
881) is written to the record that `Take` returns for the transaction hash 700, which is the
record of the first withdrawal, with withdrawal hash 880. -/
theorem withdrawal_update_as_stated_fails :
    ¬ WithdrawalUpdateAsStated exampleTwoWithdrawals {} 1 3 := by
  intro h
  obtain ⟨i, row, h1, h2, h3, _⟩ := h exampleTwoWithdrawalsRun
    [exampleMessagePassed, exampleMessagePassed2] [exampleETHWithdrawal, exampleETHWithdrawal2]
    1 exampleETHWithdrawal2 .ETHBridgeInitiated exampleMessagePassed2
    rfl rfl rfl rfl rfl (by decide) rfl rfl
  have h4 : takeIndex (structWhere (fun r : L2ToL1 => r.L2TransactionHash)
      exampleETHWithdrawal2.Event.TransactionHash) exampleTwoWithdrawalsRun.db.l2ToL1 =
      some 0 := by decide
  rw [h4] at h1
  cases h1
  have h5 : (exampleTwoWithdrawalsRun.db.l2ToL1[0]?).map
      (fun r => r.WithdrawTransactionHash) = some 880 := by decide
  rw [h2] at h5
  simp only [Option.map_some', Option.some.injEq] at h5
  rw [h5] at h3
  exact absurd h3 (by decide)

/-- The store after `L2ProcessInitiatedBridgeEvents` on the transaction with two ETH
withdrawals: both updates went to the record of the first withdrawal (withdrawal hash 880),
which ends with the addresses and amount of the second bridge event; the record of the second
withdrawal (withdrawal hash 881) is as `StoreL2ToL1Transactions` stored it. -/
theorem two_withdrawals_in_one_transaction :
    L2ProcessInitiatedBridgeEvents exampleTwoWithdrawals {} 1 3 =
      .ok { l2ToL1 :=
        [{ L1BlockNumber := none, L2TransactionHash := 700, WithdrawTransactionHash := 880
           Status := L2ToL1Pending, FromAddress := 32, ToAddress := 33, ETHAmount := some 6
           ERC20Amount := some 0, L1TokenAddress := 40, L2TokenAddress := 40, TimeLeft := 0
           Version := 1 },
         { L1BlockNumber := some 0, L2TransactionHash := 700, WithdrawTransactionHash := 881
           Status := L2ToL1Pending, ETHAmount := some 6, TimeLeft := 0, Version := 1 }] } := by
  decide

/-- C23, amended. In `L2ProcessInitiatedBridgeEvents`, for a bridge-initiated log at `(B, i)`
of the range (the `k`-th bridge event), the MessagePassed log is looked up at `(B, i + 5)` and
the SentMessage log at `(B, i + 6)` for an ETH withdrawal, and at `(B, i + 1)` and `(B, i + 2)`
for an MNT or ERC-20 withdrawal (the three withdraw event signatures being distinct). If the
range has no MessagePassed log or no SentMessage log at that place the function returns an
error. If it has both, the iteration for the event gives the update entry with the withdrawal
hash of the MessagePassed log found there and the event's transaction hash, addresses, amounts
and token pair, and in every run that returns no error that entry is `l2ToL1s2[k]`. Of that
entry `UpdateL2ToL1InfoByTxHash` uses the transaction hash as the key and never writes the
withdrawal hash: when the entries up to the `k`-th find their records, the `k`-th iteration
selects the row `Take` returns for the event's transaction hash (the first stored withdrawal
with it, when it is not the zero hash), whose withdrawal hash is the one it was stored with,
and writes a nil L1 block number and the event's from/to addresses, ETH and ERC-20 amounts and
token pair to it; the rest of the loop runs on the table so written; and the stored row holds
them at the end when no later update entry selects the same row. -/
theorem bedrock_l2_offsets_per_kind (c : L2Contracts) (db : DB) (a b : Int)
    (passed : List L2ToL1MessagePasserMessagePassed)
    (sent : List CrossDomainMessengerSentMessageEvent)
    (bridges : List StandardBridgeInitiatedEvent)
    (k : Nat) (e : StandardBridgeInitiatedEvent) (kind : BridgeEventType)
    (hd : c.L2ToL1MessagePasserMessagePassedEvents a b = .ok passed)
    (hs : c.CrossDomainMessengerSentMessageEvents a b = .ok sent)
    (hb : c.StandardBridgeInitiatedEvents a b = .ok bridges)
    (hids : c.ETHWithdrawEventSignature ≠ c.MNTWithdrawEventSignature ∧
      c.ETHWithdrawEventSignature ≠ c.ERC20WithdrawEventSignature ∧
      c.MNTWithdrawEventSignature ≠ c.ERC20WithdrawEventSignature)
    (hk : bridges[k]? = some e)
    (hsig : e.Event.EventSignature = c.eventSignature kind) :
    (((∀ m ∈ passed, ¬ (m.Event.BlockHash = e.Event.BlockHash ∧
          m.Event.LogIndex = e.Event.LogIndex + (if kind = .ETHBridgeInitiated then 5 else 1))) ∨
        (∀ s ∈ sent, ¬ (s.Event.BlockHash = e.Event.BlockHash ∧
          s.Event.LogIndex = e.Event.LogIndex + (if kind = .ETHBridgeInitiated then 6 else 2)))) →
      ∃ err, L2ProcessInitiatedBridgeEvents c db a b = .error err) ∧
    ((∃ m ∈ passed, m.Event.BlockHash = e.Event.BlockHash ∧
          m.Event.LogIndex = e.Event.LogIndex + (if kind = .ETHBridgeInitiated then 5 else 1)) →
      (∃ s ∈ sent, s.Event.BlockHash = e.Event.BlockHash ∧
          s.Event.LogIndex = e.Event.LogIndex + (if kind = .ETHBridgeInitiated then 6 else 2)) →
      ∃ m s, m ∈ passed ∧ m.Event.BlockHash = e.Event.BlockHash ∧
        m.Event.LogIndex = e.Event.LogIndex + (if kind = .ETHBridgeInitiated then 5 else 1) ∧
        s ∈ sent ∧ s.Event.BlockHash = e.Event.BlockHash ∧
        s.Event.LogIndex = e.Event.LogIndex + (if kind = .ETHBridgeInitiated then 6 else 2) ∧
        correlateInitiatedWithdrawal c (messagesPassedOf passed) (sentMessagesOf sent) e =
          .ok ({ WithdrawTransactionHash := m.WithdrawalHash
                 L2TransactionHash := e.Event.TransactionHash
                 FromAddress := e.FromAddress
                 ToAddress := e.ToAddress
                 ETHAmount := e.ETHAmount
                 ERC20Amount := e.ERC20Amount
                 L1TokenAddress := e.LocalTokenAddress
                 L2TokenAddress := e.RemoteTokenAddress },
               { e with CrossDomainMessageHash := some s.MessageHash }) ∧
        ∀ run, L2ProcessInitiatedBridgeEventsRun c db a b = .ok run →
          run.l2ToL1s2[k]? = some
            { WithdrawTransactionHash := m.WithdrawalHash
              L2TransactionHash := e.Event.TransactionHash
              FromAddress := e.FromAddress
              ToAddress := e.ToAddress
              ETHAmount := e.ETHAmount
              ERC20Amount := e.ERC20Amount
              L1TokenAddress := e.LocalTokenAddress
              L2TokenAddress := e.RemoteTokenAddress } ∧
          ((∀ (j : Nat) (u1 : L2ToL1), j ≤ k → run.l2ToL1s2[j]? = some u1 →
              takeIndex (structWhere (fun r : L2ToL1 => r.L2TransactionHash)
                u1.L2TransactionHash) run.db.l2ToL1 ≠ none) →
            ∃ i row0 stored,
              takeIndex (structWhere (fun r : L2ToL1 => r.L2TransactionHash)
                e.Event.TransactionHash) run.db.l2ToL1 = some i ∧
              (e.Event.TransactionHash ≠ 0 →
                ∃ row, run.db.l2ToL1[i]? = some row ∧
                  row.L2TransactionHash = e.Event.TransactionHash ∧
                  ∀ (j : Nat) (row1 : L2ToL1), j < i → run.db.l2ToL1[j]? = some row1 →
                    row1.L2TransactionHash ≠ e.Event.TransactionHash) ∧
              (StoreL2ToL1Transactions (passed.map (withdrawalRow db.l2BlockHeaders))
                db.l2ToL1)[i]? = some stored ∧
              row0.WithdrawTransactionHash = stored.WithdrawTransactionHash ∧
              (UpdateL2ToL1InfoByTxHash (run.l2ToL1s2.take k)
                (UpdateL2ToL1InfoByTxHash (sent.map sentMessageWithdrawalUpdate)
                  (StoreL2ToL1Transactions (passed.map (withdrawalRow db.l2BlockHeaders))
                    db.l2ToL1)))[i]? = some row0 ∧
              (UpdateL2ToL1InfoByTxHash (run.l2ToL1s2.take (k + 1))
                (UpdateL2ToL1InfoByTxHash (sent.map sentMessageWithdrawalUpdate)
                  (StoreL2ToL1Transactions (passed.map (withdrawalRow db.l2BlockHeaders))
                    db.l2ToL1)))[i]? =
                some { row0 with
                  L1BlockNumber := none
                  FromAddress := e.FromAddress
                  ToAddress := e.ToAddress
                  ETHAmount := e.ETHAmount
                  ERC20Amount := e.ERC20Amount
                  L1TokenAddress := e.LocalTokenAddress
                  L2TokenAddress := e.RemoteTokenAddress } ∧
              run.db.l2ToL1 =
                UpdateL2ToL1InfoByTxHash (run.l2ToL1s2.drop (k + 1))
                  (UpdateL2ToL1InfoByTxHash (run.l2ToL1s2.take (k + 1))
                    (UpdateL2ToL1InfoByTxHash (sent.map sentMessageWithdrawalUpdate)
                      (StoreL2ToL1Transactions (passed.map (withdrawalRow db.l2BlockHeaders))
                        db.l2ToL1))) ∧
              ((∀ (j : Nat) (u1 : L2ToL1), k < j → run.l2ToL1s2[j]? = some u1 →
                  takeIndex (structWhere (fun r : L2ToL1 => r.L2TransactionHash)
                    u1.L2TransactionHash) run.db.l2ToL1 ≠ some i) →
                run.db.l2ToL1[i]? =
                  some { row0 with
                    L1BlockNumber := none
                    FromAddress := e.FromAddress
                    ToAddress := e.ToAddress
                    ETHAmount := e.ETHAmount
                    ERC20Amount := e.ERC20Amount
                    L1TokenAddress := e.LocalTokenAddress
                    L2TokenAddress := e.RemoteTokenAddress }))) := by
  have hkind := correlateInitiatedWithdrawal_kind c (messagesPassedOf passed)
    (sentMessagesOf sent) e kind hids hsig
  have hrun : ∀ run, L2ProcessInitiatedBridgeEventsRun c db a b = .ok run →
      ∃ r, run.l2ToL1s2[k]? = some r.1 ∧
        correlateInitiatedWithdrawal c (messagesPassedOf passed) (sentMessagesOf sent) e =
          .ok r := by
    intro run hr
    obtain ⟨passed', sent', bridges', correlated, hd', hs', hb', hc, hu⟩ :=
      L2ProcessInitiatedBridgeEventsRun_ok c db a b run hr
    rw [hd] at hd'
    rw [hs] at hs'
    rw [hb] at hb'
    cases hd'
    cases hs'
    cases hb'
    obtain ⟨r, hr1, hr2⟩ := correlateInitiatedWithdrawals_ok c _ _ _ _ hc k e hk
    exact ⟨r, by rw [hu]; simp [hr1], hr2⟩
  refine ⟨?_, ?_⟩
  · intro habs
    unfold L2ProcessInitiatedBridgeEvents
    cases hr : L2ProcessInitiatedBridgeEventsRun c db a b with
    | error err => exact ⟨err, rfl⟩
    | ok run =>
      exfalso
      obtain ⟨r, _, hr2⟩ := hrun run hr
      rw [hkind] at hr2
      obtain ⟨m, s, hd1, hs1, _, _⟩ := correlateWithdrawalAt_ok _ _ _ _ _ _ hr2
      obtain ⟨hdm, hdk⟩ := messagesPassedOf_lookup _ _ _ hd1
      obtain ⟨hsm, hsk⟩ := sentMessagesOf_lookup _ _ _ hs1
      simp only [Prod.mk.injEq] at hdk hsk
      rcases habs with h | h
      · exact h m hdm hdk
      · exact h s hsm hsk
  · rintro ⟨m0, hm0, hm0k⟩ ⟨s0, hs0, hs0k⟩
    have h1 : (messagesPassedOf passed).lookup (e.Event.BlockHash,
        e.Event.LogIndex + (if kind = .ETHBridgeInitiated then 5 else 1)) ≠ none :=
      LogMap.lookup_foldl_insert_isSome
        (fun x : L2ToL1MessagePasserMessagePassed => (x.Event.BlockHash, x.Event.LogIndex))
        _ passed [] (Or.inl ⟨m0, hm0, by simp [hm0k.1, hm0k.2]⟩)
    have h2 : (sentMessagesOf sent).lookup (e.Event.BlockHash,
        e.Event.LogIndex + (if kind = .ETHBridgeInitiated then 6 else 2)) ≠ none :=
      LogMap.lookup_foldl_insert_isSome
        (fun x : CrossDomainMessengerSentMessageEvent => (x.Event.BlockHash, x.Event.LogIndex))
        _ sent [] (Or.inl ⟨s0, hs0, by simp [hs0k.1, hs0k.2]⟩)
    obtain ⟨m, hd1⟩ := Option.ne_none_iff_exists'.mp h1
    obtain ⟨s, hs1⟩ := Option.ne_none_iff_exists'.mp h2
    obtain ⟨hdm, hdk⟩ := messagesPassedOf_lookup _ _ _ hd1
    obtain ⟨hsm, hsk⟩ := sentMessagesOf_lookup _ _ _ hs1
    simp only [Prod.mk.injEq] at hdk hsk
    have hcorr : correlateInitiatedWithdrawal c (messagesPassedOf passed) (sentMessagesOf sent)
        e =
        .ok ({ WithdrawTransactionHash := m.WithdrawalHash
               L2TransactionHash := e.Event.TransactionHash
               FromAddress := e.FromAddress
               ToAddress := e.ToAddress
               ETHAmount := e.ETHAmount
               ERC20Amount := e.ERC20Amount
               L1TokenAddress := e.LocalTokenAddress
               L2TokenAddress := e.RemoteTokenAddress },
             { e with CrossDomainMessageHash := some s.MessageHash }) := by
      rw [hkind]
      unfold correlateWithdrawalAt
      rw [hd1, hs1]
    refine ⟨m, s, hdm, hdk.1, hdk.2, hsm, hsk.1, hsk.2, hcorr, ?_⟩
    intro run hr
    obtain ⟨r, hr1, hr2⟩ := hrun run hr
    rw [hcorr] at hr2
    injection hr2 with hr2
    have hru : run.l2ToL1s2[k]? = some
        { WithdrawTransactionHash := m.WithdrawalHash
          L2TransactionHash := e.Event.TransactionHash
          FromAddress := e.FromAddress
          ToAddress := e.ToAddress
          ETHAmount := e.ETHAmount
          ERC20Amount := e.ERC20Amount
          L1TokenAddress := e.LocalTokenAddress
          L2TokenAddress := e.RemoteTokenAddress } := by
      rw [hr1, ← hr2]
    refine ⟨hru, ?_⟩
    intro hfound
    exact L2ProcessInitiatedBridgeEventsRun_write c db a b passed sent run k _ hd hs hr hru
      hfound

/-- The amended C23 on two L2 ranges with an ETH withdrawal at `(9, 20)` and the MessagePassed
log at `(9, 25)`. With the SentMessage log at `(9, 26)` the update entry carries the withdrawal
hash 880 and the transaction hash 700, and the stored withdrawal of transaction 700, stored
with the withdrawal hash 880, ends with the event's addresses, amounts and token pair. Without
a SentMessage log the function returns an error. -/
theorem bedrock_l2_offsets_per_kind_witness :
    L2ProcessInitiatedBridgeEvents (exampleL2Range [exampleL2SentMessage]) {} 1 3 =
      .ok { l2ToL1 :=
        [{ L1BlockNumber := none, L2TransactionHash := 700, WithdrawTransactionHash := 880
           Status := L2ToL1Pending, FromAddress := 30, ToAddress := 31, ETHAmount := some 4
           ERC20Amount := some 0, L1TokenAddress := 40, L2TokenAddress := 40, TimeLeft := 0
           Version := 1 }] } ∧
    (∃ m s, m ∈ [exampleMessagePassed] ∧
      m.Event.BlockHash = exampleETHWithdrawal.Event.BlockHash ∧
      m.Event.LogIndex = exampleETHWithdrawal.Event.LogIndex +
        (if BridgeEventType.ETHBridgeInitiated = .ETHBridgeInitiated then 5 else 1) ∧
      s ∈ [exampleL2SentMessage] ∧ s.Event.BlockHash = exampleETHWithdrawal.Event.BlockHash ∧
      s.Event.LogIndex = exampleETHWithdrawal.Event.LogIndex +
        (if BridgeEventType.ETHBridgeInitiated = .ETHBridgeInitiated then 6 else 2) ∧
      correlateInitiatedWithdrawal (exampleL2Range [exampleL2SentMessage])
          (messagesPassedOf [exampleMessagePassed]) (sentMessagesOf [exampleL2SentMessage])
          exampleETHWithdrawal =
        .ok ({ WithdrawTransactionHash := m.WithdrawalHash
               L2TransactionHash := exampleETHWithdrawal.Event.TransactionHash
               FromAddress := exampleETHWithdrawal.FromAddress
               ToAddress := exampleETHWithdrawal.ToAddress
               ETHAmount := exampleETHWithdrawal.ETHAmount
               ERC20Amount := exampleETHWithdrawal.ERC20Amount
               L1TokenAddress := exampleETHWithdrawal.LocalTokenAddress
               L2TokenAddress := exampleETHWithdrawal.RemoteTokenAddress },
             { exampleETHWithdrawal with CrossDomainMessageHash := some s.MessageHash }) ∧
      exampleL2Run.l2ToL1s2[0]? = some
        { WithdrawTransactionHash := m.WithdrawalHash
          L2TransactionHash := exampleETHWithdrawal.Event.TransactionHash
          FromAddress := exampleETHWithdrawal.FromAddress
          ToAddress := exampleETHWithdrawal.ToAddress
          ETHAmount := exampleETHWithdrawal.ETHAmount
          ERC20Amount := exampleETHWithdrawal.ERC20Amount
          L1TokenAddress := exampleETHWithdrawal.LocalTokenAddress
          L2TokenAddress := exampleETHWithdrawal.RemoteTokenAddress } ∧
      ∃ i row0 stored,
        takeIndex (structWhere (fun r : L2ToL1 => r.L2TransactionHash)
          exampleETHWithdrawal.Event.TransactionHash) exampleL2Run.db.l2ToL1 = some i ∧
        (exampleETHWithdrawal.Event.TransactionHash ≠ 0 →
          ∃ row, exampleL2Run.db.l2ToL1[i]? = some row ∧
            row.L2TransactionHash = exampleETHWithdrawal.Event.TransactionHash ∧
            ∀ (j : Nat) (row1 : L2ToL1), j < i → exampleL2Run.db.l2ToL1[j]? = some row1 →
              row1.L2TransactionHash ≠ exampleETHWithdrawal.Event.TransactionHash) ∧
        (StoreL2ToL1Transactions ([exampleMessagePassed].map (withdrawalRow ({} : DB).l2BlockHeaders))
          ({} : DB).l2ToL1)[i]? = some stored ∧
        row0.WithdrawTransactionHash = stored.WithdrawTransactionHash ∧
        (UpdateL2ToL1InfoByTxHash (exampleL2Run.l2ToL1s2.take 0)
          (UpdateL2ToL1InfoByTxHash ([exampleL2SentMessage].map sentMessageWithdrawalUpdate)
            (StoreL2ToL1Transactions ([exampleMessagePassed].map (withdrawalRow ({} : DB).l2BlockHeaders))
              ({} : DB).l2ToL1)))[i]? = some row0 ∧
        (UpdateL2ToL1InfoByTxHash (exampleL2Run.l2ToL1s2.take (0 + 1))
          (UpdateL2ToL1InfoByTxHash ([exampleL2SentMessage].map sentMessageWithdrawalUpdate)
            (StoreL2ToL1Transactions ([exampleMessagePassed].map (withdrawalRow ({} : DB).l2BlockHeaders))
              ({} : DB).l2ToL1)))[i]? =
          some { row0 with
            L1BlockNumber := none
            FromAddress := exampleETHWithdrawal.FromAddress
            ToAddress := exampleETHWithdrawal.ToAddress
            ETHAmount := exampleETHWithdrawal.ETHAmount
            ERC20Amount := exampleETHWithdrawal.ERC20Amount
            L1TokenAddress := exampleETHWithdrawal.LocalTokenAddress
            L2TokenAddress := exampleETHWithdrawal.RemoteTokenAddress } ∧
        exampleL2Run.db.l2ToL1 =
          UpdateL2ToL1InfoByTxHash (exampleL2Run.l2ToL1s2.drop (0 + 1))
            (UpdateL2ToL1InfoByTxHash (exampleL2Run.l2ToL1s2.take (0 + 1))
              (UpdateL2ToL1InfoByTxHash ([exampleL2SentMessage].map sentMessageWithdrawalUpdate)
                (StoreL2ToL1Transactions ([exampleMessagePassed].map (withdrawalRow ({} : DB).l2BlockHeaders))
                  ({} : DB).l2ToL1))) ∧
        ((∀ (j : Nat) (u1 : L2ToL1), 0 < j → exampleL2Run.l2ToL1s2[j]? = some u1 →
            takeIndex (structWhere (fun r : L2ToL1 => r.L2TransactionHash)
              u1.L2TransactionHash) exampleL2Run.db.l2ToL1 ≠ some i) →
          exampleL2Run.db.l2ToL1[i]? =
            some { row0 with
              L1BlockNumber := none
              FromAddress := exampleETHWithdrawal.FromAddress
              ToAddress := exampleETHWithdrawal.ToAddress
              ETHAmount := exampleETHWithdrawal.ETHAmount
              ERC20Amount := exampleETHWithdrawal.ERC20Amount
              L1TokenAddress := exampleETHWithdrawal.LocalTokenAddress
              L2TokenAddress := exampleETHWithdrawal.RemoteTokenAddress })) ∧
    (∃ err, L2ProcessInitiatedBridgeEvents (exampleL2Range []) {} 1 3 = .error err) :=
  ⟨by decide,
    Exists.elim
      ((bedrock_l2_offsets_per_kind (exampleL2Range [exampleL2SentMessage]) {} 1 3
        [exampleMessagePassed] [exampleL2SentMessage] [exampleETHWithdrawal] 0
        exampleETHWithdrawal .ETHBridgeInitiated rfl rfl rfl (by decide) rfl rfl).2
        ⟨exampleMessagePassed, List.mem_singleton.mpr rfl, by decide⟩
        ⟨exampleL2SentMessage, List.mem_singleton.mpr rfl, by decide⟩)
      (fun m hm => Exists.elim hm (fun s h =>
        ⟨m, s, h.1, h.2.1, h.2.2.1, h.2.2.2.1, h.2.2.2.2.1, h.2.2.2.2.2.1, h.2.2.2.2.2.2.1,
          (h.2.2.2.2.2.2.2 exampleL2Run rfl).1,
          (h.2.2.2.2.2.2.2 exampleL2Run rfl).2 (fun j u1 hj hu1 => by
            obtain rfl : j = 0 := Nat.le_zero.mp hj
            have h0 : exampleL2Run.l2ToL1s2[0]? =
                some { WithdrawTransactionHash := 880, L2TransactionHash := 700
                       FromAddress := 30, ToAddress := 31, ETHAmount := some 4
                       ERC20Amount := some 0, L1TokenAddress := 40, L2TokenAddress := 40 } := by
              decide
            rw [h0] at hu1
            cases hu1
            decide)⟩)),
    (bedrock_l2_offsets_per_kind (exampleL2Range []) {} 1 3 [exampleMessagePassed] []
      [exampleETHWithdrawal] 0 exampleETHWithdrawal .ETHBridgeInitiated
      rfl rfl rfl (by decide) rfl rfl).1
      (Or.inr (fun _ h => absurd h (List.not_mem_nil _)))⟩

/-! ## The legacy L1 bridge processor (C24, C26, C27) -/

/-- C24, evaluated where the code departs from it: block 7 holds a TransactionEnqueued log at
index 8, a SentMessage log at index 9 and an ETHDepositInitiated log at index 10, all in the
range. `LegacyL1ProcessInitiatedBridgeEvents` does not return: its first loop assigns to
`l1ToL2s[0]` in a slice of length 0. And the map `ctcTxDeposits` that the third loop looks the
TransactionEnqueued log up in is never written to, so the iteration for the deposit, run on
the maps as the function builds them, gives the error "expected TransactionEnqueued preceding
DepostInitiated event". -/
theorem legacy_l1_correlation_fails :
    LegacyL1ProcessInitiatedBridgeEvents exampleLegacyDepositRange {} 1 3 = none ∧
    L1StandardBridgeLegacyDepositInitiatedEvents exampleLegacyDepositRange 1 3 =
      some (.ok [exampleLegacyDeposit]) ∧
    (sentMessagesOf [exampleLegacySentMessage]).lookup (7, uint64Sub 10 1) =
      some exampleLegacySentMessage ∧
    exampleEnqueued.Event.BlockHash = 7 ∧ exampleEnqueued.Event.LogIndex = uint64Sub 10 2 ∧
    correlateLegacyDeposit [] (sentMessagesOf [exampleLegacySentMessage]) exampleLegacyDeposit =
      some (.error
        "expected TransactionEnqueued preceding DepostInitiated event. tx_hash = 900") := by
  decide

/-- C26, evaluated where the code departs from it: with one TransactionEnqueued event in the
range the slice `l1ToL2s` is made with the length of the empty map `ctcTxDeposits`, that is 0,
and the assignment `l1ToL2s[0] = ...` of the first iteration is out of range: the function
panics and no record reaches `StoreL1ToL2Transactions`. With no event in the range it returns
nil and builds no record. -/
theorem legacy_deposit_records_out_of_range :
    legacyDepositRows [] [exampleEnqueued] 0
      (List.replicate ([] : LogMap LegacyCTCDepositEvent).length {}) = none ∧
    LegacyL1ProcessInitiatedBridgeEventsRun
      (exampleLegacyRange [exampleEnqueued] [] [] [] []) {} 1 3 = none ∧
    LegacyL1ProcessInitiatedBridgeEventsRun (exampleLegacyRange [] [] [] [] []) {} 1 3 =
      some (.ok ⟨{}, [], []⟩) := by
  decide

/-- C27, evaluated where the code departs from it. With one ETH, one ERC-20 and one MNT
deposit log in the range (a = b = c = 1) the third loop assigns the MNT deposit to
`deposits[len(mntDepositEvents)+0] = deposits[1]`: the result has the ETH event, then the MNT
event carrying the timestamp 4 of the ERC-20 log instead of its own 5, then an entry left
empty; the ERC-20 event is lost. With one ETH and one MNT log and no ERC-20 log the third loop
reads `erc20DepositEvents[0]` and panics. With ETH and ERC-20 logs only, the result is the
concatenation. -/
theorem legacy_deposit_events_overwritten :
    L1StandardBridgeLegacyDepositInitiatedEvents
        (exampleLegacyRange [] [] [exampleLegacyDepositLog] [exampleLegacyERC20Log]
          [exampleLegacyMNTLog]) 1 3 =
      some (.ok
        [{ Event := some exampleLegacyDepositLog, LocalTokenAddress := 42
           RemoteTokenAddress := 42, FromAddress := 20, ToAddress := 21, ETHAmount := some 5
           Timestamp := 3 },
         { Event := some exampleLegacyMNTLog, LocalTokenAddress := 42
           RemoteTokenAddress := 42, FromAddress := 20, ToAddress := 21, ETHAmount := some 5
           Timestamp := 4 },
         {}]) ∧
    exampleLegacyMNTLog.Timestamp = 5 ∧
    L1StandardBridgeLegacyDepositInitiatedEvents
        (exampleLegacyRange [] [] [exampleLegacyDepositLog] [] [exampleLegacyMNTLog]) 1 3 =
      none ∧
    L1StandardBridgeLegacyDepositInitiatedEvents
        (exampleLegacyRange [] [] [exampleLegacyDepositLog] [exampleLegacyERC20Log] []) 1 3 =
      some (.ok
        [{ Event := some exampleLegacyDepositLog, LocalTokenAddress := 42
           RemoteTokenAddress := 42, FromAddress := 20, ToAddress := 21, ETHAmount := some 5
           Timestamp := 3 },
         { Event := some exampleLegacyERC20Log, LocalTokenAddress := 50
           RemoteTokenAddress := 51, FromAddress := 20, ToAddress := 21, ETHAmount := some 5
           Timestamp := 4 }]) := by
  decide

/-! ## The status of state roots (C25) -/

theorem StateRootOp_apply_getElem? (op : StateRootOp) (table : List StateRoot) (i : Nat)
    (r : StateRoot) (hr : table[i]? = some r) (hs : 0 ≤ r.Status ∧ r.Status ≤ 2) :
    ∃ r1, (op.apply table)[i]? = some r1 ∧ r.Status ≤ r1.Status ∧ r1.Status ≤ 2 ∧
      r1 = { r with Status := r1.Status } := by
  cases op with
  | UpdateSafeStatus s =>
    simp only [StateRootOp.apply, UpdateSafeStatus, List.getElem?_map, hr, Option.map_some']
    split_ifs with h
    · simp only [Bool.and_eq_true, decide_eq_true_eq] at h
      exact ⟨_, rfl, by simp [h.2], by simp, rfl⟩
    · exact ⟨r, rfl, le_refl _, hs.2, rfl⟩
  | UpdateFinalizedStatus f =>
    simp only [StateRootOp.apply, UpdateFinalizedStatus, List.getElem?_map, hr,
      Option.map_some']
    split_ifs with h
    · exact ⟨_, rfl, hs.2, le_refl _, rfl⟩
    · exact ⟨r, rfl, le_refl _, hs.2, rfl⟩

/-- C25. `UpdateSafeStatus(s)` gives exactly the records with status 0 and
`l1_block_number < s` the status 1, and `UpdateFinalizedStatus(f)` gives exactly the records
with `l1_block_number < f` the status 2 (block numbers compared as `uint64`; a record without
L1 block number is never selected); neither changes another field or another record. Hence
under any sequence of the two operations a record with a status in 0..2 keeps its other
fields, its status never decreases, and a record with status 2 keeps it.
`syncStateRootStatus` applies the first and then the second. -/
theorem state_root_status_moves_forward (ops : List StateRootOp) (table : List StateRoot)
    (i : Nat) (r : StateRoot) (hr : table[i]? = some r)
    (hs : 0 ≤ r.Status ∧ r.Status ≤ 2) :
    (∀ s : Int, (UpdateSafeStatus s table)[i]? =
      some (if l1BlockNumberLt r (Uint64 s) = true ∧ r.Status = 0 then { r with Status := 1 }
        else r)) ∧
    (∀ f : Int, (UpdateFinalizedStatus f table)[i]? =
      some (if l1BlockNumberLt r (Uint64 f) = true then { r with Status := 2 } else r)) ∧
    (∀ s : Int, 0 ≤ s → s < 2 ^ 64 → ∀ b : Int, r.L1BlockNumber = some b →
      (l1BlockNumberLt r (Uint64 s) = true ↔ b < s)) ∧
    (∀ s : Int, (UpdateSafeStatus s table).length = table.length ∧
      (UpdateFinalizedStatus s table).length = table.length) ∧
    (∀ (bp : BusinessProcessor) (safe finalized : Header) (db : DB),
      (bp.syncStateRootStatus (.ok safe) (.ok finalized) db).2 = none ∧
      (bp.syncStateRootStatus (.ok safe) (.ok finalized) db).1.stateRoot =
        StateRootOp.applyAll
          [.UpdateSafeStatus safe.Number, .UpdateFinalizedStatus finalized.Number]
          db.stateRoot) ∧
    ∃ r1, (StateRootOp.applyAll ops table)[i]? = some r1 ∧
      r.Status ≤ r1.Status ∧ r1.Status ≤ 2 ∧ (r.Status = 2 → r1.Status = 2) ∧
      r1 = { r with Status := r1.Status } := by
  refine ⟨?_, ?_, ?_, ?_, fun _ _ _ _ => ⟨rfl, rfl⟩, ?_⟩
  · intro s
    simp only [UpdateSafeStatus, List.getElem?_map, hr, Option.map_some', Option.some.injEq]
    by_cases h1 : l1BlockNumberLt r (Uint64 s) = true
    · by_cases h2 : r.Status = 0
      · rw [if_pos (by simp [h1, h2]), if_pos ⟨h1, h2⟩]
      · rw [if_neg (by simp [h2]), if_neg (fun h => h2 h.2)]
    · rw [if_neg (by simp [h1]), if_neg (fun h => h1 h.1)]
  · intro f
    simp only [UpdateFinalizedStatus, List.getElem?_map, hr, Option.map_some']
  · intro s h0 h64 b hb
    have hu : ((Uint64 s : Nat) : Int) = s := by
      unfold Uint64
      have : s.natAbs < 2 ^ 64 := by omega
      rw [Nat.mod_eq_of_lt this]
      omega
    simp only [l1BlockNumberLt, hb, decide_eq_true_eq, hu]
  · intro s
    simp [UpdateSafeStatus, UpdateFinalizedStatus]
  · have key : ∀ (ops : List StateRootOp) (table : List StateRoot) (r0 : StateRoot),
        table[i]? = some r0 → 0 ≤ r0.Status ∧ r0.Status ≤ 2 →
        ∃ r1, (StateRootOp.applyAll ops table)[i]? = some r1 ∧
          r0.Status ≤ r1.Status ∧ r1.Status ≤ 2 ∧ r1 = { r0 with Status := r1.Status } := by
      intro ops
      induction ops with
      | nil =>
        intro table r0 h0 hs0
        exact ⟨r0, h0, le_refl _, hs0.2, rfl⟩
      | cons op rest ih =>
        intro table r0 h0 hs0
        obtain ⟨r1, h1, h2, h3, h4⟩ := StateRootOp_apply_getElem? op table i r0 h0 hs0
        obtain ⟨r2, g1, g2, g3, g4⟩ := ih (op.apply table) r1 h1 ⟨le_trans hs0.1 h2, h3⟩
        refine ⟨r2, g1, le_trans h2 g2, g3, ?_⟩
        rw [g4, h4]
    obtain ⟨r1, h1, h2, h3, h4⟩ := key ops table r hr hs
    exact ⟨r1, h1, h2, h3, fun e => le_antisymm h3 (e ▸ h2), h4⟩

/-- C25 on three state roots at L1 blocks 10, 20, 30: after `UpdateFinalizedStatus(15)`,
`UpdateSafeStatus(25)` and `UpdateSafeStatus(5)` the first is Finalized and stays so. -/
theorem state_root_status_moves_forward_witness :
    ∃ r1, (StateRootOp.applyAll
        [.UpdateFinalizedStatus 15, .UpdateSafeStatus 25, .UpdateSafeStatus 5]
        exampleStateRoots)[0]? = some r1 ∧
      (0 : Int) ≤ r1.Status ∧ r1.Status ≤ 2 ∧ r1.Status = 2 :=
  have h := (state_root_status_moves_forward [.UpdateSafeStatus 25, .UpdateSafeStatus 5]
    (StateRootOp.apply (.UpdateFinalizedStatus 15) exampleStateRoots) 0
    { L1BlockNumber := some 10, OutputIndex := some 1, Status := 2 } (by decide)
    (by decide)).2.2.2.2.2
  h.elim (fun r1 hr1 => ⟨r1, hr1.1, le_trans (by decide) hr1.2.1, hr1.2.2.1, hr1.2.2.2.1 rfl⟩)

/-! ## The index range of `L1ProcessFinalizedBridgeEvents` (C28) -/

theorem setIndex_some {α : Type} (v : α) :
    ∀ (l : List α) (i : Nat), i < l.length →
      ∃ l1, setIndex l i v = some l1 ∧ l1.length = l.length := by
  intro l
  induction l with
  | nil => intro i h; simp at h
  | cons x xs ih =>
    intro i h
    cases i with
    | zero => exact ⟨v :: xs, rfl, rfl⟩
    | succ j =>
      obtain ⟨l1, h1, h2⟩ := ih j (by simpa using h)
      exact ⟨x :: l1, by simp [setIndex, h1], by simp [h2]⟩

theorem relayedMessagesOf_lookup (l : List CrossDomainMessengerRelayedMessageEvent)
    (k : logKey) (m : CrossDomainMessengerRelayedMessageEvent)
    (h : (relayedMessagesOf l).lookup k = some m) :
    m ∈ l ∧ (m.Event.BlockHash, m.Event.LogIndex) = k := by
  rcases LogMap.lookup_foldl_insert (fun x : CrossDomainMessengerRelayedMessageEvent =>
    (x.Event.BlockHash, x.Event.LogIndex)) k l [] m h with h1 | h1
  · exact h1
  · simp [LogMap.lookup] at h1

theorem finalizedBridges_length_le (relayed : List CrossDomainMessengerRelayedMessageEvent)
    (bs : List StandardBridgeFinalizedEvent)
    (hdistinct : (bs.map (fun e => (e.Event.BlockHash, e.Event.LogIndex))).Nodup)
    (hall : ∀ e ∈ bs, (relayedMessagesOf relayed).lookup
      (e.Event.BlockHash, e.Event.LogIndex + 1) ≠ none) :
    bs.length ≤ relayed.length := by
  have hinj : Function.Injective (fun k : Hash32 × Nat => (k.1, k.2 + 1)) := by
    intro x y h
    simp only [Prod.mk.injEq, add_left_inj] at h
    exact Prod.ext h.1 h.2
  have hnodup : (bs.map (fun e => (e.Event.BlockHash, e.Event.LogIndex + 1))).Nodup := by
    have := hdistinct.map hinj
    simpa [List.map_map, Function.comp] using this
  have hsub : bs.map (fun e => (e.Event.BlockHash, e.Event.LogIndex + 1)) ⊆
      relayed.map (fun m => (m.Event.BlockHash, m.Event.LogIndex)) := by
    intro k hk
    obtain ⟨e, he, rfl⟩ := List.mem_map.mp hk
    obtain ⟨m, hm⟩ := Option.ne_none_iff_exists'.mp (hall e he)
    obtain ⟨hmem, hkey⟩ := relayedMessagesOf_lookup _ _ _ hm
    exact List.mem_map.mpr ⟨m, hmem, hkey⟩
  have := (List.subperm_of_subset hnodup hsub).length_le
  simpa using this

theorem finalizedBridgeLoop_in_range (relayed : List CrossDomainMessengerRelayedMessageEvent) :
    ∀ (rest pre : List StandardBridgeFinalizedEvent) (list : List WithdrawFinalized),
      ((pre ++ rest).map (fun e => (e.Event.BlockHash, e.Event.LogIndex))).Nodup →
      (∀ e ∈ pre, (relayedMessagesOf relayed).lookup
        (e.Event.BlockHash, e.Event.LogIndex + 1) ≠ none) →
      list.length = relayed.length →
      ∃ r, finalizedBridgeLoop (relayedMessagesOf relayed) rest pre.length list = some r ∧
        ((∀ e ∈ rest, (relayedMessagesOf relayed).lookup
            (e.Event.BlockHash, e.Event.LogIndex + 1) ≠ none) →
          ∃ l, r = .ok l ∧ l.length = relayed.length) := by
  intro rest
  induction rest with
  | nil =>
    intro pre list _ _ hlen
    exact ⟨.ok list, rfl, fun _ => ⟨list, rfl, hlen⟩⟩
  | cons e rest ih =>
    intro pre list hnodup hpre hlen
    unfold finalizedBridgeLoop
    cases hl : (relayedMessagesOf relayed).lookup (e.Event.BlockHash, e.Event.LogIndex + 1) with
    | none =>
      exact ⟨_, rfl, fun h => absurd hl (h e (List.mem_cons_self _ _))⟩
    | some m =>
      have hpre1 : ∀ x ∈ pre ++ [e], (relayedMessagesOf relayed).lookup
          (x.Event.BlockHash, x.Event.LogIndex + 1) ≠ none := by
        intro x hx
        rcases List.mem_append.mp hx with h | h
        · exact hpre x h
        · rw [List.mem_singleton.mp h, hl]
          simp
      have heq : (pre ++ [e]) ++ rest = pre ++ e :: rest := by simp
      have hnodup1 : ((pre ++ [e]).map (fun e => (e.Event.BlockHash, e.Event.LogIndex))).Nodup := by
        have hsub : List.Sublist (pre ++ [e]) (pre ++ e :: rest) := by
          rw [← heq]
          exact List.sublist_append_left _ _
        exact List.Nodup.sublist (hsub.map _) hnodup
      have hle := finalizedBridges_length_le relayed (pre ++ [e]) hnodup1 hpre1
      have hi : pre.length < list.length := by
        rw [hlen]
        simpa using hle
      obtain ⟨l1, hset, hlen1⟩ := setIndex_some
        ({ list[pre.length] with
            L1TokenAddress := e.LocalTokenAddress
            L2TokenAddress := e.RemoteTokenAddress
            ETHAmount := e.ETHAmount
            ERC20Amount := e.ERC20Amount
            MessageHash := m.MessageHash } : WithdrawFinalized) list pre.length hi
      obtain ⟨r, hr1, hr2⟩ := ih (pre ++ [e]) l1 (by rw [heq]; exact hnodup) hpre1
        (by rw [hlen1, hlen])
      simp only [List.getElem?_eq_getElem hi, hset]
      have hlen2 : (pre ++ [e]).length = pre.length + 1 := by simp
      rw [hlen2] at hr1
      exact ⟨r, hr1, fun h => hr2 (fun x hx => h x (List.mem_cons_of_mem _ hx))⟩

/-- C28. `withdrawFinalizedBridgeList` has one slot per RelayedMessage event of the range.
When the bridge-finalized events of the range have pairwise distinct `(blockHash, logIndex)`
keys, `L1ProcessFinalizedBridgeEvents` returns (it does not panic on an index out of range),
also when a correlation error ends the loop. When moreover each bridge-finalized event has a
RelayedMessage log at `logIndex + 1` in the range, the number of bridge-finalized events is at
most the number of RelayedMessage events, every index the loop uses is in range, and the
function returns no error. -/
theorem finalized_bridge_writes_in_range (c : L1FinalizedContracts) (db : DB) (a b : Int)
    (finalized : List OptimismPortalWithdrawalFinalizedEvent)
    (relayed : List CrossDomainMessengerRelayedMessageEvent)
    (bridges : List StandardBridgeFinalizedEvent)
    (hf : c.OptimismPortalWithdrawalFinalizedEvents a b = .ok finalized)
    (hr : c.CrossDomainMessengerRelayedMessageEvents a b = .ok relayed)
    (hb : c.StandardBridgeFinalizedEvents a b = .ok bridges)
    (hdistinct : (bridges.map (fun e => (e.Event.BlockHash, e.Event.LogIndex))).Nodup) :
    (List.replicate relayed.length ({} : WithdrawFinalized)).length = relayed.length ∧
    (∃ r, finalizedBridgeLoop (relayedMessagesOf relayed) bridges 0
      (List.replicate relayed.length {}) = some r) ∧
    (∃ r, L1ProcessFinalizedBridgeEvents c db a b = some r) ∧
    ((∀ e ∈ bridges, ∃ m ∈ relayed, m.Event.BlockHash = e.Event.BlockHash ∧
        m.Event.LogIndex = e.Event.LogIndex + 1) →
      bridges.length ≤ relayed.length ∧
      (∀ i, i < bridges.length →
        i < (List.replicate relayed.length ({} : WithdrawFinalized)).length) ∧
      (∃ list, finalizedBridgeLoop (relayedMessagesOf relayed) bridges 0
        (List.replicate relayed.length {}) = some (.ok list) ∧
        list.length = relayed.length) ∧
      ∃ db1, L1ProcessFinalizedBridgeEvents c db a b = some (.ok db1)) := by
  obtain ⟨r, hr1, hr2⟩ := finalizedBridgeLoop_in_range relayed bridges []
    (List.replicate relayed.length {}) (by simpa using hdistinct)
    (fun _ h => absurd h (List.not_mem_nil _)) (by simp)
  simp only [List.length_nil] at hr1
  have hfun : ∃ r1, L1ProcessFinalizedBridgeEvents c db a b = some r1 ∧
      ((∃ l, r = .ok l) → ∃ db1, r1 = .ok db1) := by
    simp only [L1ProcessFinalizedBridgeEvents, hf, hr, hb, hr1]
    cases r with
    | error err => exact ⟨_, rfl, fun h => by obtain ⟨l, hl⟩ := h; cases hl⟩
    | ok l => exact ⟨_, rfl, fun _ => ⟨_, rfl⟩⟩
  obtain ⟨r1, hr3, hr4⟩ := hfun
  refine ⟨by simp, ⟨r, hr1⟩, ⟨r1, hr3⟩, ?_⟩
  intro hall
  have hall1 : ∀ e ∈ bridges, (relayedMessagesOf relayed).lookup
      (e.Event.BlockHash, e.Event.LogIndex + 1) ≠ none := by
    intro e he
    obtain ⟨m, hm, hk⟩ := hall e he
    exact LogMap.lookup_foldl_insert_isSome
      (fun x : CrossDomainMessengerRelayedMessageEvent => (x.Event.BlockHash, x.Event.LogIndex))
      _ relayed [] (Or.inl ⟨m, hm, by simp [hk.1, hk.2]⟩)
  have hle := finalizedBridges_length_le relayed bridges hdistinct hall1
  obtain ⟨l, hl1, hl2⟩ := hr2 hall1
  obtain ⟨db1, hdb⟩ := hr4 ⟨l, hl1⟩
  refine ⟨hle, ?_, ⟨l, by rw [hr1, hl1], hl2⟩, ⟨db1, by rw [hr3, hdb]⟩⟩
  intro i hi
  simp only [List.length_replicate]
  omega

/-- C28 on the range with BridgeFinalized logs at `(7, 40)` and `(7, 50)` and RelayedMessage
logs at `(7, 41)` and `(7, 51)`: two events, two slots, and the function returns no error. -/
theorem finalized_bridge_writes_in_range_witness :
    exampleFinalizedBridges.length ≤ exampleRelayedMessages.length ∧
    (∀ i, i < exampleFinalizedBridges.length →
      i < (List.replicate exampleRelayedMessages.length ({} : WithdrawFinalized)).length) ∧
    (∃ list, finalizedBridgeLoop (relayedMessagesOf exampleRelayedMessages)
        exampleFinalizedBridges 0 (List.replicate exampleRelayedMessages.length {}) =
        some (.ok list) ∧
      list.length = exampleRelayedMessages.length) ∧
    ∃ db1, L1ProcessFinalizedBridgeEvents exampleFinalizedRange {} 1 3 = some (.ok db1) :=
  (finalized_bridge_writes_in_range exampleFinalizedRange {} 1 3 [] exampleRelayedMessages
    exampleFinalizedBridges rfl rfl rfl (by decide)).2.2.2
    (fun e he => by
      rcases List.mem_cons.mp he with h | h
      · exact ⟨_, List.mem_cons_self _ _, by rw [h]; decide⟩
      · rw [List.mem_singleton.mp h]
        exact ⟨_, List.mem_cons_of_mem _ (List.mem_singleton.mpr rfl), by decide⟩)

/-! ## Data-availability store failures (C29) -/

/-- C29, evaluated where the code departs from it: the L1 headers 1, 2, 3 are persisted, the
range holds one data-availability log that parses to the data store event 7, and
`StoreBatchDataStoreEvent` fails. `L1ProcessMantleDAEvents` returns nil (it logs the error and
has `return nil`), so `processRollupMantleDA` returns no error and sets
`LatestMantleDAL1Header` to header 3 although the event was not stored. Without the failure
the event is stored. -/
theorem mantle_da_store_failure_swallowed :
    let ep : EventProcessor := { chainConfig := genesisConfig }
    let db : DB := { l1BlockHeaders := headerRange 1 3 }
    let t := processRollupMantleDA (mantleDAProcessors (some "insert failed")) ep db
    StoreBatchDataStoreEvent (some "insert failed") [{ DataStoreId := 7, BlockHash := 1002 }] [] =
      .error "insert failed" ∧
    L1ProcessMantleDAEvents exampleDAContracts (some "insert failed") db 1 3 = .ok db ∧
    t.calls = [⟨.L1ProcessMantleDAEvents, 1, 3⟩] ∧
    t.err = none ∧
    t.ep.LatestMantleDAL1Header = some (headerAt 3) ∧
    t.db.dataStoreEvent = [] ∧
    (processRollupMantleDA (mantleDAProcessors none) ep db).db.dataStoreEvent =
      [{ DataStoreId := 7, BlockHash := 1002 }] := by
  decide

/-! ## The cache of state-root lists (C30) -/

theorem LRU_Get_Add (c : LRU) (key : String) (value : CacheValue) :
    ((c.Add key value).Get key).1 = some value := by
  have hfind : ∀ rest : List (String × CacheValue),
      ((key, value) :: rest).find? (fun e => decide (e.1 = key)) = some (key, value) := by
    intro rest
    simp
  unfold LRU.Add LRU.Get
  by_cases hs : c.size > 0
  · obtain ⟨n, hn⟩ : ∃ n, c.size = n + 1 := ⟨c.size - 1, by omega⟩
    have hpos : n + 1 > 0 := Nat.succ_pos n
    simp only [hn, hpos, if_true, List.take_succ_cons, hfind]
  · simp only [hs, if_false, hfind]

theorem GetStateRootList_after_Add (lc : LruCache) (key : String)
    (data : Option (Page StateRoot)) :
    (lc.AddStateRootList key data).GetStateRootList key = none := by
  have h := LRU_Get_Add lc.lruStateRootList key (.StateRootListResponse data)
  unfold LruCache.GetStateRootList LruCache.AddStateRootList
  cases hg : (lc.lruStateRootList.Add key (.StateRootListResponse data)).Get key with
  | mk v lru =>
    rw [hg] at h
    simp only at h
    subst h
    rfl

/-- C30, evaluated where the code departs from it: `AddStateRootList` stores a
`*models.StateRootListResponse` and `GetStateRootList` asserts the value found to be a
`*gplus.Page[business.StateRoot]`, so `GetStateRootList("k")` right after
`AddStateRootList("k", v)` panics instead of returning `v`. On a key that was not added it
returns the error "lru get state root list fail", and `GetL1ToL2List("k")` after
`AddL1ToL2List("k", d)` returns `d` with no error. -/
theorem state_root_list_round_trip_panics :
    ((NewLruCache 100).AddStateRootList "k" (some exampleStateRootPage)).GetStateRootList "k" =
      none ∧
    (NewLruCache 100).GetStateRootList "k" =
      some ((none, some "lru get state root list fail"), NewLruCache 100) ∧
    (((NewLruCache 100).AddL1ToL2List "k" (some exampleDepositPage)).GetL1ToL2List "k").map
        (fun r => r.1) =
      some (some exampleDepositPage, none) := by
  decide

end Lithosphere
